import Mathlib

/-! # Scene-rendering core of the bgfx renderer (`code/renderer_bgfx/Main.cpp`)

A shallow embedding of the draw-call ordering, the polygon batcher, the
warn-once latch, the view-id allocator, the camera recursion and the generic
shader-variant selection, followed by the properties established about them.

Conventions of the embedding:

* C++ pointers to materials are handles (`MaterialPtr`); the pointee is read
  through a heap `mem : MaterialPtr → Material`.  Pointer comparison is handle
  comparison, `material->field` is `(mem material).field`.
* `float` values that only take part in comparisons are rational numbers
  (every finite float is one, and comparison of finite floats is comparison of
  the rationals they denote).
* Unsigned machine integers are natural numbers reduced modulo `2 ^ w` at every
  operation that can overflow.
-/

namespace renderer

/-! ## Machine integers -/

/-- Conversion to `uint8_t`. -/
def u8 (n : Nat) : Nat := n % 2 ^ 8

/-- Conversion to `uint16_t`. -/
def u16 (n : Nat) : Nat := n % 2 ^ 16

/-- Conversion to `uint32_t`. -/
def u32 (n : Nat) : Nat := n % 2 ^ 32

/-- The number `n` is a value of type `uint32_t`. -/
def fitsU32 (n : Nat) : Prop := n < 2 ^ 32

instance (n : Nat) : Decidable (fitsU32 n) := inferInstanceAs (Decidable (n < 2 ^ 32))

/-- Subtraction `a - b` in `uint32_t` arithmetic: the difference modulo
`2 ^ 32`, wrapping below zero. -/
def subU32 (a b : Nat) : Nat :=
  if b ≤ a then u32 (a - b) else u32 (2 ^ 32 - u32 (b - a))

/-! ## Materials and draw calls -/

/-- Handle of a `Material` object (a non-null `Material *`). -/
abbrev MaterialPtr := Nat

/-- Enum `MaterialAlphaTest`: `None` and the alpha-test modes proper. -/
inductive MaterialAlphaTest where
  | None
  | mode (n : Nat)
deriving DecidableEq, Repr

/-- Enum `MaterialAdjustColorsForFog`: `None` and the adjustment modes proper. -/
inductive MaterialAdjustColorsForFog where
  | None
  | mode (n : Nat)
deriving DecidableEq, Repr

/-- Enum `MaterialReflective`: `None` and the reflective kinds proper. -/
inductive MaterialReflective where
  | None
  | kind (n : Nat)
deriving DecidableEq, Repr

/-- Enum `MaterialFogPass`: `None`, `Equal` and the remaining pass kinds. -/
inductive MaterialFogPass where
  | None
  | Equal
  | other (n : Nat)
deriving DecidableEq, Repr

/-- The members of `MaterialStage` read by the code below.  `state` is the
value `getState()` returns, a `uint64_t` word of `BGFX_STATE_*` bits. -/
structure MaterialStage where
  active : Bool
  adjustColorsForFog : MaterialAdjustColorsForFog
  alphaTest : MaterialAlphaTest
  bloom : Bool
  state : Nat
deriving DecidableEq

/-- The members of `Material` read by the code below. -/
structure Material where
  /-- Member `fogPass`. -/
  fogPass : MaterialFogPass
  /-- Member `index`: position of the material in the material cache. -/
  index : Int
  /-- Member `noFog`. -/
  noFog : Bool
  /-- Member `numUnfoggedPasses`. -/
  numUnfoggedPasses : Nat
  /-- Member `polygonOffset`. -/
  polygonOffset : Bool
  /-- Member `reflective`. -/
  reflective : MaterialReflective
  /-- Member `remappedShader`: a `Material *` that may be null. -/
  remappedShader : Option MaterialPtr
  /-- Member `sky.outerbox`: the handles of the six sky box textures. -/
  skyOuterbox : List Nat
  /-- Member `sort`: the sort bucket (`MaterialSort`). -/
  sort : ℚ
  /-- Member `stages`. -/
  stages : List MaterialStage
deriving DecidableEq

/-- Heap of materials: what a `Material *` points to. -/
abbrev MaterialMem := MaterialPtr → Material

/-- Enum `DrawCall::BufferType`. -/
inductive BufferType where
  | Static
  | Dynamic
  | Transient
deriving DecidableEq, Repr

/-- Member `DrawCall::vb`.  A transient vertex buffer is represented by the
vertices written into it, in buffer order; a vertex copied from
`scenePolygonVertices_[k]` is represented by `k`. -/
structure VertexBufferRef where
  type : BufferType
  transientHandle : List Nat
  firstVertex : Nat
  nVertices : Nat
deriving DecidableEq

/-- Member `DrawCall::ib`.  A transient index buffer is represented by the
`uint16_t` values written into it, in buffer order. -/
structure IndexBufferRef where
  type : BufferType
  transientHandle : List Nat
  firstIndex : Nat
  nIndices : Nat
deriving DecidableEq

/-- The members of `DrawCall` read or written by the code below. -/
structure DrawCall where
  dynamicLighting : Bool
  flags : Nat
  fogIndex : Int
  material : MaterialPtr
  skyboxSide : Nat
  softSpriteDepth : ℚ
  sort : ℚ
  state : Nat
  zOffset : ℚ
  zScale : ℚ
  vb : VertexBufferRef
  ib : IndexBufferRef
deriving DecidableEq

/-- `DrawCall::operator<` (lines 229-252).  Both materials are non-null
(handles), as the two assertions require. -/
def DrawCall.lt (mem : MaterialMem) (self other : DrawCall) : Bool :=
  if (mem self.material).sort < (mem other.material).sort then
    true
  else if (mem self.material).sort = (mem other.material).sort then
    if self.sort < other.sort then
      true
    else if self.sort = other.sort then
      if (mem self.material).index < (mem other.material).index then true else false
    else
      false
  else
    false

/-- The sort key the specification names: (material sort bucket, sort key,
material index). -/
def DrawCall.key (mem : MaterialMem) (dc : DrawCall) : ℚ × ℚ × Int :=
  ((mem dc.material).sort, dc.sort, (mem dc.material).index)

/-- Strict lexicographic order on key triples, written out from the
specification's words: smaller first component, or equal first and smaller
second, or equal first and second and smaller third. -/
def keyLexLt (k l : ℚ × ℚ × Int) : Prop :=
  k.1 < l.1 ∨ (k.1 = l.1 ∧ (k.2.1 < l.2.1 ∨ (k.2.1 = l.2.1 ∧ k.2.2 < l.2.2)))

/-! ## `std::sort` -/

/-- The postcondition of `std::sort(first, last, comp)`: the range afterwards
is a rearrangement of the range before, and no element is ordered by `comp`
before an element that precedes it. -/
def IsStdSortResult {α : Type} (comp : α → α → Bool) (input output : List α) : Prop :=
  output.Perm input ∧ output.Pairwise (fun a b => comp b a = false)

/-- Insertion of one element into an ordered list, after every element that
is not greater. -/
def stdSortInsert {α : Type} (comp : α → α → Bool) (x : α) : List α → List α
  | [] => [x]
  | y :: ys => if comp x y then x :: y :: ys else y :: stdSortInsert comp x ys

/-- An executable sort meeting the postcondition of `std::sort`. -/
def stdSort {α : Type} (comp : α → α → Bool) : List α → List α
  | [] => []
  | x :: xs => stdSortInsert comp x (stdSort comp xs)

/-- The sort step of `renderCamera` (line 1099):
`std::sort(drawCalls_.begin(), drawCalls_.end())` with `DrawCall::operator<`. -/
def sortDrawCalls (mem : MaterialMem) (drawCalls : List DrawCall) : List DrawCall :=
  stdSort (DrawCall.lt mem) drawCalls

/-! ## The warn-once latch -/

/-- Enum `WarnOnceId`: the enumerator `TransientBuffer`, the only one this file
uses, and whatever further enumerators the header declares before `Num`. -/
inductive WarnOnceId where
  | TransientBuffer
  | other (n : Nat)
deriving DecidableEq, Repr

/-- The function-local `static bool warned[WarnOnceId::Num]` of `WarnOnce`,
together with the warnings printed so far, oldest first. -/
structure WarnOnceState where
  warned : WarnOnceId → Bool
  printed : List String

/-- State at program start: the static array is zero-initialised and nothing
has been printed. -/
def WarnOnceState.initial : WarnOnceState :=
  { warned := fun _ => false, printed := [] }

/-- `WarnOnce` (lines 60-69). -/
def WarnOnce (id : WarnOnceId) (w : WarnOnceState) : WarnOnceState :=
  if !w.warned id then
    { warned := fun i => if i = id then true else w.warned i,
      printed := w.printed ++ ["BGFX transient buffer alloc failed\n"] }
  else
    w

/-- The places of this file that call `WarnOnce` when a transient-buffer
allocation fails. -/
inductive CallSite where
  | drawStretchRaw
  | flushStretchPics
  | renderPolygons
  | renderScreenSpaceQuad
  | renderRailCore
  | renderRailRingsEntity
  | renderSpriteEntity
deriving DecidableEq, Repr

/-- The id each call site passes to `WarnOnce` (lines 466, 912, 1552, 1631,
1851, 1926, 1989): `WarnOnceId::TransientBuffer` everywhere. -/
def CallSite.warnId : CallSite → WarnOnceId
  | .drawStretchRaw => WarnOnceId.TransientBuffer
  | .flushStretchPics => WarnOnceId.TransientBuffer
  | .renderPolygons => WarnOnceId.TransientBuffer
  | .renderScreenSpaceQuad => WarnOnceId.TransientBuffer
  | .renderRailCore => WarnOnceId.TransientBuffer
  | .renderRailRingsEntity => WarnOnceId.TransientBuffer
  | .renderSpriteEntity => WarnOnceId.TransientBuffer

/-- The failure branch of a call site: `WarnOnce(WarnOnceId::TransientBuffer)`. -/
def allocFailedAt (site : CallSite) (w : WarnOnceState) : WarnOnceState :=
  WarnOnce site.warnId w

/-- A sequence of allocation failures, in the order they occur. -/
def allocFailures (sites : List CallSite) (w : WarnOnceState) : WarnOnceState :=
  sites.foldl (fun acc site => allocFailedAt site acc) w

/-- Number of warnings a sequence of failures prints when started from the
initial state. -/
def warningsPrinted (sites : List CallSite) : Nat :=
  (allocFailures sites WarnOnceState.initial).printed.length

/-! ## Scene polygons -/

/-- Struct `Polygon`.  `firstVertex` and `nVertices` are `uint32_t` values. -/
structure Polygon where
  fogIndex : Int
  firstVertex : Nat
  material : MaterialPtr
  nVertices : Nat
deriving DecidableEq

/-- Dereference of a `Polygon *` into `scenePolygons_`: the pointer to element
`i` of the vector is represented by `i`. -/
def polygonAt (scenePolygons : List Polygon) (ptr : Nat) : Polygon :=
  scenePolygons.getD ptr { fogIndex := 0, firstVertex := 0, material := 0, nVertices := 0 }

/-- The comparator lambda of `renderPolygons` (lines 1513-1523). -/
def polygonLess (mem : MaterialMem) (scenePolygons : List Polygon) (a b : Nat) : Bool :=
  if (mem (polygonAt scenePolygons a).material).index <
      (mem (polygonAt scenePolygons b).material).index then
    true
  else if (mem (polygonAt scenePolygons a).material).index =
      (mem (polygonAt scenePolygons b).material).index then
    decide ((polygonAt scenePolygons a).fogIndex < (polygonAt scenePolygons b).fogIndex)
  else
    false

/-- `batchEnd - 1` on `size_t` (64 bits): decrement, wrapping at zero. -/
def sizeDec (n : Nat) : Nat := if n = 0 then 2 ^ 64 - 1 else n - 1

/-- The scan loop of `renderPolygons` (lines 1533-1542), started at
`batchEnd = batchStart`; the list argument is the part of
`sortedScenePolygons_` from position `batchEnd` on, `first` is
`sortedScenePolygons_[batchStart]`.  Returns `batchEnd`, `nVertices` and
`nIndices` when the loop is left. -/
def scanBatch (scenePolygons : List Polygon) (first : Polygon) :
    List Nat → Nat → Nat → Nat → Nat × Nat × Nat
  | [], batchEnd, nVertices, nIndices => (batchEnd, nVertices, nIndices)
  | ptr :: rest, batchEnd, nVertices, nIndices =>
    if (polygonAt scenePolygons ptr).material ≠ first.material ∨
        (polygonAt scenePolygons ptr).fogIndex ≠ first.fogIndex then
      (batchEnd, nVertices, nIndices)
    else
      scanBatch scenePolygons first rest (batchEnd + 1)
        (u32 (nVertices + (polygonAt scenePolygons ptr).nVertices))
        (u32 (nIndices + u32 (subU32 (polygonAt scenePolygons ptr).nVertices 2 * 3)))

/-- The transient buffers while a batch is being filled: the vertices and
indices written so far and the two `uint32_t` cursors. -/
structure BatchBuffers where
  vertices : List Nat
  indices : List Nat
  currentVertex : Nat
  currentIndex : Nat
deriving DecidableEq

/-- The vertex copy loop (lines 1565-1572), `j` running from `j` for `count`
more iterations: vertex `scenePolygonVertices_[p->firstVertex + j]` is written
to `vertices[currentVertex++]`. -/
def copyVertices (p : Polygon) : Nat → Nat → BatchBuffers → BatchBuffers
  | 0, _, buf => buf
  | count + 1, j, buf =>
    copyVertices p count (j + 1)
      { buf with vertices := buf.vertices ++ [p.firstVertex + j],
                 currentVertex := u32 (buf.currentVertex + 1) }

/-- The triangle-fan loop (lines 1574-1579), `j` running from `j` for `count`
more iterations; `firstVertex` is the `uint32_t` local of that name and each
value is converted to `uint16_t` when stored. -/
def writeFanIndices (firstVertex : Nat) : Nat → Nat → BatchBuffers → BatchBuffers
  | 0, _, buf => buf
  | count + 1, j, buf =>
    writeFanIndices firstVertex count (j + 1)
      { buf with indices := buf.indices ++
                   [u16 (u32 (firstVertex + 0)),
                    u16 (u32 (u32 (firstVertex + u16 j) + 1)),
                    u16 (u32 (u32 (firstVertex + u16 j) + 2))],
                 currentIndex := u32 (u32 (u32 (buf.currentIndex + 1) + 1) + 1) }

/-- One iteration of the fill loop (lines 1562-1579) for the polygon `p`. -/
def fillPolygon (p : Polygon) (buf : BatchBuffers) : BatchBuffers :=
  writeFanIndices buf.currentVertex (subU32 p.nVertices 2) 0
    (copyVertices p p.nVertices 0 buf)

/-- The fill loop (lines 1560-1580) over the pointers
`sortedScenePolygons_[batchStart .. batchEnd]`. -/
def fillBatch (scenePolygons : List Polygon) : List Nat → BatchBuffers → BatchBuffers
  | [], buf => buf
  | ptr :: rest, buf =>
    fillBatch scenePolygons rest (fillPolygon (polygonAt scenePolygons ptr) buf)

/-- One emitted batch: the values of `batchStart` and `batchEnd` when the draw
call is pushed, and the draw call. -/
structure PolygonBatch where
  batchStart : Nat
  batchEnd : Nat
  drawCall : DrawCall
deriving DecidableEq

/-- The draw call built for a batch (lines 1582-1590) from a
default-constructed `DrawCall` `dcInit`. -/
def batchDrawCall (dcInit : DrawCall) (first : Polygon) (nVertices nIndices : Nat)
    (buf : BatchBuffers) : DrawCall :=
  { dcInit with
    dynamicLighting := false
    fogIndex := first.fogIndex
    material := first.material
    vb := { dcInit.vb with type := BufferType.Transient, transientHandle := buf.vertices,
                           nVertices := nVertices }
    ib := { dcInit.ib with type := BufferType.Transient, transientHandle := buf.indices,
                           nIndices := nIndices } }

/-- The batching loop `for (;;)` of `renderPolygons` (lines 1527-1598) over the
sorted vector.  `batchNo` counts the allocation requests made so far in this
call and `allocOk batchNo` tells whether `bgfx::allocTransientBuffers` succeeds
for the request; the result is the batches emitted from here on, in order, and
whether the loop was left through the allocation-failure branch.  `none` means
that the iteration budget was used up. -/
def renderPolygonsLoop (scenePolygons : List Polygon) (sorted : List Nat) (dcInit : DrawCall)
    (allocOk : Nat → Bool) : Nat → Nat → Nat → Option (List PolygonBatch × Bool)
  | 0, _, _ => none
  | budget + 1, batchNo, batchStart =>
    let first := polygonAt scenePolygons (sorted.getD batchStart 0)
    let scan := scanBatch scenePolygons first (sorted.drop batchStart) batchStart 0 0
    let nVertices := scan.2.1
    let nIndices := scan.2.2
    let batchEnd := max batchStart (sizeDec scan.1)
    if !allocOk batchNo then
      some ([], true)
    else
      let buf := fillBatch scenePolygons
        ((sorted.drop batchStart).take (batchEnd + 1 - batchStart))
        { vertices := [], indices := [], currentVertex := 0, currentIndex := 0 }
      let batch : PolygonBatch :=
        { batchStart := batchStart, batchEnd := batchEnd,
          drawCall := batchDrawCall dcInit first nVertices nIndices buf }
      if batchEnd + 1 ≥ sorted.length then
        some ([batch], false)
      else
        match renderPolygonsLoop scenePolygons sorted dcInit allocOk budget (batchNo + 1)
            (batchEnd + 1) with
        | none => none
        | some (batches, failed) => some (batch :: batches, failed)

/-- The members of `Main` that `renderPolygons` reads or writes. -/
structure PolygonScene where
  drawCalls_ : List DrawCall
  scenePolygons_ : List Polygon
  sortedScenePolygons_ : List Nat
deriving DecidableEq

/-- The outcome of one `renderPolygons` call: the members afterwards, the
batches emitted by the call, and whether an allocation failed. -/
structure PolygonsOutcome where
  scene : PolygonScene
  batches : List PolygonBatch
  allocFailed : Bool
deriving DecidableEq

/-- `Main::renderPolygons` (lines 1502-1599) without its warning.
`stdSortImpl` is the `std::sort` of the C++ library in use.  The batching loop
gets an iteration budget of one iteration per sorted pointer. -/
def renderPolygonsCore (stdSortImpl : (Nat → Nat → Bool) → List Nat → List Nat)
    (mem : MaterialMem) (dcInit : DrawCall) (allocOk : Nat → Bool) (s : PolygonScene) :
    Option PolygonsOutcome :=
  if s.scenePolygons_.isEmpty then
    some { scene := s, batches := [], allocFailed := false }
  else
    let pushed := s.sortedScenePolygons_ ++ List.range s.scenePolygons_.length
    let sorted := stdSortImpl (polygonLess mem s.scenePolygons_) pushed
    match renderPolygonsLoop s.scenePolygons_ sorted dcInit allocOk sorted.length 0 0 with
    | none => none
    | some (batches, failed) =>
      some { scene := { s with sortedScenePolygons_ := sorted,
                               drawCalls_ := s.drawCalls_ ++ batches.map (fun b => b.drawCall) },
             batches := batches, allocFailed := failed }

/-- `Main::renderPolygons` (lines 1502-1599): the effect on the members and on
the warn-once latch. -/
def renderPolygons (stdSortImpl : (Nat → Nat → Bool) → List Nat → List Nat)
    (mem : MaterialMem) (dcInit : DrawCall) (allocOk : Nat → Bool)
    (s : PolygonScene) (w : WarnOnceState) : Option (PolygonsOutcome × WarnOnceState) :=
  match renderPolygonsCore stdSortImpl mem dcInit allocOk s with
  | none => none
  | some out =>
    some (out, if out.allocFailed then allocFailedAt CallSite.renderPolygons w else w)

/-- The polygon pointers of a batch, in batch order. -/
def PolygonBatch.members (sorted : List Nat) (b : PolygonBatch) : List Nat :=
  (List.range' b.batchStart (b.batchEnd + 1 - b.batchStart)).map (fun i => sorted.getD i 0)

/-! ## Reference notions for the polygon batcher -/

/-- Whether the polygon behind `ptr` has the material and the fog index of
`first`. -/
def inGroup (scenePolygons : List Polygon) (first : Polygon) (ptr : Nat) : Bool :=
  decide ((polygonAt scenePolygons ptr).material = first.material ∧
    (polygonAt scenePolygons ptr).fogIndex = first.fogIndex)

/-- Length of the run of polygons, from position `batchStart` of the sorted
vector on, that have the material and fog index of the polygon at
`batchStart`. -/
def groupLength (scenePolygons : List Polygon) (sorted : List Nat) (batchStart : Nat) : Nat :=
  ((sorted.drop batchStart).takeWhile
    (inGroup scenePolygons (polygonAt scenePolygons (sorted.getD batchStart 0)))).length

/-- The batch that one iteration of the batching loop builds when it starts at
`batchStart` and its allocation succeeds. -/
def batchAt (scenePolygons : List Polygon) (sorted : List Nat) (dcInit : DrawCall)
    (batchStart : Nat) : PolygonBatch :=
  let first := polygonAt scenePolygons (sorted.getD batchStart 0)
  let scan := scanBatch scenePolygons first (sorted.drop batchStart) batchStart 0 0
  let batchEnd := max batchStart (sizeDec scan.1)
  { batchStart := batchStart, batchEnd := batchEnd,
    drawCall := batchDrawCall dcInit first scan.2.1 scan.2.2
      (fillBatch scenePolygons ((sorted.drop batchStart).take (batchEnd + 1 - batchStart))
        { vertices := [], indices := [], currentVertex := 0, currentIndex := 0 }) }

/-- The triangles of a fan over `n` vertices whose first vertex is number `f`:
`(f, f + j + 1, f + j + 2)` for `j = 0 .. n - 3`, flattened. -/
def fanTriangles (f n : Nat) : List Nat :=
  (List.range (n - 2)).flatMap (fun j => [f, f + j + 1, f + j + 2])

/-- The index list of a batch of fans with `ns` vertices each, the first vertex
of the first fan being number `f` and each fan starting where the previous one
ends. -/
def fanIndexList : List Nat → Nat → List Nat
  | [], _ => []
  | n :: ns, f => fanTriangles f n ++ fanIndexList ns (f + n)

/-- The vertex counts of the polygons of a batch, in batch order. -/
def PolygonBatch.vertexCounts (scenePolygons : List Polygon) (sorted : List Nat)
    (b : PolygonBatch) : List Nat :=
  (b.members sorted).map (fun ptr => (polygonAt scenePolygons ptr).nVertices)

/-! ## Enum constants of the renderer headers and state bits of bgfx

The values of these constants are declared outside `Main.cpp`; the code below
takes them as parameters. -/

/-- Complement `~x` of a `uint64_t` word. -/
def notU64 (x : Nat) : Nat := (2 ^ 64 - 1) ^^^ (x % 2 ^ 64)

/-- The enumerators of `GenericShaderProgramVariant`. -/
structure GenericShaderProgramVariant where
  None : Nat
  AlphaTest : Nat
  DepthRange : Nat
  DynamicLights : Nat
  HDR : Nat
  SoftSprite : Nat
deriving DecidableEq

/-- The variant enumerators are feature bits: `None` is zero, every other
enumerator is non-zero and no two of them share a bit. -/
def GenericShaderProgramVariant.wellFormed (v : GenericShaderProgramVariant) : Prop :=
  v.None = 0 ∧
  v.AlphaTest ≠ 0 ∧ v.DepthRange ≠ 0 ∧ v.DynamicLights ≠ 0 ∧ v.HDR ≠ 0 ∧ v.SoftSprite ≠ 0 ∧
  v.AlphaTest &&& v.DepthRange = 0 ∧ v.AlphaTest &&& v.DynamicLights = 0 ∧
  v.AlphaTest &&& v.HDR = 0 ∧ v.AlphaTest &&& v.SoftSprite = 0 ∧
  v.DepthRange &&& v.DynamicLights = 0 ∧ v.DepthRange &&& v.HDR = 0 ∧
  v.DepthRange &&& v.SoftSprite = 0 ∧ v.DynamicLights &&& v.HDR = 0 ∧
  v.DynamicLights &&& v.SoftSprite = 0 ∧ v.HDR &&& v.SoftSprite = 0

instance (v : GenericShaderProgramVariant) : Decidable v.wellFormed := by
  unfold GenericShaderProgramVariant.wellFormed
  infer_instance

/-- The feature bits `flag` are all set in the variant word `variant`. -/
def variantHas (variant flag : Nat) : Prop := variant &&& flag = flag

instance (variant flag : Nat) : Decidable (variantHas variant flag) := by
  unfold variantHas
  infer_instance

/-- The enumerators of `FogShaderProgramVariant`. -/
structure FogShaderProgramVariant where
  None : Nat
  DepthRange : Nat
  HDR : Nat
deriving DecidableEq

/-- The enumerators of `DrawCallFlags` used in the main pass. -/
structure DrawCallFlags where
  Sky : Nat
  Skybox : Nat
deriving DecidableEq

/-- The enumerators of `EntityFlags` used when entities are collected. -/
structure EntityFlags where
  FirstPerson : Nat
  ThirdPerson : Nat
deriving DecidableEq

/-- The enumerators of `RenderCameraFlags`. -/
structure RenderCameraFlags where
  ContainsSkyboxPortal : Nat
  IsSkyboxPortal : Nat
  UseClippingPlane : Nat
  UseStencilTest : Nat
deriving DecidableEq

/-- The enumerators of `SceneDefinitionFlags`. -/
structure SceneDefinitionFlags where
  ContainsSkyboxPortal : Nat
  Hyperspace : Nat
  SkyboxPortal : Nat
  World : Nat
deriving DecidableEq

/-- The `BGFX_STATE_*` and `BGFX_CLEAR_*` words used in this file.
`BLEND_FUNC_SRC_ALPHA_ONE` is the value of
`BGFX_STATE_BLEND_FUNC(BGFX_STATE_BLEND_SRC_ALPHA, BGFX_STATE_BLEND_ONE)`. -/
structure BgfxDefines where
  STATE_ALPHA_WRITE : Nat
  STATE_BLEND_ADD : Nat
  STATE_BLEND_ALPHA : Nat
  STATE_BLEND_FUNC_SRC_ALPHA_ONE : Nat
  STATE_BLEND_MASK : Nat
  STATE_DEPTH_TEST_ALWAYS : Nat
  STATE_DEPTH_TEST_EQUAL : Nat
  STATE_DEPTH_TEST_LEQUAL : Nat
  STATE_DEPTH_TEST_LESS : Nat
  STATE_DEPTH_TEST_MASK : Nat
  STATE_DEPTH_WRITE : Nat
  STATE_MSAA : Nat
  STATE_PT_LINES : Nat
  STATE_RGB_WRITE : Nat
  CLEAR_COLOR : Nat
  CLEAR_DEPTH : Nat
  CLEAR_NONE : Nat
  CLEAR_STENCIL : Nat
deriving DecidableEq

/-- Enum `ShaderProgramId`, the programs this file submits. -/
inductive ShaderProgramId where
  | Color
  | Depth
  | Fog
  | GaussianBlur
  | Generic
  | LinearDepth
  | SMAABlendingWeightCalculation
  | SMAAEdgeDetection
  | SMAANeighborhoodBlending
  | Texture
  | TextureColor
  | TextureDebug
  | ToneMap
deriving DecidableEq, Repr

/-- Enum `VisibilityId`. -/
inductive VisibilityId where
  | Main
  | Portal
  | Reflection
  | SkyboxPortal
deriving DecidableEq, Repr

/-! ## The main pass of `renderCamera`, one draw call at a time -/

/-- The globals the main pass reads: the cvars `r_hdr` and `r_wireframe` and
the members `isWorldScene_` and `softSpritesEnabled_`. -/
structure RenderGlobals where
  hdr : Bool
  isWorldScene_ : Bool
  softSpritesEnabled_ : Bool
  wireframe : Bool
deriving DecidableEq

/-- One `bgfx::submit` of the main pass with the settings made for it:
`shaderPrograms_[program + shaderVariant]` is submitted with `bgfx::setState
(state)`; `stencilTest` tells whether `bgfx::setStencil(stencilTest)` was
called, `diffuseSlot` is the index into `sky.outerbox` of the texture bound to
the diffuse unit by the sky box branch, `softSprite_Depth_UseAlpha` holds the
first two components written to the uniform of that name, `fogEnabled` the
first component of the uniform `fogEnabled`. -/
structure Submission where
  program : ShaderProgramId
  shaderVariant : Nat
  state : Nat
  stencilTest : Bool
  diffuseSlot : Option Nat
  diffuseTexture : Option Nat
  softSprite_Depth_UseAlpha : Option (ℚ × ℚ)
  fogEnabled : Bool
deriving DecidableEq

/-- The locals `state` and `shaderVariant` of the stage loop and the value set
for the uniform `softSprite_Depth_UseAlpha`. -/
structure StageLocals where
  state : Nat
  shaderVariant : Nat
  softSprite_Depth_UseAlpha : Option (ℚ × ℚ)
deriving DecidableEq

/-- The body of the stage loop of the main pass (lines 1300-1371) for one
stage: `material` is `*dc.material`, `mat` the remapped material, `flags` the
`flags` argument of `renderCamera`.  `none` stands for `continue`. -/
def mainPassStage (V : GenericShaderProgramVariant) (B : BgfxDefines) (dcf : DrawCallFlags)
    (rcf : RenderCameraFlags) (g : RenderGlobals) (flags : Nat) (material mat : Material)
    (dc : DrawCall) (stage : MaterialStage) : Option Submission :=
  if !stage.active then
    none
  else
    let fogEnabled : Bool :=
      !material.noFog && decide (dc.fogIndex ≥ 0) &&
        decide (stage.adjustColorsForFog ≠ MaterialAdjustColorsForFog.None)
    let l0 : StageLocals :=
      { state := dc.state ||| stage.state, shaderVariant := V.None,
        softSprite_Depth_UseAlpha := none }
    let l1 : StageLocals :=
      if stage.alphaTest ≠ MaterialAlphaTest.None then
        { l0 with shaderVariant := l0.shaderVariant ||| V.AlphaTest }
      else if g.isWorldScene_ && g.softSpritesEnabled_ && decide (dc.softSpriteDepth > 0) then
        if l0.state &&& B.STATE_BLEND_MASK = B.STATE_BLEND_ADD then
          { state := (l0.state &&& notU64 B.STATE_BLEND_MASK) ||| B.STATE_BLEND_FUNC_SRC_ALPHA_ONE,
            shaderVariant := l0.shaderVariant ||| V.SoftSprite,
            softSprite_Depth_UseAlpha := some (dc.softSpriteDepth, 0) }
        else
          { l0 with shaderVariant := l0.shaderVariant ||| V.SoftSprite,
                    softSprite_Depth_UseAlpha := some (dc.softSpriteDepth, 1) }
      else
        l0
    let l2 : StageLocals :=
      if g.isWorldScene_ && dc.dynamicLighting && !decide (dc.flags &&& dcf.Sky ≠ 0) then
        { l1 with shaderVariant := l1.shaderVariant ||| V.DynamicLights }
      else
        l1
    let l3 : StageLocals :=
      if mat.polygonOffset || decide (dc.zOffset > 0) || decide (dc.zScale > 0) then
        { l2 with shaderVariant := l2.shaderVariant ||| V.DepthRange }
      else
        l2
    let l4 : StageLocals :=
      if g.hdr then { l3 with shaderVariant := l3.shaderVariant ||| V.HDR } else l3
    some { program := ShaderProgramId.Generic, shaderVariant := l4.shaderVariant,
           state := l4.state, stencilTest := decide (flags &&& rcf.UseStencilTest ≠ 0),
           diffuseSlot := none, diffuseTexture := none,
           softSprite_Depth_UseAlpha := l4.softSprite_Depth_UseAlpha,
           fogEnabled := fogEnabled }

/-- The table `sky_texorder` of the sky box branch (line 1221). -/
def sky_texorder : List Nat := [0, 2, 1, 3, 4, 5]

/-- The sky box branch of the main pass (lines 1211-1246): the one submission
of a draw call that carries `DrawCallFlags::Skybox`. -/
def mainPassSkybox (V : GenericShaderProgramVariant) (rcf : RenderCameraFlags)
    (g : RenderGlobals) (flags : Nat) (mat : Material) (dc : DrawCall) : Submission :=
  { program := ShaderProgramId.Generic,
    shaderVariant := if g.hdr then V.DepthRange ||| V.HDR else V.DepthRange,
    state := dc.state,
    stencilTest := decide (flags &&& rcf.UseStencilTest ≠ 0),
    diffuseSlot := some (sky_texorder.getD dc.skyboxSide 0),
    diffuseTexture := some (mat.skyOuterbox.getD (sky_texorder.getD dc.skyboxSide 0) 0),
    softSprite_Depth_UseAlpha := none,
    fogEnabled := false }

/-- The body of the main pass loop (lines 1199-1424) for one draw call: the
submissions it makes, in order. -/
def mainPassDrawCall (V : GenericShaderProgramVariant) (F : FogShaderProgramVariant)
    (B : BgfxDefines) (dcf : DrawCallFlags) (rcf : RenderCameraFlags) (g : RenderGlobals)
    (mem : MaterialMem) (visId : VisibilityId) (flags : Nat) (dc : DrawCall) :
    List Submission :=
  let material := mem dc.material
  let mat := match material.remappedShader with
    | some remapped => mem remapped
    | none => material
  if visId = VisibilityId.Reflection ∧ mat.reflective ≠ MaterialReflective.None then
    []
  else if dc.flags &&& dcf.Skybox ≠ 0 then
    [mainPassSkybox V rcf g flags mat dc]
  else
    let doFogPass : Bool :=
      !material.noFog && decide (dc.fogIndex ≥ 0) && decide (mat.fogPass ≠ MaterialFogPass.None)
    if mat.numUnfoggedPasses = 0 ∧ doFogPass = false then
      []
    else
      mat.stages.filterMap (mainPassStage V B dcf rcf g flags material mat dc) ++
      (if g.wireframe then
        [{ program := ShaderProgramId.TextureColor, shaderVariant := 0,
           state := dc.state ||| B.STATE_DEPTH_TEST_ALWAYS ||| B.STATE_PT_LINES,
           stencilTest := false, diffuseSlot := none, diffuseTexture := none,
           softSprite_Depth_UseAlpha := none, fogEnabled := false }]
       else []) ++
      (if doFogPass then
        let fogVariant0 : Nat := F.None
        let fogVariant1 : Nat :=
          if decide (dc.zOffset > 0) || decide (dc.zScale > 0) then
            fogVariant0 ||| F.DepthRange
          else
            fogVariant0
        let fogVariant2 : Nat := if g.hdr then fogVariant1 ||| F.HDR else fogVariant1
        [{ program := ShaderProgramId.Fog,
           shaderVariant := fogVariant2,
           state :=
             if mat.fogPass = MaterialFogPass.Equal then
               dc.state ||| B.STATE_BLEND_ALPHA ||| B.STATE_DEPTH_TEST_EQUAL
             else
               dc.state ||| B.STATE_BLEND_ALPHA ||| B.STATE_DEPTH_TEST_LEQUAL,
           stencilTest := decide (flags &&& rcf.UseStencilTest ≠ 0),
           diffuseSlot := none, diffuseTexture := none,
           softSprite_Depth_UseAlpha := none, fogEnabled := false }]
       else [])

/-- The state word `flushStretchPics` submits for a stage of the 2D material
(lines 936-940). -/
def stretchPicStageState (B : BgfxDefines) (stage : MaterialStage) : Nat :=
  ((B.STATE_RGB_WRITE ||| B.STATE_ALPHA_WRITE ||| stage.state) &&&
    notU64 B.STATE_DEPTH_TEST_MASK) &&& notU64 B.STATE_DEPTH_WRITE

/-! ## Scene entities -/

/-- Enum `EntityType`. -/
inductive EntityType where
  | Beam
  | Lightning
  | Model
  | RailCore
  | RailRings
  | Sprite
deriving DecidableEq, Repr

/-- The members of `Entity` read when `renderCamera` decides which entities to
render; `id` tells the entities of a scene apart. -/
structure Entity where
  flags : Nat
  handle : Int
  id : Nat
  type : EntityType
deriving DecidableEq

/-- The two tests that open the body of the entity loop of `renderCamera`
(lines 1082-1086): `true` when the entity is passed on to `renderEntity`,
`false` when the loop continues with the next entity. -/
def entityPassesCameraFilter (ef : EntityFlags) (visId : VisibilityId) (entity : Entity) :
    Bool :=
  let isMainCamera : Bool := decide (visId = VisibilityId.Main)
  if isMainCamera && decide (entity.flags &&& ef.ThirdPerson ≠ 0) then
    false
  else if !isMainCamera && decide (entity.flags &&& ef.FirstPerson ≠ 0) then
    false
  else
    true
/-! ## Scene descriptions and the state of `Main` -/

/-- Class `vec2`. -/
structure vec2 where
  x : ℚ
  y : ℚ
deriving DecidableEq

/-- Class `vec3`. -/
structure vec3 where
  x : ℚ
  y : ℚ
  z : ℚ
deriving DecidableEq

/-- Class `mat3`: the three rows `rotation[0]`, `rotation[1]`, `rotation[2]`. -/
structure mat3 where
  row0 : vec3
  row1 : vec3
  row2 : vec3
deriving DecidableEq

/-- Struct `Rect`. -/
structure Rect where
  x : Int
  y : Int
  w : Int
  h : Int
deriving DecidableEq

/-- Class `Plane`. -/
structure Plane where
  normal : vec3
  distance : ℚ
deriving DecidableEq

/-- Struct `Transform`. -/
structure Transform where
  position : vec3
  rotation : mat3
deriving DecidableEq

/-- Struct `SceneDefinition`. -/
structure SceneDefinition where
  areaMask : List Nat
  flags : Nat
  fov : vec2
  position : vec3
  rect : Rect
  rotation : mat3
  time : Int
deriving DecidableEq

/-- The frame buffers of `Main`. -/
inductive FrameBufferId where
  | bloomFb_ (i : Nat)
  | defaultFb_
  | linearDepthFb_
  | reflectionFb_
  | sceneFb_
  | sceneTempFb_
  | smaaBlendFb_
  | smaaEdgesFb_
deriving DecidableEq, Repr

/-- Enum `AntiAliasing`: `None`, `SMAA` and the remaining modes. -/
inductive AntiAliasing where
  | None
  | SMAA
  | other (n : Nat)
deriving DecidableEq, Repr

/-- Enum `DebugDraw`. -/
inductive DebugDraw where
  | None
  | Bloom
  | Depth
  | DynamicLight
  | Lightmap
  | Reflection
  | SMAA
deriving DecidableEq, Repr

/-- The default-constructed `Plane()` that `renderScene` passes as clipping
plane. -/
def Plane.default : Plane := { normal := { x := 0, y := 0, z := 0 }, distance := 0 }

/-- The arguments of a `renderCamera` invocation. -/
structure CameraArgs where
  visId : VisibilityId
  pvsPosition : vec3
  position : vec3
  rotation : mat3
  rect : Rect
  fov : vec2
  areaMask : List Nat
  clippingPlane : Plane
  flags : Nat
deriving DecidableEq

/-- The calls recorded while the model runs, oldest first: calls into bgfx
(`pushView` stands for the five `bgfx::setView*` calls it makes for the view
`viewId`), and, for reference, the calls of `renderCamera` (with the nesting
depth of the invocation), of `renderPolygons` (with the sorted vector and the
batches of the call) and of `renderScreenSpaceQuad`. -/
inductive Event where
  | pushView (viewId : Nat) (frameBuffer : FrameBufferId) (clearFlags : Nat) (rect : Rect)
      (sequential : Bool)
  | setViewClear (viewId : Nat) (flags : Nat) (rgba : Nat)
  | touch (viewId : Nat)
  | submit (viewId : Nat) (program : ShaderProgramId) (state : Nat)
  | frame
  | renderCamera (depth : Nat) (args : CameraArgs)
  | renderPolygons (visId : VisibilityId) (sorted : List Nat) (batches : List PolygonBatch)
  | renderScreenSpaceQuad (frameBuffer : FrameBufferId) (program : ShaderProgramId)
      (state : Nat) (clearFlags : Nat)
deriving DecidableEq

/-- The members of `Main` that the frame-level code below reads or writes,
the static array of `WarnOnce` (`warn`), the number of transient-buffer
requests made to bgfx so far (`allocRequests`) and the record of calls
(`calls`).  `frameNo_` is a counter of a fixed-width type that is declared
outside `Main.cpp`; its width is `Env.frameNoBits`.  A vertex of
the pending 2D batch is represented by a number: `0` for a default-constructed
vertex, `4 * q + c + 1` for the vertex written as corner `c` (0 to 3) of the
quad number `q`, quads being counted from zero by the indices pending. -/
structure Main where
  aa_ : AntiAliasing
  debugDraw_ : DebugDraw
  drawCalls_ : List DrawCall
  firstFreeViewId_ : Nat
  frameNo_ : Nat
  isCameraMirrored_ : Bool
  isWorldScene_ : Bool
  sceneDebugAxis_ : List vec3
  sceneDebugBounds_ : List (vec3 × vec3)
  sceneEntities_ : List Entity
  scenePolygonVertices_ : List Nat
  scenePolygons_ : List Polygon
  sceneRotation_ : mat3
  skyboxPortalEnabled_ : Bool
  skyboxPortalScene_ : SceneDefinition
  sortedScenePolygons_ : List Nat
  stretchPicIndices_ : List Nat
  stretchPicMaterial_ : MaterialPtr
  stretchPicVertices_ : List Nat
  stretchPicViewId_ : Nat
  time_ : Int
  warn : WarnOnceState
  allocRequests : Nat
  calls : List Event

/-- One step of what `renderEntity` does to the members of `Main` for an
entity: it pushes a draw call built by model code (`direct`), it asks one of
the transient-geometry builders of this file to allocate buffers and push a
draw call (`transient`), or it records a debug axis (`debugAxis`). -/
inductive EntityStep where
  | direct (dc : DrawCall)
  | transient (site : CallSite) (dc : DrawCall)
  | debugAxis (position : vec3)
deriving DecidableEq

/-- Everything the frame-level code takes from outside `Main.cpp` during one
call: the C++ library sort, the answers of bgfx, of the world, of the model
and material caches, the cvars, the window, and the enum and state constants
of the headers. -/
structure Env where
  /-- `std::sort` on polygon pointers and on draw calls. -/
  stdSortPolygons : (Nat → Nat → Bool) → List Nat → List Nat
  stdSortDrawCalls : (DrawCall → DrawCall → Bool) → List DrawCall → List DrawCall
  /-- Whether the transient-buffer request number `n` is granted
  (`bgfx::allocTransientBuffers`, `bgfx::checkAvailTransientVertexBuffer`). -/
  allocOk : Nat → Bool
  /-- Width in bits of the member `firstFreeViewId_`. -/
  viewIdBits : Nat
  /-- Width in bits of the member `frameNo_`, whose type is declared outside
  `Main.cpp`; the increment is taken to wrap as that of an unsigned type. -/
  frameNoBits : Nat
  mem : MaterialMem
  dcInit : DrawCall
  /-- Default value of the parameter `program` of `debugDraw`. -/
  debugDrawProgram : ShaderProgramId
  /-- `interface::GetTime()`. -/
  getTime : Int
  windowWidth : Int
  windowHeight : Int
  /-- Cvars `r_hdr`, `r_waterReflections`, `r_debugDrawSize`, and `r_debugDraw`
  with its modified flag. -/
  hdr : Bool
  waterReflections : Bool
  debugDrawSize : Int
  debugDrawModified : Bool
  debugDrawString : String
  /-- The world: `world::IsLoaded`, `world::GetNumLightmaps`,
  `world::CalculateReflectionCamera`, `world::CalculatePortalCamera` (its
  outputs `pvsPosition`, `portalCamera`, `isCameraMirrored`, `portalPlane`;
  the view-projection matrix and the scene entities it is also handed are
  those of the one scene the call belongs to),
  and the draw calls pushed by `world::RenderReflective`, `world::RenderPortal`,
  by `Sky_Render` over all sky surfaces and by `world::Render`. -/
  worldIsLoaded : Bool
  numLightmaps : Nat
  calculateReflectionCamera : VisibilityId → vec3 → mat3 → Option (Transform × Plane)
  calculatePortalCamera : VisibilityId → vec3 → mat3 → Option (vec3 × Transform × Bool × Plane)
  renderReflective : VisibilityId → List DrawCall
  renderPortal : VisibilityId → List DrawCall
  skyDrawCalls : VisibilityId → List DrawCall
  worldDrawCalls : VisibilityId → List DrawCall
  /-- What `renderEntity` does for an entity seen by a camera. -/
  entitySteps : VisibilityId → Entity → List EntityStep
  variants : GenericShaderProgramVariant
  bgfx : BgfxDefines
  entityFlags : EntityFlags
  cameraFlags : RenderCameraFlags
  sceneFlags : SceneDefinitionFlags

/-- The value `UINT8_MAX`. -/
def UINT8_MAX : Nat := 255

/-- Appends a call to the record. -/
def Main.record (m : Main) (e : Event) : Main := { m with calls := m.calls ++ [e] }

/-- `Main::pushView` (lines 882-901): configures the view `firstFreeViewId_`,
increments the member and returns `firstFreeViewId_ - 1` converted to
`uint8_t`.  The view id handed to bgfx is a `uint8_t` as well. -/
def pushView (env : Env) (frameBuffer : FrameBufferId) (clearFlags : Nat) (rect : Rect)
    (sequential : Bool) (m : Main) : Main × Nat :=
  let m1 := m.record
    (Event.pushView (u8 m.firstFreeViewId_) frameBuffer clearFlags rect sequential)
  let m2 := { m1 with firstFreeViewId_ := (m1.firstFreeViewId_ + 1) % 2 ^ env.viewIdBits }
  (m2, Int.toNat (((m2.firstFreeViewId_ : Int) - 1) % 256))

/-- `Main::renderScreenSpaceQuad` (lines 1627-1676). -/
def renderScreenSpaceQuad (env : Env) (frameBuffer : FrameBufferId) (program : ShaderProgramId)
    (state : Nat) (clearFlags : Nat) (rect : Rect) (m : Main) : Main :=
  let m0 := m.record (Event.renderScreenSpaceQuad frameBuffer program state clearFlags)
  let ok := env.allocOk m0.allocRequests
  let m1 := { m0 with allocRequests := m0.allocRequests + 1 }
  if !ok then
    { m1 with warn := allocFailedAt CallSite.renderScreenSpaceQuad m1.warn }
  else
    let rect1 : Rect := if rect.w = 0 then { rect with w := env.windowWidth } else rect
    let rect2 : Rect := if rect1.h = 0 then { rect1 with h := env.windowHeight } else rect1
    let pushed := pushView env frameBuffer clearFlags rect2 false m1
    pushed.1.record (Event.submit pushed.2 program state)

/-- `Main::flushStretchPics` (lines 903-952). -/
def flushStretchPics (env : Env) (m : Main) : Main :=
  let m3 : Main :=
    if !m.stretchPicIndices_.isEmpty then
      let ok := env.allocOk m.allocRequests
      let m1 := { m with allocRequests := m.allocRequests + 1 }
      if !ok then
        { m1 with warn := allocFailedAt CallSite.flushStretchPics m1.warn }
      else
        let m2 := { m1 with time_ := env.getTime }
        let m2a : Main :=
          if m2.stretchPicViewId_ = UINT8_MAX then
            let pushed := pushView env FrameBufferId.defaultFb_ env.bgfx.CLEAR_NONE
              { x := 0, y := 0, w := env.windowWidth, h := env.windowHeight } true m2
            { pushed.1 with stretchPicViewId_ := pushed.2 }
          else
            m2
        ((env.mem m2a.stretchPicMaterial_).stages.filter (fun stage => stage.active)).foldl
          (fun acc stage =>
            acc.record (Event.submit acc.stretchPicViewId_ ShaderProgramId.Generic
              (stretchPicStageState env.bgfx stage)))
          m2a
    else
      m
  { m3 with stretchPicVertices_ := [], stretchPicIndices_ := [] }

/-- One step of `renderEntity`: model code pushes its draw call; a transient
builder (`renderRailCore`, `renderRailRingsEntity`, `renderSpriteEntity`) asks
for buffers, warns and returns when the request fails and pushes its draw call
otherwise; an entity without a model pushes a debug axis. -/
def renderEntityStep (env : Env) (m : Main) (step : EntityStep) : Main :=
  match step with
  | EntityStep.direct dc => { m with drawCalls_ := m.drawCalls_ ++ [dc] }
  | EntityStep.transient site dc =>
    let ok := env.allocOk m.allocRequests
    let m1 := { m with allocRequests := m.allocRequests + 1 }
    if !ok then
      { m1 with warn := allocFailedAt site m1.warn }
    else
      { m1 with drawCalls_ := m1.drawCalls_ ++ [dc] }
  | EntityStep.debugAxis position =>
    { m with sceneDebugAxis_ := m.sceneDebugAxis_ ++ [position] }

/-- `Main::renderEntity` (lines 1742-1809), as far as the members of `Main`
go. -/
def renderEntity (env : Env) (visId : VisibilityId) (m : Main) (entity : Entity) : Main :=
  (env.entitySteps visId entity).foldl (renderEntityStep env) m

/-- The call of `renderPolygons` in `renderCamera` (line 1093), with the
requests of the call numbered on from `allocRequests`. -/
def renderCameraPolygons (env : Env) (visId : VisibilityId) (m : Main) : Option Main :=
  match renderPolygonsCore env.stdSortPolygons env.mem env.dcInit
      (fun k => env.allocOk (m.allocRequests + k))
      { drawCalls_ := m.drawCalls_, scenePolygons_ := m.scenePolygons_,
        sortedScenePolygons_ := m.sortedScenePolygons_ } with
  | none => none
  | some out =>
    some
      ({ m with
          drawCalls_ := out.scene.drawCalls_
          sortedScenePolygons_ := out.scene.sortedScenePolygons_
          allocRequests :=
            m.allocRequests + out.batches.length + (if out.allocFailed then 1 else 0)
          warn := if out.allocFailed then allocFailedAt CallSite.renderPolygons m.warn
                  else m.warn }.record
        (Event.renderPolygons visId out.scene.sortedScenePolygons_ out.batches))

/-- The part of `renderCamera` after the recursive calls (lines 1063-1500):
draw-call collection, `renderPolygons`, the sort, and the views pushed for the
depth pre-pass, the linear-depth pass and the main pass.  The submissions of
the individual draw calls do not touch the members of `Main` kept here; the
main pass is described one draw call at a time by `mainPassDrawCall`. -/
def renderCameraBody (env : Env) (a : CameraArgs) (m : Main) : Option Main :=
  let m1 := { m with drawCalls_ := [] }
  let m2 : Main :=
    if m1.isWorldScene_ then
      let m1a : Main :=
        if a.flags &&& env.cameraFlags.IsSkyboxPortal ≠ 0 ∨
            a.flags &&& env.cameraFlags.ContainsSkyboxPortal = 0 then
          { m1 with drawCalls_ := m1.drawCalls_ ++ env.skyDrawCalls a.visId }
        else
          m1
      { m1a with drawCalls_ := m1a.drawCalls_ ++ env.worldDrawCalls a.visId }
    else
      m1
  let m3 : Main :=
    (m2.sceneEntities_.filter (entityPassesCameraFilter env.entityFlags a.visId)).foldl
      (renderEntity env a.visId) m2
  match renderCameraPolygons env a.visId m3 with
  | none => none
  | some m4 =>
    if m4.drawCalls_.isEmpty then
      some m4
    else
      let m5 := { m4 with drawCalls_ := env.stdSortDrawCalls (DrawCall.lt env.mem) m4.drawCalls_ }
      let m6 : Main :=
        if m5.isWorldScene_ then
          let pushed := pushView env FrameBufferId.sceneFb_ env.bgfx.CLEAR_DEPTH a.rect false m5
          renderScreenSpaceQuad env FrameBufferId.linearDepthFb_ ShaderProgramId.LinearDepth
            env.bgfx.STATE_RGB_WRITE env.bgfx.CLEAR_NONE { x := 0, y := 0, w := 0, h := 0 }
            pushed.1
        else
          m5
      let m7 : Main :=
        if m6.isWorldScene_ then
          (pushView env FrameBufferId.sceneFb_ env.bgfx.CLEAR_NONE a.rect true m6).1
        else
          (pushView env FrameBufferId.defaultFb_ env.bgfx.CLEAR_DEPTH a.rect true m6).1
      some m7

/-- The reflection block of `renderCamera` (lines 1015-1039), entered by the
main camera of a world scene; `recurse` is the recursive call of
`renderCamera`, one level deeper. -/
def renderCameraReflection (env : Env) (recurse : Nat → CameraArgs → Main → Option Main)
    (depth : Nat) (a : CameraArgs) (m0 : Main) : Option Main :=
  if env.waterReflections then
    match env.calculateReflectionCamera a.visId a.position a.rotation with
    | some (reflectionCamera, reflectionPlane) =>
      let m1 := { m0 with drawCalls_ := [] ++ env.renderReflective a.visId }
      let pushed := pushView env FrameBufferId.sceneFb_
        (env.bgfx.CLEAR_DEPTH ||| env.bgfx.CLEAR_STENCIL) a.rect false m1
      let m2 := { pushed.1 with isCameraMirrored_ := true }
      match recurse (depth + 1)
          { visId := VisibilityId.Reflection, pvsPosition := a.pvsPosition,
            position := reflectionCamera.position,
            rotation := reflectionCamera.rotation, rect := a.rect, fov := a.fov,
            areaMask := a.areaMask, clippingPlane := reflectionPlane,
            flags := a.flags ||| env.cameraFlags.UseClippingPlane |||
              env.cameraFlags.UseStencilTest } m2 with
      | none => none
      | some m3 =>
        let m4 := { m3 with isCameraMirrored_ := false }
        some (renderScreenSpaceQuad env FrameBufferId.reflectionFb_
          ShaderProgramId.Texture env.bgfx.STATE_RGB_WRITE env.bgfx.CLEAR_NONE
          { x := 0, y := 0, w := 0, h := 0 } m4)
    | none => some m0
  else
    some m0

/-- The portal block of `renderCamera` (lines 1041-1060), entered by the main
camera of a world scene after the reflection block. -/
def renderCameraPortal (env : Env) (recurse : Nat → CameraArgs → Main → Option Main)
    (depth : Nat) (a : CameraArgs) (m5 : Main) : Option Main :=
  match env.calculatePortalCamera a.visId a.position a.rotation with
  | some (pvsPosition, portalCamera, isCameraMirrored, portalPlane) =>
    let m6 := { m5 with drawCalls_ := [] ++ env.renderPortal a.visId }
    let pushed := pushView env FrameBufferId.sceneFb_
      (env.bgfx.CLEAR_DEPTH ||| env.bgfx.CLEAR_STENCIL) a.rect false m6
    let m7 := { pushed.1 with isCameraMirrored_ := isCameraMirrored }
    match recurse (depth + 1)
        { visId := VisibilityId.Portal, pvsPosition := pvsPosition,
          position := portalCamera.position, rotation := portalCamera.rotation,
          rect := a.rect, fov := a.fov, areaMask := a.areaMask,
          clippingPlane := portalPlane,
          flags := a.flags ||| env.cameraFlags.UseClippingPlane |||
            env.cameraFlags.UseStencilTest } m7 with
    | none => none
    | some m8 => some { m8 with isCameraMirrored_ := false }
  | none => some m5

/-- `Main::renderCamera` (lines 986-1500).  `budget` bounds the nesting of
invocations, `depth` is the nesting depth of this invocation; `none` means
that the budget was used up (or that `renderPolygons` did not return). -/
def renderCamera (env : Env) : Nat → Nat → CameraArgs → Main → Option Main
  | 0, _, _, _ => none
  | budget + 1, depth, a, m =>
    let m0 := m.record (Event.renderCamera depth a)
    let isMainCamera : Bool := decide (a.visId = VisibilityId.Main)
    let afterSubCameras : Option Main :=
      if m0.isWorldScene_ && isMainCamera then
        match renderCameraReflection env (renderCamera env budget) depth a m0 with
        | none => none
        | some m5 => renderCameraPortal env (renderCamera env budget) depth a m5
      else
        some m0
    match afterSubCameras with
    | none => none
    | some m9 => renderCameraBody env a m9

/-- The post-processing passes of `renderScene` for a world scene (lines
685-756): bloom and tone mapping when HDR is on, then the three SMAA passes
when the anti-aliasing mode is SMAA and the blit of the scene otherwise. -/
def renderScenePostProcess (env : Env) (m : Main) : Main :=
  let bloomRect : Rect := { x := 0, y := 0, w := env.windowWidth / 4, h := env.windowHeight / 4 }
  let fullRect : Rect := { x := 0, y := 0, w := 0, h := 0 }
  let m1 : Main :=
    if env.hdr then
      let b0 := renderScreenSpaceQuad env (FrameBufferId.bloomFb_ 0) ShaderProgramId.Texture
        env.bgfx.STATE_RGB_WRITE env.bgfx.CLEAR_NONE bloomRect m
      let b1 := renderScreenSpaceQuad env (FrameBufferId.bloomFb_ 1) ShaderProgramId.GaussianBlur
        env.bgfx.STATE_RGB_WRITE env.bgfx.CLEAR_NONE bloomRect b0
      let b2 := renderScreenSpaceQuad env (FrameBufferId.bloomFb_ 0) ShaderProgramId.GaussianBlur
        env.bgfx.STATE_RGB_WRITE env.bgfx.CLEAR_NONE bloomRect b1
      renderScreenSpaceQuad env
        (if b2.aa_ = AntiAliasing.None then FrameBufferId.defaultFb_
         else FrameBufferId.sceneTempFb_)
        ShaderProgramId.ToneMap env.bgfx.STATE_RGB_WRITE env.bgfx.CLEAR_NONE fullRect b2
    else
      m
  if m1.aa_ = AntiAliasing.SMAA then
    let s0 := renderScreenSpaceQuad env FrameBufferId.smaaEdgesFb_
      ShaderProgramId.SMAAEdgeDetection env.bgfx.STATE_RGB_WRITE env.bgfx.CLEAR_COLOR fullRect m1
    let s1 := renderScreenSpaceQuad env FrameBufferId.smaaBlendFb_
      ShaderProgramId.SMAABlendingWeightCalculation
      (env.bgfx.STATE_RGB_WRITE ||| env.bgfx.STATE_ALPHA_WRITE) env.bgfx.CLEAR_COLOR fullRect s0
    renderScreenSpaceQuad env FrameBufferId.defaultFb_ ShaderProgramId.SMAANeighborhoodBlending
      env.bgfx.STATE_RGB_WRITE env.bgfx.CLEAR_NONE fullRect s1
  else
    renderScreenSpaceQuad env FrameBufferId.defaultFb_ ShaderProgramId.Texture
      env.bgfx.STATE_RGB_WRITE env.bgfx.CLEAR_NONE fullRect m1

/-- The clear colour of a hyperspace scene (lines 640-642):
`(c<<24)|(c<<16)|(c<<8)|0xff` for the `uint8_t` value `c = time_ & 255`, as
the `uint32_t` argument of `bgfx::setViewClear`. -/
def hyperspaceColor (time : Int) : Nat :=
  let c : Nat := Int.toNat (time % 256)
  u32 ((c <<< 24) ||| (c <<< 16) ||| (c <<< 8) ||| 0xff)

/-- The camera part of `renderScene` for a scene that is neither a hyperspace
nor a sky box portal scene (lines 653-757). -/
def renderSceneCameras (env : Env) (budget : Nat) (scene : SceneDefinition) (rect : Rect)
    (m : Main) : Option Main :=
  let m1 := { m with
    isWorldScene_ := decide (scene.flags &&& env.sceneFlags.World ≠ 0) && env.worldIsLoaded }
  let m2 := { m1 with sceneRotation_ := scene.rotation }
  let afterSkyboxPortal : Option Main :=
    if m2.skyboxPortalEnabled_ then
      match renderCamera env budget 0
          { visId := VisibilityId.SkyboxPortal, pvsPosition := m2.skyboxPortalScene_.position,
            position := m2.skyboxPortalScene_.position,
            rotation := m2.skyboxPortalScene_.rotation, rect := rect,
            fov := m2.skyboxPortalScene_.fov, areaMask := m2.skyboxPortalScene_.areaMask,
            clippingPlane := Plane.default,
            flags := env.cameraFlags.IsSkyboxPortal } m2 with
      | none => none
      | some m3 => some { m3 with skyboxPortalEnabled_ := false }
    else
      some m2
  match afterSkyboxPortal with
  | none => none
  | some m4 =>
    let cameraFlags : Nat :=
      if scene.flags &&& env.sceneFlags.ContainsSkyboxPortal ≠ 0 then
        0 ||| env.cameraFlags.ContainsSkyboxPortal
      else
        0
    match renderCamera env budget 0
        { visId := VisibilityId.Main, pvsPosition := scene.position, position := scene.position,
          rotation := m4.sceneRotation_, rect := rect, fov := scene.fov,
          areaMask := scene.areaMask,
          clippingPlane := Plane.default,
          flags := cameraFlags } m4 with
    | none => none
    | some m5 => some (if m5.isWorldScene_ then renderScenePostProcess env m5 else m5)

/-- `Main::renderScene` (lines 619-767). -/
def renderScene (env : Env) (budget : Nat) (scene : SceneDefinition) (m : Main) : Option Main :=
  let m1 := flushStretchPics env m
  let m2 := { m1 with stretchPicViewId_ := UINT8_MAX, time_ := scene.time }
  let rect : Rect :=
    { x := max 0 scene.rect.x, y := max 0 scene.rect.y, w := scene.rect.w, h := scene.rect.h }
  let rendered : Option Main :=
    if scene.flags &&& env.sceneFlags.Hyperspace ≠ 0 then
      let pushed := pushView env FrameBufferId.defaultFb_ 0 rect false m2
      some ((pushed.1.record
        (Event.setViewClear pushed.2 (env.bgfx.CLEAR_COLOR ||| env.bgfx.CLEAR_DEPTH)
          (hyperspaceColor m2.time_))).record (Event.touch pushed.2))
    else if scene.flags &&& env.sceneFlags.SkyboxPortal ≠ 0 then
      some { m2 with skyboxPortalEnabled_ := true, skyboxPortalScene_ := scene }
    else
      renderSceneCameras env budget scene rect m2
  match rendered with
  | none => none
  | some m3 =>
    some { m3 with sceneDebugAxis_ := [], sceneDebugBounds_ := [], sceneEntities_ := [],
                   scenePolygons_ := [], sortedScenePolygons_ := [],
                   scenePolygonVertices_ := [] }

/-- `util::Stricmp(a, b) == 0`: the strings are equal when letter case is
ignored. -/
def stricmpEqual (a b : String) : Bool :=
  a.data.map Char.toLower == b.data.map Char.toLower

/-- `DebugDrawFromString` (lines 2078-2094). -/
def DebugDrawFromString (s : String) : DebugDraw :=
  if stricmpEqual s "bloom" then DebugDraw.Bloom
  else if stricmpEqual s "depth" then DebugDraw.Depth
  else if stricmpEqual s "dlight" then DebugDraw.DynamicLight
  else if stricmpEqual s "lightmap" then DebugDraw.Lightmap
  else if stricmpEqual s "reflection" then DebugDraw.Reflection
  else if stricmpEqual s "smaa" then DebugDraw.SMAA
  else DebugDraw.None

/-- Both overloads of `Main::debugDraw` (lines 870-880): a quad of
`r_debugDrawSize` pixels at the grid position `(x, y)` on the default frame
buffer. -/
def debugDraw (env : Env) (x y : Int) (program : ShaderProgramId) (m : Main) : Main :=
  renderScreenSpaceQuad env FrameBufferId.defaultFb_ program env.bgfx.STATE_RGB_WRITE
    env.bgfx.CLEAR_NONE
    { x := env.debugDrawSize * x, y := env.debugDrawSize * y, w := env.debugDrawSize,
      h := env.debugDrawSize } m

/-- The debug overlay of `endFrame` (lines 782-814). -/
def endFrameDebugDraw (env : Env) (m : Main) : Main :=
  if m.debugDraw_ = DebugDraw.Bloom then
    debugDraw env 2 0 env.debugDrawProgram
      (debugDraw env 1 0 env.debugDrawProgram (debugDraw env 0 0 env.debugDrawProgram m))
  else if m.debugDraw_ = DebugDraw.Depth then
    debugDraw env 0 0 env.debugDrawProgram m
  else if m.debugDraw_ = DebugDraw.DynamicLight then
    debugDraw env 0 0 ShaderProgramId.TextureDebug m
  else if m.debugDraw_ = DebugDraw.Lightmap ∧ env.worldIsLoaded = true then
    (List.range env.numLightmaps).foldl
      (fun acc i => debugDraw env (i : Int) 0 ShaderProgramId.TextureDebug acc) m
  else if m.debugDraw_ = DebugDraw.Reflection then
    debugDraw env 0 0 env.debugDrawProgram m
  else if m.debugDraw_ = DebugDraw.SMAA ∧ m.aa_ = AntiAliasing.SMAA then
    debugDraw env 1 0 ShaderProgramId.TextureDebug
      (debugDraw env 0 0 ShaderProgramId.TextureDebug m)
  else
    m

/-- `Main::endFrame` (lines 769-859). -/
def endFrame (env : Env) (m : Main) : Main :=
  let m1 := flushStretchPics env m
  let m2 : Main :=
    if m1.firstFreeViewId_ = 0 then
      let pushed := pushView env FrameBufferId.defaultFb_ 0
        { x := 0, y := 0, w := env.windowWidth, h := env.windowHeight } false m1
      (pushed.1.record (Event.setViewClear pushed.2 env.bgfx.CLEAR_COLOR 0x000000ff)).record
        (Event.touch pushed.2)
    else
      m1
  let m3 := endFrameDebugDraw env m2
  let m4 := m3.record Event.frame
  let m5 : Main :=
    if env.debugDrawModified then
      { m4 with debugDraw_ := DebugDrawFromString env.debugDrawString }
    else
      m4
  { m5 with firstFreeViewId_ := 0, frameNo_ := (m5.frameNo_ + 1) % 2 ^ env.frameNoBits,
            stretchPicViewId_ := UINT8_MAX }

/-! ## Reading the record of calls -/

/-- The `renderCamera` invocations in a record: nesting depth and arguments,
in invocation order. -/
def cameraCalls (calls : List Event) : List (Nat × CameraArgs) :=
  calls.filterMap (fun e =>
    match e with
    | Event.renderCamera depth args => some (depth, args)
    | _ => none)

/-- The `renderPolygons` calls in a record: for each, the camera and the
polygon pointers of its batches, batch after batch. -/
def polygonCalls (calls : List Event) : List (VisibilityId × List Nat) :=
  calls.filterMap (fun e =>
    match e with
    | Event.renderPolygons visId sorted batches =>
      some (visId, batches.flatMap (fun b => b.members sorted))
    | _ => none)

/-- The `renderScreenSpaceQuad` calls in a record: target frame buffer and
program, in call order. -/
def quadCalls (calls : List Event) : List (FrameBufferId × ShaderProgramId) :=
  calls.filterMap (fun e =>
    match e with
    | Event.renderScreenSpaceQuad frameBuffer program _ _ => some (frameBuffer, program)
    | _ => none)

/-- The `bgfx::setViewClear` calls with a colour in a record. -/
def clearCalls (calls : List Event) : List (Nat × Nat × Nat) :=
  calls.filterMap (fun e =>
    match e with
    | Event.setViewClear viewId flags rgba => some (viewId, flags, rgba)
    | _ => none)

/-- The views pushed in a record: the view ids, in push order. -/
def pushedViews (calls : List Event) : List Nat :=
  calls.filterMap (fun e =>
    match e with
    | Event.pushView viewId _ _ _ _ => some viewId
    | _ => none)

/-- `n` consecutive `pushView` calls with the given arguments: the state
afterwards and the ids returned, in call order. -/
def pushViews (env : Env) :
    List (FrameBufferId × Nat × Rect × Bool) → Main → Main × List Nat
  | [], m => (m, [])
  | (frameBuffer, clearFlags, rect, sequential) :: rest, m =>
    let pushed := pushView env frameBuffer clearFlags rect sequential m
    let later := pushViews env rest pushed.1
    (later.1, pushed.2 :: later.2)

/-- The members of `Main` that describe the scene being assembled and the
frame, as opposed to the scratch members of a camera pass. -/
structure SceneMembers where
  aa_ : AntiAliasing
  debugDraw_ : DebugDraw
  frameNo_ : Nat
  isWorldScene_ : Bool
  sceneDebugBounds_ : List (vec3 × vec3)
  sceneEntities_ : List Entity
  scenePolygonVertices_ : List Nat
  scenePolygons_ : List Polygon
  sceneRotation_ : mat3
  skyboxPortalEnabled_ : Bool
  skyboxPortalScene_ : SceneDefinition
deriving DecidableEq

/-- The scene members of a state. -/
def Main.sceneMembers (m : Main) : SceneMembers :=
  { aa_ := m.aa_, debugDraw_ := m.debugDraw_, frameNo_ := m.frameNo_,
    isWorldScene_ := m.isWorldScene_, sceneDebugBounds_ := m.sceneDebugBounds_,
    sceneEntities_ := m.sceneEntities_, scenePolygonVertices_ := m.scenePolygonVertices_,
    scenePolygons_ := m.scenePolygons_, sceneRotation_ := m.sceneRotation_,
    skyboxPortalEnabled_ := m.skyboxPortalEnabled_,
    skyboxPortalScene_ := m.skyboxPortalScene_ }

/-- The members of `Main` that belong to the pending 2D batch, and `time_`. -/
structure StretchPicMembers where
  stretchPicIndices_ : List Nat
  stretchPicMaterial_ : MaterialPtr
  stretchPicVertices_ : List Nat
  stretchPicViewId_ : Nat
  time_ : Int
deriving DecidableEq

/-- The 2D-batch members of a state. -/
def Main.stretchPicMembers (m : Main) : StretchPicMembers :=
  { stretchPicIndices_ := m.stretchPicIndices_, stretchPicMaterial_ := m.stretchPicMaterial_,
    stretchPicVertices_ := m.stretchPicVertices_, stretchPicViewId_ := m.stretchPicViewId_,
    time_ := m.time_ }

/-- What a camera pass leaves alone except for the cameras it logs: the scene
members, the 2D-batch members and the `renderCamera` invocations recorded. -/
structure QuietView where
  scene : SceneMembers
  stretchPic : StretchPicMembers
  cameras : List (Nat × CameraArgs)
deriving DecidableEq

/-- The quiet view of a state. -/
def Main.quietView (m : Main) : QuietView :=
  { scene := m.sceneMembers, stretchPic := m.stretchPicMembers, cameras := cameraCalls m.calls }

/-- The reflection sub-invocation of a `renderCamera` invocation at nesting
depth `depth` with arguments `a` (lines 1024-1037): none unless
`r_waterReflections` is on and the world finds a reflecting surface. -/
def reflectionCameraCall (env : Env) (depth : Nat) (a : CameraArgs) : List (Nat × CameraArgs) :=
  if env.waterReflections then
    match env.calculateReflectionCamera a.visId a.position a.rotation with
    | some (reflectionCamera, reflectionPlane) =>
      [(depth + 1,
        { visId := VisibilityId.Reflection, pvsPosition := a.pvsPosition,
          position := reflectionCamera.position, rotation := reflectionCamera.rotation,
          rect := a.rect, fov := a.fov, areaMask := a.areaMask,
          clippingPlane := reflectionPlane,
          flags := a.flags ||| env.cameraFlags.UseClippingPlane |||
            env.cameraFlags.UseStencilTest })]
    | none => []
  else
    []

/-- The portal sub-invocation of a `renderCamera` invocation (lines
1045-1059): none unless the world finds a portal surface. -/
def portalCameraCall (env : Env) (depth : Nat) (a : CameraArgs) : List (Nat × CameraArgs) :=
  match env.calculatePortalCamera a.visId a.position a.rotation with
  | some (pvsPosition, portalCamera, _, portalPlane) =>
    [(depth + 1,
      { visId := VisibilityId.Portal, pvsPosition := pvsPosition,
        position := portalCamera.position, rotation := portalCamera.rotation,
        rect := a.rect, fov := a.fov, areaMask := a.areaMask,
        clippingPlane := portalPlane,
        flags := a.flags ||| env.cameraFlags.UseClippingPlane |||
          env.cameraFlags.UseStencilTest })]
  | none => []

/-- The view rectangle `renderScene` derives from a scene (lines 626-636). -/
def sceneRect (scene : SceneDefinition) : Rect :=
  { x := max 0 scene.rect.x, y := max 0 scene.rect.y, w := scene.rect.w, h := scene.rect.h }

/-- The arguments with which `renderScene` invokes the sky box portal camera
(line 672) for the pending portal scene `pending`, inside the scene `scene`. -/
def skyboxPortalCameraArgs (env : Env) (pending scene : SceneDefinition) : CameraArgs :=
  { visId := VisibilityId.SkyboxPortal, pvsPosition := pending.position,
    position := pending.position, rotation := pending.rotation, rect := sceneRect scene,
    fov := pending.fov, areaMask := pending.areaMask, clippingPlane := Plane.default,
    flags := env.cameraFlags.IsSkyboxPortal }

/-- The arguments with which `renderScene` invokes the main camera (lines
676-681). -/
def mainCameraArgs (env : Env) (scene : SceneDefinition) : CameraArgs :=
  { visId := VisibilityId.Main, pvsPosition := scene.position, position := scene.position,
    rotation := scene.rotation, rect := sceneRect scene, fov := scene.fov,
    areaMask := scene.areaMask, clippingPlane := Plane.default,
    flags := if scene.flags &&& env.sceneFlags.ContainsSkyboxPortal ≠ 0 then
               0 ||| env.cameraFlags.ContainsSkyboxPortal
             else 0 }

/-- Whether `renderScene` treats a scene as a world scene (line 653). -/
def sceneIsWorld (env : Env) (scene : SceneDefinition) : Bool :=
  decide (scene.flags &&& env.sceneFlags.World ≠ 0) && env.worldIsLoaded

/-- What the polygon batcher has done so far: the sorted vector and the
`renderPolygons` calls recorded. -/
structure PolygonView where
  sorted : List Nat
  calls : List (VisibilityId × List Nat)
deriving DecidableEq

/-- The polygon view of a state. -/
def Main.polygonView (m : Main) : PolygonView :=
  { sorted := m.sortedScenePolygons_, calls := polygonCalls m.calls }

/-! ## The depth pre-pass and the passes of a draw call -/

/-- Material remapping (lines 1120 and 1204):
`dc.material->remappedShader ? dc.material->remappedShader : dc.material`,
dereferenced. -/
def remappedMaterial (mem : MaterialMem) (material : MaterialPtr) : Material :=
  match (mem material).remappedShader with
  | some remapped => mem remapped
  | none => mem material

/-- The local `doFogPass` of the main pass (line 1248). -/
def doFogPass (mem : MaterialMem) (dc : DrawCall) : Bool :=
  !(mem dc.material).noFog && decide (dc.fogIndex ≥ 0) &&
    decide ((remappedMaterial mem dc.material).fogPass ≠ MaterialFogPass.None)

/-- The enumerators of `DepthShaderProgramVariant`. -/
structure DepthShaderProgramVariant where
  None : Nat
  AlphaTest : Nat
  DepthRange : Nat
deriving DecidableEq

/-- The depth variant enumerators are feature bits: `None` is zero, the other
two are non-zero and share no bit. -/
def DepthShaderProgramVariant.wellFormed (v : DepthShaderProgramVariant) : Prop :=
  v.None = 0 ∧ v.AlphaTest ≠ 0 ∧ v.DepthRange ≠ 0 ∧ v.AlphaTest &&& v.DepthRange = 0

instance (v : DepthShaderProgramVariant) : Decidable v.wellFormed := by
  unfold DepthShaderProgramVariant.wellFormed
  infer_instance

/-- The constants of the headers the depth pre-pass reads besides those of
`BgfxDefines`: `MaterialSort::Opaque` and `BGFX_STATE_CULL_MASK`. -/
structure DepthPassDefines where
  MaterialSort_Opaque : ℚ
  STATE_CULL_MASK : Nat
deriving DecidableEq

/-- One `bgfx::submit` of the depth pre-pass with the settings made for it:
`shaderPrograms_[ShaderProgramId::Depth + shaderVariant]` is submitted with
`bgfx::setState(state)`; `alphaTestStage` is the position in `mat->stages` of
the stage `alphaTestStage` points to (the stage whose uniforms are set and
whose first texture is bound), `depthRange` holds the first two components
written to the uniform `depthRange`. -/
structure DepthSubmission where
  shaderVariant : Nat
  state : Nat
  stencilTest : Bool
  alphaTestStage : Option Nat
  depthRange : ℚ × ℚ
deriving DecidableEq

/-- The search for a stage that uses alpha testing (lines 1135-1144): the
position of the first stage that is active and has an alpha-test mode. -/
def findAlphaTestStage (stages : List MaterialStage) : Option Nat :=
  stages.findIdx? (fun stage => stage.active && decide (stage.alphaTest ≠ MaterialAlphaTest.None))

/-- The body of the depth pre-pass loop (lines 1117-1180) for one draw call;
`none` stands for `continue`.  `mat->stages[0]` of a material without stages is
read as a stage with a zero state word. -/
def depthPassDrawCall (D : DepthShaderProgramVariant) (B : BgfxDefines) (P : DepthPassDefines)
    (rcf : RenderCameraFlags) (mem : MaterialMem) (visId : VisibilityId) (flags : Nat)
    (dc : DrawCall) : Option DepthSubmission :=
  let mat := remappedMaterial mem dc.material
  if mat.sort ≠ P.MaterialSort_Opaque ∨ mat.numUnfoggedPasses = 0 then
    none
  else if visId = VisibilityId.Reflection ∧ mat.reflective ≠ MaterialReflective.None then
    none
  else
    let alphaTestStage := findAlphaTestStage mat.stages
    let state0 : Nat := B.STATE_DEPTH_TEST_LESS ||| B.STATE_DEPTH_WRITE ||| B.STATE_MSAA
    let state1 : Nat :=
      state0 ||| (((mat.stages.head?.map (fun stage => stage.state)).getD 0) &&&
        P.STATE_CULL_MASK)
    let variant0 : Nat := D.None
    let variant1 : Nat :=
      if alphaTestStage.isSome then variant0 ||| D.AlphaTest else variant0
    let variant2 : Nat :=
      if decide (dc.zOffset > 0) || decide (dc.zScale > 0) then variant1 ||| D.DepthRange
      else variant1
    some { shaderVariant := variant2, state := state1,
           stencilTest := decide (flags &&& rcf.UseStencilTest ≠ 0),
           alphaTestStage := alphaTestStage, depthRange := (dc.zOffset, dc.zScale) }

/-- The depth pre-pass of `renderCamera` (lines 1112-1180) over the sorted
draw calls: the submissions it makes, in order.  It only runs in a world
scene. -/
def depthPass (D : DepthShaderProgramVariant) (B : BgfxDefines) (P : DepthPassDefines)
    (rcf : RenderCameraFlags) (g : RenderGlobals) (mem : MaterialMem) (visId : VisibilityId)
    (flags : Nat) (drawCalls : List DrawCall) : List DepthSubmission :=
  if g.isWorldScene_ then
    drawCalls.filterMap (depthPassDrawCall D B P rcf mem visId flags)
  else
    []

/-! ## The 2D batch -/

/-- The six index values `drawStretchPicGradient` stores for a quad whose
first vertex is `firstVertex` (lines 450-451): `firstVertex + 3` and so on are
`int` sums, stored in `uint16_t` elements. -/
def stretchPicQuadIndices (firstVertex : Nat) : List Nat :=
  [u16 (firstVertex + 3), u16 (firstVertex + 0), u16 (firstVertex + 2),
   u16 (firstVertex + 2), u16 (firstVertex + 0), u16 (firstVertex + 1)]

/-- Assignment of `values` to `v[0]`, `v[1]`, ... where `v` points to element
`first` of `buffer`. -/
def writeAt (buffer : List Nat) (first : Nat) (values : List Nat) : List Nat :=
  (values.enum).foldl (fun acc kv => acc.set (first + kv.1) kv.2) buffer

/-- `Main::drawStretchPicGradient` (lines 424-452), and `Main::drawStretchPic`
which forwards to it; `mat` is the material `materialCache_->getMaterial
(materialIndex)` returns.  `firstVertex` is the size of the vertex vector
converted to `uint16_t`. -/
def drawStretchPicGradient (env : Env) (mat : MaterialPtr) (m : Main) : Main :=
  let m1 : Main :=
    if m.stretchPicMaterial_ ≠ mat then
      { flushStretchPics env m with stretchPicMaterial_ := mat }
    else
      m
  let firstVertex : Nat := u16 m1.stretchPicVertices_.length
  let firstIndex : Nat := m1.stretchPicIndices_.length
  let quad : Nat := firstIndex / 6
  let vertices1 := m1.stretchPicVertices_ ++ List.replicate 4 0
  let indices1 := m1.stretchPicIndices_ ++ List.replicate 6 0
  let vertices2 := writeAt vertices1 firstVertex
    [4 * quad + 0 + 1, 4 * quad + 1 + 1, 4 * quad + 2 + 1, 4 * quad + 3 + 1]
  let indices2 := writeAt indices1 firstIndex (stretchPicQuadIndices firstVertex)
  { m1 with stretchPicVertices_ := vertices2, stretchPicIndices_ := indices2 }

/-- A run of `n` calls of `drawStretchPic` / `drawStretchPicGradient` with
the same material. -/
def drawStretchPics (env : Env) (mat : MaterialPtr) : Nat → Main → Main
  | 0, m => m
  | n + 1, m => drawStretchPicGradient env mat (drawStretchPics env mat n m)

/-- The outcome of `ExtractQuadCorners`: the elements of `corners` written so
far, as positions in `vertices` (the pointer `&vertices[k]` is represented by
`k`), in the order `corners[0]`, `corners[1]`, ...; `cornerIndex` is their
number. -/
structure QuadCorners where
  corners : List Nat
deriving DecidableEq

/-- The local `cornerIndex` of `ExtractQuadCorners`. -/
def QuadCorners.cornerIndex (q : QuadCorners) : Nat := q.corners.length

/-- The loop of `ExtractQuadCorners` (lines 50-54) from position `i` on:
`previous` is `sorted[i - 1]` (absent when `i == 0`), the list argument is
`sorted` from position `i` on.  `none` stands for a write past the end of the
four-element array `corners`. -/
def extractQuadCornersLoop : Option Nat → List Nat → QuadCorners → Option QuadCorners
  | _, [], acc => some acc
  | previous, x :: rest, acc =>
    if previous = none ∨ previous ≠ some x then
      if acc.cornerIndex < 4 then
        extractQuadCornersLoop (some x) rest { corners := acc.corners ++ [x] }
      else
        none
    else
      extractQuadCornersLoop (some x) rest acc

/-- `ExtractQuadCorners` (lines 42-58); `indices` holds the six `uint16_t`
values `indices[0]` to `indices[5]`, `stdSortImpl` is the library sort. -/
def ExtractQuadCorners (stdSortImpl : (Nat → Nat → Bool) → List Nat → List Nat)
    (indices : List Nat) : Option QuadCorners :=
  let sorted := stdSortImpl (fun a b => decide (a < b)) (indices.take 6)
  extractQuadCornersLoop none sorted { corners := [] }

/-- The assertion of line 56. -/
def extractQuadCornersAssertion (q : QuadCorners) : Prop := q.cornerIndex = 4

instance (q : QuadCorners) : Decidable (extractQuadCornersAssertion q) := by
  unfold extractQuadCornersAssertion
  infer_instance

/-! ## Scene polygons: `addPolyToScene` -/

/-- Struct `fontInfo_t` as far as `registerFont` goes: the glyph records
(their numeric members, in file order), `glyphScale` and `name`. -/
structure fontInfo_t where
  glyphs : List Int
  glyphScale : Int
  name : String
deriving DecidableEq

/-- The font members of `Main`: the array `fonts_` and the count `nFonts_`. -/
structure FontRegistry where
  fonts_ : List fontInfo_t
  nFonts_ : Nat
deriving DecidableEq

/-- What `registerFont` takes from outside: the constant `maxFonts_`,
`sizeof(fontInfo_t)`, the length `interface::FS_ReadFile(name, NULL)` reports
for a file, and the font record that lines 360-389 build from the file's bytes
and the material cache (with `name` as its name). -/
structure FontEnv where
  maxFonts_ : Nat
  sizeofFontInfo : Int
  fileLength : String → Int
  readFont : String → fontInfo_t

/-- The messages `registerFont` prints. -/
inductive FontMessage where
  | emptyName
  | tooManyFonts
deriving DecidableEq, Repr

/-- The file name `registerFont` builds (line 344):
`"fonts/fontImage_%i.dat"` with the point size. -/
def fontImageName (pointSize : Int) : String :=
  "fonts/fontImage_" ++ toString pointSize ++ ".dat"

/-- `Main::registerFont` (lines 326-393): the registry afterwards, the
caller's record `*font` afterwards and the messages printed.  `fontName` is the
pointer argument: `none` for a null pointer, `some s` for a pointer to the
string `s`. -/
def registerFont (fenv : FontEnv) (fontName : Option String) (pointSize : Int)
    (font : fontInfo_t) (reg : FontRegistry) :
    FontRegistry × fontInfo_t × List FontMessage :=
  if fontName = none then
    (reg, font, [FontMessage.emptyName])
  else
    let pointSize1 : Int := if pointSize ≤ 0 then 12 else pointSize
    if reg.nFonts_ ≥ fenv.maxFonts_ then
      (reg, font, [FontMessage.tooManyFonts])
    else
      let name := fontImageName pointSize1
      match (reg.fonts_.take reg.nFonts_).find? (fun f => stricmpEqual name f.name) with
      | some registered => (reg, registered, [])
      | none =>
        if fenv.fileLength name ≠ fenv.sizeofFontInfo then
          (reg, font, [])
        else
          let font1 := fenv.readFont name
          ({ fonts_ := reg.fonts_.set reg.nFonts_ font1, nFonts_ := reg.nFonts_ + 1 },
            font1, [])

/-- The elements of a list that differ from their predecessor, `previous`
being the predecessor of the first element (if any): what the loop of
`ExtractQuadCorners` selects from `sorted`. -/
def selectChanges : Option Nat → List Nat → List Nat
  | _, [] => []
  | previous, x :: rest =>
    if previous = none ∨ previous ≠ some x then x :: selectChanges (some x) rest
    else selectChanges (some x) rest
/-! ## Sample data -/

/-- A sample heap: material `0` is in bucket 3 (Opaque in the original
engine's numbering), every other material in bucket 9 (a blend bucket). -/
def sampleMem : MaterialMem := fun p =>
  { fogPass := MaterialFogPass.None, index := p, noFog := false, numUnfoggedPasses := 1,
    polygonOffset := false, reflective := MaterialReflective.None, remappedShader := none,
    skyOuterbox := [10, 11, 12, 13, 14, 15], sort := if p = 0 then 3 else 9,
    stages := [{ active := true, adjustColorsForFog := MaterialAdjustColorsForFog.None,
                 alphaTest := MaterialAlphaTest.None, bloom := false, state := 0 }] }

/-- A sample draw call with the material `m` and the sort key `s`. -/
def sampleDrawCall (m : MaterialPtr) (s : ℚ) : DrawCall :=
  { dynamicLighting := false, flags := 0, fogIndex := -1, material := m, skyboxSide := 0,
    softSpriteDepth := 0, sort := s, state := 0, zOffset := 0, zScale := 0,
    vb := { type := BufferType.Static, transientHandle := [], firstVertex := 0, nVertices := 3 },
    ib := { type := BufferType.Static, transientHandle := [], firstIndex := 0, nIndices := 3 } }

/-- A sample triangle-fan polygon. -/
def samplePolygon (material : MaterialPtr) (fogIndex : Int) (firstVertex nVertices : Nat) :
    Polygon :=
  { fogIndex := fogIndex, firstVertex := firstVertex, material := material,
    nVertices := nVertices }

/-- A sample scene: four polygons of three (material, fog) groups, nothing
sorted yet, no draw calls yet. -/
def samplePolygonScene : PolygonScene :=
  { drawCalls_ := [],
    scenePolygons_ := [samplePolygon 1 0 0 4, samplePolygon 0 0 4 3, samplePolygon 1 0 7 3,
                       samplePolygon 1 2 10 5],
    sortedScenePolygons_ := [] }

/-- A sample scene with a single fan of 65538 vertices. -/
def wideFanScene : PolygonScene :=
  { drawCalls_ := [], scenePolygons_ := [samplePolygon 0 0 0 65538], sortedScenePolygons_ := [] }

/-- The outcome of `renderPolygons` on the sample scene when every allocation
succeeds. -/
def sampleOutcome : PolygonsOutcome :=
  (renderPolygonsCore stdSort sampleMem (sampleDrawCall 0 0) (fun _ => true)
    samplePolygonScene).getD { scene := samplePolygonScene, batches := [], allocFailed := false }

/-- The second batch of the sample outcome: the two polygons of material `1`
and fog index `0`. -/
def sampleBatch : PolygonBatch :=
  sampleOutcome.batches.getD 1
    { batchStart := 0, batchEnd := 0, drawCall := sampleDrawCall 0 0 }

/-- Sample values of the variant enumerators: one bit each. -/
def sampleVariants : GenericShaderProgramVariant :=
  { None := 0, AlphaTest := 1, DepthRange := 2, DynamicLights := 4, HDR := 8, SoftSprite := 16 }

/-- Sample values of the fog variant enumerators. -/
def sampleFogVariants : FogShaderProgramVariant := { None := 0, DepthRange := 1, HDR := 2 }

/-- Sample values of the draw-call flags. -/
def sampleDrawCallFlags : DrawCallFlags := { Sky := 1, Skybox := 2 }

/-- Sample values of the entity flags. -/
def sampleEntityFlags : EntityFlags := { FirstPerson := 4, ThirdPerson := 2 }

/-- Sample values of the camera flags. -/
def sampleRenderCameraFlags : RenderCameraFlags :=
  { ContainsSkyboxPortal := 1, IsSkyboxPortal := 2, UseClippingPlane := 4, UseStencilTest := 8 }

/-- Sample values of the scene flags. -/
def sampleSceneDefinitionFlags : SceneDefinitionFlags :=
  { ContainsSkyboxPortal := 1, Hyperspace := 2, SkyboxPortal := 4, World := 8 }

/-- The state and clear words as the bgfx headers of the time define them. -/
def sampleBgfxDefines : BgfxDefines :=
  { STATE_ALPHA_WRITE := 0x2, STATE_BLEND_ADD := 0x2222000, STATE_BLEND_ALPHA := 0x6565000,
    STATE_BLEND_FUNC_SRC_ALPHA_ONE := 0x2525000, STATE_BLEND_MASK := 0xffff000,
    STATE_DEPTH_TEST_ALWAYS := 0x80, STATE_DEPTH_TEST_EQUAL := 0x30,
    STATE_DEPTH_TEST_LEQUAL := 0x20, STATE_DEPTH_TEST_LESS := 0x10,
    STATE_DEPTH_TEST_MASK := 0xf0, STATE_DEPTH_WRITE := 0x4, STATE_MSAA := 0x1000000000000000,
    STATE_PT_LINES := 0x2000000000000, STATE_RGB_WRITE := 0x1,
    CLEAR_COLOR := 0x1, CLEAR_DEPTH := 0x2, CLEAR_NONE := 0x0, CLEAR_STENCIL := 0x4 }

/-- Sample globals: a world scene with soft sprites and HDR switched on. -/
def sampleGlobals : RenderGlobals :=
  { hdr := true, isWorldScene_ := true, softSpritesEnabled_ := true, wireframe := false }

/-- A sample stage without alpha test whose state word is `state`. -/
def sampleStage (alphaTest : MaterialAlphaTest) (state : Nat) : MaterialStage :=
  { active := true, adjustColorsForFog := MaterialAdjustColorsForFog.None,
    alphaTest := alphaTest, bloom := false, state := state }

/-- A sample sprite draw call: soft-sprite depth `depth`, z offset `zOffset`. -/
def sampleSpriteDrawCall (depth zOffset : ℚ) : DrawCall :=
  { sampleDrawCall 1 0 with softSpriteDepth := depth, zOffset := zOffset }

/-- A sample sky box draw call for the face `side`. -/
def sampleSkyboxDrawCall (side : Nat) : DrawCall :=
  { sampleDrawCall 1 0 with flags := sampleDrawCallFlags.Skybox, skyboxSide := side }

/-- A sample entity with the flags `flags`. -/
def sampleEntity (flags : Nat) : Entity :=
  { flags := flags, handle := 1, id := 0, type := EntityType.Model }

/-- A sample scene description with the flags `flags` and the time `time`. -/
def sampleScene (flags : Nat) (time : Int) : SceneDefinition :=
  { areaMask := [255], flags := flags, fov := { x := 90, y := 73 },
    position := { x := 1, y := 2, z := 3 }, rect := { x := 0, y := 0, w := 640, h := 480 },
    rotation := { row0 := { x := 1, y := 0, z := 0 }, row1 := { x := 0, y := 1, z := 0 },
                  row2 := { x := 0, y := 0, z := 1 } },
    time := time }

/-- A sample state of `Main` at the start of a frame: no views pushed, nothing
pending, no world scene yet. -/
def sampleMain : Main :=
  { aa_ := AntiAliasing.None, debugDraw_ := DebugDraw.None, drawCalls_ := [],
    firstFreeViewId_ := 0, frameNo_ := 7, isCameraMirrored_ := false, isWorldScene_ := false,
    sceneDebugAxis_ := [], sceneDebugBounds_ := [], sceneEntities_ := [],
    scenePolygonVertices_ := [], scenePolygons_ := [],
    sceneRotation_ := (sampleScene 0 0).rotation, skyboxPortalEnabled_ := false,
    skyboxPortalScene_ := sampleScene 0 0, sortedScenePolygons_ := [],
    stretchPicIndices_ := [], stretchPicMaterial_ := 0, stretchPicVertices_ := [],
    stretchPicViewId_ := UINT8_MAX, time_ := 0, warn := WarnOnceState.initial,
    allocRequests := 0, calls := [] }

/-- A sample environment: a loaded world without reflective or portal
surfaces and without geometry of its own, every transient-buffer request
granted, HDR and water reflections off, an 8-bit view counter, a 32-bit frame
counter. -/
def sampleEnv : Env :=
  { stdSortPolygons := stdSort, stdSortDrawCalls := stdSort, allocOk := fun _ => true,
    viewIdBits := 8, frameNoBits := 32, mem := sampleMem, dcInit := sampleDrawCall 0 0,
    debugDrawProgram := ShaderProgramId.Texture, getTime := 0, windowWidth := 640,
    windowHeight := 480, hdr := false, waterReflections := false, debugDrawSize := 128,
    debugDrawModified := false, debugDrawString := "none", worldIsLoaded := true,
    numLightmaps := 0, calculateReflectionCamera := fun _ _ _ => none,
    calculatePortalCamera := fun _ _ _ => none, renderReflective := fun _ => [],
    renderPortal := fun _ => [], skyDrawCalls := fun _ => [], worldDrawCalls := fun _ => [],
    entitySteps := fun _ _ => [], variants := sampleVariants, bgfx := sampleBgfxDefines,
    entityFlags := sampleEntityFlags, cameraFlags := sampleRenderCameraFlags,
    sceneFlags := sampleSceneDefinitionFlags }

/-- The arguments of a sample `pushView` call. -/
def samplePushViewArgs : FrameBufferId × Nat × Rect × Bool :=
  (FrameBufferId.defaultFb_, 0, { x := 0, y := 0, w := 640, h := 480 }, false)

/-- A sample camera transform. -/
def sampleTransform : Transform :=
  { position := { x := 4, y := 5, z := 6 }, rotation := (sampleScene 0 0).rotation }

/-- The sample environment with water reflections on and a world in which
every camera sees one reflecting surface and one portal surface. -/
def sampleMirrorEnv : Env :=
  { sampleEnv with
    waterReflections := true
    calculateReflectionCamera := fun _ _ _ => some (sampleTransform, Plane.default)
    calculatePortalCamera := fun _ _ _ =>
      some ({ x := 7, y := 8, z := 9 }, sampleTransform, false, Plane.default)
    renderReflective := fun _ => [sampleDrawCall 0 3]
    renderPortal := fun _ => [sampleDrawCall 0 3] }

/-- The arguments of a sample main-camera invocation. -/
def sampleCameraArgs : CameraArgs :=
  { visId := VisibilityId.Main, pvsPosition := (sampleScene 0 0).position,
    position := (sampleScene 0 0).position, rotation := (sampleScene 0 0).rotation,
    rect := (sampleScene 0 0).rect, fov := (sampleScene 0 0).fov,
    areaMask := (sampleScene 0 0).areaMask, clippingPlane := Plane.default, flags := 0 }

/-- The sample state inside a world scene. -/
def sampleWorldMain : Main := { sampleMain with isWorldScene_ := true }

/-- The sample environment with `r_hdr` on. -/
def sampleHdrEnv : Env := { sampleEnv with hdr := true }

/-- The sample state with the four sample polygons added to the scene and a
sky box portal pending. -/
def samplePendingMain : Main :=
  { sampleMain with
    skyboxPortalEnabled_ := true
    scenePolygons_ := samplePolygonScene.scenePolygons_
    scenePolygonVertices_ := List.range 15 }

/-- Sample values of the depth variant enumerators. -/
def sampleDepthVariants : DepthShaderProgramVariant :=
  { None := 0, AlphaTest := 1, DepthRange := 2 }

/-- Sample values for the depth pre-pass: bucket 3 is the Opaque bucket, the
cull mask is the one of the bgfx headers. -/
def sampleDepthPassDefines : DepthPassDefines :=
  { MaterialSort_Opaque := 3, STATE_CULL_MASK := 0x3000000000 }

/-- A sample heap for the passes of a draw call: material `0` is opaque with
one plain stage; material `1` is opaque with a plain stage, an inactive
alpha-test stage and an active alpha-test stage, and has a fog pass; material
`2` is a blended material without unfogged passes and without fog pass; every
other material is opaque, reflective and remapped to itself. -/
def samplePassMem : MaterialMem := fun p =>
  { fogPass := if p = 1 then MaterialFogPass.Equal else MaterialFogPass.None,
    index := p, noFog := false,
    numUnfoggedPasses := if p = 2 then 0 else 1,
    polygonOffset := false,
    reflective := if p ≤ 2 then MaterialReflective.None else MaterialReflective.kind 1,
    remappedShader := if p ≤ 2 then none else some p,
    skyOuterbox := [10, 11, 12, 13, 14, 15],
    sort := if p = 2 then 9 else 3,
    stages :=
      if p = 1 then
        [sampleStage MaterialAlphaTest.None 0,
         { sampleStage (MaterialAlphaTest.mode 1) 0 with active := false },
         sampleStage (MaterialAlphaTest.mode 2) 0]
      else [sampleStage MaterialAlphaTest.None 0] }

/-- A sample draw call of material `m` inside fog volume `fogIndex`. -/
def sampleFogDrawCall (m : MaterialPtr) (fogIndex : Int) : DrawCall :=
  { sampleDrawCall m 0 with fogIndex := fogIndex }

/-- A sample font record. -/
def sampleFont (name : String) : fontInfo_t := { glyphs := [1, 2, 3], glyphScale := 1, name := name }

/-- A blank font record of a caller. -/
def blankFont : fontInfo_t := { glyphs := [], glyphScale := 0, name := "" }

/-- A sample registry of six slots with one font registered, of point size
12. -/
def sampleFontRegistry : FontRegistry :=
  { fonts_ := sampleFont "fonts/fontImage_12.dat" :: List.replicate 5 blankFont, nFonts_ := 1 }

/-- A sample font environment: room for six fonts, no font file on disk has the
right size. -/
def sampleFontEnv : FontEnv :=
  { maxFonts_ := 6, sizeofFontInfo := 20548, fileLength := fun _ => -1,
    readFont := fun name => sampleFont name }

/-- The sample state with one quad pending in the 2D batch. -/
def samplePending2DMain : Main :=
  { sampleMain with stretchPicVertices_ := [1, 2, 3, 4],
                    stretchPicIndices_ := [3, 0, 2, 2, 0, 1] }

/-- The sample state with the frame counter at the largest 32-bit value. -/
def sampleLastFrameMain : Main := { sampleMain with frameNo_ := 4294967295 }

/-- The sample state in the middle of a frame: three views pushed, one quad
pending in the 2D batch, whose view is view 2. -/
def sampleMidFrameMain : Main :=
  { sampleMain with firstFreeViewId_ := 3, stretchPicViewId_ := 2,
                    stretchPicVertices_ := [1, 2, 3, 4],
                    stretchPicIndices_ := [3, 0, 2, 2, 0, 1] }

/-! ## Properties of the draw-call order -/

theorem DrawCall.lt_iff (mem : MaterialMem) (a b : DrawCall) :
    DrawCall.lt mem a b = true ↔ keyLexLt (a.key mem) (b.key mem) := by
  unfold DrawCall.lt keyLexLt DrawCall.key
  simp only
  split_ifs with h1 h2 h3 h4 h5
  · simp [h1]
  · simp [h2, h3]
  · simp [h2, h4, h5]
  · simp [h2, h4, h5]
  · simp only [Bool.false_eq_true, false_iff, not_or, not_and]
    exact ⟨h1, fun _ => ⟨h3, fun h => absurd h h4⟩⟩
  · simp only [Bool.false_eq_true, false_iff, not_or, not_and]
    exact ⟨h1, fun h => absurd h h2⟩

theorem keyLexLt_iff_prodLex (k l : ℚ × ℚ × Int) :
    keyLexLt k l ↔ Prod.Lex (· < ·) (Prod.Lex (· < ·) (· < ·)) k l := by
  obtain ⟨k1, k2, k3⟩ := k
  obtain ⟨l1, l2, l3⟩ := l
  simp only [keyLexLt, Prod.lex_def]

theorem keyLexLt_irrefl (k : ℚ × ℚ × Int) : ¬ keyLexLt k k := by
  unfold keyLexLt
  simp

theorem keyLexLt_trans {k l m : ℚ × ℚ × Int} (h1 : keyLexLt k l) (h2 : keyLexLt l m) :
    keyLexLt k m := by
  unfold keyLexLt at *
  rcases h1 with h1 | ⟨e1, h1 | ⟨e1', h1⟩⟩ <;> rcases h2 with h2 | ⟨e2, h2 | ⟨e2', h2⟩⟩
  · exact Or.inl (lt_trans h1 h2)
  · exact Or.inl (e2 ▸ h1)
  · exact Or.inl (e2 ▸ h1)
  · exact Or.inl (e1 ▸ h2)
  · exact Or.inr ⟨e1.trans e2, Or.inl (lt_trans h1 h2)⟩
  · exact Or.inr ⟨e1.trans e2, Or.inl (e2' ▸ h1)⟩
  · exact Or.inl (e1 ▸ h2)
  · exact Or.inr ⟨e1.trans e2, Or.inl (e1' ▸ h2)⟩
  · exact Or.inr ⟨e1.trans e2, Or.inr ⟨e1'.trans e2', lt_trans h1 h2⟩⟩

theorem keyLexLt_trichotomy (k l : ℚ × ℚ × Int) :
    (keyLexLt k l ∧ ¬ keyLexLt l k ∧ k ≠ l) ∨ (¬ keyLexLt k l ∧ keyLexLt l k ∧ k ≠ l) ∨
      (¬ keyLexLt k l ∧ ¬ keyLexLt l k ∧ k = l) := by
  obtain ⟨k1, k2, k3⟩ := k
  obtain ⟨l1, l2, l3⟩ := l
  simp only [keyLexLt, Prod.mk.injEq, ne_eq]
  rcases lt_trichotomy k1 l1 with h | h | h
  · left
    refine ⟨Or.inl h, ?_, fun e => absurd e.1 (ne_of_lt h)⟩
    rintro (h' | ⟨e, _⟩)
    · exact lt_asymm h h'
    · exact (ne_of_lt h) e.symm
  · subst h
    rcases lt_trichotomy k2 l2 with h | h | h
    · left
      refine ⟨Or.inr ⟨rfl, Or.inl h⟩, ?_, fun e => absurd e.2.1 (ne_of_lt h)⟩
      rintro (h' | ⟨_, h' | ⟨e, _⟩⟩)
      · exact lt_irrefl _ h'
      · exact lt_asymm h h'
      · exact (ne_of_lt h) e.symm
    · subst h
      rcases lt_trichotomy k3 l3 with h | h | h
      · left
        refine ⟨Or.inr ⟨rfl, Or.inr ⟨rfl, h⟩⟩, ?_, fun e => absurd e.2.2 (ne_of_lt h)⟩
        rintro (h' | ⟨_, h' | ⟨_, h'⟩⟩)
        · exact lt_irrefl _ h'
        · exact lt_irrefl _ h'
        · exact lt_asymm h h'
      · subst h
        right; right
        simp
      · right; left
        refine ⟨?_, Or.inr ⟨rfl, Or.inr ⟨rfl, h⟩⟩, fun e => absurd e.2.2 (ne_of_gt h)⟩
        rintro (h' | ⟨_, h' | ⟨_, h'⟩⟩)
        · exact lt_irrefl _ h'
        · exact lt_irrefl _ h'
        · exact lt_asymm h h'
    · right; left
      refine ⟨?_, Or.inr ⟨rfl, Or.inl h⟩, fun e => absurd e.2.1 (ne_of_gt h)⟩
      rintro (h' | ⟨_, h' | ⟨e, _⟩⟩)
      · exact lt_irrefl _ h'
      · exact lt_asymm h h'
      · exact (ne_of_gt h) e
  · right; left
    refine ⟨?_, Or.inl h, fun e => absurd e.1 (ne_of_gt h)⟩
    rintro (h' | ⟨e, _⟩)
    · exact lt_asymm h h'
    · exact (ne_of_gt h) e

theorem DrawCall.lt_irrefl (mem : MaterialMem) (a : DrawCall) : DrawCall.lt mem a a = false := by
  have h := (DrawCall.lt_iff mem a a).not.mpr (keyLexLt_irrefl _)
  simpa using h

theorem DrawCall.lt_trans (mem : MaterialMem) {a b c : DrawCall}
    (hab : DrawCall.lt mem a b = true) (hbc : DrawCall.lt mem b c = true) :
    DrawCall.lt mem a c = true :=
  (DrawCall.lt_iff mem a c).mpr
    (keyLexLt_trans ((DrawCall.lt_iff mem a b).mp hab) ((DrawCall.lt_iff mem b c).mp hbc))

theorem DrawCall.lt_asymm (mem : MaterialMem) {a b : DrawCall}
    (hab : DrawCall.lt mem a b = true) : DrawCall.lt mem b a = false := by
  cases hba : DrawCall.lt mem b a
  · rfl
  · have h := DrawCall.lt_trans mem hab hba
    rw [DrawCall.lt_irrefl] at h
    exact absurd h (by decide)

/-- Where `operator<` does not order `b` before `a`, the bucket of `a` is at
most the bucket of `b`. -/
theorem DrawCall.bucket_le_of_not_lt (mem : MaterialMem) {a b : DrawCall}
    (h : DrawCall.lt mem b a = false) :
    (mem a.material).sort ≤ (mem b.material).sort := by
  by_contra hlt
  have hlt' : (mem b.material).sort < (mem a.material).sort := lt_of_not_ge hlt
  have : DrawCall.lt mem b a = true := (DrawCall.lt_iff mem b a).mpr (Or.inl hlt')
  rw [h] at this
  exact absurd this (by decide)

theorem DrawCall.lt_negTrans (mem : MaterialMem) {a b c : DrawCall}
    (hab : DrawCall.lt mem a b = false) (hbc : DrawCall.lt mem b c = false) :
    DrawCall.lt mem a c = false := by
  cases hac : DrawCall.lt mem a c
  · rfl
  · exfalso
    have kac := (DrawCall.lt_iff mem a c).mp hac
    have nab : ¬ keyLexLt (a.key mem) (b.key mem) := fun h => by
      rw [(DrawCall.lt_iff mem a b).mpr h] at hab
      exact absurd hab (by decide)
    have nbc : ¬ keyLexLt (b.key mem) (c.key mem) := fun h => by
      rw [(DrawCall.lt_iff mem b c).mpr h] at hbc
      exact absurd hbc (by decide)
    rcases keyLexLt_trichotomy (a.key mem) (b.key mem) with h | h | h
    · exact nab h.1
    · exact nbc (keyLexLt_trans h.2.1 kac)
    · rw [h.2.2] at kac
      exact nbc kac

/-! ## Properties of the sort model -/

theorem stdSortInsert_perm {α : Type} (comp : α → α → Bool) (x : α) :
    ∀ l : List α, (stdSortInsert comp x l).Perm (x :: l)
  | [] => List.Perm.refl _
  | y :: ys => by
    unfold stdSortInsert
    split_ifs
    · exact List.Perm.refl _
    · exact ((stdSortInsert_perm comp x ys).cons y).trans (List.Perm.swap x y ys)

theorem stdSort_perm {α : Type} (comp : α → α → Bool) :
    ∀ l : List α, (stdSort comp l).Perm l
  | [] => List.Perm.refl _
  | x :: xs => by
    unfold stdSort
    exact (stdSortInsert_perm comp x _).trans ((stdSort_perm comp xs).cons x)

theorem stdSortInsert_pairwise {α : Type} (comp : α → α → Bool)
    (hasym : ∀ a b, comp a b = true → comp b a = false)
    (hneg : ∀ a b c, comp a b = false → comp b c = false → comp a c = false) (x : α) :
    ∀ l : List α, l.Pairwise (fun a b => comp b a = false) →
      (stdSortInsert comp x l).Pairwise (fun a b => comp b a = false)
  | [], _ => by simp [stdSortInsert]
  | y :: ys, h => by
    unfold stdSortInsert
    rw [List.pairwise_cons] at h
    split_ifs with hxy
    · refine List.Pairwise.cons ?_ (List.Pairwise.cons h.1 h.2)
      intro z hz
      rcases List.mem_cons.mp hz with rfl | hz
      · exact hasym _ _ hxy
      · exact hneg _ _ _ (h.1 z hz) (hasym _ _ hxy)
    · refine List.Pairwise.cons ?_ (stdSortInsert_pairwise comp hasym hneg x ys h.2)
      intro z hz
      rcases List.mem_cons.mp ((stdSortInsert_perm comp x ys).subset hz) with rfl | hz
      · simpa using hxy
      · exact h.1 z hz

theorem stdSort_pairwise {α : Type} (comp : α → α → Bool)
    (hasym : ∀ a b, comp a b = true → comp b a = false)
    (hneg : ∀ a b c, comp a b = false → comp b c = false → comp a c = false) :
    ∀ l : List α, (stdSort comp l).Pairwise (fun a b => comp b a = false)
  | [] => List.Pairwise.nil
  | x :: xs => by
    unfold stdSort
    exact stdSortInsert_pairwise comp hasym hneg x _ (stdSort_pairwise comp hasym hneg xs)

theorem sortDrawCalls_isStdSortResult (mem : MaterialMem) (drawCalls : List DrawCall) :
    IsStdSortResult (DrawCall.lt mem) drawCalls (sortDrawCalls mem drawCalls) :=
  ⟨stdSort_perm (DrawCall.lt mem) drawCalls,
    stdSort_pairwise (DrawCall.lt mem) (fun _ _ h => DrawCall.lt_asymm mem h)
      (fun _ _ _ h1 h2 => DrawCall.lt_negTrans mem h1 h2) drawCalls⟩

/-! ## Claims -/

/-- C1: whatever the input order of the draw calls, after the sort that
`renderCamera` performs with `DrawCall::operator<` the material sort bucket is
non-decreasing along the list: for all positions `i < j` the bucket at `i` is at
most the bucket at `j`, so a call of a bucket `o` (such as Opaque) never follows
a call of a higher bucket.  This holds for every outcome `std::sort` may
produce, and the executable sort is one such outcome. -/
theorem sorted_drawCalls_bucket_nondecreasing (mem : MaterialMem) (drawCalls : List DrawCall) :
    IsStdSortResult (DrawCall.lt mem) drawCalls (sortDrawCalls mem drawCalls) ∧
    ∀ sorted : List DrawCall, IsStdSortResult (DrawCall.lt mem) drawCalls sorted →
      (∀ i j : Nat, i < j → ∀ hi : i < sorted.length, ∀ hj : j < sorted.length,
        (mem (sorted.get ⟨i, hi⟩).material).sort ≤ (mem (sorted.get ⟨j, hj⟩).material).sort) ∧
      (∀ o : ℚ, ∀ i j : Nat, i < j → ∀ hi : i < sorted.length, ∀ hj : j < sorted.length,
        (mem (sorted.get ⟨j, hj⟩).material).sort = o →
          ¬ o < (mem (sorted.get ⟨i, hi⟩).material).sort) := by
  refine ⟨sortDrawCalls_isStdSortResult mem drawCalls, ?_⟩
  intro sorted hs
  have key : ∀ i j : Nat, i < j → ∀ hi : i < sorted.length, ∀ hj : j < sorted.length,
      (mem (sorted.get ⟨i, hi⟩).material).sort ≤ (mem (sorted.get ⟨j, hj⟩).material).sort := by
    intro i j hij hi hj
    have hp := List.pairwise_iff_getElem.mp hs.2 i j hi hj hij
    exact DrawCall.bucket_le_of_not_lt mem hp
  refine ⟨key, ?_⟩
  intro o i j hij hi hj ho
  rw [← ho]
  exact not_lt.mpr (key i j hij hi hj)

/-- C2: `DrawCall::operator<` is exactly the strict lexicographic order on the
key (material.sort, sort, material.index); it is irreflexive and transitive, and
for any two draw calls exactly one of `a < b`, `b < a`, "the three key
components are equal" holds. -/
theorem drawCall_lt_is_strict_lex_order (mem : MaterialMem) :
    (∀ a b : DrawCall, DrawCall.lt mem a b = true ↔ keyLexLt (a.key mem) (b.key mem)) ∧
    (∀ a b : DrawCall, DrawCall.lt mem a b = true ↔
      Prod.Lex (· < ·) (Prod.Lex (· < ·) (· < ·)) (a.key mem) (b.key mem)) ∧
    (∀ a : DrawCall, DrawCall.lt mem a a = false) ∧
    (∀ a b c : DrawCall, DrawCall.lt mem a b = true → DrawCall.lt mem b c = true →
      DrawCall.lt mem a c = true) ∧
    (∀ a b : DrawCall,
      (DrawCall.lt mem a b = true ∧ DrawCall.lt mem b a = false ∧ a.key mem ≠ b.key mem) ∨
      (DrawCall.lt mem a b = false ∧ DrawCall.lt mem b a = true ∧ a.key mem ≠ b.key mem) ∨
      (DrawCall.lt mem a b = false ∧ DrawCall.lt mem b a = false ∧ a.key mem = b.key mem)) := by
  refine ⟨DrawCall.lt_iff mem, ?_, DrawCall.lt_irrefl mem, fun a b c => DrawCall.lt_trans mem, ?_⟩
  · intro a b
    rw [DrawCall.lt_iff, keyLexLt_iff_prodLex]
  · intro a b
    have hn : ∀ x y : DrawCall, ¬ keyLexLt (x.key mem) (y.key mem) → DrawCall.lt mem x y = false := by
      intro x y h
      cases hxy : DrawCall.lt mem x y
      · rfl
      · exact absurd ((DrawCall.lt_iff mem x y).mp hxy) h
    rcases keyLexLt_trichotomy (a.key mem) (b.key mem) with h | h | h
    · exact Or.inl ⟨(DrawCall.lt_iff mem a b).mpr h.1, hn _ _ h.2.1, h.2.2⟩
    · exact Or.inr (Or.inl ⟨hn _ _ h.1, (DrawCall.lt_iff mem b a).mpr h.2.1, h.2.2⟩)
    · exact Or.inr (Or.inr ⟨hn _ _ h.1, hn _ _ h.2.1, h.2.2⟩)

/-- C1 at a sample list: a blend-bucket call submitted before an opaque call
ends up after it. -/
theorem sorted_drawCalls_bucket_nondecreasing_witness :
    IsStdSortResult (DrawCall.lt sampleMem) [sampleDrawCall 1 0, sampleDrawCall 0 5]
      [sampleDrawCall 0 5, sampleDrawCall 1 0] ∧
    (sampleMem (sampleDrawCall 0 5).material).sort ≤
      (sampleMem (sampleDrawCall 1 0).material).sort :=
  have h : IsStdSortResult (DrawCall.lt sampleMem) [sampleDrawCall 1 0, sampleDrawCall 0 5]
      [sampleDrawCall 0 5, sampleDrawCall 1 0] :=
    (sorted_drawCalls_bucket_nondecreasing sampleMem
      [sampleDrawCall 1 0, sampleDrawCall 0 5]).1
  ⟨h, ((sorted_drawCalls_bucket_nondecreasing sampleMem
      [sampleDrawCall 1 0, sampleDrawCall 0 5]).2 _ h).1 0 1 (by decide) (by decide) (by decide)⟩

/-! ## The polygon batcher: the scan loop -/

theorem renderPolygonsLoop_succ (scenePolygons : List Polygon) (sorted : List Nat)
    (dcInit : DrawCall) (allocOk : Nat → Bool) (budget batchNo batchStart : Nat) :
    renderPolygonsLoop scenePolygons sorted dcInit allocOk (budget + 1) batchNo batchStart =
      if !allocOk batchNo then some ([], true)
      else if (batchAt scenePolygons sorted dcInit batchStart).batchEnd + 1 ≥ sorted.length then
        some ([batchAt scenePolygons sorted dcInit batchStart], false)
      else
        match renderPolygonsLoop scenePolygons sorted dcInit allocOk budget (batchNo + 1)
            ((batchAt scenePolygons sorted dcInit batchStart).batchEnd + 1) with
        | none => none
        | some (batches, failed) =>
          some (batchAt scenePolygons sorted dcInit batchStart :: batches, failed) := rfl

theorem scanBatch_fst (scenePolygons : List Polygon) (first : Polygon) :
    ∀ (rest : List Nat) (batchEnd nVertices nIndices : Nat),
      (scanBatch scenePolygons first rest batchEnd nVertices nIndices).1 =
        batchEnd + (rest.takeWhile (inGroup scenePolygons first)).length
  | [], _, _, _ => by simp [scanBatch]
  | ptr :: rest, batchEnd, nVertices, nIndices => by
    unfold scanBatch
    by_cases h : (polygonAt scenePolygons ptr).material = first.material ∧
        (polygonAt scenePolygons ptr).fogIndex = first.fogIndex
    · have hg : inGroup scenePolygons first ptr = true := by simp [inGroup, h]
      have hc : ¬ ((polygonAt scenePolygons ptr).material ≠ first.material ∨
          (polygonAt scenePolygons ptr).fogIndex ≠ first.fogIndex) := by
        rw [not_or]; exact ⟨not_not.mpr h.1, not_not.mpr h.2⟩
      rw [if_neg hc, scanBatch_fst scenePolygons first rest, List.takeWhile_cons, hg]
      simp only [if_true, List.length_cons]
      omega
    · have hg : inGroup scenePolygons first ptr = false := by simp [inGroup, h]
      have hc : (polygonAt scenePolygons ptr).material ≠ first.material ∨
          (polygonAt scenePolygons ptr).fogIndex ≠ first.fogIndex := by
        by_contra hc
        rw [not_or] at hc
        exact h ⟨not_not.mp hc.1, not_not.mp hc.2⟩
      rw [if_pos hc, List.takeWhile_cons, hg]
      simp

theorem groupLength_pos (scenePolygons : List Polygon) (sorted : List Nat) (batchStart : Nat)
    (h : batchStart < sorted.length) : 0 < groupLength scenePolygons sorted batchStart := by
  unfold groupLength
  rw [List.drop_eq_getElem_cons h, List.takeWhile_cons]
  have hg : inGroup scenePolygons (polygonAt scenePolygons (sorted.getD batchStart 0))
      sorted[batchStart] = true := by
    simp [inGroup, List.getElem?_eq_getElem h]
  rw [hg]
  simp

theorem groupLength_le (scenePolygons : List Polygon) (sorted : List Nat) (batchStart : Nat) :
    batchStart + groupLength scenePolygons sorted batchStart ≤ max batchStart sorted.length := by
  unfold groupLength
  have h1 := (List.takeWhile_sublist (l := sorted.drop batchStart)
    (inGroup scenePolygons (polygonAt scenePolygons (sorted.getD batchStart 0)))).length_le
  rw [List.length_drop] at h1
  omega

theorem batchAt_batchStart (scenePolygons : List Polygon) (sorted : List Nat) (dcInit : DrawCall)
    (batchStart : Nat) : (batchAt scenePolygons sorted dcInit batchStart).batchStart = batchStart :=
  rfl

theorem batchAt_batchEnd (scenePolygons : List Polygon) (sorted : List Nat) (dcInit : DrawCall)
    (batchStart : Nat) (h : batchStart < sorted.length) :
    (batchAt scenePolygons sorted dcInit batchStart).batchEnd + 1 =
      batchStart + groupLength scenePolygons sorted batchStart := by
  have hpos := groupLength_pos scenePolygons sorted batchStart h
  show max batchStart (sizeDec (scanBatch scenePolygons _ _ batchStart 0 0).1) + 1 = _
  rw [scanBatch_fst]
  unfold groupLength at hpos ⊢
  unfold sizeDec
  split_ifs with h0
  · omega
  · omega

/-! ## The polygon batcher: the batching loop -/

theorem range'_split (s e l : Nat) (h1 : s ≤ e) (h2 : e ≤ l) :
    List.range' s (e - s) ++ List.range' e (l - e) = List.range' s (l - s) := by
  obtain ⟨a, rfl⟩ := Nat.exists_eq_add_of_le h1
  obtain ⟨b, rfl⟩ := Nat.exists_eq_add_of_le h2
  have e1 : s + a - s = a := by omega
  have e2 : s + a + b - (s + a) = b := by omega
  have e3 : s + a + b - s = a + b := by omega
  rw [e1, e2, e3, List.range'_append_1, Nat.add_comm b a]

/-- The index range `[batchStart, batchEnd]` of a batch. -/
theorem batchAt_range (scenePolygons : List Polygon) (sorted : List Nat) (dcInit : DrawCall)
    (batchStart : Nat) (h : batchStart < sorted.length) :
    (batchAt scenePolygons sorted dcInit batchStart).batchEnd + 1 -
        (batchAt scenePolygons sorted dcInit batchStart).batchStart =
      groupLength scenePolygons sorted batchStart := by
  rw [batchAt_batchEnd _ _ _ _ h, batchAt_batchStart]
  omega

theorem batchAt_batchEnd_lt (scenePolygons : List Polygon) (sorted : List Nat) (dcInit : DrawCall)
    (batchStart : Nat) (h : batchStart < sorted.length) :
    batchStart ≤ (batchAt scenePolygons sorted dcInit batchStart).batchEnd ∧
      (batchAt scenePolygons sorted dcInit batchStart).batchEnd < sorted.length := by
  have h1 := batchAt_batchEnd scenePolygons sorted dcInit batchStart h
  have h2 := groupLength_pos scenePolygons sorted batchStart h
  have h3 := groupLength_le scenePolygons sorted batchStart
  rw [max_eq_right (le_of_lt h)] at h3
  omega

/-- Every batch the loop emits, whatever the allocator answers, is the batch
`batchAt` builds at its own start position, and that position is inside the
sorted vector. -/
theorem renderPolygonsLoop_batches (scenePolygons : List Polygon) (sorted : List Nat)
    (dcInit : DrawCall) (allocOk : Nat → Bool) :
    ∀ (budget batchNo batchStart : Nat) (batches : List PolygonBatch) (failed : Bool),
      batchStart < sorted.length →
      renderPolygonsLoop scenePolygons sorted dcInit allocOk budget batchNo batchStart =
        some (batches, failed) →
      ∀ b ∈ batches, b.batchStart < sorted.length ∧
        b = batchAt scenePolygons sorted dcInit b.batchStart
  | 0, _, _, _, _, _, h => by simp [renderPolygonsLoop] at h
  | budget + 1, batchNo, batchStart, batches, failed, hlt, h => by
    rw [renderPolygonsLoop_succ] at h
    split_ifs at h with ha he
    · simp only [Option.some.injEq, Prod.mk.injEq] at h
      intro b hb
      rw [← h.1] at hb
      simp at hb
    · simp only [Option.some.injEq, Prod.mk.injEq] at h
      intro b hb
      rw [← h.1] at hb
      rw [List.mem_singleton] at hb
      subst hb
      exact ⟨hlt, rfl⟩
    · cases hrec : renderPolygonsLoop scenePolygons sorted dcInit allocOk budget (batchNo + 1)
          ((batchAt scenePolygons sorted dcInit batchStart).batchEnd + 1) with
      | none => rw [hrec] at h; simp at h
      | some r =>
        obtain ⟨bs, f⟩ := r
        rw [hrec] at h
        simp only [Option.some.injEq, Prod.mk.injEq] at h
        have ih := renderPolygonsLoop_batches scenePolygons sorted dcInit allocOk budget
          (batchNo + 1) _ bs f (by omega) hrec
        intro b hb
        rw [← h.1] at hb
        rcases List.mem_cons.mp hb with rfl | hb
        · exact ⟨hlt, rfl⟩
        · exact ih b hb

/-- With every allocation succeeding and an iteration budget of at least the
number of pointers left, the loop runs to its end and the index ranges of its
batches, concatenated, are the positions from `batchStart` to the end of the
sorted vector. -/
theorem renderPolygonsLoop_allOk (scenePolygons : List Polygon) (sorted : List Nat)
    (dcInit : DrawCall) :
    ∀ (budget batchNo batchStart : Nat), batchStart < sorted.length →
      sorted.length - batchStart ≤ budget →
      ∃ batches : List PolygonBatch,
        renderPolygonsLoop scenePolygons sorted dcInit (fun _ => true) budget batchNo batchStart =
          some (batches, false) ∧
        batches.flatMap (fun b => List.range' b.batchStart (b.batchEnd + 1 - b.batchStart)) =
          List.range' batchStart (sorted.length - batchStart)
  | 0, _, batchStart, hlt, hb => by omega
  | budget + 1, batchNo, batchStart, hlt, hb => by
    rw [renderPolygonsLoop_succ]
    have hr := batchAt_range scenePolygons sorted dcInit batchStart hlt
    have he := batchAt_batchEnd scenePolygons sorted dcInit batchStart hlt
    have hle := batchAt_batchEnd_lt scenePolygons sorted dcInit batchStart hlt
    simp only [Bool.not_true, Bool.false_eq_true, if_false]
    split_ifs with hend
    · refine ⟨[batchAt scenePolygons sorted dcInit batchStart], rfl, ?_⟩
      simp only [List.flatMap_cons, List.flatMap_nil, List.append_nil]
      rw [batchAt_batchStart]
      congr 1
      omega
    · obtain ⟨bs, hbs, hflat⟩ := renderPolygonsLoop_allOk scenePolygons sorted dcInit budget
        (batchNo + 1) ((batchAt scenePolygons sorted dcInit batchStart).batchEnd + 1)
        (by omega) (by omega)
      refine ⟨batchAt scenePolygons sorted dcInit batchStart :: bs, ?_, ?_⟩
      · rw [hbs]
      · rw [List.flatMap_cons, hflat, batchAt_batchStart]
        exact range'_split _ _ _ (by omega) (by omega)

theorem map_getD_range' (l : List Nat) :
    ∀ (n s : Nat), s + n ≤ l.length →
      (List.range' s n).map (fun i => l.getD i 0) = (l.drop s).take n
  | 0, _, _ => by simp
  | n + 1, s, h => by
    have hs : s < l.length := by omega
    rw [List.range'_succ, List.map_cons, List.drop_eq_getElem_cons hs, List.take_succ_cons,
      map_getD_range' l n (s + 1) (by omega), List.getD_eq_getElem l 0 hs]

/-- The pointers of the batch built at `batchStart` are the run of pointers of
the same group that starts there. -/
theorem batchAt_members (scenePolygons : List Polygon) (sorted : List Nat) (dcInit : DrawCall)
    (batchStart : Nat) (h : batchStart < sorted.length) :
    (batchAt scenePolygons sorted dcInit batchStart).members sorted =
      (sorted.drop batchStart).takeWhile
        (inGroup scenePolygons (polygonAt scenePolygons (sorted.getD batchStart 0))) := by
  unfold PolygonBatch.members
  rw [batchAt_range _ _ _ _ h, batchAt_batchStart]
  have hle := groupLength_le scenePolygons sorted batchStart
  rw [max_eq_right (le_of_lt h)] at hle
  rw [map_getD_range' sorted _ _ hle]
  exact (List.prefix_iff_eq_take.mp (List.takeWhile_prefix _)).symm

/-- The list the fill loop of the batch built at `batchStart` walks over is
the list of the batch's pointers. -/
theorem batchAt_fill_list (scenePolygons : List Polygon) (sorted : List Nat) (dcInit : DrawCall)
    (batchStart : Nat) (h : batchStart < sorted.length) :
    (sorted.drop batchStart).take
        ((batchAt scenePolygons sorted dcInit batchStart).batchEnd + 1 - batchStart) =
      (batchAt scenePolygons sorted dcInit batchStart).members sorted := by
  have hr := batchAt_range scenePolygons sorted dcInit batchStart h
  rw [batchAt_batchStart] at hr
  rw [batchAt_members _ _ _ _ h, hr]
  exact (List.prefix_iff_eq_take.mp (List.takeWhile_prefix _)).symm

theorem batchAt_members_ne_nil (scenePolygons : List Polygon) (sorted : List Nat)
    (dcInit : DrawCall) (batchStart : Nat) (h : batchStart < sorted.length) :
    (batchAt scenePolygons sorted dcInit batchStart).members sorted ≠ [] := by
  intro hnil
  have hpos := groupLength_pos scenePolygons sorted batchStart h
  rw [batchAt_members _ _ _ _ h] at hnil
  unfold groupLength at hpos
  rw [hnil] at hpos
  simp at hpos

theorem batchAt_members_subset (scenePolygons : List Polygon) (sorted : List Nat)
    (dcInit : DrawCall) (batchStart : Nat) (h : batchStart < sorted.length) :
    ∀ ptr ∈ (batchAt scenePolygons sorted dcInit batchStart).members sorted, ptr ∈ sorted := by
  intro ptr hptr
  rw [batchAt_members _ _ _ _ h] at hptr
  exact List.drop_subset _ _ (List.takeWhile_subset _ hptr)

/-- Every polygon of the batch built at `batchStart` has the material and the
fog index of the batch's draw call. -/
theorem batchAt_homogeneous (scenePolygons : List Polygon) (sorted : List Nat)
    (dcInit : DrawCall) (batchStart : Nat) (h : batchStart < sorted.length) :
    ∀ ptr ∈ (batchAt scenePolygons sorted dcInit batchStart).members sorted,
      (polygonAt scenePolygons ptr).material =
          (batchAt scenePolygons sorted dcInit batchStart).drawCall.material ∧
        (polygonAt scenePolygons ptr).fogIndex =
          (batchAt scenePolygons sorted dcInit batchStart).drawCall.fogIndex := by
  intro ptr hptr
  rw [batchAt_members _ _ _ _ h] at hptr
  have hp := List.mem_takeWhile_imp hptr
  unfold inGroup at hp
  exact of_decide_eq_true hp

/-- The pointers of batches whose index ranges concatenate to `range' s n`,
concatenated, are the corresponding part of the sorted vector. -/
theorem flatMap_members (sorted : List Nat) (batches : List PolygonBatch) (s n : Nat)
    (hsn : s + n ≤ sorted.length)
    (h : batches.flatMap (fun b => List.range' b.batchStart (b.batchEnd + 1 - b.batchStart)) =
      List.range' s n) :
    batches.flatMap (fun b => b.members sorted) = (sorted.drop s).take n := by
  have h1 : batches.flatMap (fun b => b.members sorted) =
      (batches.flatMap
        (fun b => List.range' b.batchStart (b.batchEnd + 1 - b.batchStart))).map
        (fun i => sorted.getD i 0) := by
    rw [List.map_flatMap]
    rfl
  rw [h1, h, map_getD_range' sorted n s hsn]

theorem flatMap_nodup_unique {α β : Type} (f : α → List β) :
    ∀ (l : List α), (l.flatMap f).Nodup →
      ∀ (k k' : Nat) (hk : k < l.length) (hk' : k' < l.length) (x : β),
        x ∈ f (l.get ⟨k, hk⟩) → x ∈ f (l.get ⟨k', hk'⟩) → k = k'
  | [], _, k, _, hk, _, _, _, _ => by simp at hk
  | a :: t, hnd, k, k', hk, hk', x, hx, hx' => by
    rw [List.flatMap_cons, List.nodup_append] at hnd
    obtain ⟨_, hnt, hdisj⟩ := hnd
    cases k with
    | zero =>
      cases k' with
      | zero => rfl
      | succ j' =>
        exfalso
        simp only [List.get_eq_getElem, List.getElem_cons_zero] at hx
        simp only [List.get_eq_getElem, List.getElem_cons_succ] at hx'
        exact hdisj hx (List.mem_flatMap.mpr ⟨_, List.getElem_mem _, hx'⟩)
    | succ j =>
      cases k' with
      | zero =>
        exfalso
        simp only [List.get_eq_getElem, List.getElem_cons_succ] at hx
        simp only [List.get_eq_getElem, List.getElem_cons_zero] at hx'
        exact hdisj hx' (List.mem_flatMap.mpr ⟨_, List.getElem_mem _, hx⟩)
      | succ j' =>
        simp only [List.get_eq_getElem, List.getElem_cons_succ] at hx hx'
        have := flatMap_nodup_unique f t hnt j j' (by simpa using hk) (by simpa using hk') x
          (by simpa using hx) (by simpa using hx')
        omega

/-- A `renderPolygons` call that starts with an empty sorted vector and whose
allocations all succeed: it returns, and its batches partition the polygons
into groups of one material and one fog index. -/
theorem renderPolygonsCore_allOk
    (stdSortImpl : (Nat → Nat → Bool) → List Nat → List Nat)
    (hperm : ∀ (comp : Nat → Nat → Bool) (l : List Nat), (stdSortImpl comp l).Perm l)
    (mem : MaterialMem) (dcInit : DrawCall) (s : PolygonScene)
    (hempty : s.sortedScenePolygons_ = []) :
    ∃ out : PolygonsOutcome,
      renderPolygonsCore stdSortImpl mem dcInit (fun _ => true) s = some out ∧
      out.allocFailed = false ∧
      out.scene.scenePolygons_ = s.scenePolygons_ ∧
      out.scene.sortedScenePolygons_.Perm (List.range s.scenePolygons_.length) ∧
      out.batches.flatMap (fun b => List.range' b.batchStart (b.batchEnd + 1 - b.batchStart)) =
        List.range out.scene.sortedScenePolygons_.length ∧
      (∀ b ∈ out.batches, b.batchStart ≤ b.batchEnd) ∧
      (out.batches.flatMap (fun b => b.members out.scene.sortedScenePolygons_)).Perm
        (List.range s.scenePolygons_.length) ∧
      (∀ i : Nat, i < s.scenePolygons_.length →
        ∃ k : Nat, ∃ hk : k < out.batches.length,
          i ∈ (out.batches.get ⟨k, hk⟩).members out.scene.sortedScenePolygons_ ∧
          ∀ (k' : Nat) (hk' : k' < out.batches.length),
            i ∈ (out.batches.get ⟨k', hk'⟩).members out.scene.sortedScenePolygons_ → k' = k) ∧
      (∀ b ∈ out.batches, ∀ ptr ∈ b.members out.scene.sortedScenePolygons_,
        (polygonAt s.scenePolygons_ ptr).material = b.drawCall.material ∧
        (polygonAt s.scenePolygons_ ptr).fogIndex = b.drawCall.fogIndex) ∧
      out.scene.drawCalls_ = s.drawCalls_ ++ out.batches.map (fun b => b.drawCall) := by
  unfold renderPolygonsCore
  by_cases hnil : s.scenePolygons_.isEmpty = true
  · rw [if_pos hnil]
    have hl : s.scenePolygons_ = [] := List.isEmpty_iff.mp hnil
    refine ⟨_, rfl, rfl, rfl, ?_, ?_, ?_, ?_, ?_, ?_, ?_⟩
    · simp [hempty, hl]
    · simp [hempty]
    · intro b hb; simp at hb
    · simp [hl]
    · intro i hi; simp [hl] at hi
    · intro b hb; simp at hb
    · simp
  · rw [if_neg hnil]
    have hne : s.scenePolygons_ ≠ [] := fun h => hnil (List.isEmpty_iff.mpr h)
    have hlen : 0 < s.scenePolygons_.length := List.length_pos.mpr hne
    simp only [hempty, List.nil_append]
    have hp := hperm (polygonLess mem s.scenePolygons_) (List.range s.scenePolygons_.length)
    have hsl : (stdSortImpl (polygonLess mem s.scenePolygons_)
        (List.range s.scenePolygons_.length)).length = s.scenePolygons_.length := by
      rw [hp.length_eq, List.length_range]
    obtain ⟨bs, hbs, hflat⟩ := renderPolygonsLoop_allOk s.scenePolygons_
      (stdSortImpl (polygonLess mem s.scenePolygons_) (List.range s.scenePolygons_.length))
      dcInit (stdSortImpl (polygonLess mem s.scenePolygons_)
        (List.range s.scenePolygons_.length)).length 0 0 (by omega) (by omega)
    have hall := renderPolygonsLoop_batches s.scenePolygons_ _ dcInit _ _ 0 0 bs false
      (by omega) hbs
    rw [hbs]
    have hmem : bs.flatMap (fun b => b.members
        (stdSortImpl (polygonLess mem s.scenePolygons_) (List.range s.scenePolygons_.length))) =
        stdSortImpl (polygonLess mem s.scenePolygons_) (List.range s.scenePolygons_.length) := by
      rw [flatMap_members _ bs 0 _ (by omega) hflat]
      simp
    refine ⟨_, rfl, rfl, rfl, hp, ?_, ?_, ?_, ?_, ?_, rfl⟩
    · show bs.flatMap _ = _
      rw [hflat, Nat.sub_zero]
      exact (List.range_eq_range' _).symm
    · intro b hb
      obtain ⟨hlt, hb'⟩ := hall b hb
      have := (batchAt_batchEnd_lt s.scenePolygons_ _ dcInit b.batchStart hlt).1
      rw [← hb'] at this
      exact this
    · show (bs.flatMap _).Perm _
      rw [hmem]
      exact hp
    · intro i hi
      have hi' : i ∈ bs.flatMap (fun b => b.members
          (stdSortImpl (polygonLess mem s.scenePolygons_)
            (List.range s.scenePolygons_.length))) := by
        rw [hmem]
        exact hp.symm.subset (List.mem_range.mpr hi)
      obtain ⟨b, hb, hib⟩ := List.mem_flatMap.mp hi'
      obtain ⟨k, hk, hkb⟩ := List.getElem_of_mem hb
      have hnd : (bs.flatMap (fun b => b.members
          (stdSortImpl (polygonLess mem s.scenePolygons_)
            (List.range s.scenePolygons_.length)))).Nodup := by
        rw [hmem]
        exact hp.symm.nodup_iff.mp (List.nodup_range _)
      refine ⟨k, hk, ?_, ?_⟩
      · show i ∈ (bs.get ⟨k, hk⟩).members _
        rw [List.get_eq_getElem, hkb]
        exact hib
      · intro k' hk' hik'
        exact flatMap_nodup_unique _ bs hnd k' k hk' hk i hik'
          (by rw [List.get_eq_getElem, hkb]; exact hib)
    · intro b hb ptr hptr
      obtain ⟨hlt, hb'⟩ := hall b hb
      rw [hb'] at hptr ⊢
      exact batchAt_homogeneous s.scenePolygons_ _ dcInit b.batchStart hlt ptr hptr

/-! ## The polygon batcher: the fill loop -/

theorem copyVertices_eq (p : Polygon) :
    ∀ (count j : Nat) (buf : BatchBuffers),
      copyVertices p count j buf =
        { vertices := buf.vertices ++ (List.range' j count).map (fun i => p.firstVertex + i),
          indices := buf.indices,
          currentVertex := if count = 0 then buf.currentVertex
                           else u32 (buf.currentVertex + count),
          currentIndex := buf.currentIndex }
  | 0, j, buf => by simp [copyVertices]
  | count + 1, j, buf => by
    rw [copyVertices, copyVertices_eq p count (j + 1)]
    simp only [List.range'_succ, List.map_cons, List.append_assoc, List.singleton_append,
      Nat.add_one_ne_zero, if_false, BatchBuffers.mk.injEq, true_and, and_true]
    split_ifs with h
    · subst h; rfl
    · unfold u32; omega

/-- The three values one iteration of the fan loop stores. -/
theorem storedTriangle_eq (f j : Nat) :
    [u16 (u32 (u32 f + 0)), u16 (u32 (u32 (u32 f + u16 j) + 1)),
        u16 (u32 (u32 (u32 f + u16 j) + 2))] =
      [f, f + j + 1, f + j + 2].map u16 := by
  simp only [List.map_cons, List.map_nil, List.cons.injEq, and_true]
  unfold u16 u32
  refine ⟨by omega, by omega, by omega⟩

theorem writeFanIndices_eq (firstVertex : Nat) :
    ∀ (count j : Nat) (buf : BatchBuffers),
      (writeFanIndices firstVertex count j buf).indices =
          buf.indices ++ (List.range' j count).flatMap (fun i =>
            [u16 (u32 (firstVertex + 0)), u16 (u32 (u32 (firstVertex + u16 i) + 1)),
              u16 (u32 (u32 (firstVertex + u16 i) + 2))]) ∧
        (writeFanIndices firstVertex count j buf).vertices = buf.vertices ∧
        (writeFanIndices firstVertex count j buf).currentVertex = buf.currentVertex
  | 0, j, buf => by simp [writeFanIndices]
  | count + 1, j, buf => by
    rw [writeFanIndices]
    obtain ⟨h1, h2, h3⟩ := writeFanIndices_eq firstVertex count (j + 1)
      { buf with indices := buf.indices ++
                   [u16 (u32 (firstVertex + 0)),
                    u16 (u32 (u32 (firstVertex + u16 j) + 1)),
                    u16 (u32 (u32 (firstVertex + u16 j) + 2))],
                 currentIndex := u32 (u32 (u32 (buf.currentIndex + 1) + 1) + 1) }
    refine ⟨?_, h2, h3⟩
    rw [h1, List.range'_succ, List.flatMap_cons]
    simp only [List.append_assoc]

theorem fanTriangles_length (f n : Nat) : (fanTriangles f n).length = 3 * (n - 2) := by
  unfold fanTriangles
  generalize n - 2 = m
  induction m with
  | zero => simp
  | succ m ih =>
    rw [List.range_succ, List.flatMap_append, List.length_append, ih]
    simp
    omega

theorem fanIndexList_length :
    ∀ (ns : List Nat) (f : Nat),
      (fanIndexList ns f).length = (ns.map (fun n => 3 * (n - 2))).sum
  | [], _ => rfl
  | n :: ns, f => by
    rw [fanIndexList, List.length_append, fanTriangles_length, fanIndexList_length ns,
      List.map_cons, List.sum_cons]

theorem subU32_two (n : Nat) (h2 : 2 ≤ n) (h32 : fitsU32 n) : subU32 n 2 = n - 2 := by
  unfold fitsU32 at h32
  unfold subU32 u32
  rw [if_pos h2]
  exact Nat.mod_eq_of_lt (by omega)

theorem fanTriangles_map_u16 (f n : Nat) :
    (List.range' 0 (n - 2)).flatMap (fun i =>
        [u16 (u32 (u32 f + 0)), u16 (u32 (u32 (u32 f + u16 i) + 1)),
          u16 (u32 (u32 (u32 f + u16 i) + 2))]) =
      (fanTriangles f n).map u16 := by
  unfold fanTriangles
  rw [List.map_flatMap, ← List.range_eq_range']
  congr 1
  funext i
  exact storedTriangle_eq f i

/-- One polygon of at least two vertices: what the fill loop appends. -/
theorem fillPolygon_eq (p : Polygon) (buf : BatchBuffers) (f : Nat)
    (hcv : buf.currentVertex = u32 f) (h2 : 2 ≤ p.nVertices) (h32 : fitsU32 p.nVertices) :
    (fillPolygon p buf).vertices =
        buf.vertices ++ (List.range' 0 p.nVertices).map (fun i => p.firstVertex + i) ∧
      (fillPolygon p buf).indices = buf.indices ++ (fanTriangles f p.nVertices).map u16 ∧
      (fillPolygon p buf).currentVertex = u32 (f + p.nVertices) := by
  unfold fillPolygon
  obtain ⟨h1, hv, hc⟩ := writeFanIndices_eq buf.currentVertex (subU32 p.nVertices 2) 0
    (copyVertices p p.nVertices 0 buf)
  have hcopy := copyVertices_eq p p.nVertices 0 buf
  have hne : ¬ p.nVertices = 0 := by omega
  rw [if_neg hne] at hcopy
  rw [h1, hv, hc, hcopy]
  refine ⟨rfl, ?_, ?_⟩
  · show buf.indices ++ _ = _
    rw [subU32_two _ h2 h32, hcv, fanTriangles_map_u16]
  · show u32 (buf.currentVertex + p.nVertices) = _
    rw [hcv]
    unfold u32
    omega

/-- The fill loop over polygons of at least two vertices each: the vertices
appended are the polygons' pool ranges one after the other, the indices
appended are the fan indices reduced to sixteen bits. -/
theorem fillBatch_eq (scenePolygons : List Polygon) (ptrs : List Nat) :
    ∀ (buf : BatchBuffers) (f : Nat), buf.currentVertex = u32 f →
      (∀ ptr ∈ ptrs, 2 ≤ (polygonAt scenePolygons ptr).nVertices ∧
        fitsU32 (polygonAt scenePolygons ptr).nVertices) →
      (fillBatch scenePolygons ptrs buf).vertices =
          buf.vertices ++ ptrs.flatMap (fun ptr =>
            (List.range' 0 (polygonAt scenePolygons ptr).nVertices).map
              (fun i => (polygonAt scenePolygons ptr).firstVertex + i)) ∧
        (fillBatch scenePolygons ptrs buf).indices =
          buf.indices ++
            (fanIndexList (ptrs.map (fun ptr => (polygonAt scenePolygons ptr).nVertices)) f).map
              u16 := by
  induction ptrs with
  | nil =>
    intro buf f _ _
    refine ⟨?_, ?_⟩
    · show buf.vertices = buf.vertices ++ []
      rw [List.append_nil]
    · show buf.indices = buf.indices ++ []
      rw [List.append_nil]
  | cons ptr rest ih =>
    intro buf f hcv hn
    obtain ⟨hv, hi, hc⟩ := fillPolygon_eq (polygonAt scenePolygons ptr) buf f hcv
      (hn ptr (List.mem_cons_self _ _)).1 (hn ptr (List.mem_cons_self _ _)).2
    obtain ⟨ihv, ihi⟩ := ih (fillPolygon (polygonAt scenePolygons ptr) buf)
      (f + (polygonAt scenePolygons ptr).nVertices) hc
      (fun q hq => hn q (List.mem_cons_of_mem _ hq))
    refine ⟨?_, ?_⟩
    · show (fillBatch scenePolygons rest (fillPolygon (polygonAt scenePolygons ptr) buf)).vertices
        = _
      rw [ihv, hv, List.flatMap_cons, List.append_assoc]
    · show (fillBatch scenePolygons rest (fillPolygon (polygonAt scenePolygons ptr) buf)).indices
        = _
      rw [ihi, hi, List.map_cons, fanIndexList, List.map_append, List.append_assoc]
theorem u32_fits (n : Nat) : fitsU32 (u32 n) := by
  unfold fitsU32 u32
  exact Nat.mod_lt _ (by norm_num)

theorem u32_of_fits (n : Nat) (h : fitsU32 n) : u32 n = n := by
  unfold fitsU32 at h
  unfold u32
  exact Nat.mod_eq_of_lt h

theorem u32_add_u32 (a b c : Nat) : u32 (u32 (a + b) + c) = u32 (a + (b + c)) := by
  unfold u32
  omega

theorem u32_add_u32_mul (a n c : Nat) : u32 (u32 (a + u32 (n * 3)) + c) = u32 (a + (3 * n + c)) := by
  unfold u32
  omega

theorem scanBatch_counts (scenePolygons : List Polygon) (first : Polygon) (rest : List Nat) :
    ∀ (batchEnd nVertices nIndices : Nat),
      fitsU32 nVertices → fitsU32 nIndices →
      (∀ ptr ∈ rest.takeWhile (inGroup scenePolygons first),
        2 ≤ (polygonAt scenePolygons ptr).nVertices ∧
          fitsU32 (polygonAt scenePolygons ptr).nVertices) →
      (scanBatch scenePolygons first rest batchEnd nVertices nIndices).2.1 =
          u32 (nVertices + ((rest.takeWhile (inGroup scenePolygons first)).map
            (fun ptr => (polygonAt scenePolygons ptr).nVertices)).sum) ∧
        (scanBatch scenePolygons first rest batchEnd nVertices nIndices).2.2 =
          u32 (nIndices + ((rest.takeWhile (inGroup scenePolygons first)).map
            (fun ptr => 3 * ((polygonAt scenePolygons ptr).nVertices - 2))).sum) := by
  induction rest with
  | nil =>
    intro batchEnd nVertices nIndices hv hi _
    simp only [scanBatch, List.takeWhile_nil, List.map_nil, List.sum_nil, Nat.add_zero]
    exact ⟨(u32_of_fits _ hv).symm, (u32_of_fits _ hi).symm⟩
  | cons ptr rest ih =>
    intro batchEnd nVertices nIndices hv hi hn
    unfold scanBatch
    by_cases h : (polygonAt scenePolygons ptr).material = first.material ∧
        (polygonAt scenePolygons ptr).fogIndex = first.fogIndex
    · have hg : inGroup scenePolygons first ptr = true := by simp [inGroup, h]
      have hc : ¬ ((polygonAt scenePolygons ptr).material ≠ first.material ∨
          (polygonAt scenePolygons ptr).fogIndex ≠ first.fogIndex) := by
        rw [not_or]; exact ⟨not_not.mpr h.1, not_not.mpr h.2⟩
      rw [List.takeWhile_cons, hg] at hn
      simp only [if_true] at hn
      have hp := hn ptr (List.mem_cons_self _ _)
      obtain ⟨ih1, ih2⟩ := ih (batchEnd + 1)
        (u32 (nVertices + (polygonAt scenePolygons ptr).nVertices))
        (u32 (nIndices + u32 (subU32 (polygonAt scenePolygons ptr).nVertices 2 * 3)))
        (u32_fits _) (u32_fits _)
        (fun q hq => hn q (List.mem_cons_of_mem _ hq))
      rw [if_neg hc, ih1, ih2, List.takeWhile_cons, hg]
      simp only [if_true, List.map_cons, List.sum_cons]
      rw [subU32_two _ hp.1 hp.2]
      exact ⟨u32_add_u32 _ _ _, u32_add_u32_mul _ _ _⟩
    · have hg : inGroup scenePolygons first ptr = false := by simp [inGroup, h]
      have hc : (polygonAt scenePolygons ptr).material ≠ first.material ∨
          (polygonAt scenePolygons ptr).fogIndex ≠ first.fogIndex := by
        by_contra hc
        rw [not_or] at hc
        exact h ⟨not_not.mp hc.1, not_not.mp hc.2⟩
      rw [if_pos hc, List.takeWhile_cons, hg]
      simp only [Bool.false_eq_true, if_false, List.map_nil, List.sum_nil, Nat.add_zero]
      exact ⟨(u32_of_fits _ hv).symm, (u32_of_fits _ hi).symm⟩

theorem flatMap_ranges_length (scenePolygons : List Polygon) :
    ∀ ptrs : List Nat,
      (ptrs.flatMap (fun ptr =>
        (List.range' 0 (polygonAt scenePolygons ptr).nVertices).map
          (fun i => (polygonAt scenePolygons ptr).firstVertex + i))).length =
        (ptrs.map (fun ptr => (polygonAt scenePolygons ptr).nVertices)).sum
  | [] => rfl
  | ptr :: rest => by
    rw [List.flatMap_cons, List.length_append, flatMap_ranges_length scenePolygons rest]
    simp

theorem fanTriangles_lt (f n x : Nat) (hx : x ∈ fanTriangles f n) : x < f + n := by
  unfold fanTriangles at hx
  obtain ⟨j, hj, hxj⟩ := List.mem_flatMap.mp hx
  have hj' := List.mem_range.mp hj
  simp only [List.mem_cons, List.mem_singleton, List.not_mem_nil, or_false] at hxj
  omega

theorem fanIndexList_lt :
    ∀ (ns : List Nat) (f x : Nat), x ∈ fanIndexList ns f → x < f + ns.sum
  | [], _, _, hx => by simp [fanIndexList] at hx
  | n :: ns, f, x, hx => by
    rw [fanIndexList, List.mem_append] at hx
    rw [List.sum_cons]
    rcases hx with hx | hx
    · have := fanTriangles_lt f n x hx
      omega
    · have := fanIndexList_lt ns (f + n) x hx
      omega

theorem sum_fan_le : ∀ ns : List Nat, (ns.map (fun n => 3 * (n - 2))).sum ≤ 3 * ns.sum
  | [] => by simp
  | n :: ns => by
    have := sum_fan_le ns
    simp only [List.map_cons, List.sum_cons]
    omega

/-- A `renderPolygons` call that returns has emitted only batches that
`batchAt` builds at positions inside the sorted vector. -/
theorem renderPolygonsCore_batches
    (stdSortImpl : (Nat → Nat → Bool) → List Nat → List Nat) (mem : MaterialMem)
    (dcInit : DrawCall) (allocOk : Nat → Bool) (s : PolygonScene) (out : PolygonsOutcome)
    (h : renderPolygonsCore stdSortImpl mem dcInit allocOk s = some out) :
    out.scene.scenePolygons_ = s.scenePolygons_ ∧
    out.scene.drawCalls_ = s.drawCalls_ ++ out.batches.map (fun b => b.drawCall) ∧
    ∀ b ∈ out.batches, b.batchStart < out.scene.sortedScenePolygons_.length ∧
      b = batchAt s.scenePolygons_ out.scene.sortedScenePolygons_ dcInit b.batchStart := by
  unfold renderPolygonsCore at h
  split_ifs at h with hnil
  · simp only [Option.some.injEq] at h
    subst h
    exact ⟨rfl, by simp, fun b hb => by simp at hb⟩
  · simp only at h
    generalize hsorted : stdSortImpl (polygonLess mem s.scenePolygons_)
      (s.sortedScenePolygons_ ++ List.range s.scenePolygons_.length) = sorted at h
    cases hloop : renderPolygonsLoop s.scenePolygons_ sorted dcInit allocOk sorted.length 0 0 with
    | none => rw [hloop] at h; simp at h
    | some r =>
      obtain ⟨bs, f⟩ := r
      rw [hloop] at h
      simp only [Option.some.injEq] at h
      subst h
      have hpos : 0 < sorted.length := by
        rcases Nat.eq_zero_or_pos sorted.length with h0 | h0
        · rw [h0] at hloop
          simp [renderPolygonsLoop] at hloop
        · exact h0
      exact ⟨rfl, rfl, renderPolygonsLoop_batches s.scenePolygons_ sorted dcInit allocOk _ 0 0 bs f
        hpos hloop⟩

/-- The geometry of the batch built at `batchStart`, for polygons of at least
two vertices each. -/
theorem batchAt_geometry (scenePolygons : List Polygon) (sorted : List Nat) (dcInit : DrawCall)
    (batchStart : Nat) (h : batchStart < sorted.length)
    (hn : ∀ ptr ∈ (batchAt scenePolygons sorted dcInit batchStart).members sorted,
      2 ≤ (polygonAt scenePolygons ptr).nVertices ∧
        fitsU32 (polygonAt scenePolygons ptr).nVertices) :
    (batchAt scenePolygons sorted dcInit batchStart).drawCall.vb.transientHandle =
        ((batchAt scenePolygons sorted dcInit batchStart).members sorted).flatMap (fun ptr =>
          (List.range' 0 (polygonAt scenePolygons ptr).nVertices).map
            (fun i => (polygonAt scenePolygons ptr).firstVertex + i)) ∧
      (batchAt scenePolygons sorted dcInit batchStart).drawCall.ib.transientHandle =
        (fanIndexList
          ((batchAt scenePolygons sorted dcInit batchStart).vertexCounts scenePolygons sorted)
          0).map u16 ∧
      (batchAt scenePolygons sorted dcInit batchStart).drawCall.vb.nVertices =
        u32 ((batchAt scenePolygons sorted dcInit batchStart).vertexCounts
          scenePolygons sorted).sum ∧
      (batchAt scenePolygons sorted dcInit batchStart).drawCall.ib.nIndices =
        u32 (((batchAt scenePolygons sorted dcInit batchStart).vertexCounts
          scenePolygons sorted).map (fun n => 3 * (n - 2))).sum := by
  have hfill := batchAt_fill_list scenePolygons sorted dcInit batchStart h
  have hmem := batchAt_members scenePolygons sorted dcInit batchStart h
  obtain ⟨hv, hi⟩ := fillBatch_eq scenePolygons
    ((batchAt scenePolygons sorted dcInit batchStart).members sorted)
    { vertices := [], indices := [], currentVertex := 0, currentIndex := 0 } 0 rfl hn
  have hn' := hn
  rw [hmem] at hn'
  obtain ⟨hc1, hc2⟩ := scanBatch_counts scenePolygons
    (polygonAt scenePolygons (sorted.getD batchStart 0)) (sorted.drop batchStart) batchStart 0 0
    (by unfold fitsU32; norm_num) (by unfold fitsU32; norm_num) hn'
  unfold PolygonBatch.vertexCounts
  refine ⟨?_, ?_, ?_, ?_⟩
  · show (fillBatch scenePolygons ((sorted.drop batchStart).take
      ((batchAt scenePolygons sorted dcInit batchStart).batchEnd + 1 - batchStart)) _).vertices = _
    rw [hfill, hv]
    rfl
  · show (fillBatch scenePolygons ((sorted.drop batchStart).take
      ((batchAt scenePolygons sorted dcInit batchStart).batchEnd + 1 - batchStart)) _).indices = _
    rw [hfill, hi]
    rfl
  · show (scanBatch scenePolygons _ _ batchStart 0 0).2.1 = _
    rw [hc1, hmem, Nat.zero_add]
  · show (scanBatch scenePolygons _ _ batchStart 0 0).2.2 = _
    rw [hc2, hmem, Nat.zero_add, List.map_map]
    rfl

/-- A run in which the allocation number `k` is the first to fail emits the
first `k` batches of the run in which every allocation succeeds. -/
theorem renderPolygonsLoop_fail (scenePolygons : List Polygon) (sorted : List Nat)
    (dcInit : DrawCall) (allocOk : Nat → Bool) :
    ∀ (budget batchNo batchStart : Nat) (batches : List PolygonBatch) (failed : Bool),
      renderPolygonsLoop scenePolygons sorted dcInit (fun _ => true) budget batchNo batchStart =
        some (batches, failed) →
      ∀ k : Nat, k < batches.length → (∀ i : Nat, i < k → allocOk (batchNo + i) = true) →
        allocOk (batchNo + k) = false →
        renderPolygonsLoop scenePolygons sorted dcInit allocOk budget batchNo batchStart =
          some (batches.take k, true)
  | 0, _, _, _, _, h, _, _, _, _ => by simp [renderPolygonsLoop] at h
  | budget + 1, batchNo, batchStart, batches, failed, h, k, hk, hok, hfail => by
    rw [renderPolygonsLoop_succ] at h ⊢
    simp only [Bool.not_true, Bool.false_eq_true, if_false] at h
    cases k with
    | zero =>
      rw [Nat.add_zero] at hfail
      simp [hfail]
    | succ k' =>
      have h0 : allocOk batchNo = true := by
        have := hok 0 (Nat.succ_pos _)
        rwa [Nat.add_zero] at this
      simp only [h0, Bool.not_true, Bool.false_eq_true, if_false]
      split_ifs at h ⊢ with hend
      · simp only [Option.some.injEq, Prod.mk.injEq] at h
        rw [← h.1] at hk
        simp at hk
      · cases hrec : renderPolygonsLoop scenePolygons sorted dcInit (fun _ => true) budget
            (batchNo + 1) ((batchAt scenePolygons sorted dcInit batchStart).batchEnd + 1) with
        | none => rw [hrec] at h; simp at h
        | some r =>
          obtain ⟨bs, f⟩ := r
          rw [hrec] at h
          simp only [Option.some.injEq, Prod.mk.injEq] at h
          have hk' : k' < bs.length := by
            rw [← h.1] at hk
            simpa using hk
          have ih := renderPolygonsLoop_fail scenePolygons sorted dcInit allocOk budget
            (batchNo + 1) _ bs f hrec k' hk'
            (fun i hi => by
              have := hok (i + 1) (by omega)
              rwa [show batchNo + (i + 1) = batchNo + 1 + i by omega] at this)
            (by rwa [show batchNo + (k' + 1) = batchNo + 1 + k' by omega] at hfail)
          rw [ih, ← h.1]
          rfl

/-- The effect of a `renderPolygons` call in which the allocation number `k`
(counted from zero) is the first to fail, in terms of the run in which every
allocation succeeds. -/
theorem renderPolygonsCore_fail
    (stdSortImpl : (Nat → Nat → Bool) → List Nat → List Nat) (mem : MaterialMem)
    (dcInit : DrawCall) (allocOk : Nat → Bool) (s : PolygonScene) (full : PolygonsOutcome)
    (k : Nat)
    (hfull : renderPolygonsCore stdSortImpl mem dcInit (fun _ => true) s = some full)
    (hk : k < full.batches.length) (hok : ∀ i : Nat, i < k → allocOk i = true)
    (hfail : allocOk k = false) :
    renderPolygonsCore stdSortImpl mem dcInit allocOk s =
      some { scene := { full.scene with
                        drawCalls_ := s.drawCalls_ ++
                          (full.batches.take k).map (fun b => b.drawCall) },
             batches := full.batches.take k, allocFailed := true } := by
  unfold renderPolygonsCore at hfull ⊢
  split_ifs at hfull ⊢ with hnil
  · simp only [Option.some.injEq] at hfull
    rw [← hfull] at hk
    simp at hk
  · simp only at hfull ⊢
    generalize hsorted : stdSortImpl (polygonLess mem s.scenePolygons_)
      (s.sortedScenePolygons_ ++ List.range s.scenePolygons_.length) = sorted at hfull ⊢
    cases hloop : renderPolygonsLoop s.scenePolygons_ sorted dcInit (fun _ => true)
        sorted.length 0 0 with
    | none => rw [hloop] at hfull; simp at hfull
    | some r =>
      obtain ⟨bs, f⟩ := r
      rw [hloop] at hfull
      simp only [Option.some.injEq] at hfull
      subst hfull
      have := renderPolygonsLoop_fail s.scenePolygons_ sorted dcInit allocOk sorted.length 0 0
        bs f hloop k hk (fun i hi => by rw [Nat.zero_add]; exact hok i hi)
        (by rw [Nat.zero_add]; exact hfail)
      rw [this]

/-! ## The warn-once latch -/

theorem WarnOnce_of_warned (id : WarnOnceId) (w : WarnOnceState) (h : w.warned id = true) :
    WarnOnce id w = w := by
  unfold WarnOnce
  simp [h]

theorem WarnOnce_of_not_warned (id : WarnOnceId) (w : WarnOnceState) (h : w.warned id = false) :
    (WarnOnce id w).printed = w.printed ++ ["BGFX transient buffer alloc failed\n"] ∧
      (WarnOnce id w).warned id = true ∧
      ∀ id' : WarnOnceId, id' ≠ id → (WarnOnce id w).warned id' = w.warned id' := by
  unfold WarnOnce
  simp only [h, Bool.not_false, if_true]
  refine ⟨trivial, ?_, ?_⟩
  · simp
  · intro id' hne
    simp [hne]

theorem WarnOnce_warned (id : WarnOnceId) (w : WarnOnceState) :
    (WarnOnce id w).warned id = true := by
  cases h : w.warned id
  · exact (WarnOnce_of_not_warned id w h).2.1
  · rw [WarnOnce_of_warned id w h, h]

theorem allocFailures_of_warned :
    ∀ (sites : List CallSite) (w : WarnOnceState),
      w.warned WarnOnceId.TransientBuffer = true → allocFailures sites w = w
  | [], _, _ => rfl
  | site :: rest, w, h => by
    have hs : allocFailedAt site w = w := by
      unfold allocFailedAt
      cases site <;> exact WarnOnce_of_warned _ w h
    show allocFailures rest (allocFailedAt site w) = w
    rw [hs]
    exact allocFailures_of_warned rest w h

theorem allocFailures_cons (site : CallSite) (rest : List CallSite) (w : WarnOnceState) :
    allocFailures (site :: rest) w = WarnOnce WarnOnceId.TransientBuffer w := by
  show allocFailures rest (allocFailedAt site w) = _
  have hs : allocFailedAt site w = WarnOnce WarnOnceId.TransientBuffer w := by
    cases site <;> rfl
  rw [hs]
  exact allocFailures_of_warned rest _ (WarnOnce_warned _ w)

/-! ## Feature bits of shader variants -/

theorem variantHas_or_self (v x : Nat) : variantHas (v ||| x) x := by
  unfold variantHas
  apply Nat.eq_of_testBit_eq
  intro i
  simp only [Nat.testBit_and, Nat.testBit_or]
  cases v.testBit i <;> cases x.testBit i <;> rfl

theorem variantHas_or_of_disjoint (v x y : Nat) (h : y &&& x = 0) :
    variantHas (v ||| y) x ↔ variantHas v x := by
  unfold variantHas
  have hd : (v ||| y) &&& x = v &&& x := by
    apply Nat.eq_of_testBit_eq
    intro i
    have hi : (y &&& x).testBit i = false := by rw [h]; exact Nat.zero_testBit i
    simp only [Nat.testBit_and, Nat.testBit_or] at hi ⊢
    cases hv : v.testBit i <;> cases hy : y.testBit i <;> cases hx : x.testBit i <;>
      simp_all
  rw [hd]

theorem not_variantHas_zero (x : Nat) (h : x ≠ 0) : ¬ variantHas 0 x := by
  unfold variantHas
  intro h0
  rw [Nat.zero_and] at h0
  exact h h0.symm
theorem variantHas_self (x : Nat) : variantHas x x := by
  unfold variantHas
  exact Nat.and_self x

theorem not_variantHas_of_disjoint (y x : Nat) (h : y &&& x = 0) (hx : x ≠ 0) :
    ¬ variantHas y x := by
  unfold variantHas
  rw [h]
  exact fun h0 => hx h0.symm
/-- The variant word of an active stage of the main pass, bit by bit. -/
theorem mainPassStage_variant_bits (V : GenericShaderProgramVariant) (hV : V.wellFormed)
    (B : BgfxDefines) (dcf : DrawCallFlags) (rcf : RenderCameraFlags) (g : RenderGlobals)
    (flags : Nat) (material mat : Material) (dc : DrawCall) (stage : MaterialStage)
    (hactive : stage.active = true) :
    ∃ sub : Submission,
      mainPassStage V B dcf rcf g flags material mat dc stage = some sub ∧
      (variantHas sub.shaderVariant V.AlphaTest ↔ stage.alphaTest ≠ MaterialAlphaTest.None) ∧
      (variantHas sub.shaderVariant V.SoftSprite ↔
        (stage.alphaTest = MaterialAlphaTest.None ∧
          (g.isWorldScene_ && g.softSpritesEnabled_ && decide (dc.softSpriteDepth > 0)) = true)) ∧
      (variantHas sub.shaderVariant V.DynamicLights ↔
        (g.isWorldScene_ && dc.dynamicLighting && !decide (dc.flags &&& dcf.Sky ≠ 0)) = true) ∧
      (variantHas sub.shaderVariant V.DepthRange ↔
        (mat.polygonOffset || decide (dc.zOffset > 0) || decide (dc.zScale > 0)) = true) ∧
      (variantHas sub.shaderVariant V.HDR ↔ g.hdr = true) := by
  obtain ⟨h0, nA, nD, nL, nH, nS, hAD, hAL, hAH, hAS, hDL, hDH, hDS, hLH, hLS, hHS⟩ := hV
  have hDA : V.DepthRange &&& V.AlphaTest = 0 := by rw [Nat.and_comm]; exact hAD
  have hLA : V.DynamicLights &&& V.AlphaTest = 0 := by rw [Nat.and_comm]; exact hAL
  have hHA : V.HDR &&& V.AlphaTest = 0 := by rw [Nat.and_comm]; exact hAH
  have hSA : V.SoftSprite &&& V.AlphaTest = 0 := by rw [Nat.and_comm]; exact hAS
  have hLD : V.DynamicLights &&& V.DepthRange = 0 := by rw [Nat.and_comm]; exact hDL
  have hHD : V.HDR &&& V.DepthRange = 0 := by rw [Nat.and_comm]; exact hDH
  have hSD : V.SoftSprite &&& V.DepthRange = 0 := by rw [Nat.and_comm]; exact hDS
  have hHL : V.HDR &&& V.DynamicLights = 0 := by rw [Nat.and_comm]; exact hLH
  have hSL : V.SoftSprite &&& V.DynamicLights = 0 := by rw [Nat.and_comm]; exact hLS
  have hSH : V.SoftSprite &&& V.HDR = 0 := by rw [Nat.and_comm]; exact hHS
  unfold mainPassStage
  simp only [hactive, Bool.not_true, Bool.false_eq_true, if_false, h0]
  generalize (g.isWorldScene_ && g.softSpritesEnabled_ && decide (dc.softSpriteDepth > 0)) = bSoft
  generalize (g.isWorldScene_ && dc.dynamicLighting && !decide (dc.flags &&& dcf.Sky ≠ 0)) = bDyn
  generalize (mat.polygonOffset || decide (dc.zOffset > 0) || decide (dc.zScale > 0)) = bDepth
  generalize g.hdr = bHdr
  refine ⟨_, rfl, ?_, ?_, ?_, ?_, ?_⟩ <;>
    by_cases hA : stage.alphaTest = MaterialAlphaTest.None <;>
    by_cases hB : (dc.state ||| stage.state) &&& B.STATE_BLEND_MASK = B.STATE_BLEND_ADD <;>
    cases bSoft <;> cases bDyn <;> cases bDepth <;> cases bHdr <;>
    simp [hA, hB, variantHas_or_self, variantHas_or_of_disjoint, not_variantHas_zero,
      variantHas_self, not_variantHas_of_disjoint,
      nA, nD, nL, nH, nS, hAD, hAL, hAH, hAS, hDL, hDH, hDS, hLH, hLS, hHS,
      hDA, hLA, hHA, hSA, hLD, hHD, hSD, hHL, hSL, hSH]
/-! ## State words -/

theorem testBit_notU64 (x i : Nat) :
    (notU64 x).testBit i = (decide (i < 64) && !x.testBit i) := by
  unfold notU64
  rw [Nat.testBit_xor, Nat.testBit_two_pow_sub_one, Nat.testBit_mod_two_pow]
  cases decide (i < 64) <;> cases x.testBit i <;> rfl

/-- Replacing the bits of `mask` in `state` by `value`, for a `value` inside
`mask`. -/
theorem replace_masked_bits (state mask value : Nat) (hv : value &&& mask = value) :
    ((state &&& notU64 mask) ||| value) &&& mask = value ∧
      ((state &&& notU64 mask) ||| value) &&& notU64 mask = state &&& notU64 mask := by
  have hbit : ∀ i, value.testBit i = (value.testBit i && mask.testBit i) := by
    intro i
    have := congrArg (fun n => n.testBit i) hv
    simp only [Nat.testBit_and] at this
    exact this.symm
  constructor
  · apply Nat.eq_of_testBit_eq
    intro i
    have hi := hbit i
    simp only [Nat.testBit_and, Nat.testBit_or, testBit_notU64]
    cases hs : state.testBit i <;> cases hm : mask.testBit i <;>
      cases hvv : value.testBit i <;> cases hl : decide (i < 64) <;> simp_all
  · apply Nat.eq_of_testBit_eq
    intro i
    have hi := hbit i
    simp only [Nat.testBit_and, Nat.testBit_or, testBit_notU64]
    cases hs : state.testBit i <;> cases hm : mask.testBit i <;>
      cases hvv : value.testBit i <;> cases hl : decide (i < 64) <;> simp_all

theorem pushView_counter (env : Env) (frameBuffer : FrameBufferId) (clearFlags : Nat)
    (rect : Rect) (sequential : Bool) (m : Main) :
    (pushView env frameBuffer clearFlags rect sequential m).1.firstFreeViewId_ =
      (m.firstFreeViewId_ + 1) % 2 ^ env.viewIdBits := rfl

theorem mod_two_pow_mod_256 (x w : Nat) (hw : 8 ≤ w) : (x % 2 ^ w) % 256 = x % 256 :=
  Nat.mod_mod_of_dvd x (Nat.pow_dvd_pow 2 hw)

/-- The id `pushView` returns is the old value of the counter, as a `uint8_t`. -/
theorem pushView_id (env : Env) (hw : 8 ≤ env.viewIdBits) (frameBuffer : FrameBufferId)
    (clearFlags : Nat) (rect : Rect) (sequential : Bool) (m : Main) :
    (pushView env frameBuffer clearFlags rect sequential m).2 = m.firstFreeViewId_ % 256 := by
  have h := mod_two_pow_mod_256 (m.firstFreeViewId_ + 1) env.viewIdBits hw
  show Int.toNat (((((m.firstFreeViewId_ + 1) % 2 ^ env.viewIdBits : Nat) : Int) - 1) % 256) = _
  generalize (m.firstFreeViewId_ + 1) % 2 ^ env.viewIdBits = a at h
  omega

/-- The ids returned by consecutive `pushView` calls count up from the value
of the counter, modulo 256. -/
theorem pushViews_ids (env : Env) (hw : 8 ≤ env.viewIdBits)
    (args : List (FrameBufferId × Nat × Rect × Bool)) :
    ∀ m : Main, (pushViews env args m).2 =
      (List.range args.length).map (fun i => (m.firstFreeViewId_ + i) % 256) := by
  induction args with
  | nil => intro m; rfl
  | cons a rest ih =>
    intro m
    obtain ⟨frameBuffer, clearFlags, rect, sequential⟩ := a
    show (pushView env frameBuffer clearFlags rect sequential m).2 ::
      (pushViews env rest (pushView env frameBuffer clearFlags rect sequential m).1).2 = _
    rw [ih, pushView_id env hw, pushView_counter, List.length_cons, List.range_succ_eq_map,
      List.map_cons, List.map_map]
    congr 1
    apply List.map_congr_left
    intro i _
    show ((m.firstFreeViewId_ + 1) % 2 ^ env.viewIdBits + i) % 256 =
      (m.firstFreeViewId_ + (i + 1)) % 256
    have h := mod_two_pow_mod_256 (m.firstFreeViewId_ + 1) env.viewIdBits hw
    generalize (m.firstFreeViewId_ + 1) % 2 ^ env.viewIdBits = a at h
    omega

/-! ## What the frame-level operations leave alone -/

theorem cameraCalls_append (a b : List Event) :
    cameraCalls (a ++ b) = cameraCalls a ++ cameraCalls b := by
  unfold cameraCalls
  exact List.filterMap_append _ _ _

theorem quadCalls_append (a b : List Event) :
    quadCalls (a ++ b) = quadCalls a ++ quadCalls b := by
  unfold quadCalls
  exact List.filterMap_append _ _ _

theorem polygonCalls_append (a b : List Event) :
    polygonCalls (a ++ b) = polygonCalls a ++ polygonCalls b := by
  unfold polygonCalls
  exact List.filterMap_append _ _ _

theorem quietView_pushView (env : Env) (frameBuffer : FrameBufferId) (clearFlags : Nat)
    (rect : Rect) (sequential : Bool) (m : Main) :
    (pushView env frameBuffer clearFlags rect sequential m).1.quietView = m.quietView := by
  simp [pushView, Main.record, Main.quietView, Main.sceneMembers, Main.stretchPicMembers,
    cameraCalls_append, cameraCalls]

theorem quietView_renderScreenSpaceQuad (env : Env) (frameBuffer : FrameBufferId)
    (program : ShaderProgramId) (state clearFlags : Nat) (rect : Rect) (m : Main) :
    (renderScreenSpaceQuad env frameBuffer program state clearFlags rect m).quietView =
      m.quietView := by
  unfold renderScreenSpaceQuad
  simp only
  split_ifs <;>
    simp [pushView, Main.record, Main.quietView, Main.sceneMembers, Main.stretchPicMembers,
      cameraCalls_append, cameraCalls]

theorem quietView_renderEntityStep (env : Env) (m : Main) (step : EntityStep) :
    (renderEntityStep env m step).quietView = m.quietView := by
  cases step with
  | direct dc => rfl
  | transient site dc =>
    unfold renderEntityStep
    simp only
    split_ifs <;> rfl
  | debugAxis position => rfl

theorem foldl_quietView {α : Type} (f : Main → α → Main)
    (hstep : ∀ (m : Main) (x : α), (f m x).quietView = m.quietView) :
    ∀ (l : List α) (m : Main), (l.foldl f m).quietView = m.quietView := by
  intro l
  induction l with
  | nil => intro m; rfl
  | cons x rest ih =>
    intro m
    rw [List.foldl_cons, ih, hstep]

theorem quietView_renderEntity (env : Env) (visId : VisibilityId) (m : Main) (entity : Entity) :
    (renderEntity env visId m entity).quietView = m.quietView :=
  foldl_quietView (renderEntityStep env) (quietView_renderEntityStep env) _ m

/-- The batching loop returns whatever the allocator answers, given one unit of
budget per pointer that is still to be batched. -/
theorem renderPolygonsLoop_isSome (scenePolygons : List Polygon) (sorted : List Nat)
    (dcInit : DrawCall) (allocOk : Nat → Bool) :
    ∀ (budget batchNo batchStart : Nat), batchStart < sorted.length →
      sorted.length - batchStart ≤ budget →
      ∃ r : List PolygonBatch × Bool,
        renderPolygonsLoop scenePolygons sorted dcInit allocOk budget batchNo batchStart =
          some r := by
  intro budget
  induction budget with
  | zero => intro batchNo batchStart hlt hb; omega
  | succ budget ih =>
    intro batchNo batchStart hlt hb
    rw [renderPolygonsLoop_succ]
    have hle := batchAt_batchEnd_lt scenePolygons sorted dcInit batchStart hlt
    split_ifs with ha hend
    · exact ⟨_, rfl⟩
    · exact ⟨_, rfl⟩
    · obtain ⟨r, hr⟩ := ih (batchNo + 1)
        ((batchAt scenePolygons sorted dcInit batchStart).batchEnd + 1) (by omega) (by omega)
      rw [hr]
      exact ⟨_, rfl⟩

/-- With a library sort that permutes its input, `renderPolygons` returns
whatever the allocator answers and whatever the sorted vector held before. -/
theorem renderPolygonsCore_isSome
    (stdSortImpl : (Nat → Nat → Bool) → List Nat → List Nat)
    (hperm : ∀ (comp : Nat → Nat → Bool) (l : List Nat), (stdSortImpl comp l).Perm l)
    (mem : MaterialMem) (dcInit : DrawCall) (allocOk : Nat → Bool) (s : PolygonScene) :
    ∃ out : PolygonsOutcome, renderPolygonsCore stdSortImpl mem dcInit allocOk s = some out := by
  unfold renderPolygonsCore
  by_cases hnil : s.scenePolygons_.isEmpty = true
  · rw [if_pos hnil]
    exact ⟨_, rfl⟩
  · rw [if_neg hnil]
    have hne : s.scenePolygons_ ≠ [] := fun h => hnil (List.isEmpty_iff.mpr h)
    have hlen : 0 < s.scenePolygons_.length := List.length_pos.mpr hne
    have hp := (hperm (polygonLess mem s.scenePolygons_)
      (s.sortedScenePolygons_ ++ List.range s.scenePolygons_.length)).length_eq
    rw [List.length_append, List.length_range] at hp
    obtain ⟨r, hr⟩ := renderPolygonsLoop_isSome s.scenePolygons_
      (stdSortImpl (polygonLess mem s.scenePolygons_)
        (s.sortedScenePolygons_ ++ List.range s.scenePolygons_.length)) dcInit allocOk
      (stdSortImpl (polygonLess mem s.scenePolygons_)
        (s.sortedScenePolygons_ ++ List.range s.scenePolygons_.length)).length 0 0
      (by omega) (by omega)
    simp only [hr]
    exact ⟨_, rfl⟩

theorem renderCameraPolygons_some (env : Env)
    (hperm : ∀ (comp : Nat → Nat → Bool) (l : List Nat), (env.stdSortPolygons comp l).Perm l)
    (visId : VisibilityId) (m : Main) :
    ∃ m1 : Main, renderCameraPolygons env visId m = some m1 ∧ m1.quietView = m.quietView := by
  obtain ⟨out, hout⟩ := renderPolygonsCore_isSome env.stdSortPolygons hperm env.mem env.dcInit
    (fun k => env.allocOk (m.allocRequests + k))
    { drawCalls_ := m.drawCalls_, scenePolygons_ := m.scenePolygons_,
      sortedScenePolygons_ := m.sortedScenePolygons_ }
  unfold renderCameraPolygons
  rw [hout]
  refine ⟨_, rfl, ?_⟩
  simp [Main.record, Main.quietView, Main.sceneMembers, Main.stretchPicMembers,
    cameraCalls_append, cameraCalls]

theorem renderCameraBody_some (env : Env)
    (hperm : ∀ (comp : Nat → Nat → Bool) (l : List Nat), (env.stdSortPolygons comp l).Perm l)
    (a : CameraArgs) (m : Main) :
    ∃ m1 : Main, renderCameraBody env a m = some m1 ∧ m1.quietView = m.quietView := by
  unfold renderCameraBody
  simp only
  generalize hm3 : List.foldl (renderEntity env a.visId) _ _ = m3
  have h3 : m3.quietView = m.quietView := by
    rw [← hm3, foldl_quietView (renderEntity env a.visId) (quietView_renderEntity env a.visId)]
    split_ifs <;> rfl
  obtain ⟨m4, h4, hq4⟩ := renderCameraPolygons_some env hperm a.visId m3
  rw [h4]
  simp only
  split_ifs
  all_goals first
    | exact ⟨_, rfl, hq4.trans h3⟩
    | (refine ⟨_, rfl, ?_⟩
       simp only [quietView_pushView, quietView_renderScreenSpaceQuad]
       exact hq4.trans h3)

/-- An invocation of `renderCamera` that is not the main camera of a world
scene returns after its own pass: it makes no sub-invocation. -/
theorem renderCamera_leaf (env : Env)
    (hperm : ∀ (comp : Nat → Nat → Bool) (l : List Nat), (env.stdSortPolygons comp l).Perm l)
    (budget depth : Nat) (a : CameraArgs) (m : Main)
    (hleaf : ¬ (m.isWorldScene_ = true ∧ a.visId = VisibilityId.Main)) :
    ∃ m1 : Main, renderCamera env (budget + 1) depth a m = some m1 ∧
      m1.sceneMembers = m.sceneMembers ∧ m1.stretchPicMembers = m.stretchPicMembers ∧
      cameraCalls m1.calls = cameraCalls m.calls ++ [(depth, a)] := by
  unfold renderCamera
  have hc : ((m.record (Event.renderCamera depth a)).isWorldScene_ &&
      decide (a.visId = VisibilityId.Main)) = false := by
    show (m.isWorldScene_ && decide (a.visId = VisibilityId.Main)) = false
    cases hw : m.isWorldScene_
    · rfl
    · simp only [Bool.true_and, decide_eq_false_iff_not]
      exact fun hv => hleaf ⟨hw, hv⟩
  simp only [hc, Bool.false_eq_true, if_false]
  obtain ⟨m1, h1, hq⟩ := renderCameraBody_some env hperm a (m.record (Event.renderCamera depth a))
  refine ⟨m1, h1, ?_, ?_, ?_⟩
  · exact (congrArg QuietView.scene hq).trans rfl
  · exact (congrArg QuietView.stretchPic hq).trans rfl
  · have h := congrArg QuietView.cameras hq
    simp only [Main.quietView, Main.record, cameraCalls_append] at h
    rw [h]
    rfl

theorem renderCameraReflection_some (env : Env)
    (recurse : Nat → CameraArgs → Main → Option Main)
    (hrec : ∀ (depth : Nat) (a : CameraArgs) (m : Main), a.visId ≠ VisibilityId.Main →
      ∃ m1 : Main, recurse depth a m = some m1 ∧
        m1.sceneMembers = m.sceneMembers ∧ m1.stretchPicMembers = m.stretchPicMembers ∧
        cameraCalls m1.calls = cameraCalls m.calls ++ [(depth, a)])
    (depth : Nat) (a : CameraArgs) (m : Main) :
    ∃ m1 : Main, renderCameraReflection env recurse depth a m = some m1 ∧
      m1.sceneMembers = m.sceneMembers ∧ m1.stretchPicMembers = m.stretchPicMembers ∧
      cameraCalls m1.calls = cameraCalls m.calls ++ reflectionCameraCall env depth a := by
  unfold renderCameraReflection reflectionCameraCall
  by_cases hw : env.waterReflections = true
  · simp only [hw, if_true]
    cases hc : env.calculateReflectionCamera a.visId a.position a.rotation with
    | none => exact ⟨m, rfl, rfl, rfl, by simp⟩
    | some found =>
      obtain ⟨reflectionCamera, reflectionPlane⟩ := found
      simp only
      generalize hm2 : ({ (pushView env FrameBufferId.sceneFb_
        (env.bgfx.CLEAR_DEPTH ||| env.bgfx.CLEAR_STENCIL) a.rect false
        { m with drawCalls_ := [] ++ env.renderReflective a.visId }).1 with
        isCameraMirrored_ := true } : Main) = m2
      have hq2 : m2.quietView = m.quietView := by
        rw [← hm2]
        simp [pushView, Main.record, Main.quietView, Main.sceneMembers, Main.stretchPicMembers,
          cameraCalls_append, cameraCalls]
      obtain ⟨m3, h3, hs3, hp3, hc3⟩ := hrec (depth + 1)
        { visId := VisibilityId.Reflection, pvsPosition := a.pvsPosition,
          position := reflectionCamera.position,
          rotation := reflectionCamera.rotation, rect := a.rect, fov := a.fov,
          areaMask := a.areaMask, clippingPlane := reflectionPlane,
          flags := a.flags ||| env.cameraFlags.UseClippingPlane |||
            env.cameraFlags.UseStencilTest } m2 (by simp)
      rw [h3]
      refine ⟨_, rfl, ?_, ?_, ?_⟩
      · have h := congrArg QuietView.scene (quietView_renderScreenSpaceQuad env
          FrameBufferId.reflectionFb_ ShaderProgramId.Texture env.bgfx.STATE_RGB_WRITE
          env.bgfx.CLEAR_NONE { x := 0, y := 0, w := 0, h := 0 }
          { m3 with isCameraMirrored_ := false })
        exact h.trans ((show ({ m3 with isCameraMirrored_ := false } : Main).sceneMembers =
          m3.sceneMembers from rfl).trans (hs3.trans (congrArg QuietView.scene hq2)))
      · have h := congrArg QuietView.stretchPic (quietView_renderScreenSpaceQuad env
          FrameBufferId.reflectionFb_ ShaderProgramId.Texture env.bgfx.STATE_RGB_WRITE
          env.bgfx.CLEAR_NONE { x := 0, y := 0, w := 0, h := 0 }
          { m3 with isCameraMirrored_ := false })
        exact h.trans ((show ({ m3 with isCameraMirrored_ := false } : Main).stretchPicMembers =
          m3.stretchPicMembers from rfl).trans (hp3.trans (congrArg QuietView.stretchPic hq2)))
      · have h := congrArg QuietView.cameras (quietView_renderScreenSpaceQuad env
          FrameBufferId.reflectionFb_ ShaderProgramId.Texture env.bgfx.STATE_RGB_WRITE
          env.bgfx.CLEAR_NONE { x := 0, y := 0, w := 0, h := 0 }
          { m3 with isCameraMirrored_ := false })
        have h2 : cameraCalls m2.calls = cameraCalls m.calls := congrArg QuietView.cameras hq2
        exact h.trans ((show cameraCalls ({ m3 with isCameraMirrored_ := false } : Main).calls =
          cameraCalls m3.calls from rfl).trans (hc3.trans (by rw [h2])))
  · simp only [hw, if_false]
    exact ⟨m, rfl, rfl, rfl, by simp⟩

theorem renderCameraPortal_some (env : Env)
    (recurse : Nat → CameraArgs → Main → Option Main)
    (hrec : ∀ (depth : Nat) (a : CameraArgs) (m : Main), a.visId ≠ VisibilityId.Main →
      ∃ m1 : Main, recurse depth a m = some m1 ∧
        m1.sceneMembers = m.sceneMembers ∧ m1.stretchPicMembers = m.stretchPicMembers ∧
        cameraCalls m1.calls = cameraCalls m.calls ++ [(depth, a)])
    (depth : Nat) (a : CameraArgs) (m : Main) :
    ∃ m1 : Main, renderCameraPortal env recurse depth a m = some m1 ∧
      m1.sceneMembers = m.sceneMembers ∧ m1.stretchPicMembers = m.stretchPicMembers ∧
      cameraCalls m1.calls = cameraCalls m.calls ++ portalCameraCall env depth a := by
  unfold renderCameraPortal portalCameraCall
  cases hc : env.calculatePortalCamera a.visId a.position a.rotation with
  | none => exact ⟨m, rfl, rfl, rfl, by simp⟩
  | some found =>
    obtain ⟨pvsPosition, portalCamera, isCameraMirrored, portalPlane⟩ := found
    simp only
    generalize hm7 : ({ (pushView env FrameBufferId.sceneFb_
      (env.bgfx.CLEAR_DEPTH ||| env.bgfx.CLEAR_STENCIL) a.rect false
      { m with drawCalls_ := [] ++ env.renderPortal a.visId }).1 with
      isCameraMirrored_ := isCameraMirrored } : Main) = m7
    have hq7 : m7.quietView = m.quietView := by
      rw [← hm7]
      simp [pushView, Main.record, Main.quietView, Main.sceneMembers, Main.stretchPicMembers,
        cameraCalls_append, cameraCalls]
    obtain ⟨m8, h8, hs8, hp8, hc8⟩ := hrec (depth + 1)
      { visId := VisibilityId.Portal, pvsPosition := pvsPosition,
        position := portalCamera.position, rotation := portalCamera.rotation,
        rect := a.rect, fov := a.fov, areaMask := a.areaMask,
        clippingPlane := portalPlane,
        flags := a.flags ||| env.cameraFlags.UseClippingPlane |||
          env.cameraFlags.UseStencilTest } m7 (by simp)
    rw [h8]
    have h7 : cameraCalls m7.calls = cameraCalls m.calls := congrArg QuietView.cameras hq7
    refine ⟨_, rfl, ?_, ?_, ?_⟩
    · exact (show ({ m8 with isCameraMirrored_ := false } : Main).sceneMembers =
        m8.sceneMembers from rfl).trans (hs8.trans (congrArg QuietView.scene hq7))
    · exact (show ({ m8 with isCameraMirrored_ := false } : Main).stretchPicMembers =
        m8.stretchPicMembers from rfl).trans (hp8.trans (congrArg QuietView.stretchPic hq7))
    · exact (show cameraCalls ({ m8 with isCameraMirrored_ := false } : Main).calls =
        cameraCalls m8.calls from rfl).trans (hc8.trans (by rw [h7]))

/-- The main camera of a world scene makes its reflection and portal
sub-invocations, each a leaf, and then its own pass. -/
theorem renderCamera_main (env : Env)
    (hperm : ∀ (comp : Nat → Nat → Bool) (l : List Nat), (env.stdSortPolygons comp l).Perm l)
    (budget depth : Nat) (a : CameraArgs) (m : Main)
    (hworld : m.isWorldScene_ = true) (hmain : a.visId = VisibilityId.Main) :
    ∃ m1 : Main, renderCamera env (budget + 2) depth a m = some m1 ∧
      m1.sceneMembers = m.sceneMembers ∧ m1.stretchPicMembers = m.stretchPicMembers ∧
      cameraCalls m1.calls = cameraCalls m.calls ++
        (depth, a) :: (reflectionCameraCall env depth a ++ portalCameraCall env depth a) := by
  have hrec : ∀ (depth : Nat) (a : CameraArgs) (m : Main), a.visId ≠ VisibilityId.Main →
      ∃ m1 : Main, renderCamera env (budget + 1) depth a m = some m1 ∧
        m1.sceneMembers = m.sceneMembers ∧ m1.stretchPicMembers = m.stretchPicMembers ∧
        cameraCalls m1.calls = cameraCalls m.calls ++ [(depth, a)] :=
    fun depth a m hv => renderCamera_leaf env hperm budget depth a m (fun h => hv h.2)
  rw [renderCamera]
  have hc : ((m.record (Event.renderCamera depth a)).isWorldScene_ &&
      decide (a.visId = VisibilityId.Main)) = true := by
    show (m.isWorldScene_ && decide (a.visId = VisibilityId.Main)) = true
    rw [hworld, hmain]
    rfl
  simp only [hc, if_true]
  obtain ⟨m5, h5, hs5, hp5, hc5⟩ := renderCameraReflection_some env
    (renderCamera env (budget + 1)) hrec depth a (m.record (Event.renderCamera depth a))
  obtain ⟨m9, h9, hs9, hp9, hc9⟩ := renderCameraPortal_some env
    (renderCamera env (budget + 1)) hrec depth a m5
  obtain ⟨m10, h10, hq10⟩ := renderCameraBody_some env hperm a m9
  rw [h5]
  simp only
  rw [h9]
  simp only
  refine ⟨m10, h10, ?_, ?_, ?_⟩
  · exact (congrArg QuietView.scene hq10).trans (hs9.trans (hs5.trans rfl))
  · exact (congrArg QuietView.stretchPic hq10).trans (hp9.trans (hp5.trans rfl))
  · have h := congrArg QuietView.cameras hq10
    simp only [Main.quietView] at h
    rw [h, hc9, hc5]
    simp only [Main.record, cameraCalls_append, List.append_assoc]
    rfl

theorem clearCalls_append (a b : List Event) :
    clearCalls (a ++ b) = clearCalls a ++ clearCalls b := by
  unfold clearCalls
  exact List.filterMap_append _ _ _

theorem pushedViews_append (a b : List Event) :
    pushedViews (a ++ b) = pushedViews a ++ pushedViews b := by
  unfold pushedViews
  exact List.filterMap_append _ _ _

/-- The submissions of the 2D batch only append `submit` calls to the record. -/
theorem foldl_submit_eq (g : MaterialStage → Nat) :
    ∀ (stages : List MaterialStage) (m : Main),
      stages.foldl (fun acc stage =>
          acc.record (Event.submit acc.stretchPicViewId_ ShaderProgramId.Generic (g stage))) m =
        { m with calls := m.calls ++ stages.map (fun stage =>
            Event.submit m.stretchPicViewId_ ShaderProgramId.Generic (g stage)) } := by
  intro stages
  induction stages with
  | nil => intro m; simp
  | cons stage rest ih =>
    intro m
    rw [List.foldl_cons, ih]
    simp [Main.record]

theorem cameraCalls_submits (f : MaterialStage → Event)
    (hf : ∀ stage, ∃ v p s, f stage = Event.submit v p s) (stages : List MaterialStage) :
    cameraCalls (stages.map f) = [] ∧ clearCalls (stages.map f) = [] ∧
      pushedViews (stages.map f) = [] := by
  induction stages with
  | nil => exact ⟨rfl, rfl, rfl⟩
  | cons stage rest ih =>
    obtain ⟨v, p, s, h⟩ := hf stage
    rw [List.map_cons, h]
    exact ih

/-- What `flushStretchPics` does to the record and to the scene members: it
appends calls that are neither camera invocations nor clears with a colour,
among them at most one view, and it empties the pending 2D buffers. -/
theorem flushStretchPics_effect (env : Env) (m : Main) :
    (flushStretchPics env m).sceneMembers = m.sceneMembers ∧
    (flushStretchPics env m).stretchPicVertices_ = [] ∧
    (flushStretchPics env m).stretchPicIndices_ = [] ∧
    (m.stretchPicIndices_ = [] → (flushStretchPics env m).calls = m.calls) ∧
    ∃ new : List Event, (flushStretchPics env m).calls = m.calls ++ new ∧
      cameraCalls new = [] ∧ clearCalls new = [] ∧ (pushedViews new).length ≤ 1 := by
  refine ⟨?_, rfl, rfl, ?_, ?_⟩
  · unfold flushStretchPics
    simp only
    split_ifs
    all_goals first
      | rfl
      | (rw [foldl_submit_eq]; rfl)
  · intro h
    unfold flushStretchPics
    simp [h]
  · unfold flushStretchPics
    simp only
    split_ifs
    all_goals try rw [foldl_submit_eq]
    · exact ⟨[], by simp, rfl, rfl, Nat.zero_le 1⟩
    · simp only [pushView, Main.record, List.append_assoc]
      refine ⟨_, rfl, ?_, ?_, ?_⟩
      · rw [cameraCalls_append]
        exact (cameraCalls_submits _ (fun stage => ⟨_, _, _, rfl⟩) _).1
      · rw [clearCalls_append]
        exact (cameraCalls_submits _ (fun stage => ⟨_, _, _, rfl⟩) _).2.1
      · rw [pushedViews_append, (cameraCalls_submits _ (fun stage => ⟨_, _, _, rfl⟩) _).2.2]
        exact Nat.le_refl 1
    · refine ⟨_, rfl, ?_, ?_, ?_⟩
      · exact (cameraCalls_submits _ (fun stage => ⟨_, _, _, rfl⟩) _).1
      · exact (cameraCalls_submits _ (fun stage => ⟨_, _, _, rfl⟩) _).2.1
      · rw [(cameraCalls_submits _ (fun stage => ⟨_, _, _, rfl⟩) _).2.2]
        simp
    · exact ⟨[], by simp, rfl, rfl, Nat.zero_le 1⟩

set_option maxRecDepth 100000 in
theorem hyperspaceColor_bytes_of_lt :
    ∀ c : Nat, c < 256 →
      u32 ((c <<< 24) ||| (c <<< 16) ||| (c <<< 8) ||| 0xff) =
        c * 2 ^ 24 + c * 2 ^ 16 + c * 2 ^ 8 + 255 := by
  decide

/-- The hyperspace clear colour as a sum of its four bytes. -/
theorem hyperspaceColor_eq (time : Int) :
    hyperspaceColor time =
      Int.toNat (time % 256) * 2 ^ 24 + Int.toNat (time % 256) * 2 ^ 16 +
        Int.toNat (time % 256) * 2 ^ 8 + 255 :=
  hyperspaceColor_bytes_of_lt (Int.toNat (time % 256)) (by omega)

set_option maxRecDepth 100000 in
theorem hyperspaceColor_split_of_lt :
    ∀ c : Nat, c < 256 →
      (c * 2 ^ 24 + c * 2 ^ 16 + c * 2 ^ 8 + 255) / 2 ^ 24 % 256 = c ∧
      (c * 2 ^ 24 + c * 2 ^ 16 + c * 2 ^ 8 + 255) / 2 ^ 16 % 256 = c ∧
      (c * 2 ^ 24 + c * 2 ^ 16 + c * 2 ^ 8 + 255) / 2 ^ 8 % 256 = c ∧
      (c * 2 ^ 24 + c * 2 ^ 16 + c * 2 ^ 8 + 255) % 256 = 255 ∧
      c * 2 ^ 24 + c * 2 ^ 16 + c * 2 ^ 8 + 255 < 2 ^ 32 := by
  decide

/-- The four bytes of the hyperspace clear colour: red, green and blue are
`time mod 256`, alpha is 255. -/
theorem hyperspaceColor_bytes (time : Int) :
    hyperspaceColor time / 2 ^ 24 % 256 = Int.toNat (time % 256) ∧
    hyperspaceColor time / 2 ^ 16 % 256 = Int.toNat (time % 256) ∧
    hyperspaceColor time / 2 ^ 8 % 256 = Int.toNat (time % 256) ∧
    hyperspaceColor time % 256 = 255 ∧
    hyperspaceColor time < 2 ^ 32 := by
  rw [hyperspaceColor_eq]
  exact hyperspaceColor_split_of_lt (Int.toNat (time % 256)) (by omega)

/-- Every `renderCamera` invocation returns within a nesting budget of two,
leaves the scene and 2D-batch members alone, and logs itself followed, for the
main camera of a world scene, by its reflection and portal sub-invocations. -/
theorem renderCamera_some (env : Env)
    (hperm : ∀ (comp : Nat → Nat → Bool) (l : List Nat), (env.stdSortPolygons comp l).Perm l)
    (budget depth : Nat) (a : CameraArgs) (m : Main) :
    ∃ m1 : Main, renderCamera env (budget + 2) depth a m = some m1 ∧
      m1.sceneMembers = m.sceneMembers ∧ m1.stretchPicMembers = m.stretchPicMembers ∧
      cameraCalls m1.calls = cameraCalls m.calls ++
        (depth, a) :: (if m.isWorldScene_ = true ∧ a.visId = VisibilityId.Main then
          reflectionCameraCall env depth a ++ portalCameraCall env depth a else []) := by
  by_cases hcase : m.isWorldScene_ = true ∧ a.visId = VisibilityId.Main
  · rw [if_pos hcase]
    exact renderCamera_main env hperm budget depth a m hcase.1 hcase.2
  · rw [if_neg hcase]
    exact renderCamera_leaf env hperm (budget + 1) depth a m hcase

theorem quietView_renderScenePostProcess (env : Env) (m : Main) :
    (renderScenePostProcess env m).quietView = m.quietView := by
  unfold renderScenePostProcess
  simp only
  split_ifs <;> simp only [quietView_renderScreenSpaceQuad]

theorem reflectionCameraCall_visId (env : Env) (depth : Nat) (a : CameraArgs) :
    ∀ c ∈ reflectionCameraCall env depth a,
      c.1 = depth + 1 ∧ c.2.visId = VisibilityId.Reflection := by
  intro c hc
  unfold reflectionCameraCall at hc
  split_ifs at hc
  · cases hf : env.calculateReflectionCamera a.visId a.position a.rotation with
    | none => rw [hf] at hc; simp at hc
    | some found =>
      rw [hf] at hc
      simp only [List.mem_singleton] at hc
      rw [hc]
      exact ⟨rfl, rfl⟩
  · simp at hc

theorem portalCameraCall_visId (env : Env) (depth : Nat) (a : CameraArgs) :
    ∀ c ∈ portalCameraCall env depth a,
      c.1 = depth + 1 ∧ c.2.visId = VisibilityId.Portal := by
  intro c hc
  unfold portalCameraCall at hc
  cases hf : env.calculatePortalCamera a.visId a.position a.rotation with
  | none => rw [hf] at hc; simp at hc
  | some found =>
    rw [hf] at hc
    simp only [List.mem_singleton] at hc
    rw [hc]
    exact ⟨rfl, rfl⟩

/-- The camera part of `renderScene`: the pending sky box portal camera, if
there is one, then the main camera with its sub-invocations; the pending mark
is cleared. -/
theorem renderSceneCameras_some (env : Env)
    (hperm : ∀ (comp : Nat → Nat → Bool) (l : List Nat), (env.stdSortPolygons comp l).Perm l)
    (budget : Nat) (scene : SceneDefinition) (m : Main) :
    ∃ m1 : Main, renderSceneCameras env (budget + 2) scene (sceneRect scene) m = some m1 ∧
      m1.skyboxPortalEnabled_ = false ∧ m1.skyboxPortalScene_ = m.skyboxPortalScene_ ∧
      cameraCalls m1.calls = cameraCalls m.calls ++
        ((if m.skyboxPortalEnabled_ = true then
            [(0, skyboxPortalCameraArgs env m.skyboxPortalScene_ scene)] else []) ++
          (0, mainCameraArgs env scene) ::
            (if sceneIsWorld env scene = true then
              reflectionCameraCall env 0 (mainCameraArgs env scene) ++
                portalCameraCall env 0 (mainCameraArgs env scene)
             else [])) := by
  unfold renderSceneCameras
  simp only
  generalize hm2 : ({ m with
      isWorldScene_ := decide (scene.flags &&& env.sceneFlags.World ≠ 0) && env.worldIsLoaded,
      sceneRotation_ := scene.rotation } : Main) = m2
  have hw2 : m2.isWorldScene_ = sceneIsWorld env scene := by rw [← hm2]; rfl
  have hr2 : m2.sceneRotation_ = scene.rotation := by rw [← hm2]
  have he2 : m2.skyboxPortalEnabled_ = m.skyboxPortalEnabled_ := by rw [← hm2]
  have hs2 : m2.skyboxPortalScene_ = m.skyboxPortalScene_ := by rw [← hm2]
  have hc2 : cameraCalls m2.calls = cameraCalls m.calls := by rw [← hm2]
  have hmainStep : ∀ m4 : Main, m4.isWorldScene_ = sceneIsWorld env scene →
      m4.sceneRotation_ = scene.rotation →
      ∃ m1 : Main,
        (match renderCamera env (budget + 2) 0
            { visId := VisibilityId.Main, pvsPosition := scene.position,
              position := scene.position, rotation := m4.sceneRotation_,
              rect := sceneRect scene, fov := scene.fov, areaMask := scene.areaMask,
              clippingPlane := Plane.default,
              flags := if scene.flags &&& env.sceneFlags.ContainsSkyboxPortal ≠ 0 then
                         0 ||| env.cameraFlags.ContainsSkyboxPortal
                       else 0 } m4 with
          | none => none
          | some m5 =>
            some (if m5.isWorldScene_ = true then renderScenePostProcess env m5 else m5)) =
          some m1 ∧
        m1.skyboxPortalEnabled_ = m4.skyboxPortalEnabled_ ∧
        m1.skyboxPortalScene_ = m4.skyboxPortalScene_ ∧
        cameraCalls m1.calls = cameraCalls m4.calls ++
          (0, mainCameraArgs env scene) ::
            (if sceneIsWorld env scene = true then
              reflectionCameraCall env 0 (mainCameraArgs env scene) ++
                portalCameraCall env 0 (mainCameraArgs env scene)
             else []) := by
    intro m4 hw4 hr4
    rw [hr4]
    obtain ⟨m5, h5, hs5, _, hc5⟩ := renderCamera_some env hperm budget 0
      (mainCameraArgs env scene) m4
    have h5a : renderCamera env (budget + 2) 0
        { visId := VisibilityId.Main, pvsPosition := scene.position,
          position := scene.position, rotation := scene.rotation,
          rect := sceneRect scene, fov := scene.fov, areaMask := scene.areaMask,
          clippingPlane := Plane.default,
          flags := if scene.flags &&& env.sceneFlags.ContainsSkyboxPortal ≠ 0 then
                     0 ||| env.cameraFlags.ContainsSkyboxPortal
                   else 0 } m4 = some m5 := h5
    rw [h5a]
    simp only
    have hcond : (m4.isWorldScene_ = true ∧ (mainCameraArgs env scene).visId = VisibilityId.Main) ↔
        sceneIsWorld env scene = true := by
      rw [hw4]
      exact ⟨fun h => h.1, fun h => ⟨h, rfl⟩⟩
    rw [if_congr hcond rfl rfl] at hc5
    have hpost : (if m5.isWorldScene_ = true then renderScenePostProcess env m5
        else m5).quietView = m5.quietView := by
      split_ifs
      · exact quietView_renderScenePostProcess env m5
      · rfl
    generalize (if m5.isWorldScene_ = true then renderScenePostProcess env m5 else m5) = m6
      at hpost
    refine ⟨m6, rfl, ?_, ?_, ?_⟩
    · exact (congrArg (fun q => q.scene.skyboxPortalEnabled_) hpost).trans
        (congrArg SceneMembers.skyboxPortalEnabled_ hs5)
    · exact (congrArg (fun q => q.scene.skyboxPortalScene_) hpost).trans
        (congrArg SceneMembers.skyboxPortalScene_ hs5)
    · exact (congrArg QuietView.cameras hpost).trans hc5
  by_cases hen : m.skyboxPortalEnabled_ = true
  · rw [if_pos hen, if_pos hen]
    obtain ⟨m3, h3, hs3, _, hc3⟩ := renderCamera_leaf env hperm (budget + 1) 0
      (skyboxPortalCameraArgs env m.skyboxPortalScene_ scene) m2 (fun h => by cases h.2)
    have h3a : renderCamera env (budget + 2) 0
        { visId := VisibilityId.SkyboxPortal, pvsPosition := m.skyboxPortalScene_.position,
          position := m.skyboxPortalScene_.position,
          rotation := m.skyboxPortalScene_.rotation, rect := sceneRect scene,
          fov := m.skyboxPortalScene_.fov, areaMask := m.skyboxPortalScene_.areaMask,
          clippingPlane := Plane.default,
          flags := env.cameraFlags.IsSkyboxPortal } m2 = some m3 := h3
    rw [h3a]
    simp only
    obtain ⟨m1, h1, he1, hs1, hc1⟩ := hmainStep { m3 with skyboxPortalEnabled_ := false }
      ((congrArg SceneMembers.isWorldScene_ hs3).trans hw2)
      ((congrArg SceneMembers.sceneRotation_ hs3).trans hr2)
    refine ⟨m1, h1, he1, ?_, ?_⟩
    · exact hs1.trans ((congrArg SceneMembers.skyboxPortalScene_ hs3).trans hs2)
    · rw [hc1]
      show cameraCalls m3.calls ++ _ = _
      rw [hc3, hc2, List.append_assoc]
  · rw [if_neg hen, if_neg hen]
    simp only
    obtain ⟨m1, h1, he1, hs1, hc1⟩ := hmainStep m2 hw2 hr2
    refine ⟨m1, h1, ?_, hs1.trans hs2, ?_⟩
    · rw [he1, he2]
      exact eq_false_of_ne_true hen
    · rw [hc1, hc2]
      rfl

theorem quadCalls_renderScreenSpaceQuad (env : Env) (frameBuffer : FrameBufferId)
    (program : ShaderProgramId) (state clearFlags : Nat) (rect : Rect) (m : Main) :
    quadCalls (renderScreenSpaceQuad env frameBuffer program state clearFlags rect m).calls =
      quadCalls m.calls ++ [(frameBuffer, program)] := by
  unfold renderScreenSpaceQuad
  simp only
  split_ifs <;> simp [pushView, Main.record, quadCalls_append, quadCalls]

theorem aa_renderScreenSpaceQuad (env : Env) (frameBuffer : FrameBufferId)
    (program : ShaderProgramId) (state clearFlags : Nat) (rect : Rect) (m : Main) :
    (renderScreenSpaceQuad env frameBuffer program state clearFlags rect m).aa_ = m.aa_ :=
  congrArg (fun q => q.scene.aa_)
    (quietView_renderScreenSpaceQuad env frameBuffer program state clearFlags rect m)

/-- The screen-space passes of the post-processing of a world scene, in
order: with HDR on, the three bloom passes and the tone-map pass; then the
three SMAA passes when the anti-aliasing mode is SMAA, and otherwise, with HDR
on or off, the blit of the scene to the default frame buffer. -/
theorem quadCalls_renderScenePostProcess (env : Env) (m : Main) :
    quadCalls (renderScenePostProcess env m).calls =
      quadCalls m.calls ++
        ((if env.hdr = true then
            [(FrameBufferId.bloomFb_ 0, ShaderProgramId.Texture),
             (FrameBufferId.bloomFb_ 1, ShaderProgramId.GaussianBlur),
             (FrameBufferId.bloomFb_ 0, ShaderProgramId.GaussianBlur),
             (if m.aa_ = AntiAliasing.None then FrameBufferId.defaultFb_
              else FrameBufferId.sceneTempFb_, ShaderProgramId.ToneMap)]
          else []) ++
         (if m.aa_ = AntiAliasing.SMAA then
            [(FrameBufferId.smaaEdgesFb_, ShaderProgramId.SMAAEdgeDetection),
             (FrameBufferId.smaaBlendFb_, ShaderProgramId.SMAABlendingWeightCalculation),
             (FrameBufferId.defaultFb_, ShaderProgramId.SMAANeighborhoodBlending)]
          else [(FrameBufferId.defaultFb_, ShaderProgramId.Texture)])) := by
  unfold renderScenePostProcess
  simp only
  by_cases hh : env.hdr = true
  · simp only [hh, if_true, aa_renderScreenSpaceQuad]
    by_cases hs : m.aa_ = AntiAliasing.SMAA
    · simp only [hs, if_true, quadCalls_renderScreenSpaceQuad, List.append_assoc,
        List.cons_append, List.nil_append]
    · simp only [hs, if_false, quadCalls_renderScreenSpaceQuad, List.append_assoc,
        List.cons_append, List.nil_append]
  · simp only [hh, if_false, Bool.false_eq_true]
    by_cases hs : m.aa_ = AntiAliasing.SMAA
    · simp only [hs, if_true, quadCalls_renderScreenSpaceQuad, List.append_assoc,
        List.cons_append, List.nil_append]
    · simp only [hs, if_false, quadCalls_renderScreenSpaceQuad, List.append_assoc,
        List.cons_append, List.nil_append]

/-- The camera part of `renderScene` ends, for a world scene, with the
post-processing of the state the main camera leaves, whose anti-aliasing mode
is the one the call started with. -/
theorem renderSceneCameras_post (env : Env)
    (hperm : ∀ (comp : Nat → Nat → Bool) (l : List Nat), (env.stdSortPolygons comp l).Perm l)
    (budget : Nat) (scene : SceneDefinition) (rect : Rect) (m : Main) :
    ∃ m5 : Main,
      renderSceneCameras env (budget + 2) scene rect m =
        some (if m5.isWorldScene_ = true then renderScenePostProcess env m5 else m5) ∧
      m5.isWorldScene_ = sceneIsWorld env scene ∧ m5.aa_ = m.aa_ := by
  unfold renderSceneCameras
  simp only
  generalize hm2 : ({ m with
      isWorldScene_ := decide (scene.flags &&& env.sceneFlags.World ≠ 0) && env.worldIsLoaded,
      sceneRotation_ := scene.rotation } : Main) = m2
  have hw2 : m2.isWorldScene_ = sceneIsWorld env scene := by rw [← hm2]; rfl
  have ha2 : m2.aa_ = m.aa_ := by rw [← hm2]
  have hmainStep : ∀ (m4 : Main) (a : CameraArgs),
      m4.isWorldScene_ = sceneIsWorld env scene → m4.aa_ = m.aa_ →
      ∃ m5 : Main,
        (match renderCamera env (budget + 2) 0 a m4 with
          | none => none
          | some m5 =>
            some (if m5.isWorldScene_ = true then renderScenePostProcess env m5 else m5)) =
          some (if m5.isWorldScene_ = true then renderScenePostProcess env m5 else m5) ∧
        m5.isWorldScene_ = sceneIsWorld env scene ∧ m5.aa_ = m.aa_ := by
    intro m4 a hw4 ha4
    obtain ⟨m5, h5, hs5, _, _⟩ := renderCamera_some env hperm budget 0 a m4
    rw [h5]
    exact ⟨m5, rfl, (congrArg SceneMembers.isWorldScene_ hs5).trans hw4,
      (congrArg SceneMembers.aa_ hs5).trans ha4⟩
  by_cases hen : m.skyboxPortalEnabled_ = true
  · rw [if_pos hen]
    obtain ⟨m3, h3, hs3, _, _⟩ := renderCamera_some env hperm budget 0
      { visId := VisibilityId.SkyboxPortal, pvsPosition := m.skyboxPortalScene_.position,
        position := m.skyboxPortalScene_.position,
        rotation := m.skyboxPortalScene_.rotation, rect := rect,
        fov := m.skyboxPortalScene_.fov, areaMask := m.skyboxPortalScene_.areaMask,
        clippingPlane := Plane.default,
        flags := env.cameraFlags.IsSkyboxPortal } m2
    rw [h3]
    simp only
    exact hmainStep { m3 with skyboxPortalEnabled_ := false } _
      ((congrArg SceneMembers.isWorldScene_ hs3).trans hw2)
      ((congrArg SceneMembers.aa_ hs3).trans ha2)
  · rw [if_neg hen]
    simp only
    exact hmainStep m2 _ hw2 ha2

theorem quietView_debugDraw (env : Env) (x y : Int) (program : ShaderProgramId) (m : Main) :
    (debugDraw env x y program m).quietView = m.quietView :=
  quietView_renderScreenSpaceQuad env _ _ _ _ _ m

theorem quietView_endFrameDebugDraw (env : Env) (m : Main) :
    (endFrameDebugDraw env m).quietView = m.quietView := by
  unfold endFrameDebugDraw
  split_ifs
  all_goals first
    | rfl
    | simp only [quietView_debugDraw]
    | exact foldl_quietView _
        (fun acc i => quietView_debugDraw env (i : Int) 0 ShaderProgramId.TextureDebug acc) _ m

theorem quietView_record (m : Main) (e : Event) (he : cameraCalls [e] = []) :
    (m.record e).quietView = m.quietView := by
  simp [Main.record, Main.quietView, Main.sceneMembers, Main.stretchPicMembers,
    cameraCalls_append, he]

theorem quietView_record_setViewClear (m : Main) (viewId flags rgba : Nat) :
    (m.record (Event.setViewClear viewId flags rgba)).quietView = m.quietView :=
  quietView_record m _ rfl

theorem quietView_record_touch (m : Main) (viewId : Nat) :
    (m.record (Event.touch viewId)).quietView = m.quietView :=
  quietView_record m _ rfl

/-! ## The sorted vector across the cameras of a scene -/

/-- `renderPolygons` with every allocation granted, whatever the sorted vector
held before the call: the vector afterwards is a permutation of the old vector
followed by all polygon pointers, and the batches of the call cover the whole
vector. -/
theorem renderPolygonsCore_allOk_any
    (stdSortImpl : (Nat → Nat → Bool) → List Nat → List Nat)
    (hperm : ∀ (comp : Nat → Nat → Bool) (l : List Nat), (stdSortImpl comp l).Perm l)
    (mem : MaterialMem) (dcInit : DrawCall) (s : PolygonScene)
    (hne : s.scenePolygons_ ≠ []) :
    ∃ out : PolygonsOutcome,
      renderPolygonsCore stdSortImpl mem dcInit (fun _ => true) s = some out ∧
      out.allocFailed = false ∧
      out.scene.sortedScenePolygons_.Perm
        (s.sortedScenePolygons_ ++ List.range s.scenePolygons_.length) ∧
      out.batches.flatMap (fun b => b.members out.scene.sortedScenePolygons_) =
        out.scene.sortedScenePolygons_ := by
  unfold renderPolygonsCore
  have hnil : ¬ s.scenePolygons_.isEmpty = true := fun h => hne (List.isEmpty_iff.mp h)
  rw [if_neg hnil]
  have hlen : 0 < s.scenePolygons_.length := List.length_pos.mpr hne
  have hp := hperm (polygonLess mem s.scenePolygons_)
    (s.sortedScenePolygons_ ++ List.range s.scenePolygons_.length)
  have hsl := hp.length_eq
  rw [List.length_append, List.length_range] at hsl
  simp only
  generalize stdSortImpl (polygonLess mem s.scenePolygons_)
    (s.sortedScenePolygons_ ++ List.range s.scenePolygons_.length) = sorted at hp hsl
  obtain ⟨bs, hbs, hflat⟩ := renderPolygonsLoop_allOk s.scenePolygons_ sorted dcInit
    sorted.length 0 0 (by omega) (by omega)
  rw [hbs]
  refine ⟨_, rfl, rfl, hp, ?_⟩
  show bs.flatMap (fun b => b.members sorted) = sorted
  rw [flatMap_members sorted bs 0 _ (by omega) hflat]
  simp

theorem polygonView_pushView (env : Env) (frameBuffer : FrameBufferId) (clearFlags : Nat)
    (rect : Rect) (sequential : Bool) (m : Main) :
    (pushView env frameBuffer clearFlags rect sequential m).1.polygonView = m.polygonView := by
  simp [pushView, Main.record, Main.polygonView, polygonCalls_append, polygonCalls]

theorem polygonView_renderScreenSpaceQuad (env : Env) (frameBuffer : FrameBufferId)
    (program : ShaderProgramId) (state clearFlags : Nat) (rect : Rect) (m : Main) :
    (renderScreenSpaceQuad env frameBuffer program state clearFlags rect m).polygonView =
      m.polygonView := by
  unfold renderScreenSpaceQuad
  simp only
  split_ifs <;>
    simp [pushView, Main.record, Main.polygonView, polygonCalls_append, polygonCalls]

theorem polygonView_renderEntityStep (env : Env) (m : Main) (step : EntityStep) :
    (renderEntityStep env m step).polygonView = m.polygonView := by
  cases step with
  | direct dc => rfl
  | transient site dc =>
    unfold renderEntityStep
    simp only
    split_ifs <;> rfl
  | debugAxis position => rfl

theorem foldl_polygonView {α : Type} (f : Main → α → Main)
    (hstep : ∀ (m : Main) (x : α), (f m x).polygonView = m.polygonView) :
    ∀ (l : List α) (m : Main), (l.foldl f m).polygonView = m.polygonView := by
  intro l
  induction l with
  | nil => intro m; rfl
  | cons x rest ih =>
    intro m
    rw [List.foldl_cons, ih, hstep]

theorem polygonView_renderEntity (env : Env) (visId : VisibilityId) (m : Main)
    (entity : Entity) : (renderEntity env visId m entity).polygonView = m.polygonView :=
  foldl_polygonView (renderEntityStep env) (polygonView_renderEntityStep env) _ m

/-- The `renderPolygons` call of a camera when every allocation is granted
and the scene has polygons: the sorted vector grows by all polygon pointers,
and the batches of the call hold the whole vector. -/
theorem renderCameraPolygons_allOk (env : Env)
    (hperm : ∀ (comp : Nat → Nat → Bool) (l : List Nat), (env.stdSortPolygons comp l).Perm l)
    (hall : ∀ k : Nat, env.allocOk k = true) (visId : VisibilityId) (m : Main)
    (hne : m.scenePolygons_ ≠ []) :
    ∃ m1 : Main, renderCameraPolygons env visId m = some m1 ∧ m1.quietView = m.quietView ∧
      m1.sortedScenePolygons_.Perm
        (m.sortedScenePolygons_ ++ List.range m.scenePolygons_.length) ∧
      polygonCalls m1.calls = polygonCalls m.calls ++ [(visId, m1.sortedScenePolygons_)] := by
  have hfun : (fun k => env.allocOk (m.allocRequests + k)) = fun _ => true :=
    funext (fun k => hall _)
  obtain ⟨out, hout, _, hp, hmem⟩ := renderPolygonsCore_allOk_any env.stdSortPolygons hperm
    env.mem env.dcInit
    { drawCalls_ := m.drawCalls_, scenePolygons_ := m.scenePolygons_,
      sortedScenePolygons_ := m.sortedScenePolygons_ } hne
  unfold renderCameraPolygons
  rw [hfun, hout]
  refine ⟨_, rfl, ?_, hp, ?_⟩
  · simp [Main.record, Main.quietView, Main.sceneMembers, Main.stretchPicMembers,
      cameraCalls_append, cameraCalls]
  · simp only [Main.record, polygonCalls_append]
    congr 1
    show [(visId, out.batches.flatMap (fun b => b.members out.scene.sortedScenePolygons_))] = _
    rw [hmem]

theorem renderCameraBody_allOk (env : Env)
    (hperm : ∀ (comp : Nat → Nat → Bool) (l : List Nat), (env.stdSortPolygons comp l).Perm l)
    (hall : ∀ k : Nat, env.allocOk k = true) (a : CameraArgs) (m : Main)
    (hne : m.scenePolygons_ ≠ []) :
    ∃ m1 : Main, renderCameraBody env a m = some m1 ∧ m1.quietView = m.quietView ∧
      m1.sortedScenePolygons_.Perm
        (m.sortedScenePolygons_ ++ List.range m.scenePolygons_.length) ∧
      polygonCalls m1.calls = polygonCalls m.calls ++ [(a.visId, m1.sortedScenePolygons_)] := by
  unfold renderCameraBody
  simp only
  generalize hm3 : List.foldl (renderEntity env a.visId) _ _ = m3
  have h3 : m3.quietView = m.quietView := by
    rw [← hm3, foldl_quietView (renderEntity env a.visId) (quietView_renderEntity env a.visId)]
    split_ifs <;> rfl
  have hp3 : m3.polygonView = m.polygonView := by
    rw [← hm3, foldl_polygonView (renderEntity env a.visId)
      (polygonView_renderEntity env a.visId)]
    split_ifs <;> rfl
  have hn3 : m3.scenePolygons_ = m.scenePolygons_ :=
    congrArg (fun q => q.scene.scenePolygons_) h3
  obtain ⟨m4, h4, hq4, hperm4, hc4⟩ := renderCameraPolygons_allOk env hperm hall a.visId m3
    (by rw [hn3]; exact hne)
  rw [hn3, show m3.sortedScenePolygons_ = m.sortedScenePolygons_ from
    congrArg PolygonView.sorted hp3] at hperm4
  rw [show polygonCalls m3.calls = polygonCalls m.calls from
    congrArg PolygonView.calls hp3] at hc4
  rw [h4]
  simp only
  have hfinal : ∀ m7 : Main, m7.quietView = m4.quietView → m7.polygonView = m4.polygonView →
      m7.quietView = m.quietView ∧
      m7.sortedScenePolygons_.Perm
        (m.sortedScenePolygons_ ++ List.range m.scenePolygons_.length) ∧
      polygonCalls m7.calls = polygonCalls m.calls ++ [(a.visId, m7.sortedScenePolygons_)] := by
    intro m7 hq7 hp7
    have hs7 : m7.sortedScenePolygons_ = m4.sortedScenePolygons_ :=
      congrArg PolygonView.sorted hp7
    have hc7 : polygonCalls m7.calls = polygonCalls m4.calls := congrArg PolygonView.calls hp7
    rw [hs7, hc7]
    exact ⟨hq7.trans (hq4.trans h3), hperm4, hc4⟩
  split_ifs
  all_goals first
    | exact ⟨_, rfl, hfinal _ rfl rfl⟩
    | (refine ⟨_, rfl, hfinal _ ?_ ?_⟩
       · simp only [quietView_pushView, quietView_renderScreenSpaceQuad]
         rfl
       · simp only [polygonView_pushView, polygonView_renderScreenSpaceQuad]
         rfl)

theorem renderCamera_leaf_allOk (env : Env)
    (hperm : ∀ (comp : Nat → Nat → Bool) (l : List Nat), (env.stdSortPolygons comp l).Perm l)
    (hall : ∀ k : Nat, env.allocOk k = true)
    (budget depth : Nat) (a : CameraArgs) (m : Main)
    (hleaf : ¬ (m.isWorldScene_ = true ∧ a.visId = VisibilityId.Main))
    (hne : m.scenePolygons_ ≠ []) :
    ∃ m1 : Main, renderCamera env (budget + 1) depth a m = some m1 ∧
      m1.sceneMembers = m.sceneMembers ∧
      m1.sortedScenePolygons_.Perm
        (m.sortedScenePolygons_ ++ List.range m.scenePolygons_.length) ∧
      polygonCalls m1.calls = polygonCalls m.calls ++ [(a.visId, m1.sortedScenePolygons_)] := by
  unfold renderCamera
  have hc : ((m.record (Event.renderCamera depth a)).isWorldScene_ &&
      decide (a.visId = VisibilityId.Main)) = false := by
    show (m.isWorldScene_ && decide (a.visId = VisibilityId.Main)) = false
    cases hw : m.isWorldScene_
    · rfl
    · simp only [Bool.true_and, decide_eq_false_iff_not]
      exact fun hv => hleaf ⟨hw, hv⟩
  simp only [hc, Bool.false_eq_true, if_false]
  obtain ⟨m1, h1, hq, hp, hcalls⟩ := renderCameraBody_allOk env hperm hall a
    (m.record (Event.renderCamera depth a)) hne
  refine ⟨m1, h1, (congrArg QuietView.scene hq).trans rfl, hp, ?_⟩
  rw [hcalls]
  simp [Main.record, polygonCalls_append, polygonCalls]

theorem renderCameraReflection_allOk (env : Env)
    (recurse : Nat → CameraArgs → Main → Option Main)
    (hrec : ∀ (depth : Nat) (a : CameraArgs) (m : Main), a.visId ≠ VisibilityId.Main →
      m.scenePolygons_ ≠ [] →
      ∃ m1 : Main, recurse depth a m = some m1 ∧ m1.sceneMembers = m.sceneMembers ∧
        m1.sortedScenePolygons_.Perm
          (m.sortedScenePolygons_ ++ List.range m.scenePolygons_.length) ∧
        polygonCalls m1.calls = polygonCalls m.calls ++ [(a.visId, m1.sortedScenePolygons_)])
    (depth : Nat) (a : CameraArgs) (m : Main) (hne : m.scenePolygons_ ≠ []) :
    ∃ (m1 : Main) (mid : List (VisibilityId × List Nat)),
      renderCameraReflection env recurse depth a m = some m1 ∧
      m1.sceneMembers = m.sceneMembers ∧
      polygonCalls m1.calls = polygonCalls m.calls ++ mid ∧
      ∀ i : Nat, m.sortedScenePolygons_.count i ≤ m1.sortedScenePolygons_.count i := by
  unfold renderCameraReflection
  by_cases hw : env.waterReflections = true
  · simp only [hw, if_true]
    cases hc : env.calculateReflectionCamera a.visId a.position a.rotation with
    | none => exact ⟨m, [], rfl, rfl, by simp, fun _ => le_refl _⟩
    | some found =>
      obtain ⟨reflectionCamera, reflectionPlane⟩ := found
      simp only
      generalize hm2 : ({ (pushView env FrameBufferId.sceneFb_
        (env.bgfx.CLEAR_DEPTH ||| env.bgfx.CLEAR_STENCIL) a.rect false
        { m with drawCalls_ := [] ++ env.renderReflective a.visId }).1 with
        isCameraMirrored_ := true } : Main) = m2
      have hq2 : m2.sceneMembers = m.sceneMembers ∧ m2.polygonView = m.polygonView := by
        rw [← hm2]
        constructor
        · simp [pushView, Main.record, Main.sceneMembers]
        · simp [pushView, Main.record, Main.polygonView, polygonCalls_append, polygonCalls]
      have hn2 : m2.scenePolygons_ = m.scenePolygons_ :=
        congrArg SceneMembers.scenePolygons_ hq2.1
      obtain ⟨m3, h3, hs3, hp3, hc3⟩ := hrec (depth + 1)
        { visId := VisibilityId.Reflection, pvsPosition := a.pvsPosition,
          position := reflectionCamera.position,
          rotation := reflectionCamera.rotation, rect := a.rect, fov := a.fov,
          areaMask := a.areaMask, clippingPlane := reflectionPlane,
          flags := a.flags ||| env.cameraFlags.UseClippingPlane |||
            env.cameraFlags.UseStencilTest } m2 (by simp) (by rw [hn2]; exact hne)
      rw [h3]
      simp only
      have hq := quietView_renderScreenSpaceQuad env FrameBufferId.reflectionFb_
        ShaderProgramId.Texture env.bgfx.STATE_RGB_WRITE env.bgfx.CLEAR_NONE
        { x := 0, y := 0, w := 0, h := 0 } { m3 with isCameraMirrored_ := false }
      have hpv := polygonView_renderScreenSpaceQuad env FrameBufferId.reflectionFb_
        ShaderProgramId.Texture env.bgfx.STATE_RGB_WRITE env.bgfx.CLEAR_NONE
        { x := 0, y := 0, w := 0, h := 0 } { m3 with isCameraMirrored_ := false }
      generalize renderScreenSpaceQuad env FrameBufferId.reflectionFb_
        ShaderProgramId.Texture env.bgfx.STATE_RGB_WRITE env.bgfx.CLEAR_NONE
        { x := 0, y := 0, w := 0, h := 0 } { m3 with isCameraMirrored_ := false } = m4
        at hq hpv ⊢
      have hs4 : m4.sortedScenePolygons_ = m3.sortedScenePolygons_ :=
        congrArg PolygonView.sorted hpv
      have hc4 : polygonCalls m4.calls = polygonCalls m3.calls := congrArg PolygonView.calls hpv
      have hs2 : m2.sortedScenePolygons_ = m.sortedScenePolygons_ :=
        congrArg PolygonView.sorted hq2.2
      have hc2 : polygonCalls m2.calls = polygonCalls m.calls :=
        congrArg PolygonView.calls hq2.2
      refine ⟨m4, [(VisibilityId.Reflection, m3.sortedScenePolygons_)], rfl, ?_, ?_, ?_⟩
      · exact (congrArg QuietView.scene hq).trans (hs3.trans hq2.1)
      · rw [hc4, hc3, hc2]
      · intro i
        rw [hs4, hp3.count_eq, hs2, List.count_append]
        exact Nat.le_add_right _ _
  · simp only [hw, if_false]
    exact ⟨m, [], rfl, rfl, by simp, fun _ => le_refl _⟩

theorem renderCameraPortal_allOk (env : Env)
    (recurse : Nat → CameraArgs → Main → Option Main)
    (hrec : ∀ (depth : Nat) (a : CameraArgs) (m : Main), a.visId ≠ VisibilityId.Main →
      m.scenePolygons_ ≠ [] →
      ∃ m1 : Main, recurse depth a m = some m1 ∧ m1.sceneMembers = m.sceneMembers ∧
        m1.sortedScenePolygons_.Perm
          (m.sortedScenePolygons_ ++ List.range m.scenePolygons_.length) ∧
        polygonCalls m1.calls = polygonCalls m.calls ++ [(a.visId, m1.sortedScenePolygons_)])
    (depth : Nat) (a : CameraArgs) (m : Main) (hne : m.scenePolygons_ ≠ []) :
    ∃ (m1 : Main) (mid : List (VisibilityId × List Nat)),
      renderCameraPortal env recurse depth a m = some m1 ∧
      m1.sceneMembers = m.sceneMembers ∧
      polygonCalls m1.calls = polygonCalls m.calls ++ mid ∧
      ∀ i : Nat, m.sortedScenePolygons_.count i ≤ m1.sortedScenePolygons_.count i := by
  unfold renderCameraPortal
  cases hc : env.calculatePortalCamera a.visId a.position a.rotation with
  | none => exact ⟨m, [], rfl, rfl, by simp, fun _ => le_refl _⟩
  | some found =>
    obtain ⟨pvsPosition, portalCamera, isCameraMirrored, portalPlane⟩ := found
    simp only
    generalize hm7 : ({ (pushView env FrameBufferId.sceneFb_
      (env.bgfx.CLEAR_DEPTH ||| env.bgfx.CLEAR_STENCIL) a.rect false
      { m with drawCalls_ := [] ++ env.renderPortal a.visId }).1 with
      isCameraMirrored_ := isCameraMirrored } : Main) = m7
    have hq7 : m7.sceneMembers = m.sceneMembers ∧ m7.polygonView = m.polygonView := by
      rw [← hm7]
      constructor
      · simp [pushView, Main.record, Main.sceneMembers]
      · simp [pushView, Main.record, Main.polygonView, polygonCalls_append, polygonCalls]
    have hn7 : m7.scenePolygons_ = m.scenePolygons_ :=
      congrArg SceneMembers.scenePolygons_ hq7.1
    obtain ⟨m8, h8, hs8, hp8, hc8⟩ := hrec (depth + 1)
      { visId := VisibilityId.Portal, pvsPosition := pvsPosition,
        position := portalCamera.position, rotation := portalCamera.rotation,
        rect := a.rect, fov := a.fov, areaMask := a.areaMask,
        clippingPlane := portalPlane,
        flags := a.flags ||| env.cameraFlags.UseClippingPlane |||
          env.cameraFlags.UseStencilTest } m7 (by simp) (by rw [hn7]; exact hne)
    rw [h8]
    have hs7 : m7.sortedScenePolygons_ = m.sortedScenePolygons_ :=
      congrArg PolygonView.sorted hq7.2
    have hc7 : polygonCalls m7.calls = polygonCalls m.calls :=
      congrArg PolygonView.calls hq7.2
    refine ⟨{ m8 with isCameraMirrored_ := false },
      [(VisibilityId.Portal, m8.sortedScenePolygons_)], rfl, ?_, ?_, ?_⟩
    · exact (show ({ m8 with isCameraMirrored_ := false } : Main).sceneMembers =
        m8.sceneMembers from rfl).trans (hs8.trans hq7.1)
    · show polygonCalls m8.calls = _
      rw [hc8, hc7]
    · intro i
      show _ ≤ m8.sortedScenePolygons_.count i
      rw [hp8.count_eq, hs7, List.count_append]
      exact Nat.le_add_right _ _

/-- Every `renderCamera` invocation in a scene with polygons, all allocations
granted: its own `renderPolygons` call is the last one it logs, the batches of
that call hold the whole sorted vector, and the vector holds every polygon
pointer at least once more than before the invocation. -/
theorem renderCamera_allOk (env : Env)
    (hperm : ∀ (comp : Nat → Nat → Bool) (l : List Nat), (env.stdSortPolygons comp l).Perm l)
    (hall : ∀ k : Nat, env.allocOk k = true)
    (budget depth : Nat) (a : CameraArgs) (m : Main) (hne : m.scenePolygons_ ≠ []) :
    ∃ (m1 : Main) (mid : List (VisibilityId × List Nat)),
      renderCamera env (budget + 2) depth a m = some m1 ∧
      m1.sceneMembers = m.sceneMembers ∧
      polygonCalls m1.calls =
        polygonCalls m.calls ++ (mid ++ [(a.visId, m1.sortedScenePolygons_)]) ∧
      (∀ i : Nat, i < m.scenePolygons_.length →
        m.sortedScenePolygons_.count i + 1 ≤ m1.sortedScenePolygons_.count i) ∧
      (¬ (m.isWorldScene_ = true ∧ a.visId = VisibilityId.Main) →
        mid = [] ∧ m1.sortedScenePolygons_.Perm
          (m.sortedScenePolygons_ ++ List.range m.scenePolygons_.length)) := by
  have hcount : ∀ (l l1 : List Nat) (n : Nat), l1.Perm (l ++ List.range n) →
      ∀ i : Nat, i < n → l.count i + 1 = l1.count i := by
    intro l l1 n hp i hi
    rw [hp.count_eq, List.count_append,
      List.count_eq_one_of_mem (List.nodup_range n) (List.mem_range.mpr hi)]
  by_cases hcase : m.isWorldScene_ = true ∧ a.visId = VisibilityId.Main
  · have hrec : ∀ (depth : Nat) (a : CameraArgs) (m : Main), a.visId ≠ VisibilityId.Main →
        m.scenePolygons_ ≠ [] →
        ∃ m1 : Main, renderCamera env (budget + 1) depth a m = some m1 ∧
          m1.sceneMembers = m.sceneMembers ∧
          m1.sortedScenePolygons_.Perm
            (m.sortedScenePolygons_ ++ List.range m.scenePolygons_.length) ∧
          polygonCalls m1.calls =
            polygonCalls m.calls ++ [(a.visId, m1.sortedScenePolygons_)] :=
      fun depth a m hv hne =>
        renderCamera_leaf_allOk env hperm hall budget depth a m (fun h => hv h.2) hne
    rw [renderCamera]
    have hc : ((m.record (Event.renderCamera depth a)).isWorldScene_ &&
        decide (a.visId = VisibilityId.Main)) = true := by
      show (m.isWorldScene_ && decide (a.visId = VisibilityId.Main)) = true
      rw [hcase.1, hcase.2]
      rfl
    simp only [hc, if_true]
    obtain ⟨m5, mid5, h5, hs5, hc5, hn5⟩ := renderCameraReflection_allOk env
      (renderCamera env (budget + 1)) hrec depth a (m.record (Event.renderCamera depth a)) hne
    have hne5 : m5.scenePolygons_ ≠ [] := by
      rw [show m5.scenePolygons_ = m.scenePolygons_ from
        congrArg SceneMembers.scenePolygons_ hs5]
      exact hne
    obtain ⟨m9, mid9, h9, hs9, hc9, hn9⟩ := renderCameraPortal_allOk env
      (renderCamera env (budget + 1)) hrec depth a m5 hne5
    have hne9 : m9.scenePolygons_ ≠ [] := by
      rw [show m9.scenePolygons_ = m5.scenePolygons_ from
        congrArg SceneMembers.scenePolygons_ hs9]
      exact hne5
    obtain ⟨m10, h10, hq10, hp10, hc10⟩ := renderCameraBody_allOk env hperm hall a m9 hne9
    rw [h5]
    simp only
    rw [h9]
    simp only
    have hlen : m9.scenePolygons_.length = m.scenePolygons_.length :=
      congrArg (fun s => s.scenePolygons_.length) (hs9.trans hs5)
    refine ⟨m10, mid5 ++ mid9, h10, ?_, ?_, ?_, fun hn => (hn hcase).elim⟩
    · exact (congrArg QuietView.scene hq10).trans (hs9.trans (hs5.trans rfl))
    · rw [hc10, hc9, hc5]
      simp [Main.record, polygonCalls_append, polygonCalls]
    · intro i hi
      rw [← hcount _ _ _ hp10 i (by rw [hlen]; exact hi)]
      exact Nat.succ_le_succ (le_trans (hn5 i) (hn9 i))
  · obtain ⟨m1, h1, hs1, hp1, hc1⟩ := renderCamera_leaf_allOk env hperm hall (budget + 1) depth
      a m hcase hne
    refine ⟨m1, [], h1, hs1, ?_, ?_, fun _ => ⟨rfl, hp1⟩⟩
    · rw [hc1]
      rfl
    · intro i hi
      exact le_of_eq (hcount _ _ _ hp1 i hi)

theorem polygonView_renderScenePostProcess (env : Env) (m : Main) :
    (renderScenePostProcess env m).polygonView = m.polygonView := by
  unfold renderScenePostProcess
  simp only
  split_ifs <;> simp only [polygonView_renderScreenSpaceQuad]

/-- The camera part of `renderScene` with a sky box portal pending, polygons
in the scene and all allocations granted: the `renderPolygons` call of the
sky box portal camera batches every polygon once, and the call of the main
camera, the last of the scene, batches every polygon at least twice. -/
theorem renderSceneCameras_pending_allOk (env : Env)
    (hperm : ∀ (comp : Nat → Nat → Bool) (l : List Nat), (env.stdSortPolygons comp l).Perm l)
    (hall : ∀ k : Nat, env.allocOk k = true)
    (budget : Nat) (scene : SceneDefinition) (rect : Rect) (m : Main)
    (hpending : m.skyboxPortalEnabled_ = true) (hne : m.scenePolygons_ ≠ [])
    (hsorted : m.sortedScenePolygons_ = []) :
    ∃ (m1 : Main) (first last : List Nat) (mid : List (VisibilityId × List Nat)),
      renderSceneCameras env (budget + 2) scene rect m = some m1 ∧
      polygonCalls m1.calls = polygonCalls m.calls ++
        ((VisibilityId.SkyboxPortal, first) :: (mid ++ [(VisibilityId.Main, last)])) ∧
      first.Perm (List.range m.scenePolygons_.length) ∧
      (∀ i : Nat, i < m.scenePolygons_.length → 2 ≤ last.count i) := by
  unfold renderSceneCameras
  simp only
  generalize hm2 : ({ m with
      isWorldScene_ := decide (scene.flags &&& env.sceneFlags.World ≠ 0) && env.worldIsLoaded,
      sceneRotation_ := scene.rotation } : Main) = m2
  have hn2 : m2.scenePolygons_ = m.scenePolygons_ := by rw [← hm2]
  have hs2 : m2.sortedScenePolygons_ = [] := by rw [← hm2]; exact hsorted
  have hc2 : polygonCalls m2.calls = polygonCalls m.calls := by rw [← hm2]
  rw [if_pos hpending]
  obtain ⟨m3, mid3, h3, hs3, hc3, hn3, hleaf3⟩ := renderCamera_allOk env hperm hall budget 0
    { visId := VisibilityId.SkyboxPortal, pvsPosition := m.skyboxPortalScene_.position,
      position := m.skyboxPortalScene_.position,
      rotation := m.skyboxPortalScene_.rotation, rect := rect,
      fov := m.skyboxPortalScene_.fov, areaMask := m.skyboxPortalScene_.areaMask,
      clippingPlane := Plane.default,
      flags := env.cameraFlags.IsSkyboxPortal } m2 (by rw [hn2]; exact hne)
  obtain ⟨hmid3, hp3⟩ := hleaf3 (fun h => by cases h.2)
  rw [h3]
  simp only
  have hn3a : m3.scenePolygons_ = m.scenePolygons_ :=
    (congrArg SceneMembers.scenePolygons_ hs3).trans hn2
  obtain ⟨m5, mid5, h5, hs5, hc5, hn5, _⟩ := renderCamera_allOk env hperm hall budget 0
    { visId := VisibilityId.Main, pvsPosition := scene.position, position := scene.position,
      rotation := m3.sceneRotation_, rect := rect, fov := scene.fov,
      areaMask := scene.areaMask, clippingPlane := Plane.default,
      flags := if scene.flags &&& env.sceneFlags.ContainsSkyboxPortal ≠ 0 then
                 0 ||| env.cameraFlags.ContainsSkyboxPortal
               else 0 } { m3 with skyboxPortalEnabled_ := false }
    (by show m3.scenePolygons_ ≠ []; rw [hn3a]; exact hne)
  rw [h5]
  simp only
  have hpost : (if m5.isWorldScene_ = true then renderScenePostProcess env m5
      else m5).polygonView = m5.polygonView := by
    split_ifs
    · exact polygonView_renderScenePostProcess env m5
    · rfl
  generalize (if m5.isWorldScene_ = true then renderScenePostProcess env m5 else m5) = m6
    at hpost
  rw [hs2, List.nil_append, hn2] at hp3
  refine ⟨m6, m3.sortedScenePolygons_, m5.sortedScenePolygons_, mid5, rfl, ?_, hp3, ?_⟩
  · rw [show polygonCalls m6.calls = polygonCalls m5.calls from
      congrArg PolygonView.calls hpost, hc5]
    show polygonCalls m3.calls ++ _ = _
    rw [hc3, hmid3, hc2, List.nil_append, List.append_assoc]
    rfl
  · intro i hi
    have h1 : m3.sortedScenePolygons_.count i = 1 := by
      rw [hp3.count_eq]
      exact List.count_eq_one_of_mem (List.nodup_range _) (List.mem_range.mpr hi)
    have h2 := hn5 i (by show i < m3.scenePolygons_.length; rw [hn3a]; exact hi)
    have h3 : ({ m3 with skyboxPortalEnabled_ := false } : Main).sortedScenePolygons_.count i =
        1 := h1
    omega

theorem polygonCalls_submits (f : MaterialStage → Event)
    (hf : ∀ stage, ∃ v p s, f stage = Event.submit v p s) (stages : List MaterialStage) :
    polygonCalls (stages.map f) = [] := by
  induction stages with
  | nil => rfl
  | cons stage rest ih =>
    obtain ⟨v, p, s, h⟩ := hf stage
    rw [List.map_cons, h]
    exact ih

theorem polygonView_flushStretchPics (env : Env) (m : Main) :
    (flushStretchPics env m).polygonView = m.polygonView := by
  unfold flushStretchPics
  simp only
  split_ifs
  all_goals try rw [foldl_submit_eq]
  · rfl
  · simp only [pushView, Main.record, Main.polygonView, polygonCalls_append,
      polygonCalls_submits _ (fun stage => ⟨_, _, _, rfl⟩), List.append_nil]
    simp [polygonCalls]
  · simp only [Main.polygonView, polygonCalls_append,
      polygonCalls_submits _ (fun stage => ⟨_, _, _, rfl⟩), List.append_nil]
  · rfl

/-- Two names that both match a string when letter case is ignored are equal
when letter case is ignored. -/
theorem stricmpEqual_both (s a b : String) (ha : stricmpEqual s a = true)
    (hb : stricmpEqual s b = true) :
    a.data.map Char.toLower = b.data.map Char.toLower := by
  unfold stricmpEqual at ha hb
  rw [beq_iff_eq] at ha hb
  rw [← ha, ← hb]

theorem debugDrawFromString_cases (b1 b2 b3 b4 b5 b6 : Bool)
    (h12 : ¬ (b1 = true ∧ b2 = true)) (h13 : ¬ (b1 = true ∧ b3 = true))
    (h14 : ¬ (b1 = true ∧ b4 = true)) (h15 : ¬ (b1 = true ∧ b5 = true))
    (h16 : ¬ (b1 = true ∧ b6 = true)) (h23 : ¬ (b2 = true ∧ b3 = true))
    (h24 : ¬ (b2 = true ∧ b4 = true)) (h25 : ¬ (b2 = true ∧ b5 = true))
    (h26 : ¬ (b2 = true ∧ b6 = true)) (h34 : ¬ (b3 = true ∧ b4 = true))
    (h35 : ¬ (b3 = true ∧ b5 = true)) (h36 : ¬ (b3 = true ∧ b6 = true))
    (h45 : ¬ (b4 = true ∧ b5 = true)) (h46 : ¬ (b4 = true ∧ b6 = true))
    (h56 : ¬ (b5 = true ∧ b6 = true)) (r : DebugDraw)
    (hr : r = if b1 = true then DebugDraw.Bloom
      else if b2 = true then DebugDraw.Depth
      else if b3 = true then DebugDraw.DynamicLight
      else if b4 = true then DebugDraw.Lightmap
      else if b5 = true then DebugDraw.Reflection
      else if b6 = true then DebugDraw.SMAA
      else DebugDraw.None) :
    (r = DebugDraw.Bloom ↔ b1 = true) ∧ (r = DebugDraw.Depth ↔ b2 = true) ∧
    (r = DebugDraw.DynamicLight ↔ b3 = true) ∧ (r = DebugDraw.Lightmap ↔ b4 = true) ∧
    (r = DebugDraw.Reflection ↔ b5 = true) ∧ (r = DebugDraw.SMAA ↔ b6 = true) ∧
    (r = DebugDraw.None ↔
      (b1 = false ∧ b2 = false ∧ b3 = false ∧ b4 = false ∧ b5 = false ∧ b6 = false)) := by
  subst hr
  cases b1 <;> cases b2 <;> cases b3 <;> cases b4 <;> cases b5 <;> cases b6 <;> simp_all

theorem mainPassStage_isSome_iff (V : GenericShaderProgramVariant) (B : BgfxDefines)
    (dcf : DrawCallFlags) (rcf : RenderCameraFlags) (g : RenderGlobals) (flags : Nat)
    (material mat : Material) (dc : DrawCall) (stage : MaterialStage) :
    (mainPassStage V B dcf rcf g flags material mat dc stage).isSome = stage.active := by
  unfold mainPassStage
  cases stage.active <;> rfl

theorem length_filterMap_eq_filter {α β : Type} (f : α → Option β) (p : α → Bool)
    (h : ∀ a, (f a).isSome = p a) :
    ∀ l : List α, (l.filterMap f).length = (l.filter p).length := by
  intro l
  induction l with
  | nil => rfl
  | cons a rest ih =>
    have ha := h a
    cases hf : f a with
    | none =>
      rw [hf] at ha
      rw [List.filterMap_cons_none hf, List.filter_cons_of_neg (by rw [← ha]; simp), ih]
    | some b =>
      rw [hf] at ha
      rw [List.filterMap_cons_some hf, List.filter_cons_of_pos (by rw [← ha]; rfl),
        List.length_cons, List.length_cons, ih]

/-- The stage found by the alpha-test search is the first stage, in stage
order, that is active and has an alpha-test mode. -/
theorem findIdx?_eq_some_iff_first {α : Type} (p : α → Bool) :
    ∀ (l : List α) (start k : Nat),
      l.findIdx? p start = some (start + k) ↔
        ∃ a, l[k]? = some a ∧ p a = true ∧
          ∀ j, j < k → ∀ b, l[j]? = some b → p b = false := by
  intro l
  induction l with
  | nil =>
    intro start k
    simp
  | cons x rest ih =>
    intro start k
    rw [List.findIdx?_cons]
    by_cases hx : p x = true
    · rw [if_pos hx]
      constructor
      · intro h
        have hk : k = 0 := by
          simp only [Option.some.injEq] at h
          omega
        subst hk
        exact ⟨x, List.getElem?_cons_zero, hx, fun j hj => absurd hj (Nat.not_lt_zero j)⟩
      · rintro ⟨a, ha, hpa, hfirst⟩
        cases k with
        | zero => rfl
        | succ k =>
          have := hfirst 0 (Nat.succ_pos k) x List.getElem?_cons_zero
          rw [hx] at this
          cases this
    · rw [if_neg hx]
      have hxf : p x = false := by
        cases h : p x
        · rfl
        · exact absurd h hx
      cases k with
      | zero =>
        constructor
        · intro h
          have hle : ∀ (l2 : List α) (s i : Nat), l2.findIdx? p s = some i → s ≤ i := by
            intro l2
            induction l2 with
            | nil => intro s i h; simp at h
            | cons y r ih2 =>
              intro s i h
              rw [List.findIdx?_cons] at h
              split_ifs at h
              · simp only [Option.some.injEq] at h
                omega
              · have := ih2 (s + 1) i h
                omega
          have := hle rest (start + 1) (start + 0) h
          omega
        · rintro ⟨a, ha, hpa, _⟩
          simp only [List.getElem?_cons_zero, Option.some.injEq] at ha
          rw [← ha, hxf] at hpa
          cases hpa
      | succ k =>
        rw [show start + (k + 1) = (start + 1) + k by omega, ih (start + 1) k]
        constructor
        · rintro ⟨a, ha, hpa, hfirst⟩
          refine ⟨a, by simpa using ha, hpa, ?_⟩
          intro j hj b hb
          cases j with
          | zero =>
            simp only [List.getElem?_cons_zero, Option.some.injEq] at hb
            rw [← hb]
            exact hxf
          | succ j =>
            exact hfirst j (by omega) b (by simpa using hb)
        · rintro ⟨a, ha, hpa, hfirst⟩
          refine ⟨a, by simpa using ha, hpa, ?_⟩
          intro j hj b hb
          exact hfirst (j + 1) (by omega) b (by simpa using hb)

/-! ## The 2D batch -/

theorem writeAt_length (values : List Nat) :
    ∀ (buffer : List Nat) (first : Nat), (writeAt buffer first values).length = buffer.length := by
  unfold writeAt
  generalize values.enum = kvs
  induction kvs with
  | nil => intro buffer first; rfl
  | cons kv rest ih =>
    intro buffer first
    rw [List.foldl_cons, ih, List.length_set]

theorem writeAt_fresh_aux (l : List Nat) :
    ∀ (values written : List Nat),
      (values.enumFrom written.length).foldl (fun acc kv => acc.set (l.length + kv.1) kv.2)
          (l ++ written ++ List.replicate values.length 0) =
        l ++ written ++ values := by
  intro values
  induction values with
  | nil => intro written; simp
  | cons v rest ih =>
    intro written
    rw [List.enumFrom_cons, List.foldl_cons]
    have hset : (l ++ written ++ List.replicate (v :: rest).length 0).set
        (l.length + written.length) v = l ++ (written ++ [v]) ++ List.replicate rest.length 0 := by
      rw [List.length_cons, List.replicate_succ, ← List.length_append,
        List.set_append_right _ _ (le_refl _), Nat.sub_self, List.set_cons_zero]
      simp
    have hlen : written.length + 1 = (written ++ [v]).length := by simp
    show List.foldl _ ((l ++ written ++ List.replicate (v :: rest).length 0).set
      (l.length + written.length) v) _ = _
    rw [hset, hlen, ih (written ++ [v])]
    simp

/-- Writing `values` to freshly appended elements of a vector leaves the
vector extended by `values`. -/
theorem writeAt_fresh (l values : List Nat) :
    writeAt (l ++ List.replicate values.length 0) l.length values = l ++ values := by
  have h := writeAt_fresh_aux l values []
  simpa [writeAt, List.enum] using h

/-- One `drawStretchPicGradient` call on a batch of the same material, or on
empty buffers: six indices and four vertices are appended. -/
theorem drawStretchPicGradient_step (env : Env) (mat : MaterialPtr) (m : Main)
    (h : m.stretchPicMaterial_ = mat ∨
      (m.stretchPicVertices_ = [] ∧ m.stretchPicIndices_ = [])) :
    (drawStretchPicGradient env mat m).stretchPicMaterial_ = mat ∧
    (drawStretchPicGradient env mat m).stretchPicIndices_ =
      m.stretchPicIndices_ ++ stretchPicQuadIndices (u16 m.stretchPicVertices_.length) ∧
    (drawStretchPicGradient env mat m).stretchPicVertices_.length =
      m.stretchPicVertices_.length + 4 ∧
    (m.stretchPicVertices_.length < 2 ^ 16 →
      (drawStretchPicGradient env mat m).stretchPicVertices_ =
        m.stretchPicVertices_ ++
          [4 * (m.stretchPicIndices_.length / 6) + 0 + 1,
           4 * (m.stretchPicIndices_.length / 6) + 1 + 1,
           4 * (m.stretchPicIndices_.length / 6) + 2 + 1,
           4 * (m.stretchPicIndices_.length / 6) + 3 + 1]) := by
  have key : ∀ m1 : Main, m1.stretchPicMaterial_ = mat →
      m1.stretchPicVertices_ = m.stretchPicVertices_ →
      m1.stretchPicIndices_ = m.stretchPicIndices_ →
      ∀ r : Main, r = { m1 with
          stretchPicVertices_ := writeAt (m1.stretchPicVertices_ ++ List.replicate 4 0)
            (u16 m1.stretchPicVertices_.length)
            [4 * (m1.stretchPicIndices_.length / 6) + 0 + 1,
             4 * (m1.stretchPicIndices_.length / 6) + 1 + 1,
             4 * (m1.stretchPicIndices_.length / 6) + 2 + 1,
             4 * (m1.stretchPicIndices_.length / 6) + 3 + 1],
          stretchPicIndices_ := writeAt (m1.stretchPicIndices_ ++ List.replicate 6 0)
            m1.stretchPicIndices_.length
            (stretchPicQuadIndices (u16 m1.stretchPicVertices_.length)) } →
      r.stretchPicMaterial_ = mat ∧
      r.stretchPicIndices_ =
        m.stretchPicIndices_ ++ stretchPicQuadIndices (u16 m.stretchPicVertices_.length) ∧
      r.stretchPicVertices_.length = m.stretchPicVertices_.length + 4 ∧
      (m.stretchPicVertices_.length < 2 ^ 16 →
        r.stretchPicVertices_ =
          m.stretchPicVertices_ ++
            [4 * (m.stretchPicIndices_.length / 6) + 0 + 1,
             4 * (m.stretchPicIndices_.length / 6) + 1 + 1,
             4 * (m.stretchPicIndices_.length / 6) + 2 + 1,
             4 * (m.stretchPicIndices_.length / 6) + 3 + 1]) := by
    intro m1 hm hv hi r hr
    subst hr
    simp only [hv, hi]
    refine ⟨hm, ?_, ?_, ?_⟩
    · exact writeAt_fresh m.stretchPicIndices_
        (stretchPicQuadIndices (u16 m.stretchPicVertices_.length))
    · rw [writeAt_length, List.length_append, List.length_replicate]
    · intro hlt
      have hu : u16 m.stretchPicVertices_.length = m.stretchPicVertices_.length :=
        Nat.mod_eq_of_lt hlt
      rw [hu]
      exact writeAt_fresh m.stretchPicVertices_
        [4 * (m.stretchPicIndices_.length / 6) + 0 + 1,
         4 * (m.stretchPicIndices_.length / 6) + 1 + 1,
         4 * (m.stretchPicIndices_.length / 6) + 2 + 1,
         4 * (m.stretchPicIndices_.length / 6) + 3 + 1]
  unfold drawStretchPicGradient
  simp only
  by_cases hmat : m.stretchPicMaterial_ = mat
  · rw [if_neg (not_not.mpr hmat)]
    exact key m hmat rfl rfl _ rfl
  · rw [if_pos hmat]
    obtain ⟨hv, hi⟩ := h.resolve_left hmat
    obtain ⟨_, hfv, hfi, _⟩ := flushStretchPics_effect env m
    exact key { flushStretchPics env m with stretchPicMaterial_ := mat } rfl
      (hfv.trans hv.symm) (hfi.trans hi.symm) _ rfl

/-- A run of `n` calls with one material, started on empty buffers: the
buffers hold four vertices and six indices per call. -/
theorem drawStretchPics_sizes (env : Env) (mat : MaterialPtr) (m : Main)
    (hv : m.stretchPicVertices_ = []) (hi : m.stretchPicIndices_ = []) :
    ∀ n : Nat,
      (n = 0 ∨ (drawStretchPics env mat n m).stretchPicMaterial_ = mat) ∧
      (drawStretchPics env mat n m).stretchPicVertices_.length = 4 * n ∧
      (drawStretchPics env mat n m).stretchPicIndices_.length = 6 * n := by
  intro n
  induction n with
  | zero =>
    refine ⟨Or.inl rfl, ?_, ?_⟩
    · show m.stretchPicVertices_.length = 0
      rw [hv]; rfl
    · show m.stretchPicIndices_.length = 0
      rw [hi]; rfl
  | succ n ih =>
    obtain ⟨hm, hvn, hin⟩ := ih
    have hpre : (drawStretchPics env mat n m).stretchPicMaterial_ = mat ∨
        ((drawStretchPics env mat n m).stretchPicVertices_ = [] ∧
          (drawStretchPics env mat n m).stretchPicIndices_ = []) := by
      rcases hm with h0 | h
      · subst h0
        exact Or.inr ⟨hv, hi⟩
      · exact Or.inl h
    obtain ⟨h1, h2, h3, _⟩ := drawStretchPicGradient_step env mat _ hpre
    refine ⟨Or.inr h1, ?_, ?_⟩
    · show (drawStretchPicGradient env mat (drawStretchPics env mat n m)).stretchPicVertices_.length
        = _
      rw [h3, hvn]
      omega
    · show (drawStretchPicGradient env mat (drawStretchPics env mat n m)).stretchPicIndices_.length
        = _
      rw [h2, List.length_append, hin]
      show 6 * n + 6 = _
      omega

/-- Call number `n` (counted from zero) of a run appends the six indices of
its quad, computed from the 16-bit first vertex `4 * n mod 65536`, and, while
the 16-bit conversion does not wrap, its four vertices. -/
theorem drawStretchPics_succ (env : Env) (mat : MaterialPtr) (m : Main)
    (hv : m.stretchPicVertices_ = []) (hi : m.stretchPicIndices_ = []) (n : Nat) :
    (drawStretchPics env mat (n + 1) m).stretchPicIndices_ =
      (drawStretchPics env mat n m).stretchPicIndices_ ++ stretchPicQuadIndices (u16 (4 * n)) ∧
    (n < 16384 →
      (drawStretchPics env mat (n + 1) m).stretchPicVertices_ =
        (drawStretchPics env mat n m).stretchPicVertices_ ++
          [4 * n + 1, 4 * n + 2, 4 * n + 3, 4 * n + 4]) := by
  obtain ⟨hm, hvn, hin⟩ := drawStretchPics_sizes env mat m hv hi n
  have hpre : (drawStretchPics env mat n m).stretchPicMaterial_ = mat ∨
      ((drawStretchPics env mat n m).stretchPicVertices_ = [] ∧
        (drawStretchPics env mat n m).stretchPicIndices_ = []) := by
    rcases hm with h0 | h
    · subst h0
      exact Or.inr ⟨hv, hi⟩
    · exact Or.inl h
  obtain ⟨_, h2, _, h4⟩ := drawStretchPicGradient_step env mat _ hpre
  rw [hvn] at h2
  refine ⟨h2, ?_⟩
  intro hn
  have := h4 (by rw [hvn]; omega)
  rw [hin, show 6 * n / 6 = n by omega] at this
  exact this

theorem drop_take_append_left {α : Type} (a b : List α) (s k : Nat) (h : s + k ≤ a.length) :
    ((a ++ b).drop s).take k = (a.drop s).take k := by
  rw [List.drop_append_of_le_length (by omega), List.take_append_of_le_length]
  rw [List.length_drop]
  omega

/-- The six indices of quad number `j` after `n > j` calls of a run. -/
theorem drawStretchPics_indices (env : Env) (mat : MaterialPtr) (m : Main)
    (hv : m.stretchPicVertices_ = []) (hi : m.stretchPicIndices_ = []) :
    ∀ n j : Nat, j < n →
      ((drawStretchPics env mat n m).stretchPicIndices_.drop (6 * j)).take 6 =
        stretchPicQuadIndices (u16 (4 * j)) := by
  intro n
  induction n with
  | zero => intro j hj; omega
  | succ n ih =>
    intro j hj
    obtain ⟨hsucc, _⟩ := drawStretchPics_succ env mat m hv hi n
    obtain ⟨_, _, hin⟩ := drawStretchPics_sizes env mat m hv hi n
    rw [hsucc]
    by_cases hjn : j < n
    · rw [drop_take_append_left _ _ _ _ (by rw [hin]; omega)]
      exact ih j hjn
    · have hje : j = n := by omega
      subst hje
      rw [← hin, List.drop_left]
      rfl

/-- The four vertices of quad number `j` after `n > j` calls of a run of at
most 16384 calls. -/
theorem drawStretchPics_vertices (env : Env) (mat : MaterialPtr) (m : Main)
    (hv : m.stretchPicVertices_ = []) (hi : m.stretchPicIndices_ = []) :
    ∀ n j : Nat, j < n → n ≤ 16384 →
      ((drawStretchPics env mat n m).stretchPicVertices_.drop (4 * j)).take 4 =
        [4 * j + 1, 4 * j + 2, 4 * j + 3, 4 * j + 4] := by
  intro n
  induction n with
  | zero => intro j hj; omega
  | succ n ih =>
    intro j hj hn
    obtain ⟨_, hsucc⟩ := drawStretchPics_succ env mat m hv hi n
    obtain ⟨_, hvn, _⟩ := drawStretchPics_sizes env mat m hv hi n
    rw [hsucc (by omega)]
    by_cases hjn : j < n
    · rw [drop_take_append_left _ _ _ _ (by rw [hvn]; omega)]
      exact ih j hjn (by omega)
    · have hje : j = n := by omega
      subst hje
      rw [← hvn, List.drop_left]
      rfl

/-! ## `ExtractQuadCorners` -/

/-- The loop of `ExtractQuadCorners` writes the elements that differ from
their predecessor, as long as the array `corners` has room for them. -/
theorem extractQuadCornersLoop_eq :
    ∀ (l : List Nat) (previous : Option Nat) (acc : QuadCorners),
      acc.corners.length + (selectChanges previous l).length ≤ 4 →
      extractQuadCornersLoop previous l acc =
        some { corners := acc.corners ++ selectChanges previous l } := by
  intro l
  induction l with
  | nil =>
    intro previous acc _
    simp [extractQuadCornersLoop, selectChanges]
  | cons x rest ih =>
    intro previous acc hle
    unfold extractQuadCornersLoop selectChanges
    unfold selectChanges at hle
    by_cases hc : previous = none ∨ previous ≠ some x
    · rw [if_pos hc] at hle
      rw [if_pos hc, if_pos hc]
      rw [List.length_cons] at hle
      have hlt : acc.cornerIndex < 4 := by
        unfold QuadCorners.cornerIndex
        omega
      rw [if_pos hlt, ih (some x) { corners := acc.corners ++ [x] }
        (by simp only [List.length_append, List.length_singleton]; omega)]
      simp
    · rw [if_neg hc] at hle
      rw [if_neg hc, if_neg hc]
      exact ih (some x) acc hle

/-- On an ascending list whose elements are not below `previous`, the
selection is strictly ascending and holds exactly the elements of the list
other than `previous`. -/
theorem selectChanges_sorted :
    ∀ (l : List Nat) (previous : Option Nat),
      l.Pairwise (fun a b => a ≤ b) →
      (∀ p, previous = some p → ∀ x ∈ l, p ≤ x) →
      (selectChanges previous l).Pairwise (fun a b => a < b) ∧
      (∀ v, v ∈ selectChanges previous l ↔ (v ∈ l ∧ previous ≠ some v)) := by
  intro l
  induction l with
  | nil =>
    intro previous _ _
    simp [selectChanges]
  | cons x rest ih =>
    intro previous hs hp
    rw [List.pairwise_cons] at hs
    obtain ⟨hx, hrest⟩ := hs
    obtain ⟨ihs, ihm⟩ := ih (some x) hrest (by
      intro p hpe y hy
      simp only [Option.some.injEq] at hpe
      rw [← hpe]
      exact hx y hy)
    unfold selectChanges
    by_cases hc : previous = none ∨ previous ≠ some x
    · rw [if_pos hc]
      refine ⟨?_, ?_⟩
      · rw [List.pairwise_cons]
        refine ⟨?_, ihs⟩
        intro y hy
        obtain ⟨hyr, hne⟩ := (ihm y).mp hy
        have hle := hx y hyr
        have hnexy : x ≠ y := fun h => hne (by rw [h])
        omega
      · intro v
        rw [List.mem_cons, List.mem_cons, ihm v]
        constructor
        · rintro (h | ⟨h, hne⟩)
          · subst h
            refine ⟨Or.inl rfl, ?_⟩
            rcases hc with h0 | h0
            · rw [h0]; simp
            · exact h0
          · refine ⟨Or.inr h, ?_⟩
            intro hpv
            have hle := hp v hpv x (List.mem_cons_self _ _)
            have hge := hx v h
            have : x = v := by omega
            exact hne (by rw [this])
        · rintro ⟨h | h, hne⟩
          · exact Or.inl h
          · by_cases hxv : v = x
            · exact Or.inl hxv
            · exact Or.inr ⟨h, fun h2 => hxv (by simpa using h2.symm)⟩
    · rw [if_neg hc]
      rw [not_or, not_not] at hc
      refine ⟨ihs, ?_⟩
      intro v
      rw [ihm v, List.mem_cons, hc.2]
      constructor
      · rintro ⟨h, hne⟩
        exact ⟨Or.inr h, hne⟩
      · rintro ⟨h | h, hne⟩
        · exact absurd (by rw [h]) hne
        · exact ⟨h, hne⟩

/-- With a library sort meeting the postcondition of `std::sort`,
`ExtractQuadCorners` applied to indices with at most four distinct values
returns those values in ascending order, one corner per value. -/
theorem ExtractQuadCorners_eq
    (stdSortImpl : (Nat → Nat → Bool) → List Nat → List Nat)
    (hsort : ∀ l : List Nat,
      IsStdSortResult (fun a b => decide (a < b)) l (stdSortImpl (fun a b => decide (a < b)) l))
    (indices : List Nat) (hfour : (indices.take 6).dedup.length ≤ 4) :
    ∃ q : QuadCorners, ExtractQuadCorners stdSortImpl indices = some q ∧
      q.corners.Pairwise (fun a b => a < b) ∧
      (∀ v, v ∈ q.corners ↔ v ∈ indices.take 6) ∧
      q.cornerIndex = (indices.take 6).dedup.length := by
  obtain ⟨hperm, hpw⟩ := hsort (indices.take 6)
  have hsorted : (stdSortImpl (fun a b => decide (a < b)) (indices.take 6)).Pairwise
      (fun a b => a ≤ b) := by
    refine hpw.imp ?_
    intro a b h
    simp only [decide_eq_false_iff_not, not_lt] at h
    exact h
  obtain ⟨hasc, hmem⟩ := selectChanges_sorted _ none hsorted (fun p hp => by cases hp)
  have hmem2 : ∀ v, v ∈ selectChanges none
      (stdSortImpl (fun a b => decide (a < b)) (indices.take 6)) ↔ v ∈ indices.take 6 := by
    intro v
    rw [hmem v, hperm.mem_iff]
    simp
  have hnd : (selectChanges none
      (stdSortImpl (fun a b => decide (a < b)) (indices.take 6))).Nodup :=
    hasc.imp (fun h => Nat.ne_of_lt h)
  have hlen : (selectChanges none
      (stdSortImpl (fun a b => decide (a < b)) (indices.take 6))).length =
      (indices.take 6).dedup.length := by
    apply List.Perm.length_eq
    rw [List.perm_ext_iff_of_nodup hnd (List.nodup_dedup _)]
    intro v
    rw [hmem2 v, List.mem_dedup]
  unfold ExtractQuadCorners
  simp only
  rw [extractQuadCornersLoop_eq _ none { corners := [] } (by
    show 0 + _ ≤ 4
    rw [hlen]
    omega)]
  refine ⟨_, rfl, ?_, ?_, ?_⟩
  · simpa using hasc
  · simpa using hmem2
  · show ([] ++ _ : List Nat).length = _
    rw [List.nil_append, hlen]

theorem stdSort_lt_isStdSortResult (l : List Nat) :
    IsStdSortResult (fun a b => decide (a < b)) l (stdSort (fun a b => decide (a < b)) l) :=
  ⟨stdSort_perm _ l,
    stdSort_pairwise _
      (fun a b h => by
        simp only [decide_eq_true_eq, decide_eq_false_iff_not] at h ⊢
        omega)
      (fun a b c h1 h2 => by
        simp only [decide_eq_false_iff_not] at h1 h2 ⊢
        omega) l⟩

theorem stretchPicQuadIndices_of_lt (first : Nat) (h : first + 3 < 65536) :
    stretchPicQuadIndices first =
      [first + 3, first, first + 2, first + 2, first, first + 1] := by
  unfold stretchPicQuadIndices u16
  rw [Nat.mod_eq_of_lt (show first + 3 < 2 ^ 16 by omega),
    Nat.mod_eq_of_lt (show first + 0 < 2 ^ 16 by omega),
    Nat.mod_eq_of_lt (show first + 2 < 2 ^ 16 by omega),
    Nat.mod_eq_of_lt (show first + 1 < 2 ^ 16 by omega)]
  rfl

/-- `ExtractQuadCorners` on the six indices of a quad whose first vertex is
`first`: the four vertices from `first` on, in order. -/
theorem ExtractQuadCorners_quad
    (stdSortImpl : (Nat → Nat → Bool) → List Nat → List Nat)
    (hsort : ∀ l : List Nat,
      IsStdSortResult (fun a b => decide (a < b)) l (stdSortImpl (fun a b => decide (a < b)) l))
    (first : Nat) (h : first + 3 < 65536) :
    ExtractQuadCorners stdSortImpl (stretchPicQuadIndices first) =
      some { corners := [first, first + 1, first + 2, first + 3] } := by
  have hq := stretchPicQuadIndices_of_lt first h
  have htake : (stretchPicQuadIndices first).take 6 =
      [first + 3, first, first + 2, first + 2, first, first + 1] := by
    rw [hq]
    rfl
  have hmemq : ∀ v, v ∈ (stretchPicQuadIndices first).take 6 ↔
      v ∈ [first, first + 1, first + 2, first + 3] := by
    intro v
    rw [htake]
    simp only [List.mem_cons, List.mem_singleton, List.not_mem_nil, or_false]
    omega
  have hnd4 : [first, first + 1, first + 2, first + 3].Nodup := by
    simp only [List.nodup_cons, List.mem_cons, List.mem_singleton, List.not_mem_nil,
      List.nodup_nil, or_false, not_false_eq_true, and_true]
    omega
  have hle : ((stretchPicQuadIndices first).take 6).dedup.length ≤ 4 := by
    have hsub : ((stretchPicQuadIndices first).take 6).dedup ⊆
        [first, first + 1, first + 2, first + 3] := by
      intro v hv
      exact (hmemq v).mp (List.mem_dedup.mp hv)
    exact (List.subperm_of_subset (List.nodup_dedup _) hsub).length_le
  obtain ⟨q, hqe, hasc, hmem, _⟩ := ExtractQuadCorners_eq stdSortImpl hsort _ hle
  rw [hqe]
  have hperm : q.corners.Perm [first, first + 1, first + 2, first + 3] := by
    rw [List.perm_ext_iff_of_nodup (hasc.imp (fun h => Nat.ne_of_lt h)) hnd4]
    intro v
    rw [hmem v, hmemq v]
  have hsorted4 : [first, first + 1, first + 2, first + 3].Sorted (fun a b => a < b) := by
    simp only [List.Sorted, List.pairwise_cons, List.mem_cons, List.mem_singleton,
      List.not_mem_nil, or_false, List.Pairwise.nil, and_true, forall_eq_or_imp, forall_eq,
      false_implies, implies_true]
    omega
  have heq : q.corners = [first, first + 1, first + 2, first + 3] :=
    List.eq_of_perm_of_sorted hperm hasc hsorted4
  cases q
  simp only at heq
  rw [heq]

theorem polygonAt_mem (scenePolygons : List Polygon) (ptr : Nat)
    (h : ptr < scenePolygons.length) : polygonAt scenePolygons ptr ∈ scenePolygons := by
  unfold polygonAt
  rw [List.getD_eq_getElem _ _ h]
  exact List.getElem_mem h

theorem polygonLess_eq_false (mem : MaterialMem) (scenePolygons : List Polygon) (a b : Nat)
    (h : polygonLess mem scenePolygons a b = false) :
    (mem (polygonAt scenePolygons b).material).index <
        (mem (polygonAt scenePolygons a).material).index ∨
      ((mem (polygonAt scenePolygons a).material).index =
          (mem (polygonAt scenePolygons b).material).index ∧
        (polygonAt scenePolygons b).fogIndex ≤ (polygonAt scenePolygons a).fogIndex) := by
  unfold polygonLess at h
  by_cases h1 : (mem (polygonAt scenePolygons a).material).index <
      (mem (polygonAt scenePolygons b).material).index
  · rw [if_pos h1] at h
    cases h
  · rw [if_neg h1] at h
    by_cases h2 : (mem (polygonAt scenePolygons a).material).index =
        (mem (polygonAt scenePolygons b).material).index
    · rw [if_pos h2] at h
      right
      exact ⟨h2, not_lt.mp (of_decide_eq_false h)⟩
    · left
      omega

/-- In a vector ordered by the comparator of `renderPolygons`, with the
material index identifying the material: a polygon between two polygons of one
material and fog index has that material and fog index. -/
theorem sorted_between_inGroup (mem : MaterialMem) (scenePolygons : List Polygon)
    (sorted : List Nat)
    (hpw : sorted.Pairwise (fun a b => polygonLess mem scenePolygons b a = false))
    (hptr : ∀ x ∈ sorted, x < scenePolygons.length)
    (hinj : ∀ p ∈ scenePolygons, ∀ q ∈ scenePolygons,
      (mem p.material).index = (mem q.material).index → p.material = q.material)
    (s j t : Nat) (hsj : s ≤ j) (hjt : j ≤ t) (ht : t < sorted.length)
    (hm : (polygonAt scenePolygons (sorted.getD t 0)).material =
      (polygonAt scenePolygons (sorted.getD s 0)).material)
    (hf : (polygonAt scenePolygons (sorted.getD t 0)).fogIndex =
      (polygonAt scenePolygons (sorted.getD s 0)).fogIndex) :
    inGroup scenePolygons (polygonAt scenePolygons (sorted.getD s 0)) (sorted.getD j 0) =
      true := by
  have hs : s < sorted.length := by omega
  have hj : j < sorted.length := by omega
  have gs : sorted.getD s 0 = sorted[s] := List.getD_eq_getElem _ _ hs
  have gj : sorted.getD j 0 = sorted[j] := List.getD_eq_getElem _ _ hj
  have gt : sorted.getD t 0 = sorted[t] := List.getD_eq_getElem _ _ ht
  rw [gs, gt] at hm hf
  rw [gs, gj]
  unfold inGroup
  apply decide_eq_true
  by_cases hsj' : s = j
  · subst hsj'
    exact ⟨rfl, rfl⟩
  by_cases hjt' : j = t
  · subst hjt'
    exact ⟨hm, hf⟩
  have h1 := polygonLess_eq_false mem scenePolygons _ _
    (List.pairwise_iff_getElem.mp hpw s j hs hj (by omega))
  have h2 := polygonLess_eq_false mem scenePolygons _ _
    (List.pairwise_iff_getElem.mp hpw j t hj ht (by omega))
  rw [hm] at h2
  rw [hf] at h2
  have hidx : (mem (polygonAt scenePolygons sorted[j]).material).index =
      (mem (polygonAt scenePolygons sorted[s]).material).index := by omega
  have hfog : (polygonAt scenePolygons sorted[j]).fogIndex =
      (polygonAt scenePolygons sorted[s]).fogIndex := by omega
  refine ⟨?_, hfog⟩
  exact hinj _ (polygonAt_mem _ _ (hptr _ (List.getElem_mem hj))) _
    (polygonAt_mem _ _ (hptr _ (List.getElem_mem hs))) hidx

theorem takeWhile_length_ge {α : Type} (p : α → Bool) :
    ∀ (l : List α) (k : Nat), k ≤ l.length →
      (∀ i : Nat, i < k → ∀ x, l[i]? = some x → p x = true) →
      k ≤ (l.takeWhile p).length
  | _, 0, _, _ => Nat.zero_le _
  | [], k + 1, hk, _ => by simp at hk
  | x :: rest, k + 1, hk, h => by
    have hx : p x = true := h 0 (by omega) x List.getElem?_cons_zero
    rw [List.takeWhile_cons, hx]
    simp only [if_true, List.length_cons]
    have := takeWhile_length_ge p rest k (by simpa using hk)
      (fun i hi y hy => h (i + 1) (by omega) y (by simpa using hy))
    omega

/-- Under the conditions of `sorted_between_inGroup`, the batch built at `s`
reaches every later position whose polygon has the material and fog index of
the polygon at `s`. -/
theorem batchAt_covers (mem : MaterialMem) (scenePolygons : List Polygon)
    (sorted : List Nat) (dcInit : DrawCall)
    (hpw : sorted.Pairwise (fun a b => polygonLess mem scenePolygons b a = false))
    (hptr : ∀ x ∈ sorted, x < scenePolygons.length)
    (hinj : ∀ p ∈ scenePolygons, ∀ q ∈ scenePolygons,
      (mem p.material).index = (mem q.material).index → p.material = q.material)
    (s t : Nat) (hst : s ≤ t) (ht : t < sorted.length)
    (hm : (polygonAt scenePolygons (sorted.getD t 0)).material =
      (polygonAt scenePolygons (sorted.getD s 0)).material)
    (hf : (polygonAt scenePolygons (sorted.getD t 0)).fogIndex =
      (polygonAt scenePolygons (sorted.getD s 0)).fogIndex) :
    t ∈ List.range' (batchAt scenePolygons sorted dcInit s).batchStart
      ((batchAt scenePolygons sorted dcInit s).batchEnd + 1 -
        (batchAt scenePolygons sorted dcInit s).batchStart) := by
  have hs : s < sorted.length := by omega
  rw [batchAt_range _ _ _ _ hs, batchAt_batchStart]
  have hge : t - s + 1 ≤ groupLength scenePolygons sorted s := by
    unfold groupLength
    apply takeWhile_length_ge
    · rw [List.length_drop]
      omega
    · intro i hi x hx
      rw [List.getElem?_drop] at hx
      have hlt : s + i < sorted.length := by omega
      have hx' : sorted.getD (s + i) 0 = x := by
        rw [List.getD_eq_getElem?_getD, hx]
        rfl
      rw [← hx']
      exact sorted_between_inGroup mem scenePolygons sorted hpw hptr hinj s (s + i) t
        (by omega) (by omega) ht hm hf
  rw [List.mem_range'_1]
  omega

theorem batchAt_drawCall_material (scenePolygons : List Polygon) (sorted : List Nat)
    (dcInit : DrawCall) (s : Nat) :
    (batchAt scenePolygons sorted dcInit s).drawCall.material =
        (polygonAt scenePolygons (sorted.getD s 0)).material ∧
      (batchAt scenePolygons sorted dcInit s).drawCall.fogIndex =
        (polygonAt scenePolygons (sorted.getD s 0)).fogIndex :=
  ⟨rfl, rfl⟩

/-- Batches that are built by `batchAt` at their own start, with index ranges
that concatenate to the positions of the sorted vector: no two of them have
the same material and the same fog index. -/
theorem batches_distinct_pairs (mem : MaterialMem) (scenePolygons : List Polygon)
    (sorted : List Nat) (dcInit : DrawCall)
    (hpw : sorted.Pairwise (fun a b => polygonLess mem scenePolygons b a = false))
    (hptr : ∀ x ∈ sorted, x < scenePolygons.length)
    (hinj : ∀ p ∈ scenePolygons, ∀ q ∈ scenePolygons,
      (mem p.material).index = (mem q.material).index → p.material = q.material)
    (batches : List PolygonBatch)
    (hall : ∀ b ∈ batches, b.batchStart < sorted.length ∧
      b = batchAt scenePolygons sorted dcInit b.batchStart)
    (hflat : batches.flatMap
        (fun b => List.range' b.batchStart (b.batchEnd + 1 - b.batchStart)) =
      List.range sorted.length) :
    (batches.map (fun b => (b.drawCall.material, b.drawCall.fogIndex))).Nodup := by
  have hnd : (batches.flatMap
      (fun b => List.range' b.batchStart (b.batchEnd + 1 - b.batchStart))).Nodup := by
    rw [hflat]
    exact List.nodup_range _
  have hown : ∀ b ∈ batches,
      b.batchStart ∈ List.range' b.batchStart (b.batchEnd + 1 - b.batchStart) := by
    intro b hb
    obtain ⟨hlt, hb'⟩ := hall b hb
    have := batchAt_covers mem scenePolygons sorted dcInit hpw hptr hinj b.batchStart
      b.batchStart (Nat.le_refl _) hlt rfl rfl
    rw [← hb'] at this
    exact this
  have key : ∀ (k k' : Nat) (hk : k < batches.length) (hk' : k' < batches.length),
      (batches.get ⟨k, hk⟩).batchStart ≤ (batches.get ⟨k', hk'⟩).batchStart →
      (batches.get ⟨k, hk⟩).drawCall.material = (batches.get ⟨k', hk'⟩).drawCall.material →
      (batches.get ⟨k, hk⟩).drawCall.fogIndex = (batches.get ⟨k', hk'⟩).drawCall.fogIndex →
      k = k' := by
    intro k k' hk hk' hle hm hf
    obtain ⟨hlt, hb⟩ := hall _ (List.get_mem batches k hk)
    obtain ⟨hlt', hb'⟩ := hall _ (List.get_mem batches k' hk')
    have e1 : (batches.get ⟨k, hk⟩).drawCall.material =
        (polygonAt scenePolygons
          (sorted.getD (batches.get ⟨k, hk⟩).batchStart 0)).material :=
      congrArg (fun b => b.drawCall.material) hb
    have e2 : (batches.get ⟨k, hk⟩).drawCall.fogIndex =
        (polygonAt scenePolygons
          (sorted.getD (batches.get ⟨k, hk⟩).batchStart 0)).fogIndex :=
      congrArg (fun b => b.drawCall.fogIndex) hb
    have e3 : (batches.get ⟨k', hk'⟩).drawCall.material =
        (polygonAt scenePolygons
          (sorted.getD (batches.get ⟨k', hk'⟩).batchStart 0)).material :=
      congrArg (fun b => b.drawCall.material) hb'
    have e4 : (batches.get ⟨k', hk'⟩).drawCall.fogIndex =
        (polygonAt scenePolygons
          (sorted.getD (batches.get ⟨k', hk'⟩).batchStart 0)).fogIndex :=
      congrArg (fun b => b.drawCall.fogIndex) hb'
    have hcov := batchAt_covers mem scenePolygons sorted dcInit hpw hptr hinj
      (batches.get ⟨k, hk⟩).batchStart (batches.get ⟨k', hk'⟩).batchStart hle hlt'
      (by rw [← e3, ← e1, hm]) (by rw [← e4, ← e2, hf])
    rw [← hb] at hcov
    exact flatMap_nodup_unique _ batches hnd k k' hk hk' _ hcov
      (hown _ (List.get_mem batches k' hk'))
  unfold List.Nodup
  rw [List.pairwise_map, List.pairwise_iff_getElem]
  intro i j hi hj hij heq
  simp only [Prod.mk.injEq] at heq
  by_cases hle : batches[i].batchStart ≤ batches[j].batchStart
  · have := key i j hi hj hle heq.1 heq.2
    omega
  · have := key j i hj hi (Nat.le_of_lt (Nat.lt_of_not_le hle)) heq.1.symm heq.2.symm
    omega

theorem polygonLess_eq_true (mem : MaterialMem) (scenePolygons : List Polygon) (a b : Nat) :
    polygonLess mem scenePolygons a b = true ↔
      ((mem (polygonAt scenePolygons a).material).index <
          (mem (polygonAt scenePolygons b).material).index ∨
        ((mem (polygonAt scenePolygons a).material).index =
            (mem (polygonAt scenePolygons b).material).index ∧
          (polygonAt scenePolygons a).fogIndex < (polygonAt scenePolygons b).fogIndex)) := by
  unfold polygonLess
  by_cases h1 : (mem (polygonAt scenePolygons a).material).index <
      (mem (polygonAt scenePolygons b).material).index
  · rw [if_pos h1]
    exact ⟨fun _ => Or.inl h1, fun _ => rfl⟩
  · rw [if_neg h1]
    by_cases h2 : (mem (polygonAt scenePolygons a).material).index =
        (mem (polygonAt scenePolygons b).material).index
    · rw [if_pos h2, decide_eq_true_eq]
      exact ⟨fun h => Or.inr ⟨h2, h⟩, fun h => h.elim (fun h => absurd h h1) (fun h => h.2)⟩
    · rw [if_neg h2]
      constructor
      · intro h
        cases h
      · intro h
        rcases h with h | h
        · exact absurd h h1
        · exact absurd h.1 h2

theorem polygonLess_isStdSortResult (mem : MaterialMem) (scenePolygons : List Polygon)
    (l : List Nat) :
    IsStdSortResult (polygonLess mem scenePolygons) l
      (stdSort (polygonLess mem scenePolygons) l) := by
  refine ⟨stdSort_perm _ l, stdSort_pairwise _ ?_ ?_ l⟩
  · intro a b h
    have h1 := (polygonLess_eq_true mem scenePolygons a b).mp h
    cases hba : polygonLess mem scenePolygons b a with
    | false => rfl
    | true =>
      have h2 := (polygonLess_eq_true mem scenePolygons b a).mp hba
      omega
  · intro a b c h1 h2
    have e1 := polygonLess_eq_false mem scenePolygons a b h1
    have e2 := polygonLess_eq_false mem scenePolygons b c h2
    cases hac : polygonLess mem scenePolygons a c with
    | false => rfl
    | true =>
      have e3 := (polygonLess_eq_true mem scenePolygons a c).mp hac
      omega

/-- A `renderPolygons` call that starts with an empty sorted vector, whose
allocations all succeed, with a sort that orders by the comparator and the
material index identifying the material: the batches have pairwise different
(material, fog index) pairs, and these are the pairs of the polygons. -/
theorem renderPolygonsCore_pairs
    (stdSortImpl : (Nat → Nat → Bool) → List Nat → List Nat)
    (mem : MaterialMem) (dcInit : DrawCall) (s : PolygonScene)
    (hsort : ∀ l : List Nat, IsStdSortResult (polygonLess mem s.scenePolygons_) l
      (stdSortImpl (polygonLess mem s.scenePolygons_) l))
    (hempty : s.sortedScenePolygons_ = [])
    (hinj : ∀ p ∈ s.scenePolygons_, ∀ q ∈ s.scenePolygons_,
      (mem p.material).index = (mem q.material).index → p.material = q.material) :
    ∃ out : PolygonsOutcome,
      renderPolygonsCore stdSortImpl mem dcInit (fun _ => true) s = some out ∧
      out.allocFailed = false ∧
      (out.batches.map (fun b => (b.drawCall.material, b.drawCall.fogIndex))).Nodup ∧
      (∀ pr : MaterialPtr × Int,
        pr ∈ out.batches.map (fun b => (b.drawCall.material, b.drawCall.fogIndex)) ↔
          pr ∈ s.scenePolygons_.map (fun p => (p.material, p.fogIndex))) ∧
      out.scene.drawCalls_ = s.drawCalls_ ++ out.batches.map (fun b => b.drawCall) := by
  unfold renderPolygonsCore
  by_cases hnil : s.scenePolygons_.isEmpty = true
  · rw [if_pos hnil]
    have hl : s.scenePolygons_ = [] := List.isEmpty_iff.mp hnil
    refine ⟨_, rfl, rfl, ?_, ?_, ?_⟩
    · exact List.nodup_nil
    · intro pr
      simp [hl]
    · simp
  · rw [if_neg hnil]
    have hne : s.scenePolygons_ ≠ [] := fun h => hnil (List.isEmpty_iff.mpr h)
    have hlen : 0 < s.scenePolygons_.length := List.length_pos.mpr hne
    simp only [hempty, List.nil_append]
    obtain ⟨hp, hpw⟩ := hsort (List.range s.scenePolygons_.length)
    have hsl := hp.length_eq
    rw [List.length_range] at hsl
    generalize stdSortImpl (polygonLess mem s.scenePolygons_)
      (List.range s.scenePolygons_.length) = sorted at hp hpw hsl
    have hptr : ∀ x ∈ sorted, x < s.scenePolygons_.length := fun x hx =>
      List.mem_range.mp (hp.subset hx)
    obtain ⟨bs, hbs, hflat⟩ := renderPolygonsLoop_allOk s.scenePolygons_ sorted dcInit
      sorted.length 0 0 (by omega) (by omega)
    have hall := renderPolygonsLoop_batches s.scenePolygons_ sorted dcInit _ _ 0 0 bs false
      (by omega) hbs
    rw [Nat.sub_zero, ← List.range_eq_range'] at hflat
    rw [hbs]
    refine ⟨_, rfl, rfl, ?_, ?_, rfl⟩
    · exact batches_distinct_pairs mem s.scenePolygons_ sorted dcInit hpw hptr hinj bs hall hflat
    · intro pr
      show pr ∈ bs.map _ ↔ _
      rw [List.mem_map, List.mem_map]
      constructor
      · rintro ⟨b, hb, rfl⟩
        obtain ⟨hlt, hb'⟩ := hall b hb
        refine ⟨polygonAt s.scenePolygons_ (sorted.getD b.batchStart 0), ?_, ?_⟩
        · apply polygonAt_mem
          apply hptr
          rw [List.getD_eq_getElem _ _ hlt]
          exact List.getElem_mem hlt
        · have e1 : b.drawCall.material =
              (polygonAt s.scenePolygons_ (sorted.getD b.batchStart 0)).material :=
            congrArg (fun b => b.drawCall.material) hb'
          have e2 : b.drawCall.fogIndex =
              (polygonAt s.scenePolygons_ (sorted.getD b.batchStart 0)).fogIndex :=
            congrArg (fun b => b.drawCall.fogIndex) hb'
          rw [e1, e2]
      · rintro ⟨p, hpmem, rfl⟩
        obtain ⟨i, hi, rfl⟩ := List.getElem_of_mem hpmem
        have hisorted : i ∈ sorted := hp.symm.subset (List.mem_range.mpr hi)
        obtain ⟨t, ht, hti⟩ := List.getElem_of_mem hisorted
        have htr : t ∈ bs.flatMap
            (fun b => List.range' b.batchStart (b.batchEnd + 1 - b.batchStart)) := by
          rw [hflat]
          exact List.mem_range.mpr ht
        obtain ⟨b, hb, htb⟩ := List.mem_flatMap.mp htr
        obtain ⟨hlt, hb'⟩ := hall b hb
        have hmemb : i ∈ b.members sorted := by
          unfold PolygonBatch.members
          rw [List.mem_map]
          refine ⟨t, htb, ?_⟩
          rw [List.getD_eq_getElem _ _ ht]
          exact hti
        have hhom := batchAt_homogeneous s.scenePolygons_ sorted dcInit b.batchStart hlt i
          (by rw [← hb']; exact hmemb)
        rw [← hb'] at hhom
        have hpa : polygonAt s.scenePolygons_ i = s.scenePolygons_[i] := by
          unfold polygonAt
          exact List.getD_eq_getElem _ _ hi
        rw [hpa] at hhom
        exact ⟨b, hb, by rw [hhom.1, hhom.2]⟩

/-- The views `flushStretchPics` pushes: the view of the 2D batch, when
indices are pending, the buffers are granted and the batch has no view yet;
none otherwise. -/
theorem flushStretchPics_pushedViews (env : Env) (m : Main) :
    pushedViews (flushStretchPics env m).calls = pushedViews m.calls ++
      (if m.stretchPicIndices_ ≠ [] ∧ env.allocOk m.allocRequests = true ∧
          m.stretchPicViewId_ = UINT8_MAX then [u8 m.firstFreeViewId_] else []) ∧
    (flushStretchPics env m).firstFreeViewId_ =
      (if m.stretchPicIndices_ ≠ [] ∧ env.allocOk m.allocRequests = true ∧
          m.stretchPicViewId_ = UINT8_MAX then (m.firstFreeViewId_ + 1) % 2 ^ env.viewIdBits
        else m.firstFreeViewId_) := by
  unfold flushStretchPics
  simp only
  by_cases hc : m.stretchPicIndices_ ≠ [] ∧ env.allocOk m.allocRequests = true ∧
      m.stretchPicViewId_ = UINT8_MAX
  · rw [if_pos hc, if_pos hc]
    obtain ⟨hi, hok, hv⟩ := hc
    have hne : (!m.stretchPicIndices_.isEmpty) = true := by
      cases hl : m.stretchPicIndices_ with
      | nil => exact absurd hl hi
      | cons x xs => rfl
    have hnok : ¬ ((!env.allocOk m.allocRequests) = true) := by
      rw [hok]
      decide
    rw [if_pos hne, if_neg hnok, foldl_submit_eq]
    split_ifs
    simp only [pushView, Main.record, List.append_assoc]
    rw [pushedViews_append, pushedViews_append,
      (cameraCalls_submits _ (fun stage => ⟨_, _, _, rfl⟩) _).2.2]
    exact ⟨rfl, trivial⟩
  · rw [if_neg hc, if_neg hc]
    by_cases hi : m.stretchPicIndices_ = []
    · have hne : ¬ ((!m.stretchPicIndices_.isEmpty) = true) := by
        rw [hi]
        decide
      rw [if_neg hne]
      exact ⟨(List.append_nil _).symm, rfl⟩
    · have hne : (!m.stretchPicIndices_.isEmpty) = true := by
        cases hl : m.stretchPicIndices_ with
        | nil => exact absurd hl hi
        | cons x xs => rfl
      rw [if_pos hne]
      by_cases hok : env.allocOk m.allocRequests = true
      · have hnok : ¬ ((!env.allocOk m.allocRequests) = true) := by
          rw [hok]
          decide
        rw [if_neg hnok, foldl_submit_eq]
        split_ifs with h
        · exact absurd ⟨hi, hok, h⟩ hc
        · simp only
          rw [pushedViews_append, (cameraCalls_submits _ (fun stage => ⟨_, _, _, rfl⟩) _).2.2]
          exact ⟨rfl, trivial⟩
      · have hnok : (!env.allocOk m.allocRequests) = true := by
          cases h : env.allocOk m.allocRequests with
          | true => exact absurd h hok
          | false => rfl
        rw [if_pos hnok]
        exact ⟨(List.append_nil _).symm, rfl⟩

/-- What `endFrame` leaves behind: the view counter at zero, the 2D batch
without a view and empty, and the frame counter incremented in its type. -/
theorem endFrame_effect (env : Env) (m : Main) :
    (endFrame env m).firstFreeViewId_ = 0 ∧
    (endFrame env m).stretchPicViewId_ = UINT8_MAX ∧
    (endFrame env m).stretchPicVertices_ = [] ∧
    (endFrame env m).stretchPicIndices_ = [] ∧
    (endFrame env m).frameNo_ = (m.frameNo_ + 1) % 2 ^ env.frameNoBits := by
  obtain ⟨hscene, hv, hi, _⟩ := flushStretchPics_effect env m
  unfold endFrame
  simp only
  generalize flushStretchPics env m = mf at hscene hv hi
  generalize hm2 : (if mf.firstFreeViewId_ = 0 then
      ((pushView env FrameBufferId.defaultFb_ 0
          { x := 0, y := 0, w := env.windowWidth, h := env.windowHeight } false mf).1.record
        (Event.setViewClear
          (pushView env FrameBufferId.defaultFb_ 0
            { x := 0, y := 0, w := env.windowWidth, h := env.windowHeight } false mf).2
          env.bgfx.CLEAR_COLOR 0x000000ff)).record
        (Event.touch
          (pushView env FrameBufferId.defaultFb_ 0
            { x := 0, y := 0, w := env.windowWidth, h := env.windowHeight } false mf).2)
    else mf) = m2
  have hq2 : m2.quietView = mf.quietView := by
    rw [← hm2]
    split_ifs
    · rw [quietView_record_touch, quietView_record_setViewClear, quietView_pushView]
    · rfl
  have hq3 := quietView_endFrameDebugDraw env m2
  generalize endFrameDebugDraw env m2 = m3 at hq3
  have hq : m3.quietView = mf.quietView := hq3.trans hq2
  have hf3 : m3.frameNo_ = m.frameNo_ :=
    (congrArg (fun q => q.scene.frameNo_) hq).trans (congrArg SceneMembers.frameNo_ hscene)
  have hv3 : m3.stretchPicVertices_ = [] :=
    (congrArg (fun q => q.stretchPic.stretchPicVertices_) hq).trans hv
  have hi3 : m3.stretchPicIndices_ = [] :=
    (congrArg (fun q => q.stretchPic.stretchPicIndices_) hq).trans hi
  refine ⟨trivial, trivial, ?_, ?_, ?_⟩
  · split_ifs
    · exact hv3
    · exact hv3
  · split_ifs
    · exact hi3
    · exact hi3
  · split_ifs
    · exact congrArg (fun n => (n + 1) % 2 ^ env.frameNoBits) hf3
    · exact congrArg (fun n => (n + 1) % 2 ^ env.frameNoBits) hf3

/-- C3: when `renderPolygons` runs with `sortedScenePolygons_` empty on entry
and every transient-buffer allocation succeeds, it returns, the sorted vector
holds each polygon of `scenePolygons_` once, the index ranges
`[batchStart, batchEnd]` of the emitted batches are non-empty and, put one
after the other, are exactly the positions `0 .. size - 1` of the sorted vector
(consecutive, disjoint, covering), each polygon belongs to exactly one batch,
every polygon of a batch has the material and the fog index of that batch's
draw call, and the draw calls of the batches are appended to `drawCalls_`. -/
theorem renderPolygons_batches_partition
    (stdSortImpl : (Nat → Nat → Bool) → List Nat → List Nat)
    (hperm : ∀ (comp : Nat → Nat → Bool) (l : List Nat), (stdSortImpl comp l).Perm l)
    (mem : MaterialMem) (dcInit : DrawCall) (s : PolygonScene)
    (hempty : s.sortedScenePolygons_ = []) :
    ∃ out : PolygonsOutcome,
      renderPolygonsCore stdSortImpl mem dcInit (fun _ => true) s = some out ∧
      out.allocFailed = false ∧
      out.scene.scenePolygons_ = s.scenePolygons_ ∧
      out.scene.sortedScenePolygons_.Perm (List.range s.scenePolygons_.length) ∧
      out.batches.flatMap (fun b => List.range' b.batchStart (b.batchEnd + 1 - b.batchStart)) =
        List.range out.scene.sortedScenePolygons_.length ∧
      (∀ b ∈ out.batches, b.batchStart ≤ b.batchEnd) ∧
      (out.batches.flatMap (fun b => b.members out.scene.sortedScenePolygons_)).Perm
        (List.range s.scenePolygons_.length) ∧
      (∀ i : Nat, i < s.scenePolygons_.length →
        ∃ k : Nat, ∃ hk : k < out.batches.length,
          i ∈ (out.batches.get ⟨k, hk⟩).members out.scene.sortedScenePolygons_ ∧
          ∀ (k' : Nat) (hk' : k' < out.batches.length),
            i ∈ (out.batches.get ⟨k', hk'⟩).members out.scene.sortedScenePolygons_ → k' = k) ∧
      (∀ b ∈ out.batches, ∀ ptr ∈ b.members out.scene.sortedScenePolygons_,
        (polygonAt s.scenePolygons_ ptr).material = b.drawCall.material ∧
        (polygonAt s.scenePolygons_ ptr).fogIndex = b.drawCall.fogIndex) ∧
      out.scene.drawCalls_ = s.drawCalls_ ++ out.batches.map (fun b => b.drawCall) :=
  renderPolygonsCore_allOk stdSortImpl hperm mem dcInit s hempty
/-- C5 (amended): for every batch that `renderPolygons` builds from polygons of
`n_k >= 3` vertices each (`n_k` being `uint32_t` values), exactly `sum n_k`
vertices and `sum 3 * (n_k - 2)` indices are written; the vertices are the
polygons' vertex ranges one after the other, so polygon `k` starts at batch
offset `f_k = n_0 + .. + n_(k-1)`; the stored `uint16_t` indices are, in order,
the fan triangles `(f_k, f_k + j + 1, f_k + j + 2)`, `j = 0 .. n_k - 3`, each
reduced modulo `65536`, and the draw call's `nVertices` and `nIndices` are the
two sums reduced modulo `2 ^ 32`.  When the batch has at most `65536` vertices
nothing is reduced: the stored values are the fan triangle numbers themselves
and `nVertices`, `nIndices` are the two sums. -/
theorem renderPolygons_batch_geometry
    (stdSortImpl : (Nat → Nat → Bool) → List Nat → List Nat) (mem : MaterialMem)
    (dcInit : DrawCall) (allocOk : Nat → Bool) (s : PolygonScene) (out : PolygonsOutcome)
    (hrun : renderPolygonsCore stdSortImpl mem dcInit allocOk s = some out)
    (b : PolygonBatch) (hb : b ∈ out.batches)
    (hn : ∀ ptr ∈ b.members out.scene.sortedScenePolygons_,
      3 ≤ (polygonAt s.scenePolygons_ ptr).nVertices ∧
        fitsU32 (polygonAt s.scenePolygons_ ptr).nVertices) :
    b.drawCall.vb.transientHandle.length =
        (b.vertexCounts s.scenePolygons_ out.scene.sortedScenePolygons_).sum ∧
      b.drawCall.ib.transientHandle.length =
        ((b.vertexCounts s.scenePolygons_ out.scene.sortedScenePolygons_).map
          (fun n => 3 * (n - 2))).sum ∧
      b.drawCall.vb.transientHandle =
        (b.members out.scene.sortedScenePolygons_).flatMap (fun ptr =>
          (List.range' 0 (polygonAt s.scenePolygons_ ptr).nVertices).map
            (fun i => (polygonAt s.scenePolygons_ ptr).firstVertex + i)) ∧
      b.drawCall.ib.transientHandle =
        (fanIndexList (b.vertexCounts s.scenePolygons_ out.scene.sortedScenePolygons_) 0).map
          u16 ∧
      b.drawCall.vb.nVertices =
        u32 (b.vertexCounts s.scenePolygons_ out.scene.sortedScenePolygons_).sum ∧
      b.drawCall.ib.nIndices =
        u32 ((b.vertexCounts s.scenePolygons_ out.scene.sortedScenePolygons_).map
          (fun n => 3 * (n - 2))).sum ∧
      ((b.vertexCounts s.scenePolygons_ out.scene.sortedScenePolygons_).sum ≤ 65536 →
        b.drawCall.ib.transientHandle =
            fanIndexList (b.vertexCounts s.scenePolygons_ out.scene.sortedScenePolygons_) 0 ∧
          b.drawCall.vb.nVertices =
            (b.vertexCounts s.scenePolygons_ out.scene.sortedScenePolygons_).sum ∧
          b.drawCall.ib.nIndices =
            ((b.vertexCounts s.scenePolygons_ out.scene.sortedScenePolygons_).map
              (fun n => 3 * (n - 2))).sum) := by
  obtain ⟨-, -, hall⟩ := renderPolygonsCore_batches stdSortImpl mem dcInit allocOk s out hrun
  obtain ⟨hlt, hb'⟩ := hall b hb
  have hn2 : ∀ ptr ∈ (batchAt s.scenePolygons_ out.scene.sortedScenePolygons_ dcInit
      b.batchStart).members out.scene.sortedScenePolygons_,
      2 ≤ (polygonAt s.scenePolygons_ ptr).nVertices ∧
        fitsU32 (polygonAt s.scenePolygons_ ptr).nVertices := by
    intro ptr hptr
    rw [← hb'] at hptr
    exact ⟨by have := (hn ptr hptr).1; omega, (hn ptr hptr).2⟩
  obtain ⟨gv, gi, gnv, gni⟩ := batchAt_geometry s.scenePolygons_
    out.scene.sortedScenePolygons_ dcInit b.batchStart hlt hn2
  rw [← hb'] at gv gi gnv gni
  refine ⟨?_, ?_, gv, gi, gnv, gni, ?_⟩
  · rw [gv, flatMap_ranges_length]
    rfl
  · rw [gi, List.length_map, fanIndexList_length]
  · intro hsum
    have hfan := sum_fan_le (b.vertexCounts s.scenePolygons_ out.scene.sortedScenePolygons_)
    refine ⟨?_, ?_, ?_⟩
    · rw [gi]
      have hid : ∀ x ∈ fanIndexList
          (b.vertexCounts s.scenePolygons_ out.scene.sortedScenePolygons_) 0, u16 x = x := by
        intro x hx
        have := fanIndexList_lt _ 0 x hx
        unfold u16
        exact Nat.mod_eq_of_lt (by omega)
      rw [List.map_congr_left hid, List.map_id']
    · rw [gnv]
      unfold u32
      exact Nat.mod_eq_of_lt (by omega)
    · rw [gni]
      unfold u32
      exact Nat.mod_eq_of_lt (by omega)

/-- C3 at the sample scene of four polygons. -/
theorem renderPolygons_batches_partition_witness :
    samplePolygonScene.sortedScenePolygons_ = [] ∧
    ∃ out : PolygonsOutcome,
      renderPolygonsCore stdSort sampleMem (sampleDrawCall 0 0) (fun _ => true)
        samplePolygonScene = some out ∧
      (out.batches.flatMap (fun b => b.members out.scene.sortedScenePolygons_)).Perm
        (List.range samplePolygonScene.scenePolygons_.length) :=
  ⟨rfl,
    match renderPolygons_batches_partition stdSort (fun comp l => stdSort_perm comp l) sampleMem
      (sampleDrawCall 0 0) samplePolygonScene rfl with
    | ⟨out, h1, _, _, _, _, _, h7, _⟩ => ⟨out, h1, h7⟩⟩

/-- C5 as stated fails: a batch made of one fan of 65538 vertices (at least
three, so inside the claim) stores index values that are not the fan triangle
numbers: the number `65536` of the last triangle cannot be stored in sixteen
bits. -/
theorem renderPolygons_wide_fan_indices_truncated :
    ∃ (out : PolygonsOutcome) (b : PolygonBatch),
      renderPolygonsCore stdSort sampleMem (sampleDrawCall 0 0) (fun _ => true) wideFanScene =
        some out ∧
      b ∈ out.batches ∧
      b.vertexCounts wideFanScene.scenePolygons_ out.scene.sortedScenePolygons_ = [65538] ∧
      b.drawCall.ib.transientHandle ≠ fanIndexList [65538] 0 := by
  obtain ⟨out, hrun, -, -, hp, hflat, -, -, -, -, -⟩ :=
    renderPolygonsCore_allOk stdSort (fun comp l => stdSort_perm comp l) sampleMem
      (sampleDrawCall 0 0) wideFanScene rfl
  obtain ⟨-, -, hall⟩ := renderPolygonsCore_batches stdSort sampleMem (sampleDrawCall 0 0)
    (fun _ => true) wideFanScene out hrun
  have hsorted : out.scene.sortedScenePolygons_ = [0] := by
    have : out.scene.sortedScenePolygons_.Perm [0] := hp
    exact List.perm_singleton.mp this
  rw [hsorted] at hflat hall
  have hne : out.batches ≠ [] := by
    intro h
    rw [h] at hflat
    simp at hflat
  obtain ⟨b, hb⟩ := List.exists_mem_of_ne_nil _ hne
  obtain ⟨hlt, hb'⟩ := hall b hb
  have hstart : b.batchStart = 0 := by
    simp only [List.length_singleton] at hlt
    omega
  rw [hstart] at hb'
  have hmem : b.members [0] = [0] := by
    rw [hb', batchAt_members _ _ _ _ (by simp)]
    decide
  have hcounts : b.vertexCounts wideFanScene.scenePolygons_ [0] = [65538] := by
    unfold PolygonBatch.vertexCounts
    rw [hmem]
    rfl
  have hn : ∀ ptr ∈ (batchAt wideFanScene.scenePolygons_ [0] (sampleDrawCall 0 0) 0).members [0],
      2 ≤ (polygonAt wideFanScene.scenePolygons_ ptr).nVertices ∧
        fitsU32 (polygonAt wideFanScene.scenePolygons_ ptr).nVertices := by
    rw [← hb', hmem]
    intro ptr hptr
    rw [List.mem_singleton] at hptr
    subst hptr
    decide
  obtain ⟨-, gi, -, -⟩ := batchAt_geometry wideFanScene.scenePolygons_ [0]
    (sampleDrawCall 0 0) 0 (by simp) hn
  rw [← hb', hcounts] at gi
  refine ⟨out, b, hrun, hb, by rw [hsorted]; exact hcounts, ?_⟩
  rw [gi]
  intro heq
  have hin : 65536 ∈ fanIndexList [65538] 0 := by
    unfold fanIndexList
    refine List.mem_append_left _ ?_
    unfold fanTriangles
    exact List.mem_flatMap.mpr ⟨65535, List.mem_range.mpr (by norm_num), by simp⟩
  rw [← heq] at hin
  obtain ⟨x, _, hx⟩ := List.mem_map.mp hin
  unfold u16 at hx
  omega

/-- C5 (amended) at the second batch of the sample scene, a fan of three and a
fan of four vertices: seven vertices, nine indices, the indices being the fan
triangles of the two polygons. -/
theorem renderPolygons_batch_geometry_witness :
    renderPolygonsCore stdSort sampleMem (sampleDrawCall 0 0) (fun _ => true)
        samplePolygonScene = some sampleOutcome ∧
      sampleBatch ∈ sampleOutcome.batches ∧
      sampleBatch.vertexCounts samplePolygonScene.scenePolygons_
        sampleOutcome.scene.sortedScenePolygons_ = [3, 4] ∧
      sampleBatch.drawCall.ib.transientHandle = [0, 1, 2, 3, 4, 5, 3, 5, 6] ∧
      sampleBatch.drawCall.vb.nVertices = 7 ∧
      sampleBatch.drawCall.ib.nIndices = 9 :=
  have hrun : renderPolygonsCore stdSort sampleMem (sampleDrawCall 0 0) (fun _ => true)
      samplePolygonScene = some sampleOutcome := by decide
  have hb : sampleBatch ∈ sampleOutcome.batches := by decide
  have hn : ∀ ptr ∈ sampleBatch.members sampleOutcome.scene.sortedScenePolygons_,
      3 ≤ (polygonAt samplePolygonScene.scenePolygons_ ptr).nVertices ∧
        fitsU32 (polygonAt samplePolygonScene.scenePolygons_ ptr).nVertices := by decide
  have hc : sampleBatch.vertexCounts samplePolygonScene.scenePolygons_
      sampleOutcome.scene.sortedScenePolygons_ = [3, 4] := by decide
  have h := (renderPolygons_batch_geometry stdSort sampleMem (sampleDrawCall 0 0)
    (fun _ => true) samplePolygonScene sampleOutcome hrun sampleBatch hb hn).2.2.2.2.2.2
    (by rw [hc]; decide)
  ⟨hrun, hb, hc, by rw [h.1, hc]; decide, by rw [h.2.1, hc]; decide, by rw [h.2.2, hc]; decide⟩

/-- C6: if the transient-buffer allocation fails for batch number `k` (counted
from zero; every earlier allocation of the call succeeded), `renderPolygons`
returns after calling `WarnOnce`, has appended to `drawCalls_` exactly the draw
calls of the `k` batches before it, in order, nothing for batch `k` or any
later group, and has left the draw calls that were already in `drawCalls_`
unchanged.  The batches are those of the run in which every allocation
succeeds. -/
theorem renderPolygons_alloc_failure_keeps_prefix
    (stdSortImpl : (Nat → Nat → Bool) → List Nat → List Nat) (mem : MaterialMem)
    (dcInit : DrawCall) (allocOk : Nat → Bool) (s : PolygonScene) (w : WarnOnceState)
    (full : PolygonsOutcome) (k : Nat)
    (hfull : renderPolygonsCore stdSortImpl mem dcInit (fun _ => true) s = some full)
    (hk : k < full.batches.length) (hok : ∀ i : Nat, i < k → allocOk i = true)
    (hfail : allocOk k = false) :
    ∃ out : PolygonsOutcome,
      renderPolygons stdSortImpl mem dcInit allocOk s w =
        some (out, WarnOnce WarnOnceId.TransientBuffer w) ∧
      out.allocFailed = true ∧
      out.batches = full.batches.take k ∧
      out.scene.drawCalls_ =
        s.drawCalls_ ++ (full.batches.take k).map (fun b => b.drawCall) ∧
      out.scene.drawCalls_.length = s.drawCalls_.length + k ∧
      out.scene.drawCalls_.take s.drawCalls_.length = s.drawCalls_ := by
  have hcore := renderPolygonsCore_fail stdSortImpl mem dcInit allocOk s full k hfull hk hok hfail
  refine ⟨{ scene := { full.scene with
                        drawCalls_ := s.drawCalls_ ++
                          (full.batches.take k).map (fun b => b.drawCall) },
            batches := full.batches.take k, allocFailed := true }, ?_, rfl, rfl, rfl, ?_, ?_⟩
  · unfold renderPolygons
    rw [hcore]
    rfl
  · simp only [List.length_append, List.length_map, List.length_take]
    omega
  · simp

/-- C6 at the sample scene when the second allocation fails: one draw call,
the one of the first batch, is appended and the warning is printed. -/
theorem renderPolygons_alloc_failure_keeps_prefix_witness :
    ∃ out : PolygonsOutcome,
      renderPolygons stdSort sampleMem (sampleDrawCall 0 0) (fun i => decide (i ≠ 1))
          samplePolygonScene WarnOnceState.initial =
        some (out, WarnOnce WarnOnceId.TransientBuffer WarnOnceState.initial) ∧
      out.allocFailed = true ∧
      out.batches = sampleOutcome.batches.take 1 ∧
      out.scene.drawCalls_ =
        samplePolygonScene.drawCalls_ ++
          (sampleOutcome.batches.take 1).map (fun b => b.drawCall) ∧
      out.scene.drawCalls_.length = samplePolygonScene.drawCalls_.length + 1 ∧
      out.scene.drawCalls_.take samplePolygonScene.drawCalls_.length =
        samplePolygonScene.drawCalls_ :=
  renderPolygons_alloc_failure_keeps_prefix stdSort sampleMem (sampleDrawCall 0 0)
    (fun i => decide (i ≠ 1)) samplePolygonScene WarnOnceState.initial sampleOutcome 1
    (by decide) (by decide) (by decide) (by decide)

/-- C7 as stated fails: after a failure in `renderPolygons` has printed the
warning, the first failure in `renderScreenSpaceQuad` prints nothing; two
distinct failing call sites produce one warning, not two. -/
theorem warnOnce_second_site_silent :
    (allocFailures [CallSite.renderPolygons, CallSite.renderScreenSpaceQuad]
        WarnOnceState.initial).printed =
      (allocFailures [CallSite.renderPolygons] WarnOnceState.initial).printed ∧
    warningsPrinted [CallSite.renderPolygons, CallSite.renderScreenSpaceQuad] = 1 ∧
    [CallSite.renderPolygons, CallSite.renderScreenSpaceQuad].dedup.length = 2 := by
  refine ⟨?_, ?_, by decide⟩
  · rw [allocFailures_cons, allocFailures_cons]
  · unfold warningsPrinted
    rw [allocFailures_cons]
    simp [WarnOnce, WarnOnceState.initial]

/-- C7 (amended): every call site passes the same id
`WarnOnceId::TransientBuffer`, and `WarnOnce` prints once per id: over any
sequence of transient-buffer allocation failures the warning is printed exactly
once in all, by the first failure, whichever site it occurs at; every later
failure, at the same or at another site, changes nothing.  For each id, a call
prints exactly when the id has not warned before, sets the id's flag and leaves
the flags of the other ids alone. -/
theorem warnOnce_once_per_id :
    (∀ site : CallSite, site.warnId = WarnOnceId.TransientBuffer) ∧
    (∀ sites : List CallSite,
      (allocFailures sites WarnOnceState.initial).printed =
        if sites = [] then [] else ["BGFX transient buffer alloc failed\n"]) ∧
    (∀ sites : List CallSite, warningsPrinted sites = if sites = [] then 0 else 1) ∧
    (∀ (first : CallSite) (later : List CallSite) (w : WarnOnceState),
      allocFailures (first :: later) w = allocFailedAt first w) ∧
    (∀ (id : WarnOnceId) (w : WarnOnceState), w.warned id = true → WarnOnce id w = w) ∧
    (∀ (id : WarnOnceId) (w : WarnOnceState), w.warned id = false →
      (WarnOnce id w).printed = w.printed ++ ["BGFX transient buffer alloc failed\n"] ∧
      (WarnOnce id w).warned id = true ∧
      ∀ id' : WarnOnceId, id' ≠ id → (WarnOnce id w).warned id' = w.warned id') := by
  refine ⟨fun site => by cases site <;> rfl, ?_, ?_, ?_, WarnOnce_of_warned,
    WarnOnce_of_not_warned⟩
  · intro sites
    cases sites with
    | nil => rfl
    | cons site rest =>
      rw [allocFailures_cons]
      simp [WarnOnce, WarnOnceState.initial]
  · intro sites
    unfold warningsPrinted
    cases sites with
    | nil => rfl
    | cons site rest =>
      rw [allocFailures_cons]
      simp [WarnOnce, WarnOnceState.initial]
  · intro first later w
    rw [allocFailures_cons]
    cases first <;> rfl

/-- C10 as stated fails: in a world scene with soft sprites enabled, a stage
with an alpha-test mode submitted for a draw call of soft-sprite depth 1 gets
the AlphaTest bit and not the SoftSprite bit. -/
theorem mainPassStage_alphaTest_stage_has_no_softSprite_bit :
    sampleGlobals.isWorldScene_ = true ∧ sampleGlobals.softSpritesEnabled_ = true ∧
    (sampleSpriteDrawCall 1 0).softSpriteDepth > 0 ∧
    (sampleStage (MaterialAlphaTest.mode 1) 0).active = true ∧
    ∃ sub : Submission,
      mainPassStage sampleVariants sampleBgfxDefines sampleDrawCallFlags sampleRenderCameraFlags
        sampleGlobals 0 (sampleMem 1) (sampleMem 1) (sampleSpriteDrawCall 1 0)
        (sampleStage (MaterialAlphaTest.mode 1) 0) = some sub ∧
      sub.shaderVariant = 9 ∧
      ¬ variantHas sub.shaderVariant sampleVariants.SoftSprite := by
  refine ⟨rfl, rfl, by decide, rfl, _, rfl, by decide, by decide⟩

/-- C10 (amended): for every active stage submitted in the main pass, the
SoftSprite bit of the generic shader variant is set exactly when the stage has
no alpha-test mode, the scene is a world scene, soft sprites are globally
enabled and the draw call's soft-sprite depth is greater than zero, whatever
the dynamic-light, depth-range and HDR conditions are. -/
theorem mainPassStage_softSprite_bit (V : GenericShaderProgramVariant) (hV : V.wellFormed)
    (B : BgfxDefines) (dcf : DrawCallFlags) (rcf : RenderCameraFlags) (g : RenderGlobals)
    (flags : Nat) (material mat : Material) (dc : DrawCall) (stage : MaterialStage)
    (hactive : stage.active = true) :
    ∃ sub : Submission,
      mainPassStage V B dcf rcf g flags material mat dc stage = some sub ∧
      (variantHas sub.shaderVariant V.SoftSprite ↔
        (stage.alphaTest = MaterialAlphaTest.None ∧ g.isWorldScene_ = true ∧
          g.softSpritesEnabled_ = true ∧ dc.softSpriteDepth > 0)) := by
  obtain ⟨sub, hsub, -, hS, -, -, -⟩ :=
    mainPassStage_variant_bits V hV B dcf rcf g flags material mat dc stage hactive
  refine ⟨sub, hsub, ?_⟩
  rw [hS]
  simp only [Bool.and_eq_true, decide_eq_true_eq, and_assoc]

/-- C10 (amended) at a sample stage without alpha test: the SoftSprite bit is
set. -/
theorem mainPassStage_softSprite_bit_witness :
    sampleVariants.wellFormed ∧ (sampleStage MaterialAlphaTest.None 0).active = true ∧
    ∃ sub : Submission,
      mainPassStage sampleVariants sampleBgfxDefines sampleDrawCallFlags sampleRenderCameraFlags
        sampleGlobals 0 (sampleMem 1) (sampleMem 1) (sampleSpriteDrawCall 1 0)
        (sampleStage MaterialAlphaTest.None 0) = some sub ∧
      (variantHas sub.shaderVariant sampleVariants.SoftSprite ↔
        ((sampleStage MaterialAlphaTest.None 0).alphaTest = MaterialAlphaTest.None ∧
          sampleGlobals.isWorldScene_ = true ∧ sampleGlobals.softSpritesEnabled_ = true ∧
          (sampleSpriteDrawCall 1 0).softSpriteDepth > 0)) :=
  ⟨by decide, rfl,
    mainPassStage_softSprite_bit sampleVariants (by decide) sampleBgfxDefines
      sampleDrawCallFlags sampleRenderCameraFlags sampleGlobals 0 (sampleMem 1) (sampleMem 1)
      (sampleSpriteDrawCall 1 0) (sampleStage MaterialAlphaTest.None 0) rfl⟩

/-- C11 as stated fails: a draw call with `zOffset = -1` (non-zero) and
`zScale = 0`, of a material without polygon offset, is submitted without the
DepthRange bit. -/
theorem mainPassStage_negative_zOffset_has_no_depthRange_bit :
    (sampleSpriteDrawCall 0 (-1)).zOffset ≠ 0 ∧ (sampleMem 1).polygonOffset = false ∧
    ∃ sub : Submission,
      mainPassStage sampleVariants sampleBgfxDefines sampleDrawCallFlags sampleRenderCameraFlags
        sampleGlobals 0 (sampleMem 1) (sampleMem 1) (sampleSpriteDrawCall 0 (-1))
        (sampleStage MaterialAlphaTest.None 0) = some sub ∧
      sub.shaderVariant = 8 ∧
      ¬ variantHas sub.shaderVariant sampleVariants.DepthRange := by
  refine ⟨by decide, rfl, _, rfl, by decide, by decide⟩

/-- C11 (amended): for every active stage submitted in the main pass, the
DepthRange bit of the generic shader variant is set exactly when the (remapped)
material has polygon offset or the draw call's `zOffset` is greater than zero
or its `zScale` is greater than zero. -/
theorem mainPassStage_depthRange_bit (V : GenericShaderProgramVariant) (hV : V.wellFormed)
    (B : BgfxDefines) (dcf : DrawCallFlags) (rcf : RenderCameraFlags) (g : RenderGlobals)
    (flags : Nat) (material mat : Material) (dc : DrawCall) (stage : MaterialStage)
    (hactive : stage.active = true) :
    ∃ sub : Submission,
      mainPassStage V B dcf rcf g flags material mat dc stage = some sub ∧
      (variantHas sub.shaderVariant V.DepthRange ↔
        (mat.polygonOffset = true ∨ dc.zOffset > 0 ∨ dc.zScale > 0)) := by
  obtain ⟨sub, hsub, -, -, -, hD, -⟩ :=
    mainPassStage_variant_bits V hV B dcf rcf g flags material mat dc stage hactive
  refine ⟨sub, hsub, ?_⟩
  rw [hD]
  simp only [Bool.or_eq_true, decide_eq_true_eq, or_assoc]

/-- C11 (amended) at a sample draw call with `zOffset = 1/2`: the DepthRange
bit is set. -/
theorem mainPassStage_depthRange_bit_witness :
    sampleVariants.wellFormed ∧ (sampleStage MaterialAlphaTest.None 0).active = true ∧
    ∃ sub : Submission,
      mainPassStage sampleVariants sampleBgfxDefines sampleDrawCallFlags sampleRenderCameraFlags
        sampleGlobals 0 (sampleMem 1) (sampleMem 1) (sampleSpriteDrawCall 0 (1 / 2))
        (sampleStage MaterialAlphaTest.None 0) = some sub ∧
      (variantHas sub.shaderVariant sampleVariants.DepthRange ↔
        ((sampleMem 1).polygonOffset = true ∨ (sampleSpriteDrawCall 0 (1 / 2)).zOffset > 0 ∨
          (sampleSpriteDrawCall 0 (1 / 2)).zScale > 0)) :=
  ⟨by decide, rfl,
    mainPassStage_depthRange_bit sampleVariants (by decide) sampleBgfxDefines
      sampleDrawCallFlags sampleRenderCameraFlags sampleGlobals 0 (sampleMem 1) (sampleMem 1)
      (sampleSpriteDrawCall 0 (1 / 2)) (sampleStage MaterialAlphaTest.None 0) rfl⟩

/-- C12: for every active stage submitted in the main pass, the generic shader
variant has its AlphaTest bit set iff the stage's alpha-test mode is not None,
its DynamicLights bit set iff the scene is a world scene, the draw call is
marked dynamically lit and does not carry the Sky flag, and its HDR bit set iff
HDR is globally enabled.  The three bits are the same whatever the fog index
of the draw call and the `flags` argument of `renderCamera` (which carries the
stencil flag) are; the visibility id is not read by the stage loop at all. -/
theorem mainPassStage_alphaTest_dynamicLights_hdr_bits (V : GenericShaderProgramVariant)
    (hV : V.wellFormed) (B : BgfxDefines) (dcf : DrawCallFlags) (rcf : RenderCameraFlags)
    (g : RenderGlobals) (flags : Nat) (material mat : Material) (dc : DrawCall)
    (stage : MaterialStage) (hactive : stage.active = true) :
    ∃ sub : Submission,
      mainPassStage V B dcf rcf g flags material mat dc stage = some sub ∧
      (variantHas sub.shaderVariant V.AlphaTest ↔ stage.alphaTest ≠ MaterialAlphaTest.None) ∧
      (variantHas sub.shaderVariant V.DynamicLights ↔
        (g.isWorldScene_ = true ∧ dc.dynamicLighting = true ∧ dc.flags &&& dcf.Sky = 0)) ∧
      (variantHas sub.shaderVariant V.HDR ↔ g.hdr = true) ∧
      ∀ (fogIndex : Int) (otherFlags : Nat), ∃ other : Submission,
        mainPassStage V B dcf rcf g otherFlags material mat { dc with fogIndex := fogIndex }
          stage = some other ∧
        (variantHas other.shaderVariant V.AlphaTest ↔
          variantHas sub.shaderVariant V.AlphaTest) ∧
        (variantHas other.shaderVariant V.DynamicLights ↔
          variantHas sub.shaderVariant V.DynamicLights) ∧
        (variantHas other.shaderVariant V.HDR ↔ variantHas sub.shaderVariant V.HDR) := by
  obtain ⟨sub, hsub, hA, -, hL, -, hH⟩ :=
    mainPassStage_variant_bits V hV B dcf rcf g flags material mat dc stage hactive
  refine ⟨sub, hsub, hA, ?_, hH, ?_⟩
  · rw [hL]
    simp only [Bool.and_eq_true, Bool.not_eq_true', decide_eq_false_iff_not, ne_eq, not_not,
      and_assoc]
  · intro fogIndex otherFlags
    obtain ⟨other, hother, hA', -, hL', -, hH'⟩ :=
      mainPassStage_variant_bits V hV B dcf rcf g otherFlags material mat
        { dc with fogIndex := fogIndex } stage hactive
    exact ⟨other, hother, by rw [hA', hA], by rw [hL', hL], by rw [hH', hH]⟩

/-- C12 at a sample stage with an alpha-test mode, in a world scene with HDR:
the AlphaTest and HDR bits are set, the DynamicLights bit is not. -/
theorem mainPassStage_alphaTest_dynamicLights_hdr_bits_witness :
    sampleVariants.wellFormed ∧ (sampleStage (MaterialAlphaTest.mode 1) 0).active = true ∧
    ∃ sub : Submission,
      mainPassStage sampleVariants sampleBgfxDefines sampleDrawCallFlags sampleRenderCameraFlags
        sampleGlobals 0 (sampleMem 1) (sampleMem 1) (sampleSpriteDrawCall 1 0)
        (sampleStage (MaterialAlphaTest.mode 1) 0) = some sub ∧
      (variantHas sub.shaderVariant sampleVariants.AlphaTest ↔
        (sampleStage (MaterialAlphaTest.mode 1) 0).alphaTest ≠ MaterialAlphaTest.None) ∧
      (variantHas sub.shaderVariant sampleVariants.HDR ↔ sampleGlobals.hdr = true) :=
  ⟨by decide, rfl,
    match mainPassStage_alphaTest_dynamicLights_hdr_bits sampleVariants (by decide)
      sampleBgfxDefines sampleDrawCallFlags sampleRenderCameraFlags sampleGlobals 0
      (sampleMem 1) (sampleMem 1) (sampleSpriteDrawCall 1 0)
      (sampleStage (MaterialAlphaTest.mode 1) 0) rfl with
    | ⟨sub, h1, h2, _, h4, _⟩ => ⟨sub, h1, h2, h4⟩⟩
/-- C13: when the SoftSprite variant is selected for a stage (no alpha-test
mode, world scene, soft sprites enabled, soft-sprite depth above zero): if the
blend bits of (draw-call state OR stage state) equal `BGFX_STATE_BLEND_ADD`,
the blend bits of the submitted state are those of
`BGFX_STATE_BLEND_FUNC(SRC_ALPHA, ONE)`, every bit outside
`BGFX_STATE_BLEND_MASK` is unchanged and the useAlpha uniform is 0; for every
other blend mode the submitted state equals (draw-call state OR stage state)
and useAlpha is 1.  The first uniform component is the soft-sprite depth.  The
blend function word lies inside the blend mask, as in the bgfx headers. -/
theorem mainPassStage_softSprite_blend (V : GenericShaderProgramVariant) (B : BgfxDefines)
    (hB : B.STATE_BLEND_FUNC_SRC_ALPHA_ONE &&& B.STATE_BLEND_MASK =
      B.STATE_BLEND_FUNC_SRC_ALPHA_ONE)
    (dcf : DrawCallFlags) (rcf : RenderCameraFlags) (g : RenderGlobals)
    (flags : Nat) (material mat : Material) (dc : DrawCall) (stage : MaterialStage)
    (hactive : stage.active = true) (halpha : stage.alphaTest = MaterialAlphaTest.None)
    (hworld : g.isWorldScene_ = true) (hsoft : g.softSpritesEnabled_ = true)
    (hdepth : dc.softSpriteDepth > 0) :
    ∃ sub : Submission,
      mainPassStage V B dcf rcf g flags material mat dc stage = some sub ∧
      ((dc.state ||| stage.state) &&& B.STATE_BLEND_MASK = B.STATE_BLEND_ADD →
        sub.state &&& B.STATE_BLEND_MASK = B.STATE_BLEND_FUNC_SRC_ALPHA_ONE ∧
        sub.state &&& notU64 B.STATE_BLEND_MASK =
          (dc.state ||| stage.state) &&& notU64 B.STATE_BLEND_MASK ∧
        sub.softSprite_Depth_UseAlpha = some (dc.softSpriteDepth, 0)) ∧
      ((dc.state ||| stage.state) &&& B.STATE_BLEND_MASK ≠ B.STATE_BLEND_ADD →
        sub.state = dc.state ||| stage.state ∧
        sub.softSprite_Depth_UseAlpha = some (dc.softSpriteDepth, 1)) := by
  unfold mainPassStage
  have hcond : (g.isWorldScene_ && g.softSpritesEnabled_ && decide (dc.softSpriteDepth > 0)) =
      true := by
    rw [hworld, hsoft]
    simp only [Bool.and_self, Bool.true_and, decide_eq_true_eq]
    exact hdepth
  simp only [hactive, Bool.not_true, Bool.false_eq_true, if_false, halpha, ne_eq,
    not_true_eq_false, hcond, if_true]
  by_cases hadd : (dc.state ||| stage.state) &&& B.STATE_BLEND_MASK = B.STATE_BLEND_ADD
  · simp only [hadd, if_true]
    refine ⟨_, rfl, ?_, ?_⟩
    · intro _
      obtain ⟨h1, h2⟩ := replace_masked_bits (dc.state ||| stage.state) B.STATE_BLEND_MASK
        B.STATE_BLEND_FUNC_SRC_ALPHA_ONE hB
      refine ⟨?_, ?_, ?_⟩
      · split_ifs <;> exact h1
      · split_ifs <;> exact h2
      · split_ifs <;> rfl
    · intro hne
      exact absurd trivial hne
  · simp only [hadd, if_false]
    refine ⟨_, rfl, ?_, ?_⟩
    · intro h
      exact h.elim
    · intro _
      refine ⟨?_, ?_⟩
      · split_ifs <;> rfl
      · split_ifs <;> rfl

/-- C13 at a sample additive stage: the blend word `0x2222000` becomes
`0x2525000`, the colour-write bit stays, useAlpha is 0. -/
theorem mainPassStage_softSprite_blend_witness :
    ∃ sub : Submission,
      mainPassStage sampleVariants sampleBgfxDefines sampleDrawCallFlags sampleRenderCameraFlags
        sampleGlobals 0 (sampleMem 1) (sampleMem 1) (sampleSpriteDrawCall 1 0)
        (sampleStage MaterialAlphaTest.None 0x2222001) = some sub ∧
      sub.state &&& sampleBgfxDefines.STATE_BLEND_MASK = 0x2525000 ∧
      sub.softSprite_Depth_UseAlpha = some (1, 0) :=
  match mainPassStage_softSprite_blend sampleVariants sampleBgfxDefines (by decide)
    sampleDrawCallFlags sampleRenderCameraFlags sampleGlobals 0 (sampleMem 1) (sampleMem 1)
    (sampleSpriteDrawCall 1 0) (sampleStage MaterialAlphaTest.None 0x2222001) rfl rfl rfl rfl
    (by decide) with
  | ⟨sub, h1, h2, _⟩ => ⟨sub, h1, (h2 (by decide)).1, (h2 (by decide)).2.2⟩

/-- C15 as stated fails: for the face index 4 the table gives texture slot 4,
so the sky box draw call binds `outerbox[4]` (handle 14 in the sample
material), not `outerbox[5]` (handle 15). -/
theorem skybox_face_four_binds_slot_four_not_five :
    sky_texorder.getD 4 0 = 4 ∧
    mainPassDrawCall sampleVariants sampleFogVariants sampleBgfxDefines sampleDrawCallFlags
        sampleRenderCameraFlags sampleGlobals sampleMem VisibilityId.Main 0
        (sampleSkyboxDrawCall 4) =
      [mainPassSkybox sampleVariants sampleRenderCameraFlags sampleGlobals 0 (sampleMem 1)
        (sampleSkyboxDrawCall 4)] ∧
    (mainPassSkybox sampleVariants sampleRenderCameraFlags sampleGlobals 0 (sampleMem 1)
      (sampleSkyboxDrawCall 4)).diffuseSlot = some 4 ∧
    (mainPassSkybox sampleVariants sampleRenderCameraFlags sampleGlobals 0 (sampleMem 1)
      (sampleSkyboxDrawCall 4)).diffuseTexture = some ((sampleMem 1).skyOuterbox.getD 4 0) ∧
    (mainPassSkybox sampleVariants sampleRenderCameraFlags sampleGlobals 0 (sampleMem 1)
      (sampleSkyboxDrawCall 4)).diffuseTexture ≠ some ((sampleMem 1).skyOuterbox.getD 5 0) := by
  refine ⟨rfl, by decide, rfl, rfl, by decide⟩

/-- C15 (amended): a sky box draw call with face index 4 that the main pass
reaches (its remapped material is not a reflective one seen by the reflection
camera) makes one submission, which binds as its diffuse texture the slot
`outerbox[sky_texorder[4]]` of the remapped material, and that slot is
`outerbox[4]`, `sky_texorder` being the table `{0, 2, 1, 3, 4, 5}`. -/
theorem skybox_face_four_binds_outerbox_four (V : GenericShaderProgramVariant)
    (F : FogShaderProgramVariant) (B : BgfxDefines) (dcf : DrawCallFlags)
    (rcf : RenderCameraFlags) (g : RenderGlobals) (mem : MaterialMem) (visId : VisibilityId)
    (flags : Nat) (dc : DrawCall) (mat : Material)
    (hmat : mat = match (mem dc.material).remappedShader with
      | some remapped => mem remapped
      | none => mem dc.material)
    (hreached : ¬ (visId = VisibilityId.Reflection ∧ mat.reflective ≠ MaterialReflective.None))
    (hskybox : dc.flags &&& dcf.Skybox ≠ 0) (hside : dc.skyboxSide = 4) :
    sky_texorder = [0, 2, 1, 3, 4, 5] ∧
    ∃ sub : Submission,
      mainPassDrawCall V F B dcf rcf g mem visId flags dc = [sub] ∧
      sub.diffuseSlot = some (sky_texorder.getD 4 0) ∧
      sub.diffuseSlot = some 4 ∧
      sub.diffuseTexture = some (mat.skyOuterbox.getD 4 0) := by
  refine ⟨rfl, mainPassSkybox V rcf g flags mat dc, ?_, ?_, ?_, ?_⟩
  · unfold mainPassDrawCall
    simp only
    rw [← hmat, if_neg hreached, if_pos hskybox]
  · show some (sky_texorder.getD dc.skyboxSide 0) = _
    rw [hside]
  · show some (sky_texorder.getD dc.skyboxSide 0) = _
    rw [hside]
    rfl
  · show some (mat.skyOuterbox.getD (sky_texorder.getD dc.skyboxSide 0) 0) = _
    rw [hside]
    rfl

/-- C15 (amended) at the sample sky box draw call of face 4. -/
theorem skybox_face_four_binds_outerbox_four_witness :
    ∃ sub : Submission,
      mainPassDrawCall sampleVariants sampleFogVariants sampleBgfxDefines sampleDrawCallFlags
        sampleRenderCameraFlags sampleGlobals sampleMem VisibilityId.Main 0
        (sampleSkyboxDrawCall 4) = [sub] ∧
      sub.diffuseSlot = some (sky_texorder.getD 4 0) ∧
      sub.diffuseSlot = some 4 ∧
      sub.diffuseTexture = some ((sampleMem 1).skyOuterbox.getD 4 0) :=
  (skybox_face_four_binds_outerbox_four sampleVariants sampleFogVariants sampleBgfxDefines
    sampleDrawCallFlags sampleRenderCameraFlags sampleGlobals sampleMem VisibilityId.Main 0
    (sampleSkyboxDrawCall 4) (sampleMem 1) rfl (by decide) (by decide) rfl).2

/-- C16 as stated fails: an entity flagged both ThirdPerson and FirstPerson is
flagged ThirdPerson, yet the reflection, portal and sky box portal cameras
skip it. -/
theorem entity_with_both_flags_skipped_by_every_camera :
    (sampleEntity 6).flags &&& sampleEntityFlags.ThirdPerson ≠ 0 ∧
    entityPassesCameraFilter sampleEntityFlags VisibilityId.Reflection (sampleEntity 6) = false ∧
    entityPassesCameraFilter sampleEntityFlags VisibilityId.Portal (sampleEntity 6) = false ∧
    entityPassesCameraFilter sampleEntityFlags VisibilityId.SkyboxPortal (sampleEntity 6) =
      false ∧
    entityPassesCameraFilter sampleEntityFlags VisibilityId.Main (sampleEntity 6) = false := by
  decide

/-- C16 (amended): when `renderCamera` collects entity draw calls, the Main
camera passes an entity to `renderEntity` exactly when the entity is not
flagged ThirdPerson, and every other camera exactly when it is not flagged
FirstPerson.  So an entity flagged ThirdPerson and not FirstPerson is skipped
by the Main camera and rendered by every non-Main camera; an entity flagged
FirstPerson and not ThirdPerson is rendered by the Main camera and skipped by
every non-Main camera; an entity with neither flag is passed to `renderEntity`
by every camera. -/
theorem entityPassesCameraFilter_spec (ef : EntityFlags) (entity : Entity) :
    (∀ visId : VisibilityId,
      entityPassesCameraFilter ef visId entity = true ↔
        (if visId = VisibilityId.Main then entity.flags &&& ef.ThirdPerson = 0
         else entity.flags &&& ef.FirstPerson = 0)) ∧
    (entity.flags &&& ef.ThirdPerson ≠ 0 → entity.flags &&& ef.FirstPerson = 0 →
      entityPassesCameraFilter ef VisibilityId.Main entity = false ∧
      ∀ visId : VisibilityId, visId ≠ VisibilityId.Main →
        entityPassesCameraFilter ef visId entity = true) ∧
    (entity.flags &&& ef.FirstPerson ≠ 0 → entity.flags &&& ef.ThirdPerson = 0 →
      entityPassesCameraFilter ef VisibilityId.Main entity = true ∧
      ∀ visId : VisibilityId, visId ≠ VisibilityId.Main →
        entityPassesCameraFilter ef visId entity = false) ∧
    (entity.flags &&& ef.ThirdPerson = 0 → entity.flags &&& ef.FirstPerson = 0 →
      ∀ visId : VisibilityId, entityPassesCameraFilter ef visId entity = true) := by
  have key : ∀ visId : VisibilityId,
      entityPassesCameraFilter ef visId entity = true ↔
        (if visId = VisibilityId.Main then entity.flags &&& ef.ThirdPerson = 0
         else entity.flags &&& ef.FirstPerson = 0) := by
    intro visId
    unfold entityPassesCameraFilter
    by_cases hm : visId = VisibilityId.Main <;>
      by_cases ht : entity.flags &&& ef.ThirdPerson = 0 <;>
      by_cases hf : entity.flags &&& ef.FirstPerson = 0 <;>
      simp [hm, ht, hf]
  refine ⟨key, ?_, ?_, ?_⟩
  · intro ht hf
    refine ⟨?_, ?_⟩
    · cases h : entityPassesCameraFilter ef VisibilityId.Main entity
      · rfl
      · have := (key VisibilityId.Main).mp h
        rw [if_pos rfl] at this
        exact absurd this ht
    · intro visId hne
      apply (key visId).mpr
      rw [if_neg hne]
      exact hf
  · intro hf ht
    refine ⟨?_, ?_⟩
    · apply (key VisibilityId.Main).mpr
      rw [if_pos rfl]
      exact ht
    · intro visId hne
      cases h : entityPassesCameraFilter ef visId entity
      · rfl
      · have := (key visId).mp h
        rw [if_neg hne] at this
        exact absurd this hf
  · intro ht hf visId
    apply (key visId).mpr
    split_ifs
    · exact ht
    · exact hf

/-- C16 (amended) at a sample entity flagged ThirdPerson only: skipped by the
Main camera, rendered by the reflection camera. -/
theorem entityPassesCameraFilter_spec_witness :
    (sampleEntity 2).flags &&& sampleEntityFlags.ThirdPerson ≠ 0 ∧
    (sampleEntity 2).flags &&& sampleEntityFlags.FirstPerson = 0 ∧
    entityPassesCameraFilter sampleEntityFlags VisibilityId.Main (sampleEntity 2) = false ∧
    entityPassesCameraFilter sampleEntityFlags VisibilityId.Reflection (sampleEntity 2) = true :=
  have h := (entityPassesCameraFilter_spec sampleEntityFlags (sampleEntity 2)).2.1
    (by decide) (by decide)
  ⟨by decide, by decide, h.1, h.2 VisibilityId.Reflection (by decide)⟩
/-- C8 as stated fails for `N = 257`: the ids are 8-bit values, so the 257th
`pushView` call of a frame returns `0`, the id the first call returned, and the
ids are not `0 .. 256`.  This is so for an 8-bit and for a 32-bit counter. -/
theorem pushView_257th_call_reuses_id_zero :
    sampleMain.firstFreeViewId_ = 0 ∧
    (pushViews sampleEnv (List.replicate 257 samplePushViewArgs) sampleMain).2 ≠
      List.range 257 ∧
    (pushViews sampleEnv (List.replicate 257 samplePushViewArgs) sampleMain).2.get? 0 =
      some 0 ∧
    (pushViews sampleEnv (List.replicate 257 samplePushViewArgs) sampleMain).2.get? 256 =
      some 0 ∧
    (pushViews { sampleEnv with viewIdBits := 32 } (List.replicate 257 samplePushViewArgs)
      sampleMain).2.get? 256 = some 0 := by
  have h8 := pushViews_ids sampleEnv (by decide) (List.replicate 257 samplePushViewArgs)
    sampleMain
  have h32 := pushViews_ids { sampleEnv with viewIdBits := 32 } (by decide)
    (List.replicate 257 samplePushViewArgs) sampleMain
  rw [h8, h32]
  simp only [List.length_replicate]
  refine ⟨rfl, ?_, ?_, ?_, ?_⟩
  · intro h
    have h' := congrArg (fun l => l.get? 256) h
    simp [sampleMain] at h'
  · simp [sampleMain]
  · simp [sampleMain]
  · simp [sampleMain]

/-- C8 (amended): for every `N <= 256`, `N` consecutive `pushView` calls made
in one frame starting from a view counter of 0 return the ids `0, 1, ..., N-1`
in that order, strictly increasing and pairwise distinct; for any `N` the id
returned by call number `i` (counted from zero) is `i mod 256`.  The counter
member is at least 8 bits wide. -/
theorem pushViews_ids_from_zero (env : Env) (hw : 8 ≤ env.viewIdBits)
    (args : List (FrameBufferId × Nat × Rect × Bool)) (m : Main)
    (hzero : m.firstFreeViewId_ = 0) :
    (pushViews env args m).2 = (List.range args.length).map (fun i => i % 256) ∧
    (args.length ≤ 256 →
      (pushViews env args m).2 = List.range args.length ∧
      (pushViews env args m).2.Pairwise (fun a b => a < b) ∧
      (pushViews env args m).2.Nodup) := by
  have h := pushViews_ids env hw args m
  rw [hzero] at h
  simp only [Nat.zero_add] at h
  refine ⟨h, ?_⟩
  intro hlen
  have hrange : (pushViews env args m).2 = List.range args.length := by
    rw [h]
    have hid : ∀ i ∈ List.range args.length, i % 256 = i := by
      intro i hi
      have := List.mem_range.mp hi
      exact Nat.mod_eq_of_lt (by omega)
    rw [List.map_congr_left hid, List.map_id']
  rw [hrange]
  exact ⟨rfl, List.pairwise_lt_range _, List.nodup_range _⟩

/-- C8 (amended) for three calls at the start of a frame: the ids are
`0, 1, 2`. -/
theorem pushViews_ids_from_zero_witness :
    (pushViews sampleEnv (List.replicate 3 samplePushViewArgs) sampleMain).2 = [0, 1, 2] :=
  ((pushViews_ids_from_zero sampleEnv (by decide) (List.replicate 3 samplePushViewArgs)
    sampleMain rfl).2 (by decide)).1

/-- Claim C9.  With a library sort that permutes its input, every
`renderCamera` invocation returns within a nesting budget of two.  An
invocation that is not the main camera of a world scene logs itself and makes
no sub-invocation.  The main camera of a world scene logs itself, then at most
one Reflection sub-invocation (made exactly when `r_waterReflections` is on and
the world finds a reflecting surface) and at most one Portal sub-invocation
(made exactly when the world finds a portal surface), both one level deeper
and both without sub-invocations of their own; when both surfaces are found the
sub-invocations are exactly one Reflection and one Portal camera. -/
theorem renderCamera_recursion_one_level (env : Env)
    (hperm : ∀ (comp : Nat → Nat → Bool) (l : List Nat), (env.stdSortPolygons comp l).Perm l)
    (budget depth : Nat) (a : CameraArgs) (m : Main) :
    ∃ m1 : Main, renderCamera env (budget + 2) depth a m = some m1 ∧
      (¬ (m.isWorldScene_ = true ∧ a.visId = VisibilityId.Main) →
        cameraCalls m1.calls = cameraCalls m.calls ++ [(depth, a)]) ∧
      (m.isWorldScene_ = true ∧ a.visId = VisibilityId.Main →
        cameraCalls m1.calls = cameraCalls m.calls ++
          (depth, a) :: (reflectionCameraCall env depth a ++ portalCameraCall env depth a)) ∧
      (reflectionCameraCall env depth a).length ≤ 1 ∧
      (portalCameraCall env depth a).length ≤ 1 ∧
      (∀ c ∈ reflectionCameraCall env depth a,
        c.1 = depth + 1 ∧ c.2.visId = VisibilityId.Reflection) ∧
      (∀ c ∈ portalCameraCall env depth a,
        c.1 = depth + 1 ∧ c.2.visId = VisibilityId.Portal) ∧
      (env.waterReflections = true →
        (env.calculateReflectionCamera a.visId a.position a.rotation).isSome = true →
        (env.calculatePortalCamera a.visId a.position a.rotation).isSome = true →
        (reflectionCameraCall env depth a ++ portalCameraCall env depth a).map
            (fun c => (c.1, c.2.visId)) =
          [(depth + 1, VisibilityId.Reflection), (depth + 1, VisibilityId.Portal)]) ∧
      (∀ c ∈ (cameraCalls m1.calls).drop (cameraCalls m.calls).length,
        depth ≤ c.1 ∧ c.1 ≤ depth + 1) := by
  have hr1 : (reflectionCameraCall env depth a).length ≤ 1 := by
    unfold reflectionCameraCall
    split_ifs
    · cases env.calculateReflectionCamera a.visId a.position a.rotation with
      | none => simp
      | some found => simp
    · simp
  have hp1 : (portalCameraCall env depth a).length ≤ 1 := by
    unfold portalCameraCall
    cases env.calculatePortalCamera a.visId a.position a.rotation with
    | none => simp
    | some found => simp
  have hr2 : ∀ c ∈ reflectionCameraCall env depth a,
      c.1 = depth + 1 ∧ c.2.visId = VisibilityId.Reflection := by
    intro c hc
    unfold reflectionCameraCall at hc
    split_ifs at hc
    · cases hf : env.calculateReflectionCamera a.visId a.position a.rotation with
      | none => rw [hf] at hc; simp at hc
      | some found =>
        rw [hf] at hc
        simp only [List.mem_singleton] at hc
        rw [hc]
        exact ⟨rfl, rfl⟩
    · simp at hc
  have hp2 : ∀ c ∈ portalCameraCall env depth a,
      c.1 = depth + 1 ∧ c.2.visId = VisibilityId.Portal := by
    intro c hc
    unfold portalCameraCall at hc
    cases hf : env.calculatePortalCamera a.visId a.position a.rotation with
    | none => rw [hf] at hc; simp at hc
    | some found =>
      rw [hf] at hc
      simp only [List.mem_singleton] at hc
      rw [hc]
      exact ⟨rfl, rfl⟩
  have hboth : env.waterReflections = true →
      (env.calculateReflectionCamera a.visId a.position a.rotation).isSome = true →
      (env.calculatePortalCamera a.visId a.position a.rotation).isSome = true →
      (reflectionCameraCall env depth a ++ portalCameraCall env depth a).map
          (fun c => (c.1, c.2.visId)) =
        [(depth + 1, VisibilityId.Reflection), (depth + 1, VisibilityId.Portal)] := by
    intro hw hr hp
    unfold reflectionCameraCall portalCameraCall
    rw [if_pos hw]
    cases hf : env.calculateReflectionCamera a.visId a.position a.rotation with
    | none => rw [hf] at hr; simp at hr
    | some found =>
      cases hg : env.calculatePortalCamera a.visId a.position a.rotation with
      | none => rw [hg] at hp; simp at hp
      | some found2 => rfl
  by_cases hcase : m.isWorldScene_ = true ∧ a.visId = VisibilityId.Main
  · obtain ⟨m1, h1, _, _, hc⟩ := renderCamera_main env hperm budget depth a m hcase.1 hcase.2
    refine ⟨m1, h1, fun hn => (hn hcase).elim, fun _ => hc, hr1, hp1, hr2, hp2, hboth, ?_⟩
    intro c hmem
    rw [hc, List.drop_left] at hmem
    rcases List.mem_cons.mp hmem with h | h
    · rw [h]
      exact ⟨le_refl _, Nat.le_succ _⟩
    · rcases List.mem_append.mp h with h | h
      · rw [(hr2 c h).1]
        exact ⟨Nat.le_succ _, le_refl _⟩
      · rw [(hp2 c h).1]
        exact ⟨Nat.le_succ _, le_refl _⟩
  · obtain ⟨m1, h1, _, _, hc⟩ := renderCamera_leaf env hperm (budget + 1) depth a m hcase
    refine ⟨m1, h1, fun _ => hc, fun hy => (hcase hy).elim, hr1, hp1, hr2, hp2, hboth, ?_⟩
    intro c hmem
    rw [hc, List.drop_left] at hmem
    rw [List.mem_singleton.mp hmem]
    exact ⟨le_refl _, Nat.le_succ _⟩

/-- Witness for claim C9: in the sample world, where every camera would see a
reflecting and a portal surface, the main camera makes one Reflection and one
Portal sub-invocation at depth 1 and nothing deeper. -/
theorem renderCamera_recursion_one_level_witness :
    ∃ m1 : Main, renderCamera sampleMirrorEnv 2 0 sampleCameraArgs sampleWorldMain = some m1 ∧
      (cameraCalls m1.calls).map (fun c => (c.1, c.2.visId)) =
        [(0, VisibilityId.Main), (1, VisibilityId.Reflection), (1, VisibilityId.Portal)] := by
  obtain ⟨m1, h1, _, hmain, _, _, _, _, hboth, _⟩ :=
    renderCamera_recursion_one_level sampleMirrorEnv (fun comp l => stdSort_perm comp l) 0 0
      sampleCameraArgs sampleWorldMain
  refine ⟨m1, h1, ?_⟩
  rw [hmain ⟨rfl, rfl⟩]
  have hb := hboth rfl rfl rfl
  rw [show cameraCalls sampleWorldMain.calls = [] from rfl, List.nil_append, List.map_cons, hb]
  rfl

/-- C17 as stated fails when a 2D batch is pending: `renderScene` starts with
`flushStretchPics`, which pushes the view of the 2D batch.  A hyperspace scene
at time 300 in the sample state with one quad pending pushes two views, 0 and
1, and sets the clear colour on view 1. -/
theorem renderScene_hyperspace_pushes_two_views_after_pending_2D_batch :
    samplePending2DMain.stretchPicIndices_ = [3, 0, 2, 2, 0, 1] ∧
    (renderScene sampleEnv 0 (sampleScene sampleSceneDefinitionFlags.Hyperspace 300)
        samplePending2DMain).map (fun m1 => (pushedViews m1.calls, clearCalls m1.calls)) =
      some ([0, 1], [(1, 3, 0x2c2c2cff)]) := by
  decide

/-- C17 (amended): for a scene with the Hyperspace flag, whatever its other
flags and whatever the nesting budget, `renderScene` returns, invokes no camera
and leaves the pending sky box portal as it was.  After the initial flush of
the pending 2D batch, which pushes the view of the 2D batch when indices are
pending, the buffers are granted and the batch has no view yet, and no view
otherwise, it makes exactly three calls: it pushes one view on the default
frame buffer, sets that view's clear colour and touches it.  The only clear
colour it sets is the 32-bit word whose red, green and blue bytes are
`time mod 256` and whose alpha byte is 255; when no 2D batch was pending the
view it pushes for the clear is the only view pushed. -/
theorem renderScene_hyperspace_clears_with_time_colour (env : Env) (budget : Nat)
    (scene : SceneDefinition) (m : Main)
    (hhyper : scene.flags &&& env.sceneFlags.Hyperspace ≠ 0) :
    ∃ (m1 : Main) (v : Nat), renderScene env budget scene m = some m1 ∧
      m1.calls = (flushStretchPics env m).calls ++
        [Event.pushView (u8 (flushStretchPics env m).firstFreeViewId_) FrameBufferId.defaultFb_ 0
           { x := max 0 scene.rect.x, y := max 0 scene.rect.y, w := scene.rect.w,
             h := scene.rect.h } false,
         Event.setViewClear v (env.bgfx.CLEAR_COLOR ||| env.bgfx.CLEAR_DEPTH)
           (hyperspaceColor scene.time),
         Event.touch v] ∧
      (8 ≤ env.viewIdBits → v = u8 (flushStretchPics env m).firstFreeViewId_) ∧
      cameraCalls m1.calls = cameraCalls m.calls ∧
      clearCalls m1.calls = clearCalls m.calls ++
        [(v, env.bgfx.CLEAR_COLOR ||| env.bgfx.CLEAR_DEPTH, hyperspaceColor scene.time)] ∧
      (m.stretchPicIndices_ = [] →
        pushedViews m1.calls = pushedViews m.calls ++ [u8 m.firstFreeViewId_]) ∧
      pushedViews m1.calls = pushedViews m.calls ++
        (if m.stretchPicIndices_ ≠ [] ∧ env.allocOk m.allocRequests = true ∧
            m.stretchPicViewId_ = UINT8_MAX then [u8 m.firstFreeViewId_] else []) ++
        [u8 (flushStretchPics env m).firstFreeViewId_] ∧
      m1.skyboxPortalEnabled_ = m.skyboxPortalEnabled_ ∧
      m1.skyboxPortalScene_ = m.skyboxPortalScene_ ∧
      hyperspaceColor scene.time / 2 ^ 24 % 256 = Int.toNat (scene.time % 256) ∧
      hyperspaceColor scene.time / 2 ^ 16 % 256 = Int.toNat (scene.time % 256) ∧
      hyperspaceColor scene.time / 2 ^ 8 % 256 = Int.toNat (scene.time % 256) ∧
      hyperspaceColor scene.time % 256 = 255 ∧
      hyperspaceColor scene.time < 2 ^ 32 := by
  obtain ⟨hscene, _, _, hnone, new, hnew, hcam, hclear, _⟩ := flushStretchPics_effect env m
  have hcalls : ∀ m1 : Main, ∀ v : Nat,
      m1.calls = (flushStretchPics env m).calls ++
        [Event.pushView (u8 (flushStretchPics env m).firstFreeViewId_) FrameBufferId.defaultFb_ 0
           { x := max 0 scene.rect.x, y := max 0 scene.rect.y, w := scene.rect.w,
             h := scene.rect.h } false,
         Event.setViewClear v (env.bgfx.CLEAR_COLOR ||| env.bgfx.CLEAR_DEPTH)
           (hyperspaceColor scene.time),
         Event.touch v] →
      cameraCalls m1.calls = cameraCalls m.calls ∧
      clearCalls m1.calls = clearCalls m.calls ++
        [(v, env.bgfx.CLEAR_COLOR ||| env.bgfx.CLEAR_DEPTH, hyperspaceColor scene.time)] ∧
      (m.stretchPicIndices_ = [] →
        pushedViews m1.calls = pushedViews m.calls ++ [u8 m.firstFreeViewId_]) ∧
      pushedViews m1.calls = pushedViews m.calls ++
        (if m.stretchPicIndices_ ≠ [] ∧ env.allocOk m.allocRequests = true ∧
            m.stretchPicViewId_ = UINT8_MAX then [u8 m.firstFreeViewId_] else []) ++
        [u8 (flushStretchPics env m).firstFreeViewId_] := by
    intro m1 v h
    refine ⟨?_, ?_, ?_, ?_⟩
    · rw [h, hnew, cameraCalls_append, cameraCalls_append, hcam]
      simp [cameraCalls]
    · rw [h, hnew, clearCalls_append, clearCalls_append, hclear]
      simp [clearCalls]
    · intro he
      have hff : (flushStretchPics env m).firstFreeViewId_ = m.firstFreeViewId_ := by
        unfold flushStretchPics
        simp [he]
      rw [h, hnone he, pushedViews_append, hff]
      simp [pushedViews]
    · rw [h, pushedViews_append, (flushStretchPics_pushedViews env m).1]
      simp [pushedViews]
  unfold renderScene
  simp only
  rw [if_pos hhyper]
  simp only
  refine ⟨_, (pushView env FrameBufferId.defaultFb_ 0
      { x := max 0 scene.rect.x, y := max 0 scene.rect.y, w := scene.rect.w,
        h := scene.rect.h } false
      { flushStretchPics env m with stretchPicViewId_ := UINT8_MAX, time_ := scene.time }).2,
    rfl, ?_⟩
  have hcallsEq : ∀ v : Nat, (((pushView env FrameBufferId.defaultFb_ 0
      { x := max 0 scene.rect.x, y := max 0 scene.rect.y, w := scene.rect.w,
        h := scene.rect.h } false
      { flushStretchPics env m with stretchPicViewId_ := UINT8_MAX, time_ := scene.time }).1.record
        (Event.setViewClear v (env.bgfx.CLEAR_COLOR ||| env.bgfx.CLEAR_DEPTH)
          (hyperspaceColor scene.time))).record (Event.touch v)).calls =
      (flushStretchPics env m).calls ++
        [Event.pushView (u8 (flushStretchPics env m).firstFreeViewId_) FrameBufferId.defaultFb_ 0
           { x := max 0 scene.rect.x, y := max 0 scene.rect.y, w := scene.rect.w,
             h := scene.rect.h } false,
         Event.setViewClear v (env.bgfx.CLEAR_COLOR ||| env.bgfx.CLEAR_DEPTH)
           (hyperspaceColor scene.time),
         Event.touch v] := by
    intro v
    simp [pushView, Main.record]
  refine ⟨hcallsEq _, ?_, ?_⟩
  · intro hw
    exact pushView_id env hw _ _ _ _ _
  · obtain ⟨h1, h2, h3, h4⟩ := hcalls _ _ (hcallsEq _)
    refine ⟨h1, h2, h3, h4, ?_, ?_, hyperspaceColor_bytes scene.time⟩
    · exact congrArg SceneMembers.skyboxPortalEnabled_ hscene
    · exact congrArg SceneMembers.skyboxPortalScene_ hscene

/-- C17 (amended) at a hyperspace scene at time 300.  In the sample state,
with no 2D batch pending, it pushes view 0 only and clears it with the colour
`0x2c2c2cff` (300 mod 256 = 44 = 0x2c).  In the sample state with one quad
pending it pushes view 0 for the 2D batch and view 1 for the clear. -/
theorem renderScene_hyperspace_clears_with_time_colour_witness :
    (∃ m1 : Main,
      renderScene sampleEnv 0 (sampleScene sampleSceneDefinitionFlags.Hyperspace 300) sampleMain =
        some m1 ∧
      cameraCalls m1.calls = [] ∧
      clearCalls m1.calls = [(0, 3, 0x2c2c2cff)] ∧
      pushedViews m1.calls = [0] ∧
      m1.skyboxPortalEnabled_ = false) ∧
    (∃ m1 : Main,
      renderScene sampleEnv 0 (sampleScene sampleSceneDefinitionFlags.Hyperspace 300)
        samplePending2DMain = some m1 ∧
      cameraCalls m1.calls = [] ∧
      clearCalls m1.calls = [(1, 3, 0x2c2c2cff)] ∧
      pushedViews m1.calls = [0, 1] ∧
      m1.skyboxPortalEnabled_ = false) := by
  constructor
  · obtain ⟨m1, v, h1, _, hv, hcam, hclear, hpush, _, hen, _⟩ :=
      renderScene_hyperspace_clears_with_time_colour sampleEnv 0
        (sampleScene sampleSceneDefinitionFlags.Hyperspace 300) sampleMain (by decide)
    have hv0 : v = 0 := hv (by decide)
    refine ⟨m1, h1, hcam, ?_, hpush rfl, hen⟩
    rw [hclear, hv0]
    decide
  · obtain ⟨m1, v, h1, _, hv, hcam, hclear, _, hpush, hen, _⟩ :=
      renderScene_hyperspace_clears_with_time_colour sampleEnv 0
        (sampleScene sampleSceneDefinitionFlags.Hyperspace 300) samplePending2DMain (by decide)
    have hff : (flushStretchPics sampleEnv samplePending2DMain).firstFreeViewId_ = 1 := by
      rw [(flushStretchPics_pushedViews sampleEnv samplePending2DMain).2]
      decide
    have hv1 : v = 1 := by
      rw [hv (by decide), hff]
      decide
    refine ⟨m1, h1, hcam, ?_, ?_, hen⟩
    · rw [hclear, hv1]
      decide
    · rw [hpush, hff]
      decide

/-- Claim C18.  For a scene without the Hyperspace flag.  With the SkyboxPortal
flag, `renderScene` returns, makes no call beyond the flush of the pending 2D
batch, invokes no camera, and records the scene as the pending sky box portal.
Without the SkyboxPortal flag (and with a library sort that permutes its
input), `renderScene` returns with the pending mark cleared, and the cameras it
invokes are, in order: the SkyboxPortal camera exactly when a portal was
pending, with the position (also as PVS position), rotation, field of view and
area mask of the recorded scene; then the Main camera; then, in a world scene,
the Reflection and Portal sub-invocations of the Main camera.  So a normal
scene invokes exactly one SkyboxPortal camera when a portal is pending and none
otherwise. -/
theorem renderScene_skyboxPortal_deferred (env : Env)
    (hperm : ∀ (comp : Nat → Nat → Bool) (l : List Nat), (env.stdSortPolygons comp l).Perm l)
    (budget : Nat) (scene : SceneDefinition) (m : Main)
    (hnohyper : scene.flags &&& env.sceneFlags.Hyperspace = 0) :
    (scene.flags &&& env.sceneFlags.SkyboxPortal ≠ 0 →
      ∃ m1 : Main, renderScene env budget scene m = some m1 ∧
        m1.calls = (flushStretchPics env m).calls ∧
        cameraCalls m1.calls = cameraCalls m.calls ∧
        m1.skyboxPortalEnabled_ = true ∧ m1.skyboxPortalScene_ = scene) ∧
    (scene.flags &&& env.sceneFlags.SkyboxPortal = 0 →
      ∃ m1 : Main, renderScene env (budget + 2) scene m = some m1 ∧
        m1.skyboxPortalEnabled_ = false ∧
        cameraCalls m1.calls = cameraCalls m.calls ++
          ((if m.skyboxPortalEnabled_ = true then
              [(0, { visId := VisibilityId.SkyboxPortal,
                     pvsPosition := m.skyboxPortalScene_.position,
                     position := m.skyboxPortalScene_.position,
                     rotation := m.skyboxPortalScene_.rotation, rect := sceneRect scene,
                     fov := m.skyboxPortalScene_.fov, areaMask := m.skyboxPortalScene_.areaMask,
                     clippingPlane := Plane.default,
                     flags := env.cameraFlags.IsSkyboxPortal })]
            else []) ++
            (0, mainCameraArgs env scene) ::
              (if sceneIsWorld env scene = true then
                reflectionCameraCall env 0 (mainCameraArgs env scene) ++
                  portalCameraCall env 0 (mainCameraArgs env scene)
               else [])) ∧
        (mainCameraArgs env scene).visId = VisibilityId.Main ∧
        (∀ c ∈ reflectionCameraCall env 0 (mainCameraArgs env scene) ++
            portalCameraCall env 0 (mainCameraArgs env scene),
          c.2.visId ≠ VisibilityId.SkyboxPortal) ∧
        (((cameraCalls m1.calls).drop (cameraCalls m.calls).length).filter
            (fun c => decide (c.2.visId = VisibilityId.SkyboxPortal))).length =
          (if m.skyboxPortalEnabled_ = true then 1 else 0)) := by
  obtain ⟨hscene, _, _, _, new, hnew, hcam, _, _⟩ := flushStretchPics_effect env m
  have hnh : ¬ (scene.flags &&& env.sceneFlags.Hyperspace ≠ 0) := fun h => h hnohyper
  have hsub : ∀ c ∈ reflectionCameraCall env 0 (mainCameraArgs env scene) ++
      portalCameraCall env 0 (mainCameraArgs env scene),
      c.2.visId ≠ VisibilityId.SkyboxPortal := by
    intro c hc
    rcases List.mem_append.mp hc with h | h
    · rw [(reflectionCameraCall_visId env 0 _ c h).2]
      decide
    · rw [(portalCameraCall_visId env 0 _ c h).2]
      decide
  constructor
  · intro hsky
    unfold renderScene
    simp only
    rw [if_neg hnh, if_pos hsky]
    refine ⟨_, rfl, rfl, ?_, rfl, rfl⟩
    show cameraCalls (flushStretchPics env m).calls = _
    rw [hnew, cameraCalls_append, hcam, List.append_nil]
  · intro hnosky
    have hns : ¬ (scene.flags &&& env.sceneFlags.SkyboxPortal ≠ 0) := fun h => h hnosky
    unfold renderScene
    simp only
    rw [if_neg hnh, if_neg hns]
    generalize hm2 : ({ flushStretchPics env m with
        stretchPicViewId_ := UINT8_MAX, time_ := scene.time } : Main) = m2
    have he2 : m2.skyboxPortalEnabled_ = m.skyboxPortalEnabled_ := by
      rw [← hm2]
      exact congrArg SceneMembers.skyboxPortalEnabled_ hscene
    have hs2 : m2.skyboxPortalScene_ = m.skyboxPortalScene_ := by
      rw [← hm2]
      exact congrArg SceneMembers.skyboxPortalScene_ hscene
    have hc2 : cameraCalls m2.calls = cameraCalls m.calls := by
      rw [← hm2]
      show cameraCalls (flushStretchPics env m).calls = _
      rw [hnew, cameraCalls_append, hcam, List.append_nil]
    obtain ⟨m3, h3, he3, _, hc3⟩ := renderSceneCameras_some env hperm budget scene m2
    have h3a : renderSceneCameras env (budget + 2) scene
        { x := max 0 scene.rect.x, y := max 0 scene.rect.y, w := scene.rect.w,
          h := scene.rect.h } m2 = some m3 := h3
    rw [h3a]
    simp only
    rw [he2, hs2, hc2] at hc3
    have hrest : ((((0, mainCameraArgs env scene) ::
        (if sceneIsWorld env scene = true then
          reflectionCameraCall env 0 (mainCameraArgs env scene) ++
            portalCameraCall env 0 (mainCameraArgs env scene)
         else [])).filter
        (fun c => decide (c.2.visId = VisibilityId.SkyboxPortal)))) = [] := by
      rw [List.filter_eq_nil_iff]
      intro c hc
      rcases List.mem_cons.mp hc with h | h
      · rw [h]
        show ¬ decide (VisibilityId.Main = VisibilityId.SkyboxPortal) = true
        decide
      · split_ifs at h
        · simpa using hsub c h
        · simp at h
    have hcount : (((cameraCalls m3.calls).drop (cameraCalls m.calls).length).filter
        (fun c => decide (c.2.visId = VisibilityId.SkyboxPortal))).length =
          (if m.skyboxPortalEnabled_ = true then 1 else 0) := by
      rw [hc3, List.drop_left, List.filter_append, List.length_append, hrest]
      split_ifs <;> rfl
    exact ⟨_, rfl, he3, hc3, rfl, hsub, hcount⟩

/-- Witness for claim C18: in the sample state, a SkyboxPortal scene invokes
no camera; the world scene after it invokes the SkyboxPortal camera and then
the Main camera; the world scene after that invokes the Main camera only. -/
theorem renderScene_skyboxPortal_deferred_witness :
    ∃ m1 m2 m3 : Main,
      renderScene sampleEnv 2 (sampleScene sampleSceneDefinitionFlags.SkyboxPortal 5)
        sampleMain = some m1 ∧
      renderScene sampleEnv 2 (sampleScene sampleSceneDefinitionFlags.World 10) m1 = some m2 ∧
      renderScene sampleEnv 2 (sampleScene sampleSceneDefinitionFlags.World 15) m2 = some m3 ∧
      cameraCalls m1.calls = [] ∧
      (cameraCalls m2.calls).map (fun c => c.2.visId) =
        [VisibilityId.SkyboxPortal, VisibilityId.Main] ∧
      (cameraCalls m3.calls).map (fun c => c.2.visId) =
        [VisibilityId.SkyboxPortal, VisibilityId.Main, VisibilityId.Main] := by
  obtain ⟨m1, h1, _, hc1, he1, _⟩ :=
    (renderScene_skyboxPortal_deferred sampleEnv (fun comp l => stdSort_perm comp l) 2
      (sampleScene sampleSceneDefinitionFlags.SkyboxPortal 5) sampleMain (by decide)).1
      (by decide)
  obtain ⟨m2, h2, he2, hc2, _⟩ :=
    (renderScene_skyboxPortal_deferred sampleEnv (fun comp l => stdSort_perm comp l) 0
      (sampleScene sampleSceneDefinitionFlags.World 10) m1 (by decide)).2 (by decide)
  obtain ⟨m3, h3, _, hc3, _⟩ :=
    (renderScene_skyboxPortal_deferred sampleEnv (fun comp l => stdSort_perm comp l) 0
      (sampleScene sampleSceneDefinitionFlags.World 15) m2 (by decide)).2 (by decide)
  have hsubs : ∀ scene : SceneDefinition,
      reflectionCameraCall sampleEnv 0 (mainCameraArgs sampleEnv scene) ++
        portalCameraCall sampleEnv 0 (mainCameraArgs sampleEnv scene) = [] := fun _ => rfl
  have hc1a : cameraCalls m1.calls = [] := hc1
  rw [he1, hc1a, hsubs] at hc2
  rw [he2, hc2, hsubs] at hc3
  refine ⟨m1, m2, m3, h1, h2, h3, hc1a, ?_, ?_⟩
  · rw [hc2]
    simp [mainCameraArgs]
  · rw [hc3]
    simp [mainCameraArgs]

/-- Claim C19.  For a world scene that is neither a hyperspace nor a sky box
portal scene (and with a library sort that permutes its input), `renderScene`
returns, and its screen-space passes end with: the three bloom passes and the
tone-map pass when HDR is on; then the three SMAA passes when the
anti-aliasing mode is SMAA and otherwise the blit of the scene to the default
frame buffer.  The blit is therefore issued exactly when the mode is not SMAA,
whether HDR is on or off: with HDR on and a mode other than SMAA the blit
follows the tone-map pass. -/
theorem renderScene_blit_follows_tonemap (env : Env)
    (hperm : ∀ (comp : Nat → Nat → Bool) (l : List Nat), (env.stdSortPolygons comp l).Perm l)
    (budget : Nat) (scene : SceneDefinition) (m : Main)
    (hnohyper : scene.flags &&& env.sceneFlags.Hyperspace = 0)
    (hnosky : scene.flags &&& env.sceneFlags.SkyboxPortal = 0)
    (hworld : sceneIsWorld env scene = true) :
    ∃ (m1 : Main) (pre : List (FrameBufferId × ShaderProgramId)),
      renderScene env (budget + 2) scene m = some m1 ∧
      quadCalls m1.calls =
        pre ++
          ((if env.hdr = true then
              [(FrameBufferId.bloomFb_ 0, ShaderProgramId.Texture),
               (FrameBufferId.bloomFb_ 1, ShaderProgramId.GaussianBlur),
               (FrameBufferId.bloomFb_ 0, ShaderProgramId.GaussianBlur),
               (if m.aa_ = AntiAliasing.None then FrameBufferId.defaultFb_
                else FrameBufferId.sceneTempFb_, ShaderProgramId.ToneMap)]
            else []) ++
           (if m.aa_ = AntiAliasing.SMAA then
              [(FrameBufferId.smaaEdgesFb_, ShaderProgramId.SMAAEdgeDetection),
               (FrameBufferId.smaaBlendFb_, ShaderProgramId.SMAABlendingWeightCalculation),
               (FrameBufferId.defaultFb_, ShaderProgramId.SMAANeighborhoodBlending)]
            else [(FrameBufferId.defaultFb_, ShaderProgramId.Texture)])) ∧
      (env.hdr = true → m.aa_ ≠ AntiAliasing.SMAA →
        ∃ pre1 : List (FrameBufferId × ShaderProgramId),
          quadCalls m1.calls =
            pre1 ++
              [(if m.aa_ = AntiAliasing.None then FrameBufferId.defaultFb_
                else FrameBufferId.sceneTempFb_, ShaderProgramId.ToneMap),
               (FrameBufferId.defaultFb_, ShaderProgramId.Texture)]) := by
  obtain ⟨hscene, _⟩ := flushStretchPics_effect env m
  have hnh : ¬ (scene.flags &&& env.sceneFlags.Hyperspace ≠ 0) := fun h => h hnohyper
  have hns : ¬ (scene.flags &&& env.sceneFlags.SkyboxPortal ≠ 0) := fun h => h hnosky
  unfold renderScene
  simp only
  rw [if_neg hnh, if_neg hns]
  generalize hm2 : ({ flushStretchPics env m with
      stretchPicViewId_ := UINT8_MAX, time_ := scene.time } : Main) = m2
  have ha2 : m2.aa_ = m.aa_ := by
    rw [← hm2]
    exact congrArg SceneMembers.aa_ hscene
  obtain ⟨m5, h5, hw5, ha5⟩ := renderSceneCameras_post env hperm budget scene
    { x := max 0 scene.rect.x, y := max 0 scene.rect.y, w := scene.rect.w,
      h := scene.rect.h } m2
  rw [h5, hw5, hworld]
  simp only [if_true]
  have hq := quadCalls_renderScenePostProcess env m5
  rw [ha5, ha2] at hq
  refine ⟨_, quadCalls m5.calls, rfl, hq, ?_⟩
  intro hh hs
  refine ⟨quadCalls m5.calls ++ [(FrameBufferId.bloomFb_ 0, ShaderProgramId.Texture),
    (FrameBufferId.bloomFb_ 1, ShaderProgramId.GaussianBlur),
    (FrameBufferId.bloomFb_ 0, ShaderProgramId.GaussianBlur)], ?_⟩
  show quadCalls (renderScenePostProcess env m5).calls = _
  rw [hq, if_pos hh, if_neg hs]
  simp

/-- Witness for claim C19: in the sample state (anti-aliasing off) with HDR
on, a world scene ends with the tone-map pass to the default frame buffer
followed by the blit of the scene to the default frame buffer. -/
theorem renderScene_blit_follows_tonemap_witness :
    ∃ (m1 : Main) (pre1 : List (FrameBufferId × ShaderProgramId)),
      renderScene sampleHdrEnv 2 (sampleScene sampleSceneDefinitionFlags.World 10) sampleMain =
        some m1 ∧
      quadCalls m1.calls =
        pre1 ++ [(FrameBufferId.defaultFb_, ShaderProgramId.ToneMap),
                 (FrameBufferId.defaultFb_, ShaderProgramId.Texture)] := by
  obtain ⟨m1, _, h1, _, hblit⟩ :=
    renderScene_blit_follows_tonemap sampleHdrEnv (fun comp l => stdSort_perm comp l) 0
      (sampleScene sampleSceneDefinitionFlags.World 10) sampleMain (by decide) (by decide)
      (by decide)
  obtain ⟨pre1, hpre1⟩ := hblit rfl (by decide)
  exact ⟨m1, pre1, h1, hpre1⟩

/-- C20 as stated fails when the frame counter holds the largest value of its
type: `frameNo_++` then wraps.  With a 32-bit counter at 4294967295 `endFrame`
leaves the counter at 0, not at 4294967296; with a 64-bit counter at
18446744073709551615 it leaves 0 as well. -/
theorem endFrame_frameNo_wraps_at_largest_value :
    sampleEnv.frameNoBits = 32 ∧ sampleLastFrameMain.frameNo_ = 4294967295 ∧
    (endFrame sampleEnv sampleLastFrameMain).frameNo_ = 0 ∧
    (endFrame sampleEnv sampleLastFrameMain).frameNo_ ≠ sampleLastFrameMain.frameNo_ + 1 ∧
    (endFrame { sampleEnv with frameNoBits := 64 }
      { sampleMain with frameNo_ := 18446744073709551615 }).frameNo_ = 0 := by
  have h32 := (endFrame_effect sampleEnv sampleLastFrameMain).2.2.2.2
  have h64 := (endFrame_effect { sampleEnv with frameNoBits := 64 }
    { sampleMain with frameNo_ := 18446744073709551615 }).2.2.2.2
  have e32 : (sampleLastFrameMain.frameNo_ + 1) % 2 ^ sampleEnv.frameNoBits = 0 := by decide
  have e64 : (18446744073709551615 + 1) % 2 ^ 64 = 0 := by decide
  refine ⟨rfl, rfl, h32.trans e32, ?_, h64.trans e64⟩
  rw [h32.trans e32]
  decide

/-- C20 (amended): after every `endFrame` call the view counter is 0, the view
id of the 2D batch is `UINT8_MAX`, the pending 2D vertex and index buffers are
empty, and the frame counter is the value before the call plus one, reduced
modulo `2 ^ w` for a counter type of `w` bits: exactly one greater than before
the call unless it held the largest value of its type, and 0 in that case. -/
theorem endFrame_resets_frame_state (env : Env) (m : Main) :
    (endFrame env m).firstFreeViewId_ = 0 ∧
    (endFrame env m).stretchPicViewId_ = UINT8_MAX ∧
    (endFrame env m).stretchPicVertices_ = [] ∧
    (endFrame env m).stretchPicIndices_ = [] ∧
    (endFrame env m).frameNo_ = (m.frameNo_ + 1) % 2 ^ env.frameNoBits ∧
    (m.frameNo_ + 1 < 2 ^ env.frameNoBits → (endFrame env m).frameNo_ = m.frameNo_ + 1) ∧
    (m.frameNo_ + 1 = 2 ^ env.frameNoBits → (endFrame env m).frameNo_ = 0) := by
  obtain ⟨h1, h2, h3, h4, h5⟩ := endFrame_effect env m
  refine ⟨h1, h2, h3, h4, h5, ?_, ?_⟩
  · intro hlt
    rw [h5, Nat.mod_eq_of_lt hlt]
  · intro heq
    rw [h5, heq, Nat.mod_self]

/-- C20 (amended) in the middle of a sample frame, three views pushed and one
quad pending in the 2D batch: afterwards the view counter is 0, the 2D batch
has no view and is empty, and the frame counter has gone from 7 to 8. -/
theorem endFrame_resets_frame_state_witness :
    sampleMidFrameMain.firstFreeViewId_ = 3 ∧ sampleMidFrameMain.frameNo_ = 7 ∧
    (endFrame sampleEnv sampleMidFrameMain).firstFreeViewId_ = 0 ∧
    (endFrame sampleEnv sampleMidFrameMain).stretchPicViewId_ = 255 ∧
    (endFrame sampleEnv sampleMidFrameMain).stretchPicVertices_ = [] ∧
    (endFrame sampleEnv sampleMidFrameMain).stretchPicIndices_ = [] ∧
    (endFrame sampleEnv sampleMidFrameMain).frameNo_ = 8 := by
  obtain ⟨h1, h2, h3, h4, _, h6, _⟩ := endFrame_resets_frame_state sampleEnv sampleMidFrameMain
  exact ⟨rfl, rfl, h1, h2, h3, h4, h6 (by decide)⟩

/-- Claim C4, refuted.  Take a scene that is neither a hyperspace nor a sky
box portal scene, rendered while a sky box portal is pending, with polygons
added to the scene, an empty sorted vector at the start (as every
`renderScene` leaves it), every allocation granted and a library sort that
permutes its input.  `renderScene` returns; its first `renderPolygons` call,
made by the sky box portal camera, batches every polygon exactly once; its last
call, made by the main camera, batches every polygon at least twice, because
`renderPolygons` appends all polygon pointers to a sorted vector that is only
cleared at the end of `renderScene`. -/
theorem renderScene_later_cameras_batch_polygons_again (env : Env)
    (hperm : ∀ (comp : Nat → Nat → Bool) (l : List Nat), (env.stdSortPolygons comp l).Perm l)
    (hall : ∀ k : Nat, env.allocOk k = true)
    (budget : Nat) (scene : SceneDefinition) (m : Main)
    (hnohyper : scene.flags &&& env.sceneFlags.Hyperspace = 0)
    (hnosky : scene.flags &&& env.sceneFlags.SkyboxPortal = 0)
    (hpending : m.skyboxPortalEnabled_ = true) (hne : m.scenePolygons_ ≠ [])
    (hsorted : m.sortedScenePolygons_ = []) :
    ∃ (m1 : Main) (first last : List Nat) (mid : List (VisibilityId × List Nat)),
      renderScene env (budget + 2) scene m = some m1 ∧
      polygonCalls m1.calls = polygonCalls m.calls ++
        ((VisibilityId.SkyboxPortal, first) :: (mid ++ [(VisibilityId.Main, last)])) ∧
      first.Perm (List.range m.scenePolygons_.length) ∧
      (∀ i : Nat, i < m.scenePolygons_.length → 2 ≤ last.count i) ∧
      ¬ last.Nodup ∧
      m1.sortedScenePolygons_ = [] := by
  obtain ⟨hscene, _⟩ := flushStretchPics_effect env m
  have hpv := polygonView_flushStretchPics env m
  have hnh : ¬ (scene.flags &&& env.sceneFlags.Hyperspace ≠ 0) := fun h => h hnohyper
  have hns : ¬ (scene.flags &&& env.sceneFlags.SkyboxPortal ≠ 0) := fun h => h hnosky
  unfold renderScene
  simp only
  rw [if_neg hnh, if_neg hns]
  generalize hm2 : ({ flushStretchPics env m with
      stretchPicViewId_ := UINT8_MAX, time_ := scene.time } : Main) = m2
  have he2 : m2.skyboxPortalEnabled_ = true := by
    rw [← hm2]
    exact (congrArg SceneMembers.skyboxPortalEnabled_ hscene).trans hpending
  have hn2 : m2.scenePolygons_ = m.scenePolygons_ := by
    rw [← hm2]
    exact congrArg SceneMembers.scenePolygons_ hscene
  have hs2 : m2.sortedScenePolygons_ = [] := by
    rw [← hm2]
    exact (congrArg PolygonView.sorted hpv).trans hsorted
  have hc2 : polygonCalls m2.calls = polygonCalls m.calls := by
    rw [← hm2]
    exact congrArg PolygonView.calls hpv
  obtain ⟨m3, first, last, mid, h3, hc3, hfirst, hlast⟩ :=
    renderSceneCameras_pending_allOk env hperm hall budget scene
      { x := max 0 scene.rect.x, y := max 0 scene.rect.y, w := scene.rect.w,
        h := scene.rect.h } m2 he2 (by rw [hn2]; exact hne) hs2
  rw [h3]
  simp only
  rw [hn2] at hfirst hlast
  rw [hc2] at hc3
  refine ⟨_, first, last, mid, rfl, hc3, hfirst, hlast, ?_, rfl⟩
  intro hnd
  have hpos : 0 < m.scenePolygons_.length := List.length_pos.mpr hne
  have h2 := hlast 0 hpos
  have h1 := List.nodup_iff_count_le_one.mp hnd 0
  omega

/-- Witness for claim C4's refutation: the sample state with four polygons
and a pending sky box portal, rendered as a world scene.  The sky box portal
camera batches the polygons `1, 2, 0, 3`, the main camera batches
`1, 1, 2, 0, 0, 2, 3, 3`: every polygon twice. -/
theorem renderScene_later_cameras_batch_polygons_again_witness :
    (∃ (m1 : Main) (first last : List Nat) (mid : List (VisibilityId × List Nat)),
      renderScene sampleEnv 2 (sampleScene sampleSceneDefinitionFlags.World 10)
        samplePendingMain = some m1 ∧
      polygonCalls m1.calls =
        (VisibilityId.SkyboxPortal, first) :: (mid ++ [(VisibilityId.Main, last)]) ∧
      ¬ last.Nodup) ∧
    (renderScene sampleEnv 2 (sampleScene sampleSceneDefinitionFlags.World 10)
        samplePendingMain).map (fun m => polygonCalls m.calls) =
      some [(VisibilityId.SkyboxPortal, [1, 2, 0, 3]),
            (VisibilityId.Main, [1, 1, 2, 0, 0, 2, 3, 3])] := by
  constructor
  · obtain ⟨m1, first, last, mid, h1, hc, _, _, hnd, _⟩ :=
      renderScene_later_cameras_batch_polygons_again sampleEnv
        (fun comp l => stdSort_perm comp l) (fun _ => rfl) 0
        (sampleScene sampleSceneDefinitionFlags.World 10) samplePendingMain (by decide)
        (by decide) rfl (by decide) rfl
    exact ⟨m1, first, last, mid, h1, hc, hnd⟩
  · decide

/-- Claim C21.  With a library sort that permutes its input, every
`renderScene` call returns, whether the scene is a hyperspace scene, a sky box
portal scene or a normal scene, and afterwards the entity list, the polygon
list, the sorted polygon list, the polygon vertex pool and the debug axis and
debug bounds lists are all empty. -/
theorem renderScene_clears_scene_lists (env : Env)
    (hperm : ∀ (comp : Nat → Nat → Bool) (l : List Nat), (env.stdSortPolygons comp l).Perm l)
    (budget : Nat) (scene : SceneDefinition) (m : Main) :
    ∃ m1 : Main, renderScene env (budget + 2) scene m = some m1 ∧
      m1.sceneEntities_ = [] ∧ m1.scenePolygons_ = [] ∧ m1.sortedScenePolygons_ = [] ∧
      m1.scenePolygonVertices_ = [] ∧ m1.sceneDebugAxis_ = [] ∧ m1.sceneDebugBounds_ = [] := by
  unfold renderScene
  simp only
  by_cases hh : scene.flags &&& env.sceneFlags.Hyperspace ≠ 0
  · rw [if_pos hh]
    exact ⟨_, rfl, rfl, rfl, rfl, rfl, rfl, rfl⟩
  · rw [if_neg hh]
    by_cases hs : scene.flags &&& env.sceneFlags.SkyboxPortal ≠ 0
    · rw [if_pos hs]
      exact ⟨_, rfl, rfl, rfl, rfl, rfl, rfl, rfl⟩
    · rw [if_neg hs]
      obtain ⟨m3, h3, _⟩ := renderSceneCameras_some env hperm budget scene
        { flushStretchPics env m with stretchPicViewId_ := UINT8_MAX, time_ := scene.time }
      have h3a : renderSceneCameras env (budget + 2) scene
          { x := max 0 scene.rect.x, y := max 0 scene.rect.y, w := scene.rect.w,
            h := scene.rect.h }
          { flushStretchPics env m with stretchPicViewId_ := UINT8_MAX, time_ := scene.time } =
          some m3 := h3
      rw [h3a]
      exact ⟨_, rfl, rfl, rfl, rfl, rfl, rfl, rfl⟩

/-- Witness for claim C21: the sample state with four polygons and a pending
sky box portal, rendered as a world scene, ends with empty scene lists. -/
theorem renderScene_clears_scene_lists_witness :
    samplePendingMain.scenePolygons_.length = 4 ∧
    ∃ m1 : Main,
      renderScene sampleEnv 2 (sampleScene sampleSceneDefinitionFlags.World 10)
        samplePendingMain = some m1 ∧
      m1.sceneEntities_ = [] ∧ m1.scenePolygons_ = [] ∧ m1.sortedScenePolygons_ = [] ∧
      m1.scenePolygonVertices_ = [] ∧ m1.sceneDebugAxis_ = [] ∧ m1.sceneDebugBounds_ = [] :=
  ⟨rfl, renderScene_clears_scene_lists sampleEnv (fun comp l => stdSort_perm comp l) 0
    (sampleScene sampleSceneDefinitionFlags.World 10) samplePendingMain⟩

/-- Claim C22.  `DebugDrawFromString` returns Bloom, Depth, DynamicLight,
Lightmap, Reflection or SMAA exactly when the string equals, letter case
ignored, `bloom`, `depth`, `dlight`, `lightmap`, `reflection` or `smaa`
respectively; the six modes are pairwise distinct (and distinct from None); and
it returns None exactly when the string matches none of the six names, as is
the case for `none` and for the empty string. -/
theorem DebugDrawFromString_spec (s : String) :
    (DebugDrawFromString s = DebugDraw.Bloom ↔ stricmpEqual s "bloom" = true) ∧
    (DebugDrawFromString s = DebugDraw.Depth ↔ stricmpEqual s "depth" = true) ∧
    (DebugDrawFromString s = DebugDraw.DynamicLight ↔ stricmpEqual s "dlight" = true) ∧
    (DebugDrawFromString s = DebugDraw.Lightmap ↔ stricmpEqual s "lightmap" = true) ∧
    (DebugDrawFromString s = DebugDraw.Reflection ↔ stricmpEqual s "reflection" = true) ∧
    (DebugDrawFromString s = DebugDraw.SMAA ↔ stricmpEqual s "smaa" = true) ∧
    (DebugDrawFromString s = DebugDraw.None ↔
      (stricmpEqual s "bloom" = false ∧ stricmpEqual s "depth" = false ∧
        stricmpEqual s "dlight" = false ∧ stricmpEqual s "lightmap" = false ∧
        stricmpEqual s "reflection" = false ∧ stricmpEqual s "smaa" = false)) ∧
    [DebugDraw.None, DebugDraw.Bloom, DebugDraw.Depth, DebugDraw.DynamicLight,
      DebugDraw.Lightmap, DebugDraw.Reflection, DebugDraw.SMAA].Nodup ∧
    ["bloom", "Bloom", "DEPTH", "dLight", "lightmap", "Reflection", "SMAA"].map
        DebugDrawFromString =
      [DebugDraw.Bloom, DebugDraw.Bloom, DebugDraw.Depth, DebugDraw.DynamicLight,
        DebugDraw.Lightmap, DebugDraw.Reflection, DebugDraw.SMAA] ∧
    ["none", "", "bloom ", "smaa2", "dlights"].map DebugDrawFromString =
      [DebugDraw.None, DebugDraw.None, DebugDraw.None, DebugDraw.None, DebugDraw.None] := by
  have hx : ∀ a b : String, a.data.map Char.toLower ≠ b.data.map Char.toLower →
      ¬ (stricmpEqual s a = true ∧ stricmpEqual s b = true) :=
    fun a b hne h => hne (stricmpEqual_both s a b h.1 h.2)
  obtain ⟨h1, h2, h3, h4, h5, h6, h7⟩ := debugDrawFromString_cases
    (stricmpEqual s "bloom") (stricmpEqual s "depth") (stricmpEqual s "dlight")
    (stricmpEqual s "lightmap") (stricmpEqual s "reflection") (stricmpEqual s "smaa")
    (hx _ _ (by decide)) (hx _ _ (by decide)) (hx _ _ (by decide)) (hx _ _ (by decide))
    (hx _ _ (by decide)) (hx _ _ (by decide)) (hx _ _ (by decide)) (hx _ _ (by decide))
    (hx _ _ (by decide)) (hx _ _ (by decide)) (hx _ _ (by decide)) (hx _ _ (by decide))
    (hx _ _ (by decide)) (hx _ _ (by decide)) (hx _ _ (by decide))
    (DebugDrawFromString s) rfl
  exact ⟨h1, h2, h3, h4, h5, h6, h7, by decide, by decide, by decide⟩

/-- Claim C26.  The number of submissions the main pass makes for a draw call.
It is zero when the remapped material is reflective and the camera is the
Reflection camera.  Otherwise a sky box face makes exactly one submission.
Otherwise it is zero when the remapped material has `numUnfoggedPasses = 0`
and the fog pass does not apply; and in the remaining case it is the number of
active stages of the remapped material, plus one if wireframe is on, plus one
if the fog pass applies (original material not `noFog`, `fogIndex >= 0`, fog
pass of the remapped material not None). -/
theorem mainPassDrawCall_submission_count (V : GenericShaderProgramVariant)
    (F : FogShaderProgramVariant) (B : BgfxDefines) (dcf : DrawCallFlags)
    (rcf : RenderCameraFlags) (g : RenderGlobals) (mem : MaterialMem) (visId : VisibilityId)
    (flags : Nat) (dc : DrawCall) :
    (doFogPass mem dc = true ↔
      ((mem dc.material).noFog = false ∧ dc.fogIndex ≥ 0 ∧
        (remappedMaterial mem dc.material).fogPass ≠ MaterialFogPass.None)) ∧
    ((visId = VisibilityId.Reflection ∧
        (remappedMaterial mem dc.material).reflective ≠ MaterialReflective.None) →
      (mainPassDrawCall V F B dcf rcf g mem visId flags dc).length = 0) ∧
    (¬ (visId = VisibilityId.Reflection ∧
        (remappedMaterial mem dc.material).reflective ≠ MaterialReflective.None) →
      (dc.flags &&& dcf.Skybox ≠ 0 →
        (mainPassDrawCall V F B dcf rcf g mem visId flags dc).length = 1) ∧
      (dc.flags &&& dcf.Skybox = 0 →
        ((remappedMaterial mem dc.material).numUnfoggedPasses = 0 ∧
            doFogPass mem dc = false →
          (mainPassDrawCall V F B dcf rcf g mem visId flags dc).length = 0) ∧
        (¬ ((remappedMaterial mem dc.material).numUnfoggedPasses = 0 ∧
            doFogPass mem dc = false) →
          (mainPassDrawCall V F B dcf rcf g mem visId flags dc).length =
            ((remappedMaterial mem dc.material).stages.filter
                (fun stage => stage.active)).length +
              (if g.wireframe = true then 1 else 0) +
              (if doFogPass mem dc = true then 1 else 0)))) := by
  have hmat : (match (mem dc.material).remappedShader with
      | some remapped => mem remapped
      | none => mem dc.material) = remappedMaterial mem dc.material := rfl
  refine ⟨?_, ?_, ?_⟩
  · unfold doFogPass
    simp only [Bool.and_eq_true, Bool.not_eq_true', decide_eq_true_eq, and_assoc]
  · intro hrefl
    unfold mainPassDrawCall
    simp only [hmat]
    rw [if_pos hrefl]
    rfl
  · intro hrefl
    refine ⟨?_, ?_⟩
    · intro hsky
      unfold mainPassDrawCall
      simp only [hmat]
      rw [if_neg hrefl, if_pos hsky]
      rfl
    · intro hsky
      have hns : ¬ (dc.flags &&& dcf.Skybox ≠ 0) := fun h => h hsky
      have hfog : (!(mem dc.material).noFog && decide (dc.fogIndex ≥ 0) &&
          decide ((remappedMaterial mem dc.material).fogPass ≠ MaterialFogPass.None)) =
          doFogPass mem dc := rfl
      refine ⟨?_, ?_⟩
      · intro hzero
        unfold mainPassDrawCall
        simp only [hmat, hfog]
        rw [if_neg hrefl, if_neg hns, if_pos hzero]
        rfl
      · intro hzero
        unfold mainPassDrawCall
        simp only [hmat, hfog]
        rw [if_neg hrefl, if_neg hns, if_neg hzero, List.length_append, List.length_append,
          length_filterMap_eq_filter _ (fun stage => stage.active)
            (mainPassStage_isSome_iff V B dcf rcf g flags _ _ dc)]
        congr 1
        · congr 1
          split_ifs <;> rfl
        · split_ifs <;> rfl

/-- Witness for claim C26: in the sample heap, a draw call of material 1 (two
active stages out of three, fog pass Equal) inside a fog volume makes three
submissions for the Main camera, and a sky box face makes one. -/
theorem mainPassDrawCall_submission_count_witness :
    (mainPassDrawCall sampleVariants sampleFogVariants sampleBgfxDefines sampleDrawCallFlags
      sampleRenderCameraFlags sampleGlobals samplePassMem VisibilityId.Main 0
      (sampleFogDrawCall 1 0)).length = 3 ∧
    (mainPassDrawCall sampleVariants sampleFogVariants sampleBgfxDefines sampleDrawCallFlags
      sampleRenderCameraFlags sampleGlobals samplePassMem VisibilityId.Main 0
      (sampleSkyboxDrawCall 4)).length = 1 := by
  constructor
  · have h := ((mainPassDrawCall_submission_count sampleVariants sampleFogVariants
      sampleBgfxDefines sampleDrawCallFlags sampleRenderCameraFlags sampleGlobals samplePassMem
      VisibilityId.Main 0 (sampleFogDrawCall 1 0)).2.2 (by decide)).2 (by decide)
    rw [h.2 (by decide)]
    decide
  · exact ((mainPassDrawCall_submission_count sampleVariants sampleFogVariants
      sampleBgfxDefines sampleDrawCallFlags sampleRenderCameraFlags sampleGlobals samplePassMem
      VisibilityId.Main 0 (sampleSkyboxDrawCall 4)).2.2 (by decide)).1 (by decide)

/-- Claim C27.  The depth pre-pass runs only in a world scene, over the sorted
draw calls.  It submits a draw call exactly when the remapped material is in
the Opaque bucket, has `numUnfoggedPasses != 0` and is not reflective while
the camera is the Reflection camera.  For a submitted call the depth variant
has the AlphaTest bit exactly when some active stage has an alpha-test mode,
the stage whose texture and uniforms are used being the first such stage in
stage order, and it has the DepthRange bit exactly when `zOffset > 0` or
`zScale > 0`. -/
theorem depthPassDrawCall_spec (D : DepthShaderProgramVariant) (hD : D.wellFormed)
    (B : BgfxDefines) (P : DepthPassDefines) (rcf : RenderCameraFlags) (g : RenderGlobals)
    (mem : MaterialMem) (visId : VisibilityId) (flags : Nat) (dc : DrawCall)
    (drawCalls : List DrawCall) :
    (g.isWorldScene_ = true →
      depthPass D B P rcf g mem visId flags drawCalls =
        drawCalls.filterMap (depthPassDrawCall D B P rcf mem visId flags)) ∧
    (g.isWorldScene_ = false → depthPass D B P rcf g mem visId flags drawCalls = []) ∧
    ((depthPassDrawCall D B P rcf mem visId flags dc).isSome = true ↔
      ((remappedMaterial mem dc.material).sort = P.MaterialSort_Opaque ∧
        (remappedMaterial mem dc.material).numUnfoggedPasses ≠ 0 ∧
        ¬ (visId = VisibilityId.Reflection ∧
          (remappedMaterial mem dc.material).reflective ≠ MaterialReflective.None))) ∧
    (∀ sub : DepthSubmission, depthPassDrawCall D B P rcf mem visId flags dc = some sub →
      (variantHas sub.shaderVariant D.AlphaTest ↔
        ∃ stage ∈ (remappedMaterial mem dc.material).stages,
          stage.active = true ∧ stage.alphaTest ≠ MaterialAlphaTest.None) ∧
      (variantHas sub.shaderVariant D.AlphaTest ↔ sub.alphaTestStage.isSome = true) ∧
      (∀ k : Nat, sub.alphaTestStage = some k ↔
        ∃ stage, (remappedMaterial mem dc.material).stages[k]? = some stage ∧
          (stage.active = true ∧ stage.alphaTest ≠ MaterialAlphaTest.None) ∧
          ∀ j, j < k → ∀ earlier, (remappedMaterial mem dc.material).stages[j]? = some earlier →
            ¬ (earlier.active = true ∧ earlier.alphaTest ≠ MaterialAlphaTest.None)) ∧
      (variantHas sub.shaderVariant D.DepthRange ↔ (dc.zOffset > 0 ∨ dc.zScale > 0))) := by
  obtain ⟨hNone, hA, hR, hAR⟩ := hD
  have hRA : D.DepthRange &&& D.AlphaTest = 0 := by rw [Nat.land_comm]; exact hAR
  refine ⟨?_, ?_, ?_, ?_⟩
  · intro hw
    unfold depthPass
    rw [if_pos hw]
  · intro hw
    unfold depthPass
    rw [hw]
    rfl
  · unfold depthPassDrawCall
    simp only
    by_cases h1 : (remappedMaterial mem dc.material).sort ≠ P.MaterialSort_Opaque ∨
        (remappedMaterial mem dc.material).numUnfoggedPasses = 0
    · rw [if_pos h1]
      constructor
      · intro h; cases h
      · rintro ⟨hs, hn, _⟩
        rcases h1 with h | h
        · exact absurd hs h
        · exact absurd h hn
    · rw [if_neg h1]
      rw [not_or, not_not] at h1
      by_cases h2 : visId = VisibilityId.Reflection ∧
          (remappedMaterial mem dc.material).reflective ≠ MaterialReflective.None
      · rw [if_pos h2]
        constructor
        · intro h; cases h
        · rintro ⟨_, _, hr⟩
          exact absurd h2 hr
      · rw [if_neg h2]
        exact ⟨fun _ => ⟨h1.1, h1.2, h2⟩, fun _ => rfl⟩
  · intro sub hsub
    unfold depthPassDrawCall at hsub
    simp only at hsub
    by_cases h1 : (remappedMaterial mem dc.material).sort ≠ P.MaterialSort_Opaque ∨
        (remappedMaterial mem dc.material).numUnfoggedPasses = 0
    · rw [if_pos h1] at hsub
      cases hsub
    rw [if_neg h1] at hsub
    by_cases h2 : visId = VisibilityId.Reflection ∧
        (remappedMaterial mem dc.material).reflective ≠ MaterialReflective.None
    · rw [if_pos h2] at hsub
      cases hsub
    rw [if_neg h2] at hsub
    have hsome : ∀ k : Nat, findAlphaTestStage (remappedMaterial mem dc.material).stages = some k ↔
        ∃ stage, (remappedMaterial mem dc.material).stages[k]? = some stage ∧
          (stage.active = true ∧ stage.alphaTest ≠ MaterialAlphaTest.None) ∧
          ∀ j, j < k → ∀ earlier, (remappedMaterial mem dc.material).stages[j]? = some earlier →
            ¬ (earlier.active = true ∧ earlier.alphaTest ≠ MaterialAlphaTest.None) := by
      intro k
      unfold findAlphaTestStage
      have h := findIdx?_eq_some_iff_first
        (fun stage : MaterialStage =>
          stage.active && decide (stage.alphaTest ≠ MaterialAlphaTest.None))
        (remappedMaterial mem dc.material).stages 0 k
      rw [Nat.zero_add] at h
      rw [h]
      constructor
      · rintro ⟨a, ha, hpa, hfirst⟩
        refine ⟨a, ha, by simpa using hpa, ?_⟩
        intro j hj b hb hpb
        have := hfirst j hj b hb
        simp only [Bool.and_eq_false_imp, decide_eq_false_iff_not] at this
        exact this hpb.1 hpb.2
      · rintro ⟨a, ha, hpa, hfirst⟩
        refine ⟨a, ha, by simpa using hpa, ?_⟩
        intro j hj b hb
        have := hfirst j hj b hb
        simp only [Bool.and_eq_false_imp, decide_eq_false_iff_not]
        exact fun h1 h2 => this ⟨h1, h2⟩
    have hisSome : (findAlphaTestStage (remappedMaterial mem dc.material).stages).isSome = true ↔
        ∃ stage ∈ (remappedMaterial mem dc.material).stages,
          stage.active = true ∧ stage.alphaTest ≠ MaterialAlphaTest.None := by
      unfold findAlphaTestStage
      rw [List.findIdx?_isSome, List.any_eq_true]
      simp only [Bool.and_eq_true, decide_eq_true_eq]
    simp only [Option.some.injEq] at hsub
    subst hsub
    simp only [hNone]
    refine ⟨?_, ?_, hsome, ?_⟩
    · rw [← hisSome]
      cases hf : (findAlphaTestStage (remappedMaterial mem dc.material).stages).isSome
      · simp only [Bool.false_eq_true, if_false]
        constructor
        · intro h
          exfalso
          split_ifs at h
          · exact not_variantHas_of_disjoint _ _ hRA hA
              ((variantHas_or_of_disjoint 0 D.AlphaTest D.DepthRange hRA).mp
                (by simpa using h) |> fun h0 => absurd h0 (not_variantHas_zero _ hA))
          · exact not_variantHas_zero _ hA h
        · intro h; cases h
      · simp only [if_true]
        refine ⟨fun _ => trivial, fun _ => ?_⟩
        split_ifs
        · exact (variantHas_or_of_disjoint _ _ _ hRA).mpr (variantHas_or_self 0 D.AlphaTest)
        · exact variantHas_or_self 0 D.AlphaTest
    · cases hf : (findAlphaTestStage (remappedMaterial mem dc.material).stages).isSome
      · simp only [Bool.false_eq_true, if_false]
        constructor
        · intro h
          exfalso
          split_ifs at h
          · exact not_variantHas_zero _ hA
              ((variantHas_or_of_disjoint 0 D.AlphaTest D.DepthRange hRA).mp h)
          · exact not_variantHas_zero _ hA h
        · intro h; cases h
      · simp only [if_true]
        refine ⟨fun _ => trivial, fun _ => ?_⟩
        split_ifs
        · exact (variantHas_or_of_disjoint _ _ _ hRA).mpr (variantHas_or_self 0 D.AlphaTest)
        · exact variantHas_or_self 0 D.AlphaTest
    · by_cases hz : dc.zOffset > 0 ∨ dc.zScale > 0
      · have hb : (decide (dc.zOffset > 0) || decide (dc.zScale > 0)) = true := by
          simpa using hz
        simp only [hb, if_true]
        exact ⟨fun _ => hz, fun _ => variantHas_or_self _ _⟩
      · have hb : (decide (dc.zOffset > 0) || decide (dc.zScale > 0)) = false := by
          simpa using hz
        simp only [hb, Bool.false_eq_true, if_false]
        refine ⟨fun h => ?_, fun h => absurd h hz⟩
        exfalso
        split_ifs at h
        · exact not_variantHas_of_disjoint _ _ (by
            show (0 ||| D.AlphaTest) &&& D.DepthRange = 0
            rw [Nat.zero_or]; exact hAR) hR h
        · exact not_variantHas_zero _ hR h

/-- Witness for claim C27: the sample draw call of material 1, whose stages are
a plain stage, an inactive alpha-test stage and an active alpha-test stage, is
submitted by the depth pre-pass with the AlphaTest bit, the stage used is the
third one (position 2), and the DepthRange bit is not set. -/
theorem depthPassDrawCall_spec_witness :
    sampleDepthVariants.wellFormed ∧
    ∃ sub : DepthSubmission,
      depthPassDrawCall sampleDepthVariants sampleBgfxDefines sampleDepthPassDefines
        sampleRenderCameraFlags samplePassMem VisibilityId.Main 0 (sampleFogDrawCall 1 0) =
        some sub ∧
      variantHas sub.shaderVariant sampleDepthVariants.AlphaTest ∧
      sub.alphaTestStage = some 2 ∧
      ¬ variantHas sub.shaderVariant sampleDepthVariants.DepthRange := by
  have hspec := depthPassDrawCall_spec sampleDepthVariants (by decide) sampleBgfxDefines
    sampleDepthPassDefines sampleRenderCameraFlags sampleGlobals samplePassMem
    VisibilityId.Main 0 (sampleFogDrawCall 1 0) []
  refine ⟨by decide, ?_⟩
  cases hsub : depthPassDrawCall sampleDepthVariants sampleBgfxDefines sampleDepthPassDefines
      sampleRenderCameraFlags samplePassMem VisibilityId.Main 0 (sampleFogDrawCall 1 0) with
  | none =>
    have h := hspec.2.2.1.mpr (by decide)
    rw [hsub] at h
    cases h
  | some sub =>
    obtain ⟨hA, _, hk, hR⟩ := hspec.2.2.2 sub hsub
    refine ⟨sub, rfl, hA.mpr (by decide), (hk 2).mpr (by decide), fun h => ?_⟩
    have := hR.mp h
    revert this
    decide

/-- C23 as stated fails for an empty font name: `registerFont` only rejects a
null name pointer.  Called with the empty string `""` and point size 12 on the
sample registry, which holds the font of that point size and has room left, it
copies the registered font over the caller's blank record; with point size 16
and a font file of the right size it registers a new font. -/
theorem registerFont_empty_string_not_rejected :
    sampleFontRegistry.nFonts_ < sampleFontEnv.maxFonts_ ∧
    (registerFont sampleFontEnv (some "") 12 blankFont sampleFontRegistry).2.1 =
      sampleFont "fonts/fontImage_12.dat" ∧
    (registerFont sampleFontEnv (some "") 12 blankFont sampleFontRegistry).2.1 ≠ blankFont ∧
    (registerFont { sampleFontEnv with fileLength := fun _ => 20548 } (some "") 16 blankFont
      sampleFontRegistry).1.nFonts_ = 2 := by
  refine ⟨by decide, by decide, by decide, by decide⟩

/-- C23 (amended): `registerFont` called with a null font name pointer, or
called when the registry already holds the maximum number of fonts, returns
with the font registry (count and entries) and the caller's font record
unchanged, having printed one message. -/
theorem registerFont_rejects_null_name_and_full_registry (fenv : FontEnv)
    (fontName : Option String) (pointSize : Int) (font : fontInfo_t) (reg : FontRegistry)
    (h : fontName = none ∨ reg.nFonts_ ≥ fenv.maxFonts_) :
    (registerFont fenv fontName pointSize font reg).1 = reg ∧
    (registerFont fenv fontName pointSize font reg).2.1 = font ∧
    (registerFont fenv fontName pointSize font reg).2.2 =
      [if fontName = none then FontMessage.emptyName else FontMessage.tooManyFonts] := by
  unfold registerFont
  by_cases hn : fontName = none
  · rw [if_pos hn, if_pos hn]
    exact ⟨rfl, rfl, rfl⟩
  · rw [if_neg hn, if_neg hn]
    have hfull : reg.nFonts_ ≥ fenv.maxFonts_ := h.resolve_left hn
    simp only
    rw [if_pos hfull]
    exact ⟨rfl, rfl, rfl⟩

/-- C23 (amended) at the sample registry: with a null name, and with room for
one font only, the call changes nothing. -/
theorem registerFont_rejects_null_name_and_full_registry_witness :
    registerFont sampleFontEnv none 12 blankFont sampleFontRegistry =
      (sampleFontRegistry, blankFont, [FontMessage.emptyName]) ∧
    registerFont { sampleFontEnv with maxFonts_ := 1 } (some "big") 12 blankFont
        sampleFontRegistry =
      (sampleFontRegistry, blankFont, [FontMessage.tooManyFonts]) := by
  have h1 := registerFont_rejects_null_name_and_full_registry sampleFontEnv none 12 blankFont
    sampleFontRegistry (Or.inl rfl)
  have h2 := registerFont_rejects_null_name_and_full_registry
    { sampleFontEnv with maxFonts_ := 1 } (some "big") 12 blankFont sampleFontRegistry
    (Or.inr (by decide))
  exact ⟨Prod.ext h1.1 (Prod.ext h1.2.1 h1.2.2), Prod.ext h2.1 (Prod.ext h2.2.1 h2.2.2)⟩

/-- C28 as stated fails for `q = 16384`: the first vertex of a quad is taken
from the size of the vertex vector converted to `uint16_t`, so after 16385
calls with one material the six indices stored for quad number 16384 are
`3, 0, 2, 2, 0, 1`, not `65539, 65536, ...`; they refer to the vertices of
quad number 0. -/
theorem drawStretchPics_quad_16384_indices_wrap :
    sampleMain.stretchPicVertices_ = [] ∧ sampleMain.stretchPicIndices_ = [] ∧
    (drawStretchPics sampleEnv 0 16385 sampleMain).stretchPicVertices_.length = 4 * 16385 ∧
    (drawStretchPics sampleEnv 0 16385 sampleMain).stretchPicIndices_.length = 6 * 16385 ∧
    ((drawStretchPics sampleEnv 0 16385 sampleMain).stretchPicIndices_.drop (6 * 16384)).take 6 =
      [3, 0, 2, 2, 0, 1] ∧
    ((drawStretchPics sampleEnv 0 16385 sampleMain).stretchPicIndices_.drop (6 * 16384)).take 6 ≠
      [4 * 16384 + 3, 4 * 16384, 4 * 16384 + 2, 4 * 16384 + 2, 4 * 16384, 4 * 16384 + 1] := by
  have hs := drawStretchPics_sizes sampleEnv 0 sampleMain rfl rfl 16385
  have hq := drawStretchPics_indices sampleEnv 0 sampleMain rfl rfl 16385 16384 (by omega)
  have hval : stretchPicQuadIndices (u16 (4 * 16384)) = [3, 0, 2, 2, 0, 1] := by decide
  rw [hval] at hq
  refine ⟨rfl, rfl, hs.2.1, hs.2.2, hq, ?_⟩
  rw [hq]
  decide

/-- C28 (amended): after any number `n <= 16384` of `drawStretchPic` /
`drawStretchPicGradient` calls with the same material since the last flush (the
buffers being empty at the start), the pending 2D buffers hold exactly `4 * n`
vertices and `6 * n` indices, and for every quad number `j < n` the six indices
stored for it are `4j+3, 4j, 4j+2, 4j+2, 4j, 4j+1`, each one the position of
one of the four vertices written for that quad.  For any `n` the sizes are
`4 * n` and `6 * n`, and the indices stored for quad `j` are those six numbers
computed from `4 * j mod 65536`, each reduced modulo 65536. -/
theorem drawStretchPics_quads (env : Env) (mat : MaterialPtr) (m : Main)
    (hv : m.stretchPicVertices_ = []) (hi : m.stretchPicIndices_ = []) (n j : Nat)
    (hj : j < n) :
    (drawStretchPics env mat n m).stretchPicVertices_.length = 4 * n ∧
    (drawStretchPics env mat n m).stretchPicIndices_.length = 6 * n ∧
    ((drawStretchPics env mat n m).stretchPicIndices_.drop (6 * j)).take 6 =
      stretchPicQuadIndices (u16 (4 * j)) ∧
    (n ≤ 16384 →
      ((drawStretchPics env mat n m).stretchPicIndices_.drop (6 * j)).take 6 =
        [4 * j + 3, 4 * j, 4 * j + 2, 4 * j + 2, 4 * j, 4 * j + 1] ∧
      ((drawStretchPics env mat n m).stretchPicVertices_.drop (4 * j)).take 4 =
        [4 * j + 0 + 1, 4 * j + 1 + 1, 4 * j + 2 + 1, 4 * j + 3 + 1] ∧
      ∀ x ∈ ((drawStretchPics env mat n m).stretchPicIndices_.drop (6 * j)).take 6,
        4 * j ≤ x ∧ x < 4 * j + 4 ∧
        x < (drawStretchPics env mat n m).stretchPicVertices_.length) := by
  obtain ⟨_, hvn, hin⟩ := drawStretchPics_sizes env mat m hv hi n
  have hq := drawStretchPics_indices env mat m hv hi n j hj
  refine ⟨hvn, hin, hq, ?_⟩
  intro hn
  have hval : stretchPicQuadIndices (u16 (4 * j)) =
      [4 * j + 3, 4 * j, 4 * j + 2, 4 * j + 2, 4 * j, 4 * j + 1] := by
    have hu : u16 (4 * j) = 4 * j := Nat.mod_eq_of_lt (by omega)
    rw [hu]
    unfold stretchPicQuadIndices u16
    rw [Nat.mod_eq_of_lt (show 4 * j + 3 < 2 ^ 16 by omega),
      Nat.mod_eq_of_lt (show 4 * j + 0 < 2 ^ 16 by omega),
      Nat.mod_eq_of_lt (show 4 * j + 2 < 2 ^ 16 by omega),
      Nat.mod_eq_of_lt (show 4 * j + 1 < 2 ^ 16 by omega)]
    rfl
  refine ⟨hq.trans hval, drawStretchPics_vertices env mat m hv hi n j hj hn, ?_⟩
  intro x hx
  rw [hq, hval] at hx
  rw [hvn]
  simp only [List.mem_cons, List.mem_singleton, List.not_mem_nil, or_false] at hx
  omega

/-- C28 (amended) at three calls in the sample state: twelve vertices,
eighteen indices, and quad number 2 has the indices `11, 8, 10, 10, 8, 9`. -/
theorem drawStretchPics_quads_witness :
    (drawStretchPics sampleEnv 0 3 sampleMain).stretchPicVertices_.length = 12 ∧
    (drawStretchPics sampleEnv 0 3 sampleMain).stretchPicIndices_.length = 18 ∧
    ((drawStretchPics sampleEnv 0 3 sampleMain).stretchPicIndices_.drop 12).take 6 =
      [11, 8, 10, 10, 8, 9] := by
  obtain ⟨h1, h2, _, h4⟩ := drawStretchPics_quads sampleEnv 0 sampleMain rfl rfl 3 2 (by decide)
  exact ⟨h1, h2, (h4 (by decide)).1⟩

/-- Claim C29.  With a library sort meeting the postcondition of `std::sort`:
for any six indices that take exactly four distinct values,
`ExtractQuadCorners` returns without writing past its array, its assertion
`cornerIndex == 4` holds, and the corners are the vertices at those four values
in ascending index order.  Applied to the six indices
`first+3, first, first+2, first+2, first, first+1` that
`drawStretchPicGradient` writes for a quad it returns the vertices at `first`,
`first+1`, `first+2`, `first+3`, the quad's `v[0]`, `v[1]`, `v[2]`, `v[3]`;
this holds for every quad `drawStretchPicGradient` writes, `first` being a
multiple of four below 65536. -/
theorem ExtractQuadCorners_four_distinct
    (stdSortImpl : (Nat → Nat → Bool) → List Nat → List Nat)
    (hsort : ∀ l : List Nat,
      IsStdSortResult (fun a b => decide (a < b)) l (stdSortImpl (fun a b => decide (a < b)) l))
    (indices : List Nat) (hlen : indices.length = 6) (hfour : indices.dedup.length = 4) :
    (∃ q : QuadCorners, ExtractQuadCorners stdSortImpl indices = some q ∧
      extractQuadCornersAssertion q ∧
      q.corners.Pairwise (fun a b => a < b) ∧
      (∀ v, v ∈ q.corners ↔ v ∈ indices)) ∧
    (∀ first : Nat, first + 3 < 65536 →
      stretchPicQuadIndices first =
        [first + 3, first, first + 2, first + 2, first, first + 1] ∧
      ExtractQuadCorners stdSortImpl (stretchPicQuadIndices first) =
        some { corners := [first, first + 1, first + 2, first + 3] }) ∧
    (∀ size : Nat, size % 4 = 0 →
      ExtractQuadCorners stdSortImpl (stretchPicQuadIndices (u16 size)) =
        some { corners := [u16 size, u16 size + 1, u16 size + 2, u16 size + 3] }) := by
  have htake : indices.take 6 = indices := List.take_of_length_le (by omega)
  refine ⟨?_, ?_, ?_⟩
  · obtain ⟨q, hq, hasc, hmem, hci⟩ := ExtractQuadCorners_eq stdSortImpl hsort indices
      (by rw [htake, hfour])
    rw [htake] at hmem hci
    exact ⟨q, hq, hci.trans hfour, hasc, hmem⟩
  · intro first hfirst
    exact ⟨stretchPicQuadIndices_of_lt first hfirst,
      ExtractQuadCorners_quad stdSortImpl hsort first hfirst⟩
  · intro size hsize
    apply ExtractQuadCorners_quad stdSortImpl hsort
    unfold u16
    omega

/-- Witness for claim C29: the indices `7, 4, 6, 6, 4, 5` of the quad whose
first vertex is 4 give the corners `4, 5, 6, 7`. -/
theorem ExtractQuadCorners_four_distinct_witness :
    ExtractQuadCorners stdSort [7, 4, 6, 6, 4, 5] = some { corners := [4, 5, 6, 7] } ∧
    ∃ q : QuadCorners, ExtractQuadCorners stdSort [7, 4, 6, 6, 4, 5] = some q ∧
      extractQuadCornersAssertion q := by
  have h := ExtractQuadCorners_four_distinct stdSort
    stdSort_lt_isStdSortResult [7, 4, 6, 6, 4, 5] rfl (by decide)
  obtain ⟨q, hq, ha, _⟩ := h.1
  exact ⟨(h.2.1 4 (by decide)).2, q, hq, ha⟩

/-- Claim C25.  When `renderPolygons` runs with `sortedScenePolygons_` empty on
entry, every transient-buffer allocation succeeding, a library sort that meets
the postcondition of `std::sort` for the comparator of `renderPolygons`, and
the material index identifying the material among the accumulated polygons, it
returns and emits exactly one draw call per distinct (material, fogIndex) pair
occurring among the polygons: no two emitted draw calls have both the same
material and the same fogIndex, a pair is the pair of an emitted draw call
exactly when it is the pair of a polygon, the number of draw calls is the
number of distinct pairs, and the draw calls are appended to `drawCalls_`. -/
theorem renderPolygons_one_draw_call_per_material_and_fog
    (stdSortImpl : (Nat → Nat → Bool) → List Nat → List Nat)
    (mem : MaterialMem) (dcInit : DrawCall) (s : PolygonScene)
    (hsort : ∀ l : List Nat, IsStdSortResult (polygonLess mem s.scenePolygons_) l
      (stdSortImpl (polygonLess mem s.scenePolygons_) l))
    (hempty : s.sortedScenePolygons_ = [])
    (hinj : ∀ p ∈ s.scenePolygons_, ∀ q ∈ s.scenePolygons_,
      (mem p.material).index = (mem q.material).index → p.material = q.material) :
    ∃ out : PolygonsOutcome,
      renderPolygonsCore stdSortImpl mem dcInit (fun _ => true) s = some out ∧
      out.allocFailed = false ∧
      (∀ (i j : Nat) (hi : i < out.batches.length) (hj : j < out.batches.length),
        (out.batches.get ⟨i, hi⟩).drawCall.material =
            (out.batches.get ⟨j, hj⟩).drawCall.material →
        (out.batches.get ⟨i, hi⟩).drawCall.fogIndex =
            (out.batches.get ⟨j, hj⟩).drawCall.fogIndex → i = j) ∧
      (∀ pr : MaterialPtr × Int,
        pr ∈ out.batches.map (fun b => (b.drawCall.material, b.drawCall.fogIndex)) ↔
          pr ∈ s.scenePolygons_.map (fun p => (p.material, p.fogIndex))) ∧
      (out.batches.map (fun b => (b.drawCall.material, b.drawCall.fogIndex))).Perm
        (s.scenePolygons_.map (fun p => (p.material, p.fogIndex))).dedup ∧
      out.batches.length =
        (s.scenePolygons_.map (fun p => (p.material, p.fogIndex))).dedup.length ∧
      out.scene.drawCalls_ = s.drawCalls_ ++ out.batches.map (fun b => b.drawCall) := by
  obtain ⟨out, h1, h2, hnd, hmem, hdc⟩ :=
    renderPolygonsCore_pairs stdSortImpl mem dcInit s hsort hempty hinj
  have hperm : (out.batches.map (fun b => (b.drawCall.material, b.drawCall.fogIndex))).Perm
      (s.scenePolygons_.map (fun p => (p.material, p.fogIndex))).dedup := by
    rw [List.perm_ext_iff_of_nodup hnd (List.nodup_dedup _)]
    intro pr
    rw [hmem pr, List.mem_dedup]
  refine ⟨out, h1, h2, ?_, hmem, hperm, ?_, hdc⟩
  · intro i j hi hj hm hf
    have hinj' := List.nodup_iff_injective_get.mp hnd
    have hi' : i < (out.batches.map
        (fun b => (b.drawCall.material, b.drawCall.fogIndex))).length := by
      rw [List.length_map]
      exact hi
    have hj' : j < (out.batches.map
        (fun b => (b.drawCall.material, b.drawCall.fogIndex))).length := by
      rw [List.length_map]
      exact hj
    have heq : (out.batches.map (fun b => (b.drawCall.material, b.drawCall.fogIndex))).get
        ⟨i, hi'⟩ = (out.batches.map
          (fun b => (b.drawCall.material, b.drawCall.fogIndex))).get ⟨j, hj'⟩ := by
      simp only [List.get_eq_getElem, List.getElem_map, Prod.mk.injEq]
      exact ⟨hm, hf⟩
    exact Fin.mk.inj_iff.mp (hinj' heq)
  · have := hperm.length_eq
    rw [List.length_map] at this
    exact this

/-- Claim C25 at the sample scene of four polygons with the pairs `(1, 0)`,
`(0, 0)`, `(1, 0)`, `(1, 2)`: three draw calls. -/
theorem renderPolygons_one_draw_call_per_material_and_fog_witness :
    samplePolygonScene.sortedScenePolygons_ = [] ∧
    ∃ out : PolygonsOutcome,
      renderPolygonsCore stdSort sampleMem (sampleDrawCall 0 0) (fun _ => true)
        samplePolygonScene = some out ∧
      out.batches.length = 3 ∧
      (out.batches.map (fun b => (b.drawCall.material, b.drawCall.fogIndex))).Perm
        [(0, 0), (1, 0), (1, 2)] :=
  ⟨rfl,
    match renderPolygons_one_draw_call_per_material_and_fog stdSort sampleMem
      (sampleDrawCall 0 0) samplePolygonScene
      (polygonLess_isStdSortResult sampleMem samplePolygonScene.scenePolygons_) rfl
      (fun p _ q _ h => Int.ofNat.inj h) with
    | ⟨out, h1, _, _, _, h5, h6, _⟩ =>
      ⟨out, h1, h6.trans (by decide), h5.trans (by decide)⟩⟩

end renderer
